import Mathlib

/-!
# icbirc: a shallow embedding of the IRC <-> ICB translator

Sources embedded: `src/src/icb.c`, `src/src/irc.c`, `src/src/icbirc.c`.

Conventions of the embedding.

* A byte is a `Nat` (0..255).  Where the C code stores a wider value into
  an `unsigned char` the store is written `% 256`.
* A `const char *` argument of a function that walks memory (the framers,
  `icb_args`, `scan`, the copy loops of the builders, `strlcpy`) is the list
  of bytes found at the pointer; the terminating NUL is implicit and a 0
  inside the list ends the string, so every loop of the form `while (*p ...)`
  tests the byte against 0.
* Text held in the session or in a local buffer is the C string stored
  there, without its NUL; `strcmp`, `strncmp`, `strstr` and the `%s` of
  `snprintf` work on such strings.
* A fixed-size accumulation buffer together with its write index `off` is
  the list of the bytes `cmd[0..off)`; `off` is the length of the list.
  Cells at an index `>= off` are never read before they are rewritten.
* `sync_write(fd, buf, len)` appends the written buffer to the list of
  writes of the socket `fd` (client or server).  The diagnostics printed with
  `printf` on standard output are not modelled.
* Behaviour that C leaves undefined, and loops that never finish, are
  results `Except.error` carrying a `Fault`.  A loop whose termination depends
  on the data takes a number of iterations it may use (fuel) and reports
  `Fault.diverges` when they do not suffice.
-/

namespace Icbirc

/-- Ways in which a run leaves the defined behaviour of the C program. -/
inductive Fault where
  /-- a store outside a fixed-size array -/
  | oob_write
  /-- a read of an `argv` slot that the tokeniser never filled -/
  | unset_argv
  /-- a loop that never finishes -/
  | diverges
  deriving DecidableEq, Repr

/-- Subtraction on `unsigned` (32 bit), as in `off - 1`. -/
def usub (a b : Nat) : Nat := (a + 4294967296 - b % 4294967296) % 4294967296

/-- The C string found at a pointer: the bytes before the first NUL. -/
def cstr : List Nat → List Nat
  | [] => []
  | b :: rest => if b = 0 then [] else b :: cstr rest

/-! ## icb.c: the ICB framer -/

/-- The byte `cmd[0]` of a buffer (0 for a buffer whose first cell was never
written; the code reads `cmd[0]` only after storing it). -/
def cmd0 : List Nat → Nat
  | [] => 0
  | b :: _ => b

/-- State of `icb_recv`: the bytes `cmd[0..off)` of the static buffer
`unsigned char cmd[256]`; the static `off` is the length. -/
structure IcbFramer where
  cmd : List Nat
  deriving DecidableEq, Repr

/-- The static `unsigned off` of icb.c. -/
def IcbFramer.off (f : IcbFramer) : Nat := f.cmd.length

/-- The framer part of `icb_init`: `off = 0`. -/
def icb_init_framer : IcbFramer := ⟨[]⟩

/-- Inner loop of `icb_recv`:
`while (len > 0 && (off - 1) < cmd[0]) { cmd[off++] = *buf++; len--; }`.
Returns the buffer and the unread input. -/
def icb_fill : List Nat → List Nat → Except Fault (List Nat × List Nat)
  | cmd, [] => .ok (cmd, [])
  | cmd, b :: rest =>
    if usub cmd.length 1 < cmd0 cmd then
      if cmd.length < 256 then icb_fill (cmd ++ [b % 256]) rest
      else .error .oob_write
    else .ok (cmd, b :: rest)

/-- Outer loop of `icb_recv`, `while (len > 0)`, with the handler `h` in
the place of `icb_cmd(cmd + 1, off - 1, fd, server_fd)`; the handler
receives the bytes `cmd[1..off)`.  One unit of fuel per iteration. -/
def icb_recv_loop {σ : Type} (h : σ → List Nat → σ) :
    Nat → IcbFramer → σ → List Nat → Except Fault (IcbFramer × σ)
  | _, f, s, [] => .ok (f, s)
  | 0, _, _, _ :: _ => .error .diverges
  | fuel + 1, f, s, b :: rest =>
    let start : List Nat × List Nat :=
      if f.off = 0 then ([b % 256], rest) else (f.cmd, b :: rest)
    match icb_fill start.1 start.2 with
    | .error e => .error e
    | .ok (cmd, buf) =>
      if usub cmd.length 1 = cmd0 cmd then
        icb_recv_loop h fuel ⟨[]⟩ (h s (cmd.drop 1)) buf
      else
        icb_recv_loop h fuel ⟨cmd⟩ s buf

/-- One call `icb_recv(buf, len, fd, server_fd)`. -/
def icb_recv {σ : Type} (h : σ → List Nat → σ) (f : IcbFramer) (s : σ)
    (buf : List Nat) : Except Fault (IcbFramer × σ) :=
  icb_recv_loop h (buf.length + 1) f s buf

/-- Successive calls of `icb_recv`, one per chunk read from the server. -/
def icb_recv_chunks {σ : Type} (h : σ → List Nat → σ) :
    IcbFramer → σ → List (List Nat) → Except Fault (IcbFramer × σ)
  | f, s, [] => .ok (f, s)
  | f, s, c :: cs =>
    match icb_recv h f s c with
    | .error e => .error e
    | .ok (f1, s1) => icb_recv_chunks h f1 s1 cs

/-- An ICB packet on the wire: a type byte and the payload bytes. -/
structure Packet where
  type : Nat
  payload : List Nat
  deriving DecidableEq, Repr

/-- The bytes after the length byte: the type, then the payload. -/
def Packet.body (p : Packet) : List Nat := p.type :: p.payload

/-- Wire form: the length byte `L = 1 + |payload|`, then the body. -/
def Packet.encode (p : Packet) : List Nat := (p.payload.length + 1) :: p.body

/-- A valid packet: bytes are octets and `1 <= L <= 255`. -/
def Packet.valid (p : Packet) : Prop :=
  p.type < 256 ∧ p.payload.length ≤ 254 ∧ ∀ b ∈ p.payload, b < 256

/-- The handler that records the calls it receives. -/
def record (log : List (List Nat)) (c : List Nat) : List (List Nat) := log ++ [c]

/-- The framer seen one byte at a time: store the byte at `cmd[off]`, and
dispatch when the `cmd[0]` bytes after the length byte are there. -/
def icb_step {σ : Type} (h : σ → List Nat → σ) (st : IcbFramer × σ) (b : Nat) :
    IcbFramer × σ :=
  let cmd := st.1.cmd ++ [b % 256]
  if cmd.length - 1 = cmd0 cmd then (⟨[]⟩, h st.2 (cmd.drop 1)) else (⟨cmd⟩, st.2)

/-- Between two iterations of the outer loop either nothing is buffered or
the buffered packet is incomplete and its length byte is an octet. -/
def IcbFramer.ok (f : IcbFramer) : Prop :=
  f.cmd = [] ∨ (f.cmd.length - 1 < cmd0 f.cmd ∧ cmd0 f.cmd < 256)

/-! ## irc.c: the IRC framer -/

/-- State of `irc_recv`: the bytes `cmd[0..off)` of the static buffer
`char cmd[65535]`; the static `off` is the length.  Nothing in the program
resets it other than the delivery of a line. -/
structure IrcFramer where
  cmd : List Nat
  deriving DecidableEq, Repr

/-- The static `unsigned off` of `irc_recv`. -/
def IrcFramer.off (f : IrcFramer) : Nat := f.cmd.length

/-- The value of `sizeof(cmd)` in `irc_recv`. -/
def irc_sizeof_cmd : Nat := 65535

/-- First inner loop of `irc_recv`:
`while (len > 0 && off < (sizeof(cmd) - 1) && *buf != '\n') { cmd[off++] = *buf++; len--; }`. -/
def irc_fill : List Nat → List Nat → List Nat × List Nat
  | cmd, [] => (cmd, [])
  | cmd, b :: rest =>
    if cmd.length < irc_sizeof_cmd - 1 ∧ b ≠ 10 then irc_fill (cmd ++ [b]) rest
    else (cmd, b :: rest)

/-- Second inner loop of `irc_recv`:
`while (len > 0 && *buf != '\n') { buf++; len--; }`. -/
def irc_skip : List Nat → List Nat
  | [] => []
  | b :: rest => if b ≠ 10 then irc_skip rest else b :: rest

/-- The line handed to `irc_cmd`: `cmd[off - 1] = 0` when `off > 0` and
`cmd[off - 1] == '\r'`, otherwise `cmd[off] = 0`; `irc_cmd` then reads the C
string at `cmd`. -/
def irc_line (cmd : List Nat) : List Nat :=
  if cmd.getLast? = some 13 then cstr cmd.dropLast else cstr cmd

/-- Outer loop of `irc_recv`, `while (len > 0)`, with the handler `h` in
the place of `irc_cmd(cmd, client_fd, server_fd)`.  One unit of fuel per
iteration. -/
def irc_recv_loop {σ : Type} (h : σ → List Nat → σ) :
    Nat → IrcFramer → σ → List Nat → Except Fault (IrcFramer × σ)
  | _, f, s, [] => .ok (f, s)
  | 0, _, _, _ :: _ => .error .diverges
  | fuel + 1, f, s, b :: rest =>
    let filled := irc_fill f.cmd (b :: rest)
    let buf := if filled.1.length = irc_sizeof_cmd - 1 then irc_skip filled.2 else filled.2
    match buf with
    | [] => .ok (⟨filled.1⟩, s)
    | c :: buf' =>
      if c = 10 then irc_recv_loop h fuel ⟨[]⟩ (h s (irc_line filled.1)) buf'
      else irc_recv_loop h fuel ⟨filled.1⟩ s (c :: buf')

/-- One call `irc_recv(buf, len, client_fd, server_fd)`. -/
def irc_recv {σ : Type} (h : σ → List Nat → σ) (f : IrcFramer) (s : σ)
    (buf : List Nat) : Except Fault (IrcFramer × σ) :=
  irc_recv_loop h (buf.length + 1) f s buf

/-- Successive calls of `irc_recv`, one per chunk read from the client. -/
def irc_recv_chunks {σ : Type} (h : σ → List Nat → σ) :
    IrcFramer → σ → List (List Nat) → Except Fault (IrcFramer × σ)
  | f, s, [] => .ok (f, s)
  | f, s, c :: cs =>
    match irc_recv h f s c with
    | .error e => .error e
    | .ok (f1, s1) => irc_recv_chunks h f1 s1 cs

/-- The IRC framer seen one byte at a time. -/
def irc_step {σ : Type} (h : σ → List Nat → σ) (st : IrcFramer × σ) (b : Nat) :
    IrcFramer × σ :=
  if b = 10 then (⟨[]⟩, h st.2 (irc_line st.1.cmd))
  else if st.1.cmd.length < irc_sizeof_cmd - 1 then (⟨st.1.cmd ++ [b]⟩, st.2)
  else st

/-- A line with the `'\r'` that stands right before the `'\n'` removed. -/
def without_trailing_cr (l : List Nat) : List Nat :=
  if l.getLast? = some 13 then l.dropLast else l

/-! ## Session state and the two sockets -/

/-- The values of the enquiry mode `imode` of icb.c. -/
inductive imode_t where
  | imode_none
  | imode_list
  | imode_names
  | imode_whois
  | imode_who
  deriving DecidableEq, Repr

open imode_t

/-- The file descriptors the translator writes to. -/
inductive Fd where
  /-- `fd` / `client_fd`: the IRC client -/
  | client
  /-- `server_fd`: the ICB server -/
  | server
  deriving DecidableEq, Repr

/-- The globals of irc.c, icb.c and icbirc.c that make up a session, and
the buffers written so far to the two sockets (oldest first).  Text fields
hold the C string stored in the corresponding `char [256]`. -/
structure Session where
  irc_pass : List Nat
  irc_ident : List Nat
  irc_nick : List Nat
  irc_channel : List Nat
  in_irc_channel : Bool
  icb_logged_in : Bool
  terminate_client : Bool
  icb_protolevel : List Nat
  icb_hostid : List Nat
  icb_serverid : List Nat
  icb_moderator : List Nat
  imode : imode_t
  icurgroup : List Nat
  igroup : List Nat
  inick : List Nat
  ihostmask : List Nat
  client_out : List (List Nat)
  server_out : List (List Nat)
  deriving DecidableEq, Repr

/-! Assignments to the globals, one function per global. -/

/-- The assignment `irc_pass = v`. -/
def Session.set_irc_pass (s : Session) (v : List Nat) : Session := { s with irc_pass := v }

/-- The assignment `irc_ident = v`. -/
def Session.set_irc_ident (s : Session) (v : List Nat) : Session := { s with irc_ident := v }

/-- The assignment `irc_nick = v`. -/
def Session.set_irc_nick (s : Session) (v : List Nat) : Session := { s with irc_nick := v }

/-- The assignment `irc_channel = v`. -/
def Session.set_irc_channel (s : Session) (v : List Nat) : Session := { s with irc_channel := v }

/-- The assignment `in_irc_channel = v`. -/
def Session.set_in_irc_channel (s : Session) (v : Bool) : Session := { s with in_irc_channel := v }

/-- The assignment `icb_logged_in = v`. -/
def Session.set_icb_logged_in (s : Session) (v : Bool) : Session := { s with icb_logged_in := v }

/-- The assignment `terminate_client = v`. -/
def Session.set_terminate_client (s : Session) (v : Bool) : Session := { s with terminate_client := v }

/-- The assignment `icb_protolevel = v`. -/
def Session.set_icb_protolevel (s : Session) (v : List Nat) : Session := { s with icb_protolevel := v }

/-- The assignment `icb_hostid = v`. -/
def Session.set_icb_hostid (s : Session) (v : List Nat) : Session := { s with icb_hostid := v }

/-- The assignment `icb_serverid = v`. -/
def Session.set_icb_serverid (s : Session) (v : List Nat) : Session := { s with icb_serverid := v }

/-- The assignment `icb_moderator = v`. -/
def Session.set_icb_moderator (s : Session) (v : List Nat) : Session := { s with icb_moderator := v }

/-- The assignment `imode = v`. -/
def Session.set_imode (s : Session) (v : imode_t) : Session := { s with imode := v }

/-- The assignment `icurgroup = v`. -/
def Session.set_icurgroup (s : Session) (v : List Nat) : Session := { s with icurgroup := v }

/-- The assignment `igroup = v`. -/
def Session.set_igroup (s : Session) (v : List Nat) : Session := { s with igroup := v }

/-- The assignment `inick = v`. -/
def Session.set_inick (s : Session) (v : List Nat) : Session := { s with inick := v }

/-- The assignment `ihostmask = v`. -/
def Session.set_ihostmask (s : Session) (v : List Nat) : Session := { s with ihostmask := v }

/-- The session of a process that has just started: every global is
zero-initialised and nothing has been written. -/
def session_zero : Session :=
  { irc_pass := [], irc_ident := [], irc_nick := [], irc_channel := [],
    in_irc_channel := false, icb_logged_in := false, terminate_client := false,
    icb_protolevel := [], icb_hostid := [], icb_serverid := [], icb_moderator := [],
    imode := imode_none, icurgroup := [], igroup := [], inick := [], ihostmask := [],
    client_out := [], server_out := [] }

/-- The call `sync_write(fd, buf, len)`: the `len` bytes of `buf` go out on
`fd` (the write itself is the environment's and is taken to succeed). -/
def sync_write (s : Session) (fd : Fd) (buf : List Nat) : Session :=
  match fd with
  | .client => { s with client_out := s.client_out ++ [buf] }
  | .server => { s with server_out := s.server_out ++ [buf] }

/-- Several calls of `sync_write` on the same socket, in order. -/
def sync_write_all (s : Session) (fd : Fd) (bufs : List (List Nat)) : Session :=
  bufs.foldl (fun s c => sync_write s fd c) s

/-- The call `strlcpy(dst, src, siz)`: the stored string is the C string at
`src`, cut to `siz - 1` bytes. -/
def strlcpy (src : List Nat) (siz : Nat) : List Nat := (cstr src).take (siz - 1)

/-- The bytes of a string literal of the source. -/
def lit (s : String) : List Nat := s.toList.map Char.toNat

/-! ## icb.c: the packet builders `icb_send_*` -/

/-- The constant `#define MAX_MSG_SIZE 246`. -/
def MAX_MSG_SIZE : Nat := 246

/-- The store `cmd[off++] = b` into `char cmd[256]`, where the list is
`cmd[0..off)`: outside the array it is a fault. -/
def put (cmd : List Nat) (b : Nat) : Except Fault (List Nat) :=
  if cmd.length < 256 then .ok (cmd ++ [b]) else .error .oob_write

/-- The stores `cmd[off++] = *p++` for every byte of a string literal. -/
def put_all : List Nat → List Nat → Except Fault (List Nat)
  | cmd, [] => .ok cmd
  | cmd, b :: rest =>
    match put cmd b with
    | .error e => .error e
    | .ok cmd1 => put_all cmd1 rest

/-- The copy loop `while (*src && off < MAX_MSG_SIZE) cmd[off++] = *src++;`.
Returns the buffer and the position reached in `src`. -/
def icb_copy : List Nat → List Nat → List Nat × List Nat
  | cmd, [] => (cmd, [])
  | cmd, b :: rest =>
    if b ≠ 0 ∧ cmd.length < MAX_MSG_SIZE then icb_copy (cmd ++ [b]) rest
    else (cmd, b :: rest)

/-- The buffer at `unsigned off = 1`: `cmd[0]` is not yet set. -/
def cmd_start : List Nat := [0]

/-- The end of every builder: `cmd[0] = off - 1;` and then the `off` bytes of
`cmd` are what `sync_write(fd, cmd, off)` sends. -/
def icb_finish (cmd : List Nat) : List Nat :=
  (usub cmd.length 1 % 256) :: cmd.drop 1

/-- The buffer built and sent by `icb_send_login(fd, nick, ident, group)`. -/
def icb_login_cmd (nick ident group : List Nat) : Except Fault (List Nat) := do
  let cmd ← put cmd_start 97
  let cmd := (icb_copy cmd ident).1
  let cmd ← put cmd 1
  let cmd := (icb_copy cmd nick).1
  let cmd ← put cmd 1
  let cmd := (icb_copy cmd group).1
  let cmd ← put cmd 1
  let cmd ← put_all cmd (lit "login")
  let cmd ← put cmd 1
  let cmd ← put cmd 1
  let cmd ← put cmd 1
  pure (icb_finish cmd)

/-- Model of `icb_send_login`. -/
def icb_send_login (s : Session) (fd : Fd) (nick ident group : List Nat) :
    Except Fault Session := do
  let cmd ← icb_login_cmd nick ident group
  pure (sync_write s fd cmd)

/-- One iteration of the loop of `icb_send_openmsg`: the buffer sent and the
position reached in `msg`. -/
def icb_openmsg_cmd (msg : List Nat) : Except Fault (List Nat × List Nat) := do
  let cmd ← put cmd_start 98
  let r := icb_copy cmd msg
  let cmd ← put r.1 0
  pure (icb_finish cmd, r.2)

/-- The loop `while (*msg)` of `icb_send_openmsg`: the buffers sent, in
order.  One unit of fuel per iteration. -/
def icb_openmsg_loop : Nat → List Nat → Except Fault (List (List Nat))
  | _, [] => .ok []
  | fuel, m :: rest =>
    if m = 0 then .ok []
    else match fuel with
      | 0 => .error .diverges
      | fuel + 1 =>
        match icb_openmsg_cmd (m :: rest) with
        | .error e => .error e
        | .ok (cmd, msg') =>
          match icb_openmsg_loop fuel msg' with
          | .error e => .error e
          | .ok cmds => .ok (cmd :: cmds)

/-- Model of `icb_send_openmsg(fd, msg)`. -/
def icb_send_openmsg (s : Session) (fd : Fd) (msg : List Nat) : Except Fault Session := do
  let cmds ← icb_openmsg_loop (msg.length + 1) msg
  pure (sync_write_all s fd cmds)

/-- One iteration of the loop of `icb_send_privmsg`: the buffer sent and the
position reached in `msg`. -/
def icb_privmsg_cmd (nick msg : List Nat) : Except Fault (List Nat × List Nat) := do
  let cmd ← put cmd_start 104
  let cmd ← put cmd 109
  let cmd ← put cmd 1
  let cmd := (icb_copy cmd nick).1
  let cmd ← put cmd 32
  let r := icb_copy cmd msg
  let cmd ← put r.1 0
  pure (icb_finish cmd, r.2)

/-- The loop `while (*msg)` of `icb_send_privmsg`: the buffers sent, in
order.  One unit of fuel per iteration. -/
def icb_privmsg_loop : Nat → List Nat → List Nat → Except Fault (List (List Nat))
  | _, _, [] => .ok []
  | fuel, nick, m :: rest =>
    if m = 0 then .ok []
    else match fuel with
      | 0 => .error .diverges
      | fuel + 1 =>
        match icb_privmsg_cmd nick (m :: rest) with
        | .error e => .error e
        | .ok (cmd, msg') =>
          match icb_privmsg_loop fuel nick msg' with
          | .error e => .error e
          | .ok cmds => .ok (cmd :: cmds)

/-- Model of `icb_send_privmsg(fd, nick, msg)`.  An iteration that consumes
nothing of `msg` repeats for ever, so `|msg| + 1` iterations suffice whenever
the loop ends at all. -/
def icb_send_privmsg (s : Session) (fd : Fd) (nick msg : List Nat) :
    Except Fault Session := do
  let cmds ← icb_privmsg_loop (msg.length + 1) nick msg
  pure (sync_write_all s fd cmds)

/-- The buffer of the builders of the shape `'h'`, a command word, `\001`,
one truncated argument, NUL: `icb_send_group` (`"g"`), `icb_send_hw` (`"w"`),
`icb_send_pass`, `icb_send_topic`, `icb_send_boot`, `icb_send_name`. -/
def icb_h_cmd (word arg : List Nat) : Except Fault (List Nat) := do
  let cmd ← put cmd_start 104
  let cmd ← put_all cmd word
  let cmd ← put cmd 1
  let cmd := (icb_copy cmd arg).1
  let cmd ← put cmd 0
  pure (icb_finish cmd)

/-- Model of `icb_send_group(fd, group)`. -/
def icb_send_group (s : Session) (fd : Fd) (group : List Nat) : Except Fault Session := do
  let cmd ← icb_h_cmd (lit "g") group
  pure (sync_write s fd cmd)

/-- Model of `icb_send_hw(fd, arg)`: clears `icurgroup`, sends `hw`. -/
def icb_send_hw (s : Session) (fd : Fd) (arg : List Nat) : Except Fault Session := do
  let cmd ← icb_h_cmd (lit "w") arg
  pure (sync_write (s.set_icurgroup []) fd cmd)

/-- Model of `icb_send_list(fd)`. -/
def icb_send_list (s : Session) (fd : Fd) : Except Fault Session :=
  if s.imode ≠ imode_none then .ok s
  else icb_send_hw (s.set_imode imode_list) fd (lit "-g")

/-- Model of `icb_send_names(fd, group)`. -/
def icb_send_names (s : Session) (fd : Fd) (group : List Nat) : Except Fault Session :=
  if s.imode ≠ imode_none then .ok s
  else icb_send_hw ((s.set_imode imode_names).set_igroup (strlcpy group 256)) fd []

/-- Model of `icb_send_whois(fd, nick)`. -/
def icb_send_whois (s : Session) (fd : Fd) (nick : List Nat) : Except Fault Session :=
  if s.imode ≠ imode_none then .ok s
  else icb_send_hw ((s.set_imode imode_whois).set_inick (strlcpy nick 256)) fd []

/-- Model of `icb_send_who(fd, hostmask)`. -/
def icb_send_who (s : Session) (fd : Fd) (hostmask : List Nat) : Except Fault Session :=
  if s.imode ≠ imode_none then .ok s
  else icb_send_hw ((s.set_imode imode_who).set_ihostmask (strlcpy hostmask 256)) fd []

/-- Model of `icb_send_pass(fd, nick)`. -/
def icb_send_pass (s : Session) (fd : Fd) (nick : List Nat) : Except Fault Session := do
  let cmd ← icb_h_cmd (lit "pass") nick
  pure (sync_write s fd cmd)

/-- Model of `icb_send_topic(fd, topic)`. -/
def icb_send_topic (s : Session) (fd : Fd) (topic : List Nat) : Except Fault Session := do
  let cmd ← icb_h_cmd (lit "topic") topic
  pure (sync_write s fd cmd)

/-- Model of `icb_send_boot(fd, nick)`. -/
def icb_send_boot (s : Session) (fd : Fd) (nick : List Nat) : Except Fault Session := do
  let cmd ← icb_h_cmd (lit "boot") nick
  pure (sync_write s fd cmd)

/-- Model of `icb_send_name(fd, nick)`. -/
def icb_send_name (s : Session) (fd : Fd) (nick : List Nat) : Except Fault Session := do
  let cmd ← icb_h_cmd (lit "name") nick
  pure (sync_write s fd cmd)

/-- The loop of `icb_send_raw`:
`while (*data && off < MAX_MSG_SIZE) { ... cmd[off++] = ...; data++; }`
with `','` stored as `\001` and a backslash stored as NUL. -/
def icb_raw_copy : List Nat → List Nat → List Nat
  | cmd, [] => cmd
  | cmd, b :: rest =>
    if b ≠ 0 ∧ cmd.length < MAX_MSG_SIZE then
      icb_raw_copy (cmd ++ [if b = 44 then 1 else if b = 92 then 0 else b]) rest
    else cmd

/-- The buffer built and sent by `icb_send_raw(fd, data)`. -/
def icb_raw_cmd (data : List Nat) : Except Fault (List Nat) := do
  let cmd := icb_raw_copy cmd_start data
  let cmd ← put cmd 0
  pure (icb_finish cmd)

/-- Model of `icb_send_raw(fd, data)`. -/
def icb_send_raw (s : Session) (fd : Fd) (data : List Nat) : Except Fault Session := do
  let cmd ← icb_raw_cmd data
  pure (sync_write s fd cmd)

/-- The buffer built and sent by `icb_send_noop(fd)`. -/
def icb_noop_cmd : Except Fault (List Nat) := do
  let cmd ← put cmd_start 110
  let cmd ← put cmd 0
  pure (icb_finish cmd)

/-- Model of `icb_send_noop(fd)`. -/
def icb_send_noop (s : Session) (fd : Fd) : Except Fault Session := do
  let cmd ← icb_noop_cmd
  pure (sync_write s fd cmd)

/-- An Open Message packet on the wire: the length byte, `'b'`, a chunk of
the message, one NUL. -/
def openmsg_packet (chunk : List Nat) : List Nat :=
  (chunk.length + 2) :: 98 :: (chunk ++ [0])

/-! ## icb.c: `icb_args` -/

/-- The loop `while (i < len)` of `icb_args` over the bytes `data[i..len)`.
`done` holds the fields `args[0..j)` already terminated and `cur` the bytes
`args[j][0..k)`, so that `j` and `k` are the two lengths; a store
`args[j][k]` outside `char args[255][255]` is a fault (it comes before the
`unsigned char` counters could wrap). -/
def icb_args_loop : List Nat → List (List Nat) → List Nat →
    Except Fault (List (List Nat) × List Nat)
  | [], done, cur => .ok (done, cur)
  | b :: rest, done, cur =>
    if done.length < 255 ∧ cur.length < 255 then
      if b = 1 then icb_args_loop rest (done ++ [cur]) []
      else if b = 13 ∨ b = 10 then icb_args_loop rest done (cur ++ [63])
      else icb_args_loop rest done (cur ++ [b])
    else .error .oob_write

/-- Model of `icb_args(data, len, args)`: the returned count `j` and the 255
slots of `args` (the bytes stored before each terminating NUL; the slots from
`j` on are cleared by the final `for` loop). -/
def icb_args (data : List Nat) : Except Fault (Nat × List (List Nat)) :=
  match icb_args_loop data [] [] with
  | .error e => .error e
  | .ok (done, cur) =>
    if cur.length > 0 then
      if done.length < 255 ∧ cur.length < 255 then
        .ok (done.length + 1, done ++ [cur] ++ List.replicate (255 - (done.length + 1)) [])
      else .error .oob_write
    else .ok (done.length, done ++ List.replicate (255 - done.length) [])

/-! ## libc helpers used by the translators -/

/-- Comparison `strncmp(a, p, |p|) == 0` with a NUL-free literal `p`: `p` is
a prefix of the C string `a`. -/
def starts_with (p a : List Nat) : Bool := p.isPrefixOf a

/-- The call `strstr(hay, needle)`: the rest of `hay` from the first
occurrence of `needle` on, if there is one. -/
def strstr : List Nat → List Nat → Option (List Nat)
  | [], needle => if needle = [] then some [] else none
  | b :: rest, needle =>
    if needle.isPrefixOf (b :: rest) then some (b :: rest) else strstr rest needle

/-- The call `tolower(c)` in the C locale. -/
def tolower (c : Nat) : Nat := if 65 ≤ c ∧ c ≤ 90 then c + 32 else c

/-- Comparison `strcasecmp(a, b) == 0`. -/
def strcasecmp_eq (a b : List Nat) : Bool := a.map tolower == b.map tolower

/-- Comparison `strncasecmp(a, p, |p|) == 0` with a NUL-free literal `p`. -/
def starts_with_nocase (p a : List Nat) : Bool := (p.map tolower).isPrefixOf (a.map tolower)

/-- Decimal digits of a natural number, as bytes. -/
def fmt_u (n : Nat) : List Nat := (Nat.toDigits 10 n).map Char.toNat

/-- Output of the conversions `%d` and `%ld`. -/
def fmt_d (n : Int) : List Nat := if n < 0 then 45 :: fmt_u n.natAbs else fmt_u n.toNat

/-- The character class `isspace` in the C locale. -/
def isspace (c : Nat) : Bool := c = 32 ∨ (9 ≤ c ∧ c ≤ 13)

/-- The digits read by `atol`, accumulated. -/
def atol_digits : List Nat → Nat → Nat
  | [], acc => acc
  | b :: rest, acc =>
    if 48 ≤ b ∧ b ≤ 57 then atol_digits rest (acc * 10 + (b - 48)) else acc

/-- The call `atol(s)` as the C library implements it (`strtol` in base
10 with a 64-bit `long`, saturating). -/
def atol (s : List Nat) : Int :=
  match s.dropWhile isspace with
  | 45 :: rest => max (-(atol_digits rest 0 : Int)) (-9223372036854775808)
  | 43 :: rest => min (atol_digits rest 0 : Int) 9223372036854775807
  | t => min (atol_digits t 0 : Int) 9223372036854775807

/-- The call `snprintf(s, siz, ...)` followed by the use of `s` as a
string: the formatted text cut to `siz - 1` bytes. -/
def snprintf (siz : Nat) (text : List Nat) : List Nat := text.take (siz - 1)

/-! ## icb.c: `scan` -/

/-- First loop of `scan`: `while (**s && strchr(skip, **s) != NULL) (*s)++;`. -/
def scan_skip (skip : List Nat) : List Nat → List Nat
  | [] => []
  | b :: rest => if b ≠ 0 ∧ b ∈ skip then scan_skip skip rest else b :: rest

/-- Second loop of `scan`:
`while (**s && strchr(term, **s) == NULL) { if (siz > 1) { *d++ = **s; siz--; } (*s)++; }`.
Arguments and result: the cursor, `siz`, the bytes stored through `d`. -/
def scan_copy (term : List Nat) : List Nat → Nat → List Nat → List Nat × Nat × List Nat
  | [], siz, d => ([], siz, d)
  | b :: rest, siz, d =>
    if b ≠ 0 ∧ b ∉ term then
      if siz > 1 then scan_copy term rest (siz - 1) (d ++ [b])
      else scan_copy term rest siz d
    else (b :: rest, siz, d)

/-- Model of `scan(&s, d, siz, skip, term)`: the cursor afterwards and the
bytes written to `d` (the token, then the NUL of `if (siz > 0) *d = 0`). -/
def scan (s : List Nat) (siz : Nat) (skip term : List Nat) : List Nat × List Nat :=
  let r := scan_copy term (scan_skip skip s) siz []
  (r.1, if r.2.1 > 0 then r.2.2 ++ [0] else r.2.2)

/-! ## irc.c: the IRC emitters -/

/-- Model of `irc_send_notice(fd, format, ...)`; `msg` is the text the
format expands to. -/
def irc_send_notice (s : Session) (fd : Fd) (msg : List Nat) : Session :=
  sync_write s fd (snprintf 16384 (lit "NOTICE " ++ snprintf 8192 msg ++ lit "\r\n"))

/-- Model of `irc_send_code(fd, from, nick, code, format, ...)`; `msg` is the
text the format expands to. -/
def irc_send_code (s : Session) (fd : Fd) (src nick code msg : List Nat) : Session :=
  sync_write s fd (snprintf 16384
    (lit ":" ++ src ++ lit " " ++ code ++ lit " " ++ nick ++ lit " :" ++ snprintf 8192 msg
      ++ lit "\r\n"))

/-- Model of `irc_send_msg(fd, src, dst, msg)`. -/
def irc_send_msg (s : Session) (fd : Fd) (src dst msg : List Nat) : Session :=
  sync_write s fd (snprintf 8192
    (lit ":" ++ src ++ lit " PRIVMSG " ++ dst ++ lit " :" ++ msg ++ lit "\r\n"))

/-- Model of `irc_send_join(fd, src, dst)`. -/
def irc_send_join (s : Session) (fd : Fd) (src dst : List Nat) : Session :=
  (sync_write s fd (snprintf 8192 (lit ":" ++ src ++ lit " JOIN :" ++ dst ++ lit "\r\n"))
    ).set_in_irc_channel true

/-- Model of `irc_send_part(fd, src, dst)`. -/
def irc_send_part (s : Session) (fd : Fd) (src dst : List Nat) : Session :=
  sync_write s fd (snprintf 8192 (lit ":" ++ src ++ lit " PART :" ++ dst ++ lit "\r\n"))

/-- Model of `irc_send_pong(fd, daemon)`. -/
def irc_send_pong (s : Session) (fd : Fd) (daemon : List Nat) : Session :=
  sync_write s fd (snprintf 8192 (lit "PONG " ++ daemon ++ lit "\r\n"))

/-! ## icb.c: the ICB -> IRC translator -/

/-- Values the C program reads without having set them. -/
structure Indet where
  /-- what `%d` prints when handed the pointer `icb_protolevel` (numeric 004) -/
  protolevel_d : Int
  /-- the bytes found in the local `new_mod[256]` of the `Pass` branch when
  that branch has not written it -/
  new_mod : List Nat

/-- The string left in `d` by `scan(&s, d, siz, skip, term)` with `siz > 0`,
together with the cursor. -/
def scan_tok (s : List Nat) (siz : Nat) (skip term : List Nat) : List Nat × List Nat :=
  ((scan s siz skip term).1, cstr (scan s siz skip term).2)

/-- Model of `icb_iwl(fd, flags, nick, idle, signon, ident, host)`.  The
globals read while the lines are built are not changed by the writes, so they
are read from the state on entry. -/
def icb_iwl (s : Session) (fd : Fd) (flags nick : List Nat) (idle signon : Int)
    (ident host : List Nat) : Session :=
  let chanop : Bool := 109 ∈ flags
  let s1 : Session :=
    if s.imode = imode_whois ∧ nick = s.inick then
      let w1 := sync_write s fd (snprintf 8192
        (lit ":" ++ s.icb_hostid ++ lit " 311 " ++ s.irc_nick ++ lit " " ++ nick ++ lit " "
          ++ ident ++ lit " " ++ host ++ lit " * :\r\n"))
      let w2 := if s.icurgroup ≠ [] then
          sync_write w1 fd (snprintf 8192
            (lit ":" ++ s.icb_hostid ++ lit " 319 " ++ s.irc_nick ++ lit " " ++ nick ++ lit " :"
              ++ (if chanop then lit "@" else []) ++ s.icurgroup ++ lit "\r\n"))
        else w1
      let w3 := sync_write w2 fd (snprintf 8192
        (lit ":" ++ s.icb_hostid ++ lit " 312 " ++ s.irc_nick ++ lit " " ++ nick ++ lit " "
          ++ s.icb_hostid ++ lit " :\r\n"))
      let w4 := sync_write w3 fd (snprintf 8192
        (lit ":" ++ s.icb_hostid ++ lit " 317 " ++ s.irc_nick ++ lit " " ++ nick ++ lit " "
          ++ fmt_d idle ++ lit " " ++ fmt_d signon ++ lit " :seconds idle, signon time\r\n"))
      sync_write w4 fd (snprintf 8192
        (lit ":" ++ s.icb_hostid ++ lit " 318 " ++ s.irc_nick ++ lit " " ++ nick
          ++ lit " :End of /WHOIS list.\r\n"))
    else if s.imode = imode_names ∧ s.icurgroup = s.igroup then
      let w1 := sync_write s fd (snprintf 8192
        (lit ":" ++ s.icb_hostid ++ lit " 353 " ++ s.irc_nick ++ lit " @ " ++ s.icurgroup
          ++ lit " :" ++ (if chanop then lit "@" else []) ++ nick ++ lit " \r\n"))
      sync_write w1 fd (snprintf 8192
        (lit ":" ++ s.icb_hostid ++ lit " 352 " ++ s.irc_nick ++ lit " " ++ s.icurgroup
          ++ lit " " ++ nick ++ lit " " ++ host ++ lit " " ++ s.icb_hostid ++ lit " " ++ nick
          ++ lit " H :5 " ++ ident ++ lit "\r\n"))
    else if s.imode = imode_who then
      let is_match : Bool :=
        if s.ihostmask.head? = some 35 then s.icurgroup = s.ihostmask
        else (strstr (snprintf 1024 (nick ++ lit "!" ++ ident ++ lit "@" ++ host))
                s.ihostmask).isSome
      if is_match then
        sync_write s fd (snprintf 8192
          (lit ":" ++ s.icb_hostid ++ lit " 352 " ++ s.irc_nick ++ lit " " ++ s.icurgroup
            ++ lit " " ++ nick ++ lit " " ++ host ++ lit " " ++ s.icb_hostid ++ lit " " ++ nick
            ++ lit " H :5 " ++ ident ++ lit "\r\n"))
      else s
    else s
  if chanop ∧ s.icurgroup = s.irc_channel then
    s1.set_icb_moderator (strlcpy nick 256)
  else s1

/-- Model of `icb_ico(fd, arg)`.  The local `char group[256]` receives `'#'`,
the group name and a NUL; a name that does not fit is a store outside it. -/
def icb_ico (s : Session) (fd : Fd) (arg : List Nat) : Except Fault Session :=
  if starts_with (lit "Group: ") arg then
    let arg1 := arg.drop 7
    let name := arg1.takeWhile (fun b => decide (b ≠ 0 ∧ b ≠ 32))
    let group := 35 :: name
    if group.length < 256 then
      let arg2 := arg1.drop name.length
      let icurgroup := strlcpy group 256
      let s1 := s.set_icurgroup icurgroup
      let topic := match strstr arg2 (lit "Topic: ") with
        | none => lit "(None)"
        | some t => t.drop 7
      if s.imode = imode_list then
        .ok (sync_write s1 fd (snprintf 8192
          (lit ":" ++ s.icb_hostid ++ lit " 322 " ++ s.irc_nick ++ lit " " ++ group
            ++ lit " 1 :" ++ topic ++ lit "\r\n")))
      else if s.imode = imode_names ∧ icurgroup = s.igroup then
        .ok (sync_write s1 fd (snprintf 8192
          (lit ":" ++ s.icb_hostid ++ lit " 332 " ++ s.irc_nick ++ lit " " ++ icurgroup
            ++ lit " :" ++ topic ++ lit "\r\n")))
      else .ok s1
    else .error .oob_write
  else if starts_with (lit "Total: ") arg then
    let s1 : Session :=
      if s.imode = imode_list then
        sync_write s fd (snprintf 8192
          (lit ":" ++ s.icb_hostid ++ lit " 323 " ++ s.irc_nick ++ lit " :End of /LIST\r\n"))
      else if s.imode = imode_names then
        sync_write s fd (snprintf 8192
          (lit ":" ++ s.icb_hostid ++ lit " 366 " ++ s.irc_nick ++ lit " " ++ s.igroup
            ++ lit " :End of /NAMES list.\r\n"))
      else if s.imode = imode_who then
        sync_write s fd (snprintf 8192
          (lit ":" ++ s.icb_hostid ++ lit " 315 " ++ s.irc_nick ++ lit " " ++ s.ihostmask
            ++ lit " :End of /WHO list.\r\n"))
      else s
    .ok (s1.set_imode imode_none)
  else if arg ≠ lit " " then
    .ok (irc_send_notice s fd (lit "*** Unknown ico: " ++ arg))
  else .ok s

/-- The loop `for (j = 1; j < i; ++j) icb_ico(fd, args[j]);` over the
strings `args[1..i)`. -/
def icb_ico_all (fd : Fd) : Session → List (List Nat) → Except Fault Session
  | s, [] => .ok s
  | s, a :: rest =>
    match icb_ico s fd a with
    | .error e => .error e
    | .ok s1 => icb_ico_all fd s1 rest

/-- The `case 'd'` (Status Message) of `icb_cmd`; `a0` and `a1` are the
strings `args[0]` and `args[1]`, and the cursor `a` starts at `args[1]`. -/
def icb_cmd_status (u : Indet) (s : Session) (fd server_fd : Fd) (a0 a1 : List Nat) :
    Except Fault Session :=
  if a0 = lit "Status" ∧ starts_with (lit "You are now in group ") a1 then
    let s1 := if s.irc_channel ≠ [] then irc_send_part s fd s.irc_nick s.irc_channel else s
    let channel := 35 :: (scan_tok (a1.drop 21) 255 (lit " ") (lit " ")).2
    let s2 := s1.set_irc_channel channel
    let s3 := irc_send_join s2 fd s.irc_nick channel
    icb_send_names s3 server_fd channel
  else if a0 = lit "Arrive" ∨ a0 = lit "Sign-on" then
    let r1 := scan_tok a1 256 (lit " ") (lit " ")
    let r2 := scan_tok r1.1 256 (lit " (") (lit ")")
    .ok (irc_send_join s fd (snprintf 8192 (r1.2 ++ lit "!" ++ r2.2)) s.irc_channel)
  else if a0 = lit "Depart" then
    let r1 := scan_tok a1 256 (lit " ") (lit " ")
    let r2 := scan_tok r1.1 256 (lit " (") (lit ")")
    .ok (irc_send_part s fd (snprintf 8192 (r1.2 ++ lit "!" ++ r2.2)) s.irc_channel)
  else if a0 = lit "Sign-off" then
    let r1 := scan_tok a1 256 (lit " ") (lit " ")
    let r2 := scan_tok r1.1 256 (lit " (") (lit ")")
    let r3 := scan_tok r2.1 256 (lit " )") []
    let reason := if r3.2.getLast? = some 46 then r3.2.dropLast else r3.2
    .ok (sync_write s fd (snprintf 8192
      (lit ":" ++ r1.2 ++ lit "!" ++ r2.2 ++ lit " QUIT :" ++ reason ++ lit "\r\n")))
  else if a0 = lit "Name" then
    let r1 := scan_tok a1 256 (lit " ") (lit " ")
    if ¬ starts_with (lit " changed nickname to ") r1.1 then .ok s
    else
      let r2 := scan_tok (r1.1.drop 21) 256 (lit " ") (lit " ")
      let s1 := sync_write s fd (snprintf 8192
        (lit ":" ++ r1.2 ++ lit " NICK :" ++ r2.2 ++ lit "\r\n"))
      if r1.2 = s.irc_nick then .ok (s1.set_irc_nick (strlcpy r2.2 256)) else .ok s1
  else if a0 = lit "Topic" then
    let r1 := scan_tok a1 256 (lit " ") (lit " ")
    if ¬ starts_with (lit " changed the topic to \"") r1.1 then .ok s
    else
      let r2 := scan_tok (r1.1.drop 23) 256 [] (lit "\"")
      .ok (sync_write s fd (snprintf 8192
        (lit ":" ++ r1.2 ++ lit " TOPIC " ++ s.irc_channel ++ lit " :" ++ r2.2 ++ lit "\r\n")))
  else if a0 = lit "Pass" then
    let r1 := scan_tok a1 256 (lit " ") (lit " ")
    if starts_with (lit " has passed moderation to ") r1.1 then
      let r2 := scan_tok (r1.1.drop 26) 256 (lit " ") (lit " ")
      let s1 := sync_write s fd (snprintf 8192
        (lit ":" ++ r1.2 ++ lit " MODE " ++ s.irc_channel ++ lit " -o+o " ++ r1.2 ++ lit " "
          ++ r2.2 ++ lit "\r\n"))
      .ok (s1.set_icb_moderator (strlcpy r2.2 256))
    else if r1.1 = lit " is now mod." then
      let s1 := sync_write s fd (snprintf 8192
        (lit ":" ++ s.icb_hostid ++ lit " MODE " ++ s.irc_channel ++ lit " +o " ++ r1.2
          ++ lit "\r\n"))
      .ok (s1.set_icb_moderator (strlcpy u.new_mod 256))
    else .ok s
  else if a0 = lit "Boot" then
    let r1 := scan_tok a1 256 (lit " ") (lit " ")
    if r1.1 ≠ lit " was booted." then .ok s
    else
      .ok (sync_write s fd (snprintf 8192
        (lit ":" ++ s.icb_moderator ++ lit " KICK " ++ s.irc_channel ++ lit " " ++ r1.2
          ++ lit " :booted\r\n")))
  else
    .ok (irc_send_notice s fd (lit "ICB Status Message: " ++ a0 ++ lit ": " ++ a1))

/-- The `case 'a'` (Login OK) of `icb_cmd`. -/
def icb_cmd_login (u : Indet) (s : Session) (fd : Fd) : Session :=
  let w1 := irc_send_code s fd s.icb_hostid s.irc_nick (lit "001")
    (lit "Welcome to icbirc " ++ s.irc_nick)
  let w2 := irc_send_code w1 fd s.icb_hostid s.irc_nick (lit "002")
    (lit "Your host is " ++ s.icb_hostid ++ lit " running " ++ s.icb_serverid
      ++ lit " protocol " ++ s.icb_protolevel)
  let w3 := irc_send_code w2 fd s.icb_hostid s.irc_nick (lit "003")
    (lit "This server was created recently")
  let w4 := irc_send_code w3 fd s.icb_hostid s.irc_nick (lit "004")
    (s.icb_serverid ++ lit " " ++ fmt_d u.protolevel_d)
  let w5 := irc_send_code w4 fd s.icb_hostid s.irc_nick (lit "375")
    (lit "ICB server: " ++ s.icb_serverid)
  let w6 := irc_send_code w5 fd s.icb_hostid s.irc_nick (lit "376") (lit "End of MOTD")
  w6.set_icb_logged_in true

/-- The `case 'b'` (Open Message) of `icb_cmd`; `a0` and `a1` are the
strings `args[0]` and `args[1]`. -/
def icb_cmd_open (s : Session) (fd server_fd : Fd) (a0 a1 : List Nat) :
    Except Fault Session :=
  match (if ¬ s.in_irc_channel then
      icb_send_names (irc_send_join s fd s.irc_nick s.irc_channel) server_fd s.irc_channel
    else .ok s) with
  | .error e => .error e
  | .ok s1 => .ok (irc_send_msg s1 fd a0 s.irc_channel a1)

/-- The `case 'i'` (Command Output) of `icb_cmd`; `i` is the count returned
by `icb_args` and `fields` are the slots of `args`. -/
def icb_cmd_output (s : Session) (fd : Fd) (i : Nat) (fields : List (List Nat)) :
    Except Fault Session :=
  let args : Nat → List Nat := fun j => cstr (fields.getD j [])
  if args 0 = lit "co" then
    icb_ico_all fd s (((fields.take i).drop 1).map cstr)
  else if args 0 = lit "wl" then
    .ok (icb_iwl s fd (args 1) (args 2) (atol (args 3)) (atol (args 5)) (args 6) (args 7))
  else if args 0 = lit "wh" then .ok s
  else
    .ok (irc_send_notice s fd
      (lit "ICB Command Output: " ++ args 0 ++ lit ": "
        ++ fmt_u ((i + 4294967296 - 1) % 4294967296) ++ lit " args"))

/-- Model of `icb_cmd(cmd, len, fd, server_fd)`; the list is `cmd[0..len)`,
`args j` is the string `args[j]`.  Globals that the writes of a branch do not
change are read from the state on entry. -/
def icb_cmd (u : Indet) (fd server_fd : Fd) (s : Session) (cmd : List Nat) :
    Except Fault Session :=
  match cmd with
  | [] => .ok s
  | type :: data =>
    match icb_args data with
    | .error e => .error e
    | .ok (i, fields) =>
      let args : Nat → List Nat := fun j => cstr (fields.getD j [])
      if type = 97 then .ok (icb_cmd_login u s fd)
      else if type = 98 then icb_cmd_open s fd server_fd (args 0) (args 1)
      else if type = 99 then .ok (irc_send_msg s fd (args 0) s.irc_nick (args 1))
      else if type = 100 then icb_cmd_status u s fd server_fd (args 0) (args 1)
      else if type = 101 then
        .ok (irc_send_notice s fd (lit "ICB Error Message: " ++ args 0))
      else if type = 102 then
        .ok (irc_send_notice s fd (lit "ICB Important Message: " ++ args 0 ++ lit ": " ++ args 1))
      else if type = 103 then
        .ok ((irc_send_notice s fd (lit "ICB Exit")).set_terminate_client true)
      else if type = 105 then icb_cmd_output s fd i fields
      else if type = 106 then
        .ok (((s.set_icb_protolevel (strlcpy (args 0) 256)).set_icb_hostid
          (strlcpy (args 1) 256)).set_icb_serverid (strlcpy (args 2) 256))
      else if type = 107 then
        .ok (irc_send_notice s fd (lit "ICB Beep from " ++ args 0))
      else if type = 108 then
        .ok (irc_send_notice s fd (lit "ICB Ping '" ++ args 0 ++ lit "'"))
      else if type = 109 then
        .ok (irc_send_notice s fd (lit "ICB Pong '" ++ args 0 ++ lit "'"))
      else if type = 110 then
        .ok (irc_send_notice s fd (lit "ICB No-op"))
      else
        .ok (irc_send_notice s fd
          (lit "ICB unknown command " ++ fmt_d type ++ lit ": " ++ fmt_u i ++ lit " args"))

/-! ## irc.c: the IRC -> ICB translator -/

/-- The call `strchr(p, ' ')`: the bytes before the first space and the
bytes after it, if there is a space. -/
def split_space : List Nat → Option (List Nat × List Nat)
  | [] => none
  | b :: rest =>
    if b = 32 then some ([], rest)
    else match split_space rest with
      | none => none
      | some r => some (b :: r.1, r.2)

/-- The tokeniser loop of `irc_cmd`,
`for (...; argc < 10 && (p = strchr(p, ' ')) != NULL; argc++)`, from a state
in which `p` is the start of the slot `argv[argc - 1]` and `n = 10 - argc`:
the strings of the slots `argv[argc - 1 ..]` once the loop has ended. -/
def tokenise : Nat → List Nat → List (List Nat)
  | 0, p => [p]
  | n + 1, p =>
    match split_space p with
    | none => [p]
    | some (tok, rest) =>
      match rest.dropWhile (fun b => decide (b = 32)) with
      | [] => tok :: tokenise n []
      | c :: tl => if c = 58 then [tok, tl] else tok :: tokenise n (c :: tl)

/-- A read of `argv[k]`: the slot holds a pointer only if the tokeniser
filled it (`k < argc`). -/
def argv_get (argv : List (List Nat)) (k : Nat) : Except Fault (List Nat) :=
  match argv.get? k with
  | some a => .ok a
  | none => .error .unset_argv

/-- The inner loop of the CTCP stripping on the string that starts at
`msg[i]`: `for (j = i; msg[j + 1]; ++j) msg[j] = msg[j + 1]; msg[j] = 0;`. -/
def ctcp_shift : List Nat → List Nat
  | [] => []
  | [_] => []
  | _ :: b :: rest => b :: ctcp_shift (b :: rest)

/-- The loop `while (msg[i])` of the CTCP stripping, on the string that
starts at `msg[i]`; the result is the string left from `msg[i]` on.  One unit
of fuel per iteration. -/
def ctcp_strip : Nat → List Nat → Except Fault (List Nat)
  | _, [] => .ok []
  | 0, _ :: _ => .error .diverges
  | fuel + 1, b :: rest =>
    if b = 0 then .ok []
    else if b = 1 then ctcp_strip fuel (ctcp_shift (b :: rest))
    else match ctcp_strip fuel rest with
      | .error e => .error e
      | .ok r => .ok (b :: r)

/-- Model of `irc_cmd(cmd, client_fd, server_fd)`.  The diagnostics that the
function prints on standard output are not part of the model. -/
def irc_cmd (client_fd server_fd : Fd) (s : Session) (line : List Nat) :
    Except Fault Session :=
  let cmd := cstr line
  if starts_with_nocase (lit "RAWICB ") cmd then icb_send_raw s server_fd (cmd.drop 7)
  else
    let argv := tokenise 9 cmd
    let argc := argv.length
    let argv0 := argv.headD []
    if strcasecmp_eq argv0 (lit "PASS") then do
      let a1 ← argv_get argv 1
      pure (s.set_irc_pass (strlcpy a1 256))
    else if strcasecmp_eq argv0 (lit "USER") then do
      let a1 ← argv_get argv 1
      let ident := strlcpy a1 256
      let s1 := s.set_irc_ident ident
      if ¬ s.icb_logged_in ∧ s.irc_nick ≠ [] ∧ ident ≠ [] then
        icb_send_login s1 server_fd s.irc_nick ident s.irc_pass
      else pure s1
    else if strcasecmp_eq argv0 (lit "NICK") then do
      let a1 ← argv_get argv 1
      let nick := strlcpy a1 256
      let s1 := s.set_irc_nick nick
      if s.icb_logged_in then icb_send_name s1 server_fd nick
      else if nick ≠ [] ∧ s.irc_ident ≠ [] then
        icb_send_login s1 server_fd nick s.irc_ident s.irc_pass
      else pure s1
    else if strcasecmp_eq argv0 (lit "JOIN") then do
      let a1 ← argv_get argv 1
      icb_send_group s server_fd (if a1.head? = some 35 then a1.drop 1 else a1)
    else if strcasecmp_eq argv0 (lit "PART") then
      pure (s.set_in_irc_channel false)
    else if strcasecmp_eq argv0 (lit "PRIVMSG") ∨ strcasecmp_eq argv0 (lit "NOTICE") then do
      let a2 ← argv_get argv 2
      let msg ← ctcp_strip ((strlcpy a2 8192).length + 1) (strlcpy a2 8192)
      let a1 ← argv_get argv 1
      if a1 = s.irc_channel then icb_send_openmsg s server_fd msg
      else icb_send_privmsg s server_fd a1 msg
    else if strcasecmp_eq argv0 (lit "MODE") then do
      let a1 ← argv_get argv 1
      if a1 ≠ s.irc_channel then pure s
      else if argc = 2 then icb_send_names s server_fd s.irc_channel
      else
        let a2 ← argv_get argv 2
        if a2 ≠ lit "+o" then pure s
        else
          let a3 ← argv_get argv 3
          icb_send_pass s server_fd a3
    else if strcasecmp_eq argv0 (lit "TOPIC") then do
      let a1 ← argv_get argv 1
      if a1 ≠ s.irc_channel then pure s
      else
        let a2 ← argv_get argv 2
        icb_send_topic s server_fd a2
    else if strcasecmp_eq argv0 (lit "LIST") then icb_send_list s server_fd
    else if strcasecmp_eq argv0 (lit "NAMES") then do
      let a1 ← argv_get argv 1
      icb_send_names s server_fd a1
    else if strcasecmp_eq argv0 (lit "WHOIS") then do
      let a1 ← argv_get argv 1
      icb_send_whois s server_fd a1
    else if strcasecmp_eq argv0 (lit "WHO") then do
      let a1 ← argv_get argv 1
      icb_send_who s server_fd a1
    else if strcasecmp_eq argv0 (lit "KICK") then do
      let a1 ← argv_get argv 1
      if a1 ≠ s.irc_channel then pure s
      else
        let a2 ← argv_get argv 2
        icb_send_boot s server_fd a2
    else if strcasecmp_eq argv0 (lit "PING") then do
      let s ← icb_send_noop s server_fd
      let a1 ← argv_get argv 1
      pure (irc_send_pong s client_fd a1)
    else if strcasecmp_eq argv0 (lit "QUIT") then
      pure (s.set_terminate_client true)
    else if strcasecmp_eq argv0 (lit "CAP") then pure s
    else pure s

/-- A Command Output packet (`'i'`) whose `args[0]` is `"co"` and one of
whose remaining arguments `args[1..i)` begins with `"Total: "`. -/
def is_total_output (cmd : List Nat) : Prop :=
  ∃ data i fields, cmd = 105 :: data ∧ icb_args data = .ok (i, fields) ∧
    cstr (fields.getD 0 []) = lit "co" ∧
    ∃ a ∈ (fields.take i).drop 1, starts_with (lit "Total: ") (cstr a) = true

/-- A well-formed ICB packet as the builders should write it: at most 256
bytes, and a first byte `L` with `1 <= L <= 255` that counts the bytes after
it. -/
def packet_ok (p : List Nat) : Prop :=
  p.length ≤ 256 ∧ ∃ L rest, p = L :: rest ∧ L = rest.length ∧ 1 ≤ L ∧ L ≤ 255

/-! ## icbirc.c: the inputs handed to the two translators -/

/-- One input of the translators in `handle_client`: a line of the IRC client
(for `irc_cmd`) or a packet of the ICB server (for `icb_cmd`, together with
the indeterminate values read while it is processed). -/
inductive Event where
  | irc (line : List Nat)
  | icb (u : Indet) (cmd : List Nat)

/-- The translator call made for one input; `irc_recv` and `icb_recv` are both
called with `client_fd, server_fd`. -/
def step (s : Session) : Event → Except Fault Session
  | .irc line => irc_cmd .client .server s line
  | .icb u cmd => icb_cmd u .client .server s cmd

/-- The translator calls made for a sequence of inputs, in order. -/
def run : Session → List Event → Except Fault Session
  | s, [] => .ok s
  | s, e :: rest =>
    match step s e with
    | .error f => .error f
    | .ok s1 => run s1 rest

/-- The string `argv[0]` of a line handed to `irc_cmd`. -/
def irc_argv0 (line : List Nat) : List Nat := (tokenise 9 (cstr line)).headD []

/-- An ICB packet of type `'a'` (Login OK). -/
def Event.is_login_ok : Event → Bool
  | .icb _ (97 :: _) => true
  | _ => false

/-- An ICB packet on which `icb_cmd` calls `irc_send_join` with the channel as
it stands: an Open Message, or a Status Message whose `args[0]` is `"Arrive"`
or `"Sign-on"`. -/
def Event.joins : Event → Bool
  | .icb _ (t :: data) =>
    decide (t = 98) ||
      (decide (t = 100) &&
        match icb_args data with
        | .ok (_, fields) =>
          decide (cstr (fields.getD 0 []) = lit "Arrive")
            || decide (cstr (fields.getD 0 []) = lit "Sign-on")
        | .error _ => false)
  | _ => false

/-- A sequence of inputs in which every packet that makes `icb_cmd` write a
JOIN for the channel as it stands is processed in a state whose channel is
set. -/
def joins_named : Session → List Event → Bool
  | _, [] => true
  | s, e :: rest =>
    (!e.joins || decide (s.irc_channel ≠ [])) &&
      match step s e with
      | .ok s1 => joins_named s1 rest
      | .error _ => true

/-- The session flags and the channel name are the same in two states. -/
def same_flags (s s' : Session) : Prop :=
  s'.icb_logged_in = s.icb_logged_in ∧ s'.terminate_client = s.terminate_client ∧
    s'.in_irc_channel = s.in_irc_channel ∧ s'.irc_channel = s.irc_channel

/-! ## icbirc.c: the start of `handle_client` -/

/-- The state that outlives a client connection: the globals of irc.c and
icb.c (with the two logs of writes) and the static buffers of the two
framers. -/
structure World where
  session : Session
  icb : IcbFramer
  irc : IrcFramer

/-- Model of `icb_init()`: the strings of icb.c are cleared, `imode` is
`imode_none`, and the `off` of `icb_recv` is 0.  Nothing of irc.c is touched. -/
def icb_init (w : World) : World :=
  { session :=
      ((((((((w.session.set_icb_protolevel []).set_icb_hostid []).set_icb_serverid []
        ).set_icb_moderator []).set_imode imode_t.imode_none).set_icurgroup []).set_igroup []
        ).set_inick []).set_ihostmask []
    icb := ⟨[]⟩
    irc := w.irc }

/-- Model of `handle_client(client_fd)` up to the first iteration of its
loop, on the path where the connection to the server is made:
`irc_pass[0] = irc_nick[0] = irc_ident[0] = irc_channel[0] = 0;`
`icb_logged_in = 0; terminate_client = 1;`, the notice
`*** Connecting to server <addr>`, the notice `*** Connected`,
`terminate_client = 0; icb_init();`.  `addr` is the text of `%s:%u`. -/
def handle_client_init (addr : List Nat) (w : World) : World :=
  let s1 := (((((w.session.set_irc_pass []).set_irc_nick []).set_irc_ident []
    ).set_irc_channel []).set_icb_logged_in false).set_terminate_client true
  let s2 := irc_send_notice s1 Fd.client (lit "*** Connecting to server " ++ addr)
  let s3 := irc_send_notice s2 Fd.client (lit "*** Connected")
  icb_init { session := s3.set_terminate_client false, icb := w.icb, irc := w.irc }


/-! ## IRC lines written to the client -/

/-- A buffer that is exactly one IRC line: its last byte is `'\n'`, the byte
before it is `'\r'`, and no other byte is `'\n'`. -/
@[reducible] def one_line (b : List Nat) : Prop :=
  b.getLast? = some 10 ∧ b.dropLast.getLast? = some 13 ∧ 10 ∉ b.dropLast

/-- A stored string without `'\n'` that fits its array of 256 bytes. -/
def str_ok (x : List Nat) : Prop := 10 ∉ x ∧ x.length ≤ 255

/-- The stored strings that `icb_cmd` copies into lines for the client hold
no `'\n'` and fit their arrays. -/
def Session.strings_ok (s : Session) : Prop :=
  str_ok s.irc_nick ∧ str_ok s.irc_channel ∧ str_ok s.icb_protolevel ∧ str_ok s.icb_hostid ∧
    str_ok s.icb_serverid ∧ str_ok s.icb_moderator ∧ str_ok s.icurgroup ∧ str_ok s.igroup ∧
    str_ok s.ihostmask

/-- Between the states `s` and `s'` only whole IRC lines were written to the
client. -/
def writes_lines (s s' : Session) : Prop :=
  ∃ new : List (List Nat), s'.client_out = s.client_out ++ new ∧ ∀ b ∈ new, one_line b

/-! ## icb.c: `icb_recv` calling `icb_cmd` -/

/-- The call `icb_cmd(cmd + 1, off - 1, fd, server_fd)` made by `icb_recv`, as
a handler of the framer; the state is the session, or the fault at which the
execution stopped. -/
def icb_cmd_handler (u : Indet) (fd server_fd : Fd) (r : Except Fault Session)
    (cmd : List Nat) : Except Fault Session :=
  match r with
  | .error e => .error e
  | .ok s => icb_cmd u fd server_fd s cmd

/-- What the translators keep true of the stored strings: each fits its array
of 256 bytes, and `icb_protolevel`, `icb_serverid` and `icurgroup`, which are
only ever cleared or copied from fields that `icb_args` has cleaned, hold no
`'\n'`. -/
def Session.arrays_ok (s : Session) : Prop :=
  s.irc_nick.length ≤ 255 ∧ s.irc_channel.length ≤ 255 ∧ str_ok s.icb_protolevel ∧
    s.icb_hostid.length ≤ 255 ∧ str_ok s.icb_serverid ∧ s.icb_moderator.length ≤ 255 ∧
    str_ok s.icurgroup ∧ s.igroup.length ≤ 255 ∧ s.ihostmask.length ≤ 255

/-! # Theorems -/

theorem usub_one {n : Nat} (h1 : 1 ≤ n) (h2 : n < 4294967296) : usub n 1 = n - 1 := by
  unfold usub; omega

theorem length_pos_of_ne_nil' {cmd : List Nat} (hne : cmd ≠ []) : 1 ≤ cmd.length := by
  cases cmd with
  | nil => exact absurd rfl hne
  | cons a t => simp

theorem cmd0_append {cmd : List Nat} (hne : cmd ≠ []) (x : List Nat) :
    cmd0 (cmd ++ x) = cmd0 cmd := by
  cases cmd with
  | nil => exact absurd rfl hne
  | cons a t => rfl

/-- After the first byte of a packet: the rest of one outer iteration and
all later iterations agree with the bytewise machine. -/
theorem icb_fill_steps {σ : Type} (h : σ → List Nat → σ) (buf : List Nat) :
    ∀ (fuel : Nat) (cmd : List Nat) (s : σ), buf.length ≤ fuel → cmd ≠ [] →
      cmd.length - 1 ≤ cmd0 cmd → cmd0 cmd < 256 →
      (match icb_fill cmd buf with
        | .error e => (Except.error e : Except Fault (IcbFramer × σ))
        | .ok (cmd2, buf2) =>
          if usub cmd2.length 1 = cmd0 cmd2 then
            icb_recv_loop h fuel ⟨[]⟩ (h s (cmd2.drop 1)) buf2
          else icb_recv_loop h fuel ⟨cmd2⟩ s buf2)
      = .ok (buf.foldl (icb_step h)
          (if cmd.length - 1 = cmd0 cmd then (⟨[]⟩, h s (cmd.drop 1)) else (⟨cmd⟩, s))) := by
  induction buf with
  | nil =>
    intro fuel cmd s _ hne hle hb
    have hl := length_pos_of_ne_nil' hne
    have hu : usub cmd.length 1 = cmd.length - 1 := usub_one hl (by omega)
    simp only [icb_fill, hu, List.foldl_nil]
    split <;> simp [icb_recv_loop]
  | cons b rest ih =>
    intro fuel cmd s hfuel hne hle hb
    have hl := length_pos_of_ne_nil' hne
    have hu : usub cmd.length 1 = cmd.length - 1 := usub_one hl (by omega)
    have hhead : cmd0 (cmd ++ [b % 256]) = cmd0 cmd := cmd0_append hne _
    have hfuel' : rest.length + 1 ≤ fuel := by simpa using hfuel
    by_cases hlt : cmd.length - 1 < cmd0 cmd
    · -- the packet is incomplete: the inner loop stores the byte
      have h256 : cmd.length < 256 := by omega
      have hstep : icb_fill cmd (b :: rest) = icb_fill (cmd ++ [b % 256]) rest := by
        simp only [icb_fill, hu, hlt, h256, if_true]
      rw [hstep]
      have := ih fuel (cmd ++ [b % 256]) s (by omega) (by simp)
        (by rw [hhead]; simp only [List.length_append, List.length_singleton]; omega)
        (by rw [hhead]; exact hb)
      rw [this]
      have hne2 : ¬ (cmd.length - 1 = cmd0 cmd) := by omega
      simp only [hne2, if_false, List.foldl_cons, icb_step, hhead]
    · -- the packet is complete: dispatch, then a new outer iteration
      have heq : cmd.length - 1 = cmd0 cmd := by omega
      have hstep : icb_fill cmd (b :: rest) = .ok (cmd, b :: rest) := by
        simp only [icb_fill, hu, hlt, if_false]
      rw [hstep]
      simp only [hu, heq, if_true]
      cases fuel with
      | zero => omega
      | succ n =>
        simp only [icb_recv_loop, IcbFramer.off, List.length_nil, if_true]
        have := ih n [b % 256] (h s (cmd.drop 1)) (by omega) (by simp)
          (by simp) (by simp only [cmd0]; omega)
        rw [this]
        simp only [List.foldl_cons, icb_step, List.nil_append]

/-- One call of `icb_recv` from a state between two iterations returns, and
its result is that of the bytewise machine. -/
theorem icb_recv_loop_steps {σ : Type} (h : σ → List Nat → σ) (fuel : Nat) (f : IcbFramer)
    (s : σ) (buf : List Nat) (hfuel : buf.length + 1 ≤ fuel) (hok : f.ok) :
    icb_recv_loop h fuel f s buf = .ok (buf.foldl (icb_step h) (f, s)) := by
  cases buf with
  | nil => simp [icb_recv_loop]
  | cons b rest =>
    cases fuel with
    | zero => omega
    | succ n =>
      have hn : (b :: rest).length ≤ n := by omega
      have hn' : rest.length ≤ n := by simp at hn; omega
      simp only [icb_recv_loop, IcbFramer.off]
      rcases hok with hnil | ⟨hlt, hb⟩
      · have h0 : f.cmd.length = 0 := by rw [hnil]; rfl
        simp only [h0, if_true]
        have := icb_fill_steps h rest n [b % 256] s hn' (by simp) (by simp)
          (by simp only [cmd0]; omega)
        rw [this]
        simp only [List.foldl_cons, icb_step, hnil, List.nil_append]
      · have hne : f.cmd ≠ [] := by
          intro hnil; rw [hnil] at hlt; simp [cmd0] at hlt
        have hl := length_pos_of_ne_nil' hne
        have h0 : ¬ f.cmd.length = 0 := by omega
        simp only [h0, if_false]
        have := icb_fill_steps h (b :: rest) n f.cmd s hn hne (by omega) hb
        rw [this]
        have hne2 : ¬ (f.cmd.length - 1 = cmd0 f.cmd) := by omega
        simp only [hne2, if_false]

theorem icb_step_ok {σ : Type} (h : σ → List Nat → σ) (st : IcbFramer × σ) (b : Nat)
    (hok : st.1.ok) : (icb_step h st b).1.ok := by
  unfold icb_step
  simp only
  split
  · left; rfl
  · rename_i hne
    right
    rcases hok with hnil | ⟨hlt, hb⟩
    · rw [hnil] at hne ⊢
      simp only [List.nil_append, List.length_singleton, cmd0] at hne ⊢
      omega
    · have hne' : st.1.cmd ≠ [] := by
        intro hnil; rw [hnil] at hlt; simp [cmd0] at hlt
      rw [cmd0_append hne'] at hne ⊢
      simp only [List.length_append, List.length_singleton] at hne ⊢
      omega

theorem icb_steps_ok {σ : Type} (h : σ → List Nat → σ) (buf : List Nat) :
    ∀ st : IcbFramer × σ, st.1.ok → (buf.foldl (icb_step h) st).1.ok := by
  induction buf with
  | nil => intro st hst; exact hst
  | cons b rest ih => intro st hst; exact ih _ (icb_step_ok h st b hst)

/-- Any chunking: the calls of `icb_recv` on the chunks all return and give
what the bytewise machine gives on the concatenation. -/
theorem icb_recv_chunks_steps {σ : Type} (h : σ → List Nat → σ) (chunks : List (List Nat)) :
    ∀ (f : IcbFramer) (s : σ), f.ok →
      icb_recv_chunks h f s chunks = .ok (chunks.flatten.foldl (icb_step h) (f, s)) := by
  induction chunks with
  | nil => intro f s _; rfl
  | cons c cs ih =>
    intro f s hok
    have h1 : icb_recv h f s c = .ok (c.foldl (icb_step h) (f, s)) :=
      icb_recv_loop_steps h _ f s c (le_refl _) hok
    have h2 := icb_steps_ok h c (f, s) hok
    simp only [icb_recv_chunks, h1, List.flatten_cons, List.foldl_append]
    exact ih _ _ h2

/-- The bytewise machine on the body of a packet whose length byte is
buffered: it dispatches when the last byte arrives. -/
theorem icb_steps_body {σ : Type} (h : σ → List Nat → σ) (bytes : List Nat) :
    ∀ (cmd : List Nat) (s : σ), cmd ≠ [] → bytes ≠ [] →
      cmd.length - 1 + bytes.length = cmd0 cmd → (∀ b ∈ bytes, b < 256) →
      bytes.foldl (icb_step h) (⟨cmd⟩, s) = (⟨[]⟩, h s (cmd.drop 1 ++ bytes)) := by
  induction bytes with
  | nil => intro cmd s _ hb; exact absurd rfl hb
  | cons b rest ih =>
    intro cmd s hne _ hlen hbytes
    have hl := length_pos_of_ne_nil' hne
    have hb : b % 256 = b := Nat.mod_eq_of_lt (hbytes b (by simp))
    have hdrop : (cmd ++ [b]).drop 1 = cmd.drop 1 ++ [b] := by
      cases cmd with
      | nil => exact absurd rfl hne
      | cons a t => rfl
    simp only [List.length_cons] at hlen
    by_cases hrest : rest = []
    · subst hrest
      simp only [List.length_nil] at hlen
      simp only [List.foldl_cons, List.foldl_nil, icb_step, hb, cmd0_append hne,
        List.length_append, List.length_singleton]
      rw [if_pos (by omega), hdrop]
    · have hrl := length_pos_of_ne_nil' hrest
      simp only [List.foldl_cons, icb_step, hb, cmd0_append hne,
        List.length_append, List.length_singleton]
      rw [if_neg (by omega)]
      rw [ih (cmd ++ [b]) s (by simp) hrest
        (by rw [cmd0_append hne]; simp only [List.length_append, List.length_singleton]; omega)
        (fun x hx => hbytes x (by simp [hx]))]
      rw [hdrop, List.append_assoc]; rfl

/-- The bytewise machine on one whole packet, from an empty accumulator. -/
theorem icb_steps_packet {σ : Type} (h : σ → List Nat → σ) (p : Packet) (hp : p.valid)
    (s : σ) : p.encode.foldl (icb_step h) (⟨[]⟩, s) = (⟨[]⟩, h s p.body) := by
  obtain ⟨ht, hlen, hpay⟩ := hp
  have hL : (p.payload.length + 1) % 256 = p.payload.length + 1 := Nat.mod_eq_of_lt (by omega)
  have h1 : icb_step h (⟨[]⟩, s) (p.payload.length + 1) = (⟨[p.payload.length + 1]⟩, s) := by
    simp only [icb_step, List.nil_append, hL, List.length_singleton, cmd0]
    rw [if_neg (by omega)]
  simp only [Packet.encode, List.foldl_cons, h1]
  have := icb_steps_body h p.body [p.payload.length + 1] s (by simp) (by simp [Packet.body])
    (by simp [Packet.body, cmd0])
    (by
      intro b hb
      simp only [Packet.body, List.mem_cons] at hb
      rcases hb with rfl | hb
      · exact ht
      · exact hpay b hb)
  simpa using this

theorem icb_steps_packets {σ : Type} (h : σ → List Nat → σ) (pkts : List Packet) :
    ∀ s : σ, (∀ p ∈ pkts, p.valid) →
      (pkts.map Packet.encode).flatten.foldl (icb_step h) (⟨[]⟩, s)
        = (⟨[]⟩, pkts.foldl (fun s p => h s p.body) s) := by
  induction pkts with
  | nil => intro s _; rfl
  | cons p ps ih =>
    intro s hv
    simp only [List.map_cons, List.flatten_cons, List.foldl_append, List.foldl_cons]
    rw [icb_steps_packet h p (hv p (by simp)) s]
    exact ih _ (fun q hq => hv q (by simp [hq]))

/-- C1. Every sequence of valid ICB packets (length byte `L` in 1..255, a
type byte, `L - 1` payload bytes), cut into chunks in any way and fed chunk by
chunk to `icb_recv` from the state left by `icb_init`: every call returns, the
handler standing for `icb_cmd` is applied exactly once per packet, in the
original order, to that packet's type byte followed by its payload, and the
accumulator is empty at the end (`off = 0`). -/
theorem icb_recv_delivers_packets {σ : Type} (h : σ → List Nat → σ) (s : σ)
    (pkts : List Packet) (chunks : List (List Nat))
    (hvalid : ∀ p ∈ pkts, p.valid)
    (hchunks : chunks.flatten = (pkts.map Packet.encode).flatten) :
    ∃ f, icb_recv_chunks h icb_init_framer s chunks
          = .ok (f, pkts.foldl (fun s p => h s p.body) s) ∧ f.off = 0 := by
  refine ⟨⟨[]⟩, ?_, rfl⟩
  rw [icb_recv_chunks_steps h chunks icb_init_framer s (Or.inl rfl), hchunks]
  exact congrArg Except.ok (icb_steps_packets h pkts s hvalid)

/-! ## The IRC framer -/

theorem irc_loop_store {σ : Type} (h : σ → List Nat → σ) (n : Nat) (cmd : List Nat) (s : σ)
    (b : Nat) (rest : List Nat) (hb : b ≠ 10) (hlen : cmd.length < irc_sizeof_cmd - 1) :
    irc_recv_loop h (n + 1) ⟨cmd⟩ s (b :: rest) = irc_recv_loop h (n + 1) ⟨cmd ++ [b]⟩ s rest := by
  have hfill : irc_fill cmd (b :: rest) = irc_fill (cmd ++ [b]) rest := by
    simp only [irc_fill, hlen, hb, ne_eq, not_false_eq_true, and_self, if_true]
  cases rest with
  | nil =>
    have hfill' : irc_fill cmd [b] = (cmd ++ [b], []) := by rw [hfill]; rfl
    simp only [irc_recv_loop, hfill', irc_skip, ite_self]
  | cons c rest' =>
    simp only [irc_recv_loop, hfill]

theorem irc_loop_drop {σ : Type} (h : σ → List Nat → σ) (n : Nat) (cmd : List Nat) (s : σ)
    (b : Nat) (rest : List Nat) (hb : b ≠ 10) (hlen : cmd.length = irc_sizeof_cmd - 1) :
    irc_recv_loop h (n + 1) ⟨cmd⟩ s (b :: rest) = irc_recv_loop h (n + 1) ⟨cmd⟩ s rest := by
  have hnl : ¬ cmd.length < irc_sizeof_cmd - 1 := by omega
  have hfill : ∀ x, irc_fill cmd x = (cmd, x) := by
    intro x
    cases x with
    | nil => rfl
    | cons a t => simp only [irc_fill, hnl, false_and, if_false]
  cases rest with
  | nil => simp [irc_recv_loop, hfill, hlen, irc_skip, hb]
  | cons c rest' =>
    simp only [irc_recv_loop, hfill, hlen, if_true]
    simp only [irc_skip, hb, ne_eq, not_false_eq_true, if_true]

/-- The outer loop of `irc_recv` returns, with the result of the bytewise
machine. -/
theorem irc_recv_loop_steps {σ : Type} (h : σ → List Nat → σ) (buf : List Nat) :
    ∀ (fuel : Nat) (cmd : List Nat) (s : σ), buf.length ≤ fuel →
      cmd.length ≤ irc_sizeof_cmd - 1 →
      irc_recv_loop h fuel ⟨cmd⟩ s buf = .ok (buf.foldl (irc_step h) (⟨cmd⟩, s)) := by
  induction buf with
  | nil => intro fuel cmd s _ _; cases fuel <;> rfl
  | cons b rest ih =>
    intro fuel cmd s hfuel hlen
    simp only [List.length_cons] at hfuel
    cases fuel with
    | zero => omega
    | succ n =>
      by_cases hb : b = 10
      · subst hb
        have hfill : irc_fill cmd (10 :: rest) = (cmd, 10 :: rest) := by
          simp [irc_fill]
        simp only [irc_recv_loop, hfill, irc_skip, ne_eq, not_true_eq_false, if_false,
          ite_self, if_true]
        rw [ih n [] _ (by omega) (by simp)]
        simp only [List.foldl_cons, irc_step, if_true]
      · by_cases hfull : cmd.length < irc_sizeof_cmd - 1
        · rw [irc_loop_store h n cmd s b rest hb hfull]
          rw [ih (n + 1) (cmd ++ [b]) s (by omega)
            (by simp only [List.length_append, List.length_singleton]; omega)]
          simp only [List.foldl_cons, irc_step, hb, if_false, hfull, if_true]
        · rw [irc_loop_drop h n cmd s b rest hb (by omega)]
          rw [ih (n + 1) cmd s (by omega) hlen]
          simp only [List.foldl_cons, irc_step, hb, if_false, hfull]

theorem irc_step_len {σ : Type} (h : σ → List Nat → σ) (st : IrcFramer × σ) (b : Nat)
    (hlen : st.1.cmd.length ≤ irc_sizeof_cmd - 1) :
    (irc_step h st b).1.cmd.length ≤ irc_sizeof_cmd - 1 := by
  unfold irc_step
  split
  · simp
  · split
    · simp only [List.length_append, List.length_singleton]; omega
    · exact hlen

theorem irc_steps_len {σ : Type} (h : σ → List Nat → σ) (buf : List Nat) :
    ∀ st : IrcFramer × σ, st.1.cmd.length ≤ irc_sizeof_cmd - 1 →
      (buf.foldl (irc_step h) st).1.cmd.length ≤ irc_sizeof_cmd - 1 := by
  induction buf with
  | nil => intro st hst; exact hst
  | cons b rest ih => intro st hst; exact ih _ (irc_step_len h st b hst)

/-- Any chunking: the calls of `irc_recv` on the chunks all return and give
what the bytewise machine gives on the concatenation. -/
theorem irc_recv_chunks_steps {σ : Type} (h : σ → List Nat → σ) (chunks : List (List Nat)) :
    ∀ (f : IrcFramer) (s : σ), f.cmd.length ≤ irc_sizeof_cmd - 1 →
      irc_recv_chunks h f s chunks = .ok (chunks.flatten.foldl (irc_step h) (f, s)) := by
  induction chunks with
  | nil => intro f s _; rfl
  | cons c cs ih =>
    intro f s hok
    have h1 : irc_recv h f s c = .ok (c.foldl (irc_step h) (f, s)) :=
      irc_recv_loop_steps h c _ f.cmd s (by omega) hok
    have h2 := irc_steps_len h c (f, s) hok
    simp only [irc_recv_chunks, h1, List.flatten_cons, List.foldl_append]
    exact ih _ _ h2

theorem cstr_length_le (l : List Nat) : (cstr l).length ≤ l.length := by
  induction l with
  | nil => simp [cstr]
  | cons b rest ih =>
    simp only [cstr]
    split
    · simp
    · simp only [List.length_cons]; omega

theorem cstr_of_no_nul (l : List Nat) (h : 0 ∉ l) : cstr l = l := by
  induction l with
  | nil => rfl
  | cons b rest ih =>
    simp only [List.mem_cons, not_or] at h
    simp only [cstr]
    rw [if_neg (fun hb => h.1 hb.symm), ih h.2]

theorem irc_line_length_le (cmd : List Nat) : (irc_line cmd).length ≤ cmd.length := by
  unfold irc_line
  split
  · exact le_trans (cstr_length_le _) (by simp)
  · exact cstr_length_le _

theorem irc_line_of_no_nul (l : List Nat) (h : 0 ∉ l) : irc_line l = without_trailing_cr l := by
  unfold irc_line without_trailing_cr
  split
  · exact cstr_of_no_nul _ (fun hm => h (List.mem_of_mem_dropLast hm))
  · exact cstr_of_no_nul _ h

/-- The recording machine: every `'\n'` adds one command, none longer than
the buffer allows. -/
theorem irc_steps_record_count (buf : List Nat) :
    ∀ st : IrcFramer × List (List Nat), st.1.cmd.length ≤ irc_sizeof_cmd - 1 →
      (∀ c ∈ st.2, c.length ≤ irc_sizeof_cmd - 1) →
      (buf.foldl (irc_step record) st).2.length = st.2.length + buf.count 10 ∧
      ∀ c ∈ (buf.foldl (irc_step record) st).2, c.length ≤ irc_sizeof_cmd - 1 := by
  induction buf with
  | nil => intro st _ hall; exact ⟨by simp, hall⟩
  | cons b rest ih =>
    intro st hlen hall
    have hlen' := irc_step_len record st b hlen
    have hall' : ∀ c ∈ (irc_step record st b).2, c.length ≤ irc_sizeof_cmd - 1 := by
      unfold irc_step
      split
      · intro c hc
        simp only [record, List.mem_append, List.mem_singleton] at hc
        rcases hc with hc | rfl
        · exact hall c hc
        · exact le_trans (irc_line_length_le _) hlen
      · split <;> exact hall
    have hcount : (irc_step record st b).2.length = st.2.length + (if b = 10 then 1 else 0) := by
      unfold irc_step
      split
      · simp [record]
      · split <;> simp
    obtain ⟨h1, h2⟩ := ih _ hlen' hall'
    refine ⟨?_, h2⟩
    simp only [List.foldl_cons, h1, hcount, List.count_cons, beq_iff_eq]
    omega

/-- C2. For every sequence of chunks fed to `irc_recv` from an empty
accumulator, every call returns, the number of commands handed to `irc_cmd`
is the number of `'\n'` bytes in the concatenation of the chunks, and no
command handed over is longer than 65534 bytes. -/
theorem irc_recv_command_count (chunks : List (List Nat)) :
    ∃ f cmds, irc_recv_chunks record ⟨[]⟩ [] chunks = .ok (f, cmds) ∧
      cmds.length = chunks.flatten.count 10 ∧ ∀ c ∈ cmds, c.length ≤ 65534 := by
  refine ⟨_, _, irc_recv_chunks_steps record chunks ⟨[]⟩ [] (by simp), ?_⟩
  have := irc_steps_record_count chunks.flatten (⟨[]⟩, []) (by simp) (by simp)
  simpa [irc_sizeof_cmd] using this

/-- Bytes other than `'\n'` are stored while there is room and dropped
afterwards. -/
theorem irc_steps_no_newline {σ : Type} (h : σ → List Nat → σ) (s : σ) (l : List Nat) :
    ∀ cmd : List Nat, 10 ∉ l → cmd.length ≤ irc_sizeof_cmd - 1 →
      l.foldl (irc_step h) (⟨cmd⟩, s)
        = (⟨cmd ++ l.take (irc_sizeof_cmd - 1 - cmd.length)⟩, s) := by
  induction l with
  | nil => intro cmd _ _; simp
  | cons b rest ih =>
    intro cmd hnl hlen
    simp only [List.mem_cons, not_or] at hnl
    have hb : ¬ b = 10 := fun hb => hnl.1 hb.symm
    by_cases hfull : cmd.length < irc_sizeof_cmd - 1
    · simp only [List.foldl_cons, irc_step, hb, if_false, hfull, if_true]
      rw [ih (cmd ++ [b]) hnl.2
        (by simp only [List.length_append, List.length_singleton]; omega)]
      have : irc_sizeof_cmd - 1 - cmd.length
          = (irc_sizeof_cmd - 1 - (cmd ++ [b]).length) + 1 := by
        simp only [List.length_append, List.length_singleton]; omega
      rw [this, List.take_succ_cons]
      simp
    · simp only [List.foldl_cons, irc_step, hb, if_false, hfull]
      have h0 : irc_sizeof_cmd - 1 - cmd.length = 0 := by omega
      have := ih cmd hnl.2 hlen
      simp only [h0, List.take_zero, List.append_nil] at this ⊢
      exact this

theorem irc_steps_line {σ : Type} (h : σ → List Nat → σ) (s : σ) (l : List Nat)
    (hnl : 10 ∉ l) :
    (l ++ [10]).foldl (irc_step h) (⟨[]⟩, s)
      = (⟨[]⟩, h s (irc_line (l.take (irc_sizeof_cmd - 1)))) := by
  rw [List.foldl_append, irc_steps_no_newline h s l [] hnl (by simp)]
  simp [irc_step]

theorem irc_steps_lines {σ : Type} (h : σ → List Nat → σ) (lines : List (List Nat)) :
    ∀ s : σ, (∀ l ∈ lines, 10 ∉ l) →
      (lines.map (· ++ [10])).flatten.foldl (irc_step h) (⟨[]⟩, s)
        = (⟨[]⟩, lines.foldl (fun s l => h s (irc_line (l.take (irc_sizeof_cmd - 1)))) s) := by
  induction lines with
  | nil => intro s _; rfl
  | cons l ls ih =>
    intro s hl
    rw [List.map_cons, List.flatten_cons, List.foldl_append,
      irc_steps_line h s l (hl l (by simp)), List.foldl_cons]
    exact ih _ (fun q hq => hl q (by simp [hq]))

theorem foldl_record (g : List Nat → List Nat) (lines : List (List Nat)) :
    ∀ log : List (List Nat),
      lines.foldl (fun s l => record s (g l)) log = log ++ lines.map g := by
  induction lines with
  | nil => intro log; simp
  | cons l ls ih =>
    intro log
    rw [List.foldl_cons, ih, record, List.map_cons, List.append_assoc]
    rfl

/-- C3. For every chunking of an input made of `'\n'`-terminated lines
(followed by an unterminated rest), every call of `irc_recv` returns and the
commands handed to `irc_cmd` correspond one to one, in order, to the lines;
each line of at most 65534 bytes without NUL is handed over as exactly that
line with the `'\r'` right before the `'\n'` removed; and a second chunking
of the same input gives the same commands and the same final state. -/
theorem irc_recv_lines (lines : List (List Nat)) (tail : List Nat)
    (chunks chunks' : List (List Nat))
    (hlines : ∀ l ∈ lines, 10 ∉ l) (htail : 10 ∉ tail)
    (hcat : chunks.flatten = (lines.map (· ++ [10])).flatten ++ tail)
    (hcat' : chunks'.flatten = chunks.flatten) :
    ∃ f cmds, irc_recv_chunks record ⟨[]⟩ [] chunks = .ok (f, cmds) ∧
      List.Forall₂ (fun l c => l.length ≤ 65534 → 0 ∉ l → c = without_trailing_cr l)
        lines cmds ∧
      irc_recv_chunks record ⟨[]⟩ [] chunks' = .ok (f, cmds) := by
  have hrun := irc_recv_chunks_steps record chunks ⟨[]⟩ [] (by simp)
  have hrun' := irc_recv_chunks_steps record chunks' ⟨[]⟩ [] (by simp)
  rw [hcat'] at hrun'
  rw [hcat, List.foldl_append, irc_steps_lines record lines [] hlines,
    irc_steps_no_newline record _ tail [] htail (by simp), foldl_record] at hrun
  rw [hcat, List.foldl_append, irc_steps_lines record lines [] hlines,
    irc_steps_no_newline record _ tail [] htail (by simp), foldl_record] at hrun'
  refine ⟨_, _, hrun, ?_, hrun'⟩
  simp only [List.nil_append, List.forall₂_map_right_iff, List.forall₂_same]
  intro l _ hlen h0
  have : l.take (irc_sizeof_cmd - 1) = l := List.take_of_length_le (by simpa [irc_sizeof_cmd] using hlen)
  rw [this]
  exact irc_line_of_no_nul l h0

/-- Witness for C1: the packets `b"hi"` and `n`, cut into three chunks in the
middle of both. -/
theorem icb_recv_delivers_packets_witness :
    (∀ p ∈ [Packet.mk 98 [104, 105], Packet.mk 110 []], p.valid) ∧
    [[3, 98], [104], [105, 1, 110]].flatten
      = ([Packet.mk 98 [104, 105], Packet.mk 110 []].map Packet.encode).flatten ∧
    ∃ f, icb_recv_chunks record icb_init_framer [] [[3, 98], [104], [105, 1, 110]]
          = .ok (f, [[98, 104, 105], [110]]) ∧ f.off = 0 :=
  have hv : ∀ p ∈ [Packet.mk 98 [104, 105], Packet.mk 110 []], p.valid := by
    intro p hp
    simp only [List.mem_cons, List.mem_singleton, List.not_mem_nil, or_false] at hp
    rcases hp with rfl | rfl <;> simp [Packet.valid]
  ⟨hv, by decide,
    icb_recv_delivers_packets record [] [Packet.mk 98 [104, 105], Packet.mk 110 []]
      [[3, 98], [104], [105, 1, 110]] hv (by decide)⟩

/-- Witness for C3: the lines `"hi\r"` and `""` followed by an unterminated
`"x"`, in two chunkings. -/
theorem irc_recv_lines_witness :
    ∃ f, irc_recv_chunks record ⟨[]⟩ [] [[104], [105, 13, 10, 10], [120]]
        = .ok (f, [[104, 105], []]) ∧
      irc_recv_chunks record ⟨[]⟩ [] [[104, 105, 13], [10, 10, 120]]
        = .ok (f, [[104, 105], []]) := by
  obtain ⟨f, cmds, h1, h2, h3⟩ := irc_recv_lines [[104, 105, 13], []] [120]
    [[104], [105, 13, 10, 10], [120]] [[104, 105, 13], [10, 10, 120]]
    (by decide) (by decide) (by decide) (by decide)
  have hc : cmds = [[104, 105], []] := by
    cases h2 with
    | cons ha hrest =>
      cases hrest with
      | cons hb hnil =>
        cases hnil
        rw [ha (by decide) (by decide), hb (by decide) (by decide)]
        decide
  subst hc
  exact ⟨f, h1, h3⟩

/-! ## The packet builders -/

theorem icb_copy_no_nul (src : List Nat) :
    ∀ cmd : List Nat, 0 ∉ src →
      icb_copy cmd src
        = (cmd ++ src.take (MAX_MSG_SIZE - cmd.length), src.drop (MAX_MSG_SIZE - cmd.length)) := by
  induction src with
  | nil => intro cmd _; simp [icb_copy]
  | cons b rest ih =>
    intro cmd h0
    simp only [List.mem_cons, not_or] at h0
    have hb : b ≠ 0 := fun hb => h0.1 hb.symm
    by_cases hfull : cmd.length < MAX_MSG_SIZE
    · simp only [icb_copy, hb, ne_eq, not_false_eq_true, hfull, and_self, if_true]
      rw [ih (cmd ++ [b]) h0.2]
      have : MAX_MSG_SIZE - cmd.length = (MAX_MSG_SIZE - (cmd ++ [b]).length) + 1 := by
        simp only [List.length_append, List.length_singleton]; omega
      rw [this, List.take_succ_cons, List.drop_succ_cons]
      simp
    · have h0' : MAX_MSG_SIZE - cmd.length = 0 := by omega
      simp only [icb_copy, hfull, and_false, if_false, h0', List.take_zero, List.drop_zero,
        List.append_nil]

theorem icb_openmsg_cmd_no_nul (msg : List Nat) (h0 : 0 ∉ msg) :
    icb_openmsg_cmd msg = .ok (openmsg_packet (msg.take 244), msg.drop 244) := by
  have hlen : (msg.take 244).length ≤ 244 := by simp
  have hu : usub ((msg.take 244).length + 3) 1 % 256 = (msg.take 244).length + 2 := by
    unfold usub; omega
  have hput : put cmd_start 98 = .ok [0, 98] := rfl
  simp only [icb_openmsg_cmd, hput, bind, Except.bind, pure, Except.pure]
  rw [icb_copy_no_nul msg [0, 98] h0]
  have h244 : MAX_MSG_SIZE - [0, 98].length = 244 := rfl
  simp only [h244]
  have hput2 : put ([0, 98] ++ msg.take 244) 0 = .ok ([0, 98] ++ msg.take 244 ++ [0]) := by
    unfold put
    rw [if_pos]
    simp only [List.length_append, List.length_cons, List.length_nil]; omega
  simp only [hput2, icb_finish, openmsg_packet]
  have hl : ([0, 98] ++ msg.take 244 ++ [0]).length = (msg.take 244).length + 3 := by
    simp only [List.length_append, List.length_cons, List.length_nil]; omega
  rw [hl, hu]
  rfl

/-- The loop of `icb_send_openmsg` on a NUL-free message ends and sends the
message in slices of 244 bytes. -/
theorem icb_openmsg_loop_chunks (fuel : Nat) :
    ∀ msg : List Nat, 0 ∉ msg → msg.length ≤ fuel →
      ∃ chunks : List (List Nat),
        icb_openmsg_loop fuel msg = .ok (chunks.map openmsg_packet) ∧
        chunks.flatten = msg ∧ chunks.length = (msg.length + 243) / 244 ∧
        ∀ c ∈ chunks, c ≠ [] ∧ c.length ≤ 244 := by
  induction fuel with
  | zero =>
    intro msg _ hlen
    have : msg = [] := List.length_eq_zero.mp (by omega)
    subst this
    exact ⟨[], rfl, rfl, rfl, by simp⟩
  | succ n ih =>
    intro msg h0 hlen
    cases msg with
    | nil => exact ⟨[], rfl, rfl, rfl, by simp⟩
    | cons m rest =>
      have hm : m ≠ 0 := fun hm => h0 (by simp [hm])
      have h0' : 0 ∉ (m :: rest).drop 244 := fun hmem => h0 (List.mem_of_mem_drop hmem)
      simp only [List.length_cons] at hlen
      obtain ⟨chunks, hrun, hflat, hcount, hall⟩ := ih ((m :: rest).drop 244) h0'
        (by simp only [List.length_drop, List.length_cons]; omega)
      refine ⟨(m :: rest).take 244 :: chunks, ?_, ?_, ?_, ?_⟩
      · simp only [icb_openmsg_loop, hm, if_false, icb_openmsg_cmd_no_nul (m :: rest) h0,
          hrun, List.map_cons]
      · simp only [List.flatten_cons, hflat, List.take_append_drop]
      · simp only [List.length_cons, hcount, List.length_drop]
        omega
      · intro c hc
        simp only [List.mem_cons] at hc
        rcases hc with rfl | hc
        · constructor
          · simp
          · simp only [List.length_take, List.length_cons]; omega
        · exact hall c hc

/-- C5. For every NUL-free message of length `n`, `icb_send_openmsg` returns
after writing exactly `ceil(n / 244)` packets and nothing else; each packet
is a length byte, `'b'`, a non-empty chunk of the message and one NUL, at most
247 bytes in all; the chunks in the order sent concatenate to the message;
for the empty message nothing is written. -/
theorem icb_send_openmsg_split (s : Session) (fd : Fd) (msg : List Nat) (h0 : 0 ∉ msg) :
    (∃ chunks : List (List Nat),
      icb_send_openmsg s fd msg = .ok (sync_write_all s fd (chunks.map openmsg_packet)) ∧
      chunks.flatten = msg ∧ chunks.length = (msg.length + 243) / 244 ∧
      ∀ c ∈ chunks, c ≠ [] ∧ (openmsg_packet c).length ≤ 247) ∧
    (msg = [] → icb_send_openmsg s fd msg = .ok s) := by
  constructor
  · obtain ⟨chunks, hrun, hflat, hcount, hall⟩ :=
      icb_openmsg_loop_chunks (msg.length + 1) msg h0 (by omega)
    refine ⟨chunks, ?_, hflat, hcount, ?_⟩
    · simp only [icb_send_openmsg, hrun, bind, Except.bind, pure, Except.pure]
    · intro c hc
      refine ⟨(hall c hc).1, ?_⟩
      have := (hall c hc).2
      simp only [openmsg_packet, List.length_cons, List.length_append, List.length_nil]
      omega
  · intro hmsg
    subst hmsg
    rfl

/-- Witness for C5: a message of 600 bytes goes out in three packets. -/
theorem icb_send_openmsg_split_witness :
    0 ∉ List.replicate 600 120 ∧
    ∃ chunks : List (List Nat),
      icb_send_openmsg session_zero Fd.server (List.replicate 600 120)
        = .ok (sync_write_all session_zero Fd.server (chunks.map openmsg_packet)) ∧
      chunks.flatten = List.replicate 600 120 ∧ chunks.length = 3 ∧
      ∀ c ∈ chunks, c ≠ [] ∧ (openmsg_packet c).length ≤ 247 :=
  have h0 : 0 ∉ List.replicate 600 120 := fun h => by
    have := (List.mem_replicate.mp h).2
    omega
  ⟨h0, by
    obtain ⟨chunks, h1, h2, h3, h4⟩ :=
      (icb_send_openmsg_split session_zero Fd.server (List.replicate 600 120) h0).1
    rw [List.length_replicate] at h3
    exact ⟨chunks, h1, h2, by omega, h4⟩⟩

/-- An iteration of the loop of `icb_send_privmsg` that leaves `msg` where
it was is followed by the same iteration again: the loop never ends. -/
theorem icb_privmsg_loop_stuck (nick : List Nat) (m : Nat) (rest cmd : List Nat)
    (hm : m ≠ 0) (hstuck : icb_privmsg_cmd nick (m :: rest) = .ok (cmd, m :: rest)) :
    ∀ fuel, icb_privmsg_loop fuel nick (m :: rest) = .error .diverges := by
  intro fuel
  induction fuel with
  | zero => simp only [icb_privmsg_loop, hm, if_false]
  | succ n ih => simp only [icb_privmsg_loop, hm, if_false, hstuck, ih]

/-! ## The enquiries -/

theorem icb_hw_cmd_list : icb_h_cmd (lit "w") (lit "-g") = .ok [6, 104, 119, 1, 45, 103, 0] := rfl

theorem icb_hw_cmd_empty : icb_h_cmd (lit "w") [] = .ok [4, 104, 119, 1, 0] := rfl

set_option maxRecDepth 100000 in
/-- C9 (counterexample). `icb_send_names` with a group argument of 256
bytes and no enquiry outstanding: the query field `igroup` receives only the
first 255 bytes, not the argument. -/
theorem icb_send_names_truncates :
    ∃ s', icb_send_names session_zero Fd.server (List.replicate 256 120) = .ok s' ∧
      s'.imode = imode_names ∧ s'.igroup = List.replicate 255 120 ∧
      s'.igroup ≠ List.replicate 256 120 :=
  ⟨_, rfl, rfl, by decide, by decide⟩

/-- C9 (amended). For each of `icb_send_list`, `icb_send_names`,
`icb_send_whois` and `icb_send_who`: with `imode != imode_none` the call
writes nothing and changes nothing; with `imode = imode_none` it sets `imode`
to list / names / whois / who, stores the first 255 bytes of its argument (the
C string at the pointer) in `igroup` / `inick` / `ihostmask` (`icb_send_list`
has no argument and stores nothing), clears `icurgroup`, and writes exactly
one `hw` packet: `hw\001-g` NUL for the list enquiry, `hw\001` NUL for the
others. -/
theorem icb_send_enquiry (s : Session) (fd : Fd) (arg : List Nat) :
    (s.imode ≠ imode_none →
      icb_send_list s fd = .ok s ∧ icb_send_names s fd arg = .ok s ∧
      icb_send_whois s fd arg = .ok s ∧ icb_send_who s fd arg = .ok s) ∧
    (s.imode = imode_none →
      icb_send_list s fd
        = .ok (sync_write { s with imode := imode_list, icurgroup := [] } fd
            [6, 104, 119, 1, 45, 103, 0]) ∧
      icb_send_names s fd arg
        = .ok (sync_write { s with imode := imode_names, igroup := (cstr arg).take 255,
                                   icurgroup := [] } fd [4, 104, 119, 1, 0]) ∧
      icb_send_whois s fd arg
        = .ok (sync_write { s with imode := imode_whois, inick := (cstr arg).take 255,
                                   icurgroup := [] } fd [4, 104, 119, 1, 0]) ∧
      icb_send_who s fd arg
        = .ok (sync_write { s with imode := imode_who, ihostmask := (cstr arg).take 255,
                                   icurgroup := [] } fd [4, 104, 119, 1, 0])) := by
  constructor
  · intro h
    simp only [icb_send_list, icb_send_names, icb_send_whois, icb_send_who, h, ne_eq,
      not_false_eq_true, if_true, and_self]
  · intro h
    simp only [icb_send_list, icb_send_names, icb_send_whois, icb_send_who, h, ne_eq,
      not_true_eq_false, if_false, icb_send_hw, icb_hw_cmd_list, icb_hw_cmd_empty, bind,
      Except.bind, pure, Except.pure, strlcpy, and_self, Session.set_imode, Session.set_igroup,
      Session.set_inick, Session.set_ihostmask, Session.set_icurgroup]

/-! ## `icb_args` -/

theorem intercalate_snoc (sep : List Nat) (xs : List (List Nat)) (y : List Nat)
    (hne : xs ≠ []) :
    List.intercalate sep (xs ++ [y]) = List.intercalate sep xs ++ sep ++ y := by
  induction xs with
  | nil => exact absurd rfl hne
  | cons x rest ih =>
    cases rest with
    | nil => simp [List.intercalate]
    | cons z rest' =>
      have := ih (by simp)
      simp only [List.intercalate, List.cons_append, List.intersperse_cons₂, List.flatten_cons,
        List.append_assoc] at this ⊢
      rw [this]

/-- The loop of `icb_args` on a payload that fits: no store leaves the
array, the fields joined by `\001` reproduce the payload with `'\r'` and
`'\n'` turned into `'?'`, and no field holds a `\001`, `'\r'` or `'\n'`. -/
theorem icb_args_loop_spec (data : List Nat) :
    ∀ (done : List (List Nat)) (cur : List Nat),
      done.length + cur.length + data.length ≤ 254 →
      (∀ f ∈ done ++ [cur], 1 ∉ f ∧ 13 ∉ f ∧ 10 ∉ f) →
      ∃ done' cur', icb_args_loop data done cur = .ok (done', cur') ∧
        done'.length + cur'.length ≤ 254 ∧
        List.intercalate [1] (done' ++ [cur'])
          = List.intercalate [1] (done ++ [cur])
            ++ data.map (fun b => if b = 13 ∨ b = 10 then 63 else b) ∧
        ∀ f ∈ done' ++ [cur'], 1 ∉ f ∧ 13 ∉ f ∧ 10 ∉ f := by
  induction data with
  | nil =>
    intro done cur hlen hclean
    exact ⟨done, cur, rfl, by simpa using hlen, by simp, hclean⟩
  | cons b rest ih =>
    intro done cur hlen hclean
    simp only [List.length_cons] at hlen
    have hin : done.length < 255 ∧ cur.length < 255 := by omega
    by_cases hsep : b = 1
    · subst hsep
      obtain ⟨d', c', hrun, hl, hjoin, hcl⟩ := ih (done ++ [cur]) []
        (by simp only [List.length_append, List.length_singleton, List.length_nil]; omega)
        (by
          intro f hf
          simp only [List.mem_append, List.mem_singleton] at hf
          rcases hf with hf | rfl
          · exact hclean f (by simpa using hf)
          · simp)
      refine ⟨d', c', ?_, hl, ?_, hcl⟩
      · simp only [icb_args_loop, hin, and_self, if_true, hrun]
      · rw [hjoin, intercalate_snoc [1] (done ++ [cur]) [] (by simp)]
        simp
    · by_cases hcr : b = 13 ∨ b = 10
      · obtain ⟨d', c', hrun, hl, hjoin, hcl⟩ := ih done (cur ++ [63])
          (by simp only [List.length_append, List.length_singleton]; omega)
          (by
            intro f hf
            simp only [List.mem_append, List.mem_singleton] at hf
            rcases hf with hf | rfl
            · exact hclean f (by simp [hf])
            · have := hclean cur (by simp)
              simp only [List.mem_append, List.mem_singleton, not_or]
              exact ⟨⟨this.1, by decide⟩, ⟨this.2.1, by decide⟩, ⟨this.2.2, by decide⟩⟩)
        refine ⟨d', c', ?_, hl, ?_, hcl⟩
        · simp only [icb_args_loop, hin, and_self, if_true, hsep, if_false, hcr, hrun]
        · rw [hjoin]
          simp only [List.map_cons, hcr, if_true]
          cases done with
          | nil => simp [List.intercalate]
          | cons d ds =>
            rw [intercalate_snoc [1] (d :: ds) _ (by simp),
              intercalate_snoc [1] (d :: ds) _ (by simp)]
            simp
      · obtain ⟨d', c', hrun, hl, hjoin, hcl⟩ := ih done (cur ++ [b])
          (by simp only [List.length_append, List.length_singleton]; omega)
          (by
            intro f hf
            simp only [List.mem_append, List.mem_singleton] at hf
            rcases hf with hf | rfl
            · exact hclean f (by simp [hf])
            · have := hclean cur (by simp)
              simp only [not_or] at hcr
              simp only [List.mem_append, List.mem_singleton, not_or]
              exact ⟨⟨this.1, fun h => hsep h.symm⟩, ⟨this.2.1, fun h => hcr.1 h.symm⟩,
                ⟨this.2.2, fun h => hcr.2 h.symm⟩⟩)
        refine ⟨d', c', ?_, hl, ?_, hcl⟩
        · simp only [icb_args_loop, hin, and_self, if_true, hsep, if_false, hcr, hrun]
        · rw [hjoin]
          simp only [List.map_cons, hcr, if_false]
          cases done with
          | nil => simp [List.intercalate]
          | cons d ds =>
            rw [intercalate_snoc [1] (d :: ds) _ (by simp),
              intercalate_snoc [1] (d :: ds) _ (by simp)]
            simp

theorem map_eq_snoc_last (g : Nat → Nat) (data X : List Nat) (z : Nat)
    (h : data.map g = X ++ [z]) : ∃ init l, data = init ++ [l] ∧ g l = z := by
  have hne : data ≠ [] := by
    intro hd; subst hd; simp at h
  refine ⟨data.dropLast, data.getLast hne, (List.dropLast_append_getLast hne).symm, ?_⟩
  have h2 : data.map g = data.dropLast.map g ++ [g (data.getLast hne)] := by
    conv_lhs => rw [← List.dropLast_append_getLast hne]
    simp
  rw [h2] at h
  exact (List.append_inj' h rfl).2 |> List.singleton_inj.mp

/-- C7. For every payload of at most 254 bytes `icb_args` returns a count
and fields of which none contains a `'\r'`, a `'\n'` or the separator; the
counted fields joined by `\001` (followed by the `\001` that ended the
payload, if one did) are the payload with every `'\r'` and `'\n'` replaced,
at its position, by `'?'` and every other byte unchanged. -/
theorem icb_args_no_cr_lf (data : List Nat) (hlen : data.length ≤ 254) :
    ∃ c fields, icb_args data = .ok (c, fields) ∧
      (∀ f ∈ fields, 1 ∉ f ∧ 13 ∉ f ∧ 10 ∉ f) ∧
      List.intercalate [1] (fields.take c)
          ++ (if data.getLast? = some 1 then [1] else [])
        = data.map (fun b => if b = 13 ∨ b = 10 then 63 else b) := by
  obtain ⟨d', c', hrun, hl, hjoin, hcl⟩ := icb_args_loop_spec data [] [] (by simpa using hlen)
    (by simp)
  have hnil : List.intercalate [1] ([] ++ [([] : List Nat)]) = [] := rfl
  rw [hnil, List.nil_append] at hjoin
  have hclean_pad : ∀ n, ∀ f ∈ List.replicate n ([] : List Nat), 1 ∉ f ∧ 13 ∉ f ∧ 10 ∉ f := by
    intro n f hf
    rw [List.eq_of_mem_replicate hf]
    simp
  by_cases hc : c' = []
  · subst hc
    refine ⟨d'.length, d' ++ List.replicate (255 - d'.length) [], ?_, ?_, ?_⟩
    · simp only [icb_args, hrun, List.length_nil, gt_iff_lt, lt_self_iff_false, if_false]
    · intro f hf
      rcases List.mem_append.mp hf with hf | hf
      · exact hcl f (by simp [hf])
      · exact hclean_pad _ f hf
    · rw [List.take_left']
      · by_cases hd : d' = []
        · subst hd
          have hdata : data = [] := by
            have : data.map (fun b => if b = 13 ∨ b = 10 then 63 else b) = [] := by
              rw [← hjoin]; rfl
            exact List.map_eq_nil_iff.mp this
          subst hdata
          rfl
        · rw [intercalate_snoc [1] d' [] hd, List.append_nil] at hjoin
          obtain ⟨init, l, hdata, hlast⟩ := map_eq_snoc_last _ data _ 1 hjoin.symm
          have hl1 : l = 1 := by
            by_cases hcr : l = 13 ∨ l = 10
            · simp [hcr] at hlast
            · simpa [hcr] using hlast
          have hgl : data.getLast? = some 1 := by rw [hdata, hl1]; simp
          rw [hgl, if_pos rfl, hjoin]
      · rfl
  · have hcpos : c'.length > 0 := List.length_pos.mpr hc
    have hin : d'.length < 255 ∧ c'.length < 255 := by omega
    refine ⟨d'.length + 1, d' ++ [c'] ++ List.replicate (255 - (d'.length + 1)) [], ?_, ?_, ?_⟩
    · simp only [icb_args, hrun, hcpos, if_true, hin, and_self]
    · intro f hf
      rcases List.mem_append.mp hf with hf | hf
      · exact hcl f hf
      · exact hclean_pad _ f hf
    · rw [List.take_left' (by simp)]
      have hnot : ¬ data.getLast? = some 1 := by
        intro hgl
        have hdne : data ≠ [] := by intro hd; subst hd; simp at hgl
        have hlast1 : data.getLast hdne = 1 := by
          have := List.getLast?_eq_getLast data hdne
          rw [this] at hgl
          exact Option.some.inj hgl
        have hdata := (List.dropLast_append_getLast hdne).symm
        rw [hlast1] at hdata
        have hzc : c' = c'.dropLast ++ [c'.getLast hc] := (List.dropLast_append_getLast hc).symm
        have hjoin2 : List.intercalate [1] (d' ++ [c'])
            = (List.intercalate [1] (d' ++ [[]]) ++ c'.dropLast) ++ [c'.getLast hc] := by
          cases d' with
          | nil =>
            simp only [List.nil_append, List.intercalate, List.intersperse_single,
              List.flatten_cons, List.flatten_nil, List.append_nil]
            exact hzc
          | cons x xs =>
            rw [intercalate_snoc [1] (x :: xs) _ (by simp),
              intercalate_snoc [1] (x :: xs) _ (by simp)]
            simp only [List.append_nil, List.append_assoc]
            rw [← hzc]
        rw [hjoin2, hdata] at hjoin
        simp only [List.map_append, List.map_cons, List.map_nil] at hjoin
        have hz := (List.append_inj' hjoin rfl).2
        simp only [Nat.reduceEqDiff, or_self, if_false, List.cons.injEq, and_true] at hz
        have hmem : c'.getLast hc ∈ c' := List.getLast_mem hc
        rw [hz] at hmem
        exact (hcl c' (by simp)).1 hmem
      rw [if_neg hnot, List.append_nil, hjoin]

/-- Witness for C7: a payload with two separators, a `'\r'` and a `'\n'`. -/
theorem icb_args_no_cr_lf_witness :
    [97, 1, 98, 13, 99, 10, 1].length ≤ 254 ∧
    ∃ c fields, icb_args [97, 1, 98, 13, 99, 10, 1] = .ok (c, fields) ∧
      (∀ f ∈ fields, 1 ∉ f ∧ 13 ∉ f ∧ 10 ∉ f) ∧
      List.intercalate [1] (fields.take c)
          ++ (if [97, 1, 98, 13, 99, 10, 1].getLast? = some 1 then [1] else [])
        = [97, 1, 98, 13, 99, 10, 1].map (fun b => if b = 13 ∨ b = 10 then 63 else b) :=
  ⟨by decide, icb_args_no_cr_lf [97, 1, 98, 13, 99, 10, 1] (by decide)⟩

/-! ## `irc_cmd` and unset `argv` slots -/

/-- C8 (the code at the failing inputs). For each of the lines `"NICK"`,
`"PASS"`, `"USER"`, `"JOIN"`, `"PING"`, `"PRIVMSG bob"` and `"KICK"` the
tokeniser fills fewer slots than the handler reads: `irc_cmd` reads an unset
`argv` slot (`argv[1]`, for `"PRIVMSG bob"` `argv[2]`), and for `"PING"` it
does so after having written the No-op packet to the server. -/
theorem irc_cmd_reads_unset_argv (client_fd server_fd : Fd) (s : Session) :
    (tokenise 9 (lit "NICK")).length = 1 ∧
    irc_cmd client_fd server_fd s (lit "NICK") = .error .unset_argv ∧
    irc_cmd client_fd server_fd s (lit "PASS") = .error .unset_argv ∧
    irc_cmd client_fd server_fd s (lit "USER") = .error .unset_argv ∧
    irc_cmd client_fd server_fd s (lit "JOIN") = .error .unset_argv ∧
    irc_cmd client_fd server_fd s (lit "PING") = .error .unset_argv ∧
    (tokenise 9 (lit "PRIVMSG bob")).length = 2 ∧
    irc_cmd client_fd server_fd s (lit "PRIVMSG bob") = .error .unset_argv ∧
    irc_cmd client_fd server_fd s (lit "KICK") = .error .unset_argv :=
  ⟨rfl, rfl, rfl, rfl, rfl, rfl, rfl, rfl, rfl⟩

set_option maxRecDepth 100000 in
/-- The failing input of C4 as the client sends it: after `NICK a`, a `USER`
line whose first argument has 244 bytes makes `irc_cmd` call `icb_send_login`
with that ident, and the store outside `cmd[256]` follows. -/
theorem irc_cmd_user_overflow :
    irc_cmd Fd.client Fd.server { session_zero with irc_nick := [97] }
      (lit "USER " ++ List.replicate 244 120) = .error .oob_write :=
  rfl

set_option maxRecDepth 100000 in
/-- The failing input of C6 as the client sends it: a `PRIVMSG` to a nick of
241 bytes never returns. -/
theorem irc_cmd_privmsg_diverges :
    irc_cmd Fd.client Fd.server session_zero
      (lit "PRIVMSG " ++ List.replicate 241 120 ++ lit " :hi") = .error .diverges :=
  rfl

/-! ## `icb_cmd` and the enquiry mode -/

@[simp] theorem set_irc_pass_imode (s : Session) (v : List Nat) :
    (s.set_irc_pass v).imode = s.imode := rfl

@[simp] theorem set_irc_ident_imode (s : Session) (v : List Nat) :
    (s.set_irc_ident v).imode = s.imode := rfl

@[simp] theorem set_irc_nick_imode (s : Session) (v : List Nat) :
    (s.set_irc_nick v).imode = s.imode := rfl

@[simp] theorem set_irc_channel_imode (s : Session) (v : List Nat) :
    (s.set_irc_channel v).imode = s.imode := rfl

@[simp] theorem set_in_irc_channel_imode (s : Session) (v : Bool) :
    (s.set_in_irc_channel v).imode = s.imode := rfl

@[simp] theorem set_icb_logged_in_imode (s : Session) (v : Bool) :
    (s.set_icb_logged_in v).imode = s.imode := rfl

@[simp] theorem set_terminate_client_imode (s : Session) (v : Bool) :
    (s.set_terminate_client v).imode = s.imode := rfl

@[simp] theorem set_icb_protolevel_imode (s : Session) (v : List Nat) :
    (s.set_icb_protolevel v).imode = s.imode := rfl

@[simp] theorem set_icb_hostid_imode (s : Session) (v : List Nat) :
    (s.set_icb_hostid v).imode = s.imode := rfl

@[simp] theorem set_icb_serverid_imode (s : Session) (v : List Nat) :
    (s.set_icb_serverid v).imode = s.imode := rfl

@[simp] theorem set_icb_moderator_imode (s : Session) (v : List Nat) :
    (s.set_icb_moderator v).imode = s.imode := rfl

@[simp] theorem set_imode_imode (s : Session) (v : imode_t) :
    (s.set_imode v).imode = v := rfl

@[simp] theorem set_icurgroup_imode (s : Session) (v : List Nat) :
    (s.set_icurgroup v).imode = s.imode := rfl

@[simp] theorem set_igroup_imode (s : Session) (v : List Nat) :
    (s.set_igroup v).imode = s.imode := rfl

@[simp] theorem set_inick_imode (s : Session) (v : List Nat) :
    (s.set_inick v).imode = s.imode := rfl

@[simp] theorem set_ihostmask_imode (s : Session) (v : List Nat) :
    (s.set_ihostmask v).imode = s.imode := rfl

@[simp] theorem sync_write_imode (s : Session) (fd : Fd) (b : List Nat) :
    (sync_write s fd b).imode = s.imode := by
  cases fd <;> rfl

@[simp] theorem irc_send_notice_imode (s : Session) (fd : Fd) (m : List Nat) :
    (irc_send_notice s fd m).imode = s.imode := by
  simp [irc_send_notice]

@[simp] theorem irc_send_code_imode (s : Session) (fd : Fd) (a b c m : List Nat) :
    (irc_send_code s fd a b c m).imode = s.imode := by
  simp [irc_send_code]

@[simp] theorem irc_send_msg_imode (s : Session) (fd : Fd) (a b m : List Nat) :
    (irc_send_msg s fd a b m).imode = s.imode := by
  simp [irc_send_msg]

@[simp] theorem irc_send_join_imode (s : Session) (fd : Fd) (a b : List Nat) :
    (irc_send_join s fd a b).imode = s.imode := by
  simp [irc_send_join]

@[simp] theorem irc_send_part_imode (s : Session) (fd : Fd) (a b : List Nat) :
    (irc_send_part s fd a b).imode = s.imode := by
  simp [irc_send_part]

theorem icb_send_names_busy (s : Session) (fd : Fd) (g : List Nat)
    (h : s.imode ≠ imode_none) : icb_send_names s fd g = .ok s := by
  simp [icb_send_names, h]

theorem icb_iwl_imode (s : Session) (fd : Fd) (flags nick : List Nat) (idle signon : Int)
    (ident host : List Nat) :
    (icb_iwl s fd flags nick idle signon ident host).imode = s.imode := by
  unfold icb_iwl
  simp only
  split_ifs <;> first | rfl | simp only [sync_write_imode, set_icb_moderator_imode]

/-- The Status Message branch never touches `imode` while an enquiry is
outstanding. -/
theorem icb_cmd_status_imode (u : Indet) (s : Session) (fd server_fd : Fd)
    (a0 a1 : List Nat) (h : s.imode ≠ imode_none) :
    ∃ s', icb_cmd_status u s fd server_fd a0 a1 = .ok s' ∧ s'.imode = s.imode := by
  unfold icb_cmd_status
  simp only
  by_cases h1 : a0 = lit "Status" ∧ starts_with (lit "You are now in group ") a1 = true
  · rw [if_pos h1]
    have hpart : (if s.irc_channel ≠ [] then irc_send_part s fd s.irc_nick s.irc_channel
        else s).imode = s.imode := by
      split
      · exact irc_send_part_imode _ _ _ _
      · rfl
    have hmode : (irc_send_join
        ((if s.irc_channel ≠ [] then irc_send_part s fd s.irc_nick s.irc_channel
          else s).set_irc_channel (35 :: (scan_tok (a1.drop 21) 255 (lit " ") (lit " ")).2))
        fd s.irc_nick (35 :: (scan_tok (a1.drop 21) 255 (lit " ") (lit " ")).2)).imode
          = s.imode := by
      rw [irc_send_join_imode, set_irc_channel_imode, hpart]
    rw [icb_send_names_busy _ _ _ (by rw [hmode]; exact h)]
    exact ⟨_, rfl, hmode⟩
  · rw [if_neg h1]
    repeat' split
    all_goals refine ⟨_, rfl, ?_⟩
    all_goals first
      | rfl
      | simp only [set_irc_pass_imode, set_irc_ident_imode, set_irc_nick_imode,
      set_irc_channel_imode, set_in_irc_channel_imode, set_icb_logged_in_imode,
      set_terminate_client_imode, set_icb_protolevel_imode, set_icb_hostid_imode,
      set_icb_serverid_imode, set_icb_moderator_imode, set_icurgroup_imode, set_igroup_imode,
      set_inick_imode, set_ihostmask_imode, sync_write_imode, irc_send_notice_imode,
      irc_send_code_imode, irc_send_msg_imode, irc_send_join_imode, irc_send_part_imode]

theorem icb_args_loop_field_length (data : List Nat) :
    ∀ (done : List (List Nat)) (cur : List Nat) (d' : List (List Nat)) (c' : List Nat),
      icb_args_loop data done cur = .ok (d', c') → (∀ f ∈ done, f.length ≤ 254) →
      ∀ f ∈ d', f.length ≤ 254 := by
  induction data with
  | nil =>
    intro done cur d' c' hrun hdone
    simp only [icb_args_loop, Except.ok.injEq, Prod.mk.injEq] at hrun
    rw [← hrun.1]; exact hdone
  | cons b rest ih =>
    intro done cur d' c' hrun hdone
    simp only [icb_args_loop] at hrun
    by_cases hin : done.length < 255 ∧ cur.length < 255
    · rw [if_pos hin] at hrun
      by_cases hsep : b = 1
      · rw [if_pos hsep] at hrun
        refine ih _ _ d' c' hrun ?_
        intro f hf
        rcases List.mem_append.mp hf with hf | hf
        · exact hdone f hf
        · rw [List.mem_singleton.mp hf]; omega
      · rw [if_neg hsep] at hrun
        by_cases hcr : b = 13 ∨ b = 10
        · rw [if_pos hcr] at hrun
          exact ih _ _ d' c' hrun hdone
        · rw [if_neg hcr] at hrun
          exact ih _ _ d' c' hrun hdone
    · rw [if_neg hin] at hrun
      cases hrun

/-- On a payload of at most 254 bytes `icb_args` returns. -/
theorem icb_args_returns (data : List Nat) (hlen : data.length ≤ 254) :
    ∃ i fields, icb_args data = .ok (i, fields) := by
  obtain ⟨d', c', hrun, hl, _, _⟩ := icb_args_loop_spec data [] [] (by simpa using hlen)
    (by simp)
  unfold icb_args
  rw [hrun]
  simp only
  by_cases hc : c'.length > 0
  · have hin : d'.length < 255 ∧ c'.length < 255 := by omega
    rw [if_pos hc, if_pos hin]
    exact ⟨_, _, rfl⟩
  · rw [if_neg hc]
    exact ⟨_, _, rfl⟩

/-- Every field that `icb_args` returns has at most 254 bytes. -/
theorem icb_args_field_length (data : List Nat) (i : Nat) (fields : List (List Nat))
    (h : icb_args data = .ok (i, fields)) : ∀ f ∈ fields, f.length ≤ 254 := by
  unfold icb_args at h
  cases hloop : icb_args_loop data [] [] with
  | error e => rw [hloop] at h; cases h
  | ok r =>
    obtain ⟨d', c'⟩ := r
    rw [hloop] at h
    have hd := icb_args_loop_field_length data [] [] d' c' hloop (by simp)
    have hpad : ∀ n, ∀ f ∈ List.replicate n ([] : List Nat), f.length ≤ 254 := by
      intro n f hf
      rw [List.eq_of_mem_replicate hf]
      simp
    simp only at h
    by_cases hc : c'.length > 0
    · rw [if_pos hc] at h
      by_cases hin : d'.length < 255 ∧ c'.length < 255
      · rw [if_pos hin] at h
        simp only [Except.ok.injEq, Prod.mk.injEq] at h
        rw [← h.2]
        intro f hf
        rcases List.mem_append.mp hf with hf | hf
        · rcases List.mem_append.mp hf with hf | hf
          · exact hd f hf
          · rw [List.mem_singleton.mp hf]; omega
        · exact hpad _ f hf
      · rw [if_neg hin] at h
        cases h
    · rw [if_neg hc] at h
      simp only [Except.ok.injEq, Prod.mk.injEq] at h
      rw [← h.2]
      intro f hf
      rcases List.mem_append.mp hf with hf | hf
      · exact hd f hf
      · exact hpad _ f hf

theorem group_line_not_total (arg : List Nat)
    (h : starts_with (lit "Group: ") arg = true) : starts_with (lit "Total: ") arg = false := by
  cases arg with
  | nil => rfl
  | cons c rest =>
    have hg : lit "Group: " = 71 :: lit "roup: " := rfl
    have ht : lit "Total: " = 84 :: lit "otal: " := rfl
    rw [starts_with, hg, List.isPrefixOf] at h
    rw [starts_with, ht, List.isPrefixOf]
    simp only [Bool.and_eq_true, beq_iff_eq] at h
    rw [← h.1]
    rfl

/-- One command-output line: `icb_ico` returns, and `imode` becomes
`imode_none` exactly on a line that begins with `"Total: "`. -/
theorem icb_ico_imode (s : Session) (fd : Fd) (arg : List Nat) (hlen : arg.length ≤ 254) :
    ∃ s', icb_ico s fd arg = .ok s' ∧
      s'.imode = if starts_with (lit "Total: ") arg = true then imode_none else s.imode := by
  unfold icb_ico
  simp only
  by_cases hg : starts_with (lit "Group: ") arg = true
  · have hnt := group_line_not_total arg hg
    have hname : (35 :: (arg.drop 7).takeWhile (fun b => decide (b ≠ 0 ∧ b ≠ 32))).length < 256 := by
      have := (List.takeWhile_sublist (l := arg.drop 7)
        (fun b => decide (b ≠ 0 ∧ b ≠ 32))).length_le
      simp only [List.length_cons, List.length_drop] at this ⊢
      omega
    rw [if_pos hg, if_pos hname, hnt]
    simp only [Bool.false_eq_true, if_false]
    repeat' split
    all_goals refine ⟨_, rfl, ?_⟩
    all_goals first
      | rfl
      | simp only [set_irc_pass_imode, set_irc_ident_imode, set_irc_nick_imode,
      set_irc_channel_imode, set_in_irc_channel_imode, set_icb_logged_in_imode,
      set_terminate_client_imode, set_icb_protolevel_imode, set_icb_hostid_imode,
      set_icb_serverid_imode, set_icb_moderator_imode, set_icurgroup_imode, set_igroup_imode,
      set_inick_imode, set_ihostmask_imode, sync_write_imode, irc_send_notice_imode,
      irc_send_code_imode, irc_send_msg_imode, irc_send_join_imode, irc_send_part_imode]
  · rw [if_neg hg]
    by_cases ht : starts_with (lit "Total: ") arg = true
    · rw [if_pos ht, if_pos ht]
      exact ⟨_, rfl, set_imode_imode _ _⟩
    · rw [if_neg ht, if_neg ht]
      split
      · exact ⟨_, rfl, irc_send_notice_imode _ _ _⟩
      · exact ⟨_, rfl, rfl⟩

/-- The lines of one `co` packet: `imode` ends as `imode_none` if it was
so or one of the lines begins with `"Total: "`, and is unchanged otherwise. -/
theorem icb_ico_all_imode (fd : Fd) (args : List (List Nat)) :
    ∀ s : Session, (∀ a ∈ args, a.length ≤ 254) →
      ∃ s', icb_ico_all fd s args = .ok s' ∧
        s'.imode = if (∃ a ∈ args, starts_with (lit "Total: ") a = true) then imode_none
                   else s.imode := by
  induction args with
  | nil => intro s _; exact ⟨s, rfl, by simp⟩
  | cons a rest ih =>
    intro s hlen
    obtain ⟨s1, h1, hm1⟩ := icb_ico_imode s fd a (hlen a (by simp))
    obtain ⟨s2, h2, hm2⟩ := ih s1 (fun x hx => hlen x (by simp [hx]))
    refine ⟨s2, by simp only [icb_ico_all, h1, h2], ?_⟩
    rw [hm2, hm1]
    by_cases ha : starts_with (lit "Total: ") a = true
    · by_cases hr : ∃ x ∈ rest, starts_with (lit "Total: ") x = true
      · rw [if_pos hr, if_pos]
        exact ⟨a, by simp, ha⟩
      · rw [if_neg hr, if_pos ha, if_pos]
        exact ⟨a, by simp, ha⟩
    · by_cases hr : ∃ x ∈ rest, starts_with (lit "Total: ") x = true
      · obtain ⟨x, hx, hxp⟩ := hr
        rw [if_pos ⟨x, hx, hxp⟩, if_pos]
        exact ⟨x, by simp [hx], hxp⟩
      · rw [if_neg hr, if_neg ha, if_neg]
        rintro ⟨x, hx, hxp⟩
        rcases List.mem_cons.mp hx with rfl | hx
        · exact ha hxp
        · exact hr ⟨x, hx, hxp⟩

theorem icb_cmd_login_imode (u : Indet) (s : Session) (fd : Fd) :
    (icb_cmd_login u s fd).imode = s.imode := by
  simp only [icb_cmd_login, set_icb_logged_in_imode, irc_send_code_imode]

theorem icb_cmd_open_imode (s : Session) (fd server_fd : Fd) (a0 a1 : List Nat)
    (hmode : s.imode ≠ imode_none) :
    ∃ s', icb_cmd_open s fd server_fd a0 a1 = .ok s' ∧ s'.imode = s.imode := by
  unfold icb_cmd_open
  by_cases hin : s.in_irc_channel = true
  · simp only [hin, not_true_eq_false, if_false]
    exact ⟨_, rfl, irc_send_msg_imode _ _ _ _ _⟩
  · simp only [hin, not_false_eq_true, if_true]
    rw [icb_send_names_busy _ _ _ (by rw [irc_send_join_imode]; exact hmode)]
    exact ⟨_, rfl, by rw [irc_send_msg_imode, irc_send_join_imode]⟩

theorem icb_cmd_output_imode_other (s : Session) (fd : Fd) (i : Nat)
    (fields : List (List Nat)) (hco : cstr (fields.getD 0 []) ≠ lit "co") :
    ∃ s', icb_cmd_output s fd i fields = .ok s' ∧ s'.imode = s.imode := by
  unfold icb_cmd_output
  simp only [hco, if_false]
  split_ifs
  · exact ⟨_, rfl, icb_iwl_imode _ _ _ _ _ _ _ _⟩
  · exact ⟨_, rfl, rfl⟩
  · exact ⟨_, rfl, irc_send_notice_imode _ _ _⟩

/-- A packet of a type other than `'i'`, or one whose `args[0]` is not
`"co"`: `imode` is left as it is while an enquiry is outstanding. -/
theorem icb_cmd_imode_other (u : Indet) (fd server_fd : Fd) (s : Session) (type : Nat)
    (data : List Nat) (i : Nat) (fields : List (List Nat))
    (hargs : icb_args data = .ok (i, fields)) (hmode : s.imode ≠ imode_none)
    (hother : type ≠ 105 ∨ cstr (fields.getD 0 []) ≠ lit "co") :
    ∃ s', icb_cmd u fd server_fd s (type :: data) = .ok s' ∧ s'.imode = s.imode := by
  simp only [icb_cmd, hargs]
  by_cases h97 : type = 97
  · rw [if_pos h97]; exact ⟨_, rfl, icb_cmd_login_imode u s fd⟩
  rw [if_neg h97]
  by_cases h98 : type = 98
  · rw [if_pos h98]; exact icb_cmd_open_imode s fd server_fd _ _ hmode
  rw [if_neg h98]
  by_cases h99 : type = 99
  · rw [if_pos h99]; exact ⟨_, rfl, irc_send_msg_imode _ _ _ _ _⟩
  rw [if_neg h99]
  by_cases h100 : type = 100
  · rw [if_pos h100]; exact icb_cmd_status_imode u s fd server_fd _ _ hmode
  rw [if_neg h100]
  by_cases h101 : type = 101
  · rw [if_pos h101]; exact ⟨_, rfl, irc_send_notice_imode _ _ _⟩
  rw [if_neg h101]
  by_cases h102 : type = 102
  · rw [if_pos h102]; exact ⟨_, rfl, irc_send_notice_imode _ _ _⟩
  rw [if_neg h102]
  by_cases h103 : type = 103
  · rw [if_pos h103]
    exact ⟨_, rfl, by rw [set_terminate_client_imode, irc_send_notice_imode]⟩
  rw [if_neg h103]
  by_cases h105 : type = 105
  · rw [if_pos h105]
    rcases hother with h | h
    · exact absurd h105 h
    · exact icb_cmd_output_imode_other s fd i fields h
  rw [if_neg h105]
  by_cases h106 : type = 106
  · rw [if_pos h106]; exact ⟨_, rfl, rfl⟩
  rw [if_neg h106]
  by_cases h107 : type = 107
  · rw [if_pos h107]; exact ⟨_, rfl, irc_send_notice_imode _ _ _⟩
  rw [if_neg h107]
  by_cases h108 : type = 108
  · rw [if_pos h108]; exact ⟨_, rfl, irc_send_notice_imode _ _ _⟩
  rw [if_neg h108]
  by_cases h109 : type = 109
  · rw [if_pos h109]; exact ⟨_, rfl, irc_send_notice_imode _ _ _⟩
  rw [if_neg h109]
  by_cases h110 : type = 110
  · rw [if_pos h110]; exact ⟨_, rfl, irc_send_notice_imode _ _ _⟩
  rw [if_neg h110]
  exact ⟨_, rfl, irc_send_notice_imode _ _ _⟩

/-- C10. For every ICB packet (at most 255 bytes after the length byte)
that `icb_cmd` processes in a state with `imode != imode_none`: the call
returns; `imode` is `imode_none` afterwards if and only if the packet is a
Command Output packet (`'i'`) with `args[0] = "co"` one of whose remaining
arguments begins with `"Total: "`; and every other packet leaves `imode`
unchanged. -/
theorem icb_cmd_imode (u : Indet) (fd server_fd : Fd) (s : Session) (cmd : List Nat)
    (hlen : cmd.length ≤ 255) (hmode : s.imode ≠ imode_none) :
    ∃ s', icb_cmd u fd server_fd s cmd = .ok s' ∧
      (s'.imode = imode_none ↔ is_total_output cmd) ∧
      (¬ is_total_output cmd → s'.imode = s.imode) := by
  cases cmd with
  | nil =>
    refine ⟨s, rfl, ⟨fun h => absurd h hmode, ?_⟩, fun _ => rfl⟩
    rintro ⟨d, i, f, hc, _⟩
    cases hc
  | cons type data =>
    simp only [List.length_cons] at hlen
    obtain ⟨i, fields, hargs⟩ := icb_args_returns data (by omega)
    have hfl := icb_args_field_length data i fields hargs
    by_cases hco : type = 105 ∧ cstr (fields.getD 0 []) = lit "co"
    · obtain ⟨ht, hco⟩ := hco
      subst ht
      have hargl : ∀ a ∈ ((fields.take i).drop 1).map cstr, a.length ≤ 254 := by
        intro a ha
        obtain ⟨f, hf, rfl⟩ := List.mem_map.mp ha
        have hf' : f ∈ fields := List.mem_of_mem_take (List.mem_of_mem_drop hf)
        exact le_trans (cstr_length_le f) (hfl f hf')
      obtain ⟨s', hrun, hm⟩ := icb_ico_all_imode fd _ s hargl
      have hiff : (∃ a ∈ ((fields.take i).drop 1).map cstr,
          starts_with (lit "Total: ") a = true) ↔ is_total_output (105 :: data) := by
        constructor
        · rintro ⟨a, ha, hp⟩
          obtain ⟨f, hf, rfl⟩ := List.mem_map.mp ha
          exact ⟨data, i, fields, rfl, hargs, hco, f, hf, hp⟩
        · rintro ⟨d, i', f', hc, ha', _, a, ha, hp⟩
          have hd : data = d := List.tail_eq_of_cons_eq hc
          subst hd
          rw [hargs] at ha'
          simp only [Except.ok.injEq, Prod.mk.injEq] at ha'
          obtain ⟨rfl, rfl⟩ := ha'
          exact ⟨cstr a, List.mem_map.mpr ⟨a, ha, rfl⟩, hp⟩
      refine ⟨s', ?_, ?_, ?_⟩
      · simp only [icb_cmd, hargs, Nat.reduceEqDiff, if_false, if_true, icb_cmd_output, hco]
        exact hrun
      · rw [hm, ← hiff]
        constructor
        · intro h
          by_contra hn
          rw [if_neg hn] at h
          exact hmode h
        · intro h
          rw [if_pos h]
      · intro hn
        rw [hm, if_neg (fun h => hn (hiff.mp h))]
    · have hother : type ≠ 105 ∨ cstr (fields.getD 0 []) ≠ lit "co" := by
        by_cases ht : type = 105
        · exact Or.inr (fun h => hco ⟨ht, h⟩)
        · exact Or.inl ht
      obtain ⟨s', hrun, hm⟩ := icb_cmd_imode_other u fd server_fd s type data i fields hargs
        hmode hother
      have hnt : ¬ is_total_output (type :: data) := by
        rintro ⟨d, i', f', hc, ha', hco', _⟩
        have hd : data = d := List.tail_eq_of_cons_eq hc
        have ht : type = 105 := List.head_eq_of_cons_eq hc
        subst hd
        rw [hargs] at ha'
        simp only [Except.ok.injEq, Prod.mk.injEq] at ha'
        obtain ⟨rfl, rfl⟩ := ha'
        exact hco ⟨ht, hco'⟩
      refine ⟨s', hrun, ⟨?_, fun h => absurd h hnt⟩, fun _ => hm⟩
      intro h
      rw [hm] at h
      exact absurd h hmode

set_option maxRecDepth 100000 in
/-- Witness for C10: with a LIST enquiry outstanding, the packet
`i` `co` `\001` `Total: 1 groups` is a Command Output whose second argument
begins with `"Total: "`, and `icb_cmd` leaves `imode = imode_none`. -/
theorem icb_cmd_imode_witness :
    (105 :: (lit "co" ++ [1] ++ lit "Total: 1 groups")).length ≤ 255 ∧
    (session_zero.set_imode imode_list).imode ≠ imode_none ∧
    is_total_output (105 :: (lit "co" ++ [1] ++ lit "Total: 1 groups")) ∧
    ∃ s', icb_cmd ⟨0, []⟩ Fd.client Fd.server (session_zero.set_imode imode_list)
        (105 :: (lit "co" ++ [1] ++ lit "Total: 1 groups")) = .ok s' ∧
      s'.imode = imode_none := by
  have htot : is_total_output (105 :: (lit "co" ++ [1] ++ lit "Total: 1 groups")) :=
    ⟨lit "co" ++ [1] ++ lit "Total: 1 groups", 2,
      [lit "co", lit "Total: 1 groups"] ++ List.replicate 253 [], rfl, rfl, rfl,
      lit "Total: 1 groups", by decide, rfl⟩
  obtain ⟨s', hrun, hiff, _⟩ := icb_cmd_imode ⟨0, []⟩ Fd.client Fd.server
    (session_zero.set_imode imode_list) (105 :: (lit "co" ++ [1] ++ lit "Total: 1 groups"))
    (by decide) (by decide)
  exact ⟨by decide, by decide, htot, s', hrun, hiff.mpr htot⟩

/-! ## The builders other than `icb_send_login` stay inside `cmd[256]` -/

theorem icb_copy_bound (src : List Nat) :
    ∀ cmd : List Nat, ∃ t, (icb_copy cmd src).1 = cmd ++ t ∧
      (cmd ++ t).length ≤ max cmd.length MAX_MSG_SIZE ∧ t.length ≤ src.length := by
  induction src with
  | nil => intro cmd; exact ⟨[], by simp [icb_copy], by simp, by simp⟩
  | cons b rest ih =>
    intro cmd
    by_cases hc : b ≠ 0 ∧ cmd.length < MAX_MSG_SIZE
    · obtain ⟨t, ht, hl, hs⟩ := ih (cmd ++ [b])
      refine ⟨b :: t, ?_, ?_, ?_⟩
      · have hstep : icb_copy cmd (b :: rest) = icb_copy (cmd ++ [b]) rest := by
          simp only [icb_copy]
          rw [if_pos hc]
        rw [hstep, ht, List.append_assoc, List.singleton_append]
      · simp only [List.length_append, List.length_cons, List.length_nil] at hl ⊢
        omega
      · simp only [List.length_cons]; omega
    · refine ⟨[], ?_, by simp, by simp⟩
      simp only [icb_copy]
      rw [if_neg hc, List.append_nil]

theorem icb_raw_copy_bound (src : List Nat) :
    ∀ cmd : List Nat, ∃ t, icb_raw_copy cmd src = cmd ++ t ∧
      (cmd ++ t).length ≤ max cmd.length MAX_MSG_SIZE := by
  induction src with
  | nil => intro cmd; exact ⟨[], by simp [icb_raw_copy], by simp⟩
  | cons b rest ih =>
    intro cmd
    by_cases hc : b ≠ 0 ∧ cmd.length < MAX_MSG_SIZE
    · obtain ⟨t, ht, hl⟩ := ih (cmd ++ [if b = 44 then 1 else if b = 92 then 0 else b])
      refine ⟨(if b = 44 then 1 else if b = 92 then 0 else b) :: t, ?_, ?_⟩
      · have hstep : icb_raw_copy cmd (b :: rest)
            = icb_raw_copy (cmd ++ [if b = 44 then 1 else if b = 92 then 0 else b]) rest := by
          simp only [icb_raw_copy]
          rw [if_pos hc]
        rw [hstep, ht, List.append_assoc, List.singleton_append]
      · simp only [List.length_append, List.length_cons, List.length_nil] at hl ⊢
        omega
    · refine ⟨[], ?_, by simp⟩
      simp only [icb_raw_copy]
      rw [if_neg hc, List.append_nil]

/-- A buffer `cmd[0..off)` with `2 <= off <= 256`, once `cmd[0] = off - 1` is
stored, is a well-formed packet. -/
theorem icb_finish_ok (x : Nat) (t : List Nat) (h1 : 1 ≤ t.length) (h2 : t.length ≤ 255) :
    packet_ok (icb_finish (x :: t)) := by
  have hu : usub (x :: t).length 1 % 256 = t.length := by
    simp only [List.length_cons]
    unfold usub
    omega
  unfold icb_finish
  rw [hu]
  exact ⟨by simp only [List.drop_succ_cons, List.drop_zero, List.length_cons]; omega,
    t.length, t, rfl, rfl, h1, h2⟩

theorem put_ok {cmd : List Nat} (b : Nat) (h : cmd.length < 256) :
    put cmd b = .ok (cmd ++ [b]) := by
  simp only [put, h, if_true]

/-- The builders of the shape `'h'`, word, `\001`, argument, NUL with a
command word of at most five bytes (`g`, `w`, `pass`, `topic`, `boot`,
`name`) write a well-formed packet whatever the argument. -/
theorem icb_h_cmd_ok (word arg : List Nat) (hw : word.length ≤ 5) :
    ∃ p, icb_h_cmd word arg = .ok p ∧ packet_ok p := by
  have hput_all : ∀ (w cmd : List Nat), cmd.length + w.length ≤ 256 →
      put_all cmd w = .ok (cmd ++ w) := by
    intro w
    induction w with
    | nil => intro cmd _; simp [put_all]
    | cons b rest ih =>
      intro cmd hl
      simp only [List.length_cons] at hl
      simp only [put_all, put_ok b (show cmd.length < 256 by omega)]
      rw [ih (cmd ++ [b]) (by simp only [List.length_append, List.length_singleton]; omega)]
      simp
  obtain ⟨t, ht, hl, _⟩ := icb_copy_bound arg (cmd_start ++ [104] ++ word ++ [1])
  have hlen0 : (cmd_start ++ [104] ++ word ++ [1]).length = word.length + 3 := by
    simp only [cmd_start, List.length_append, List.length_cons, List.length_nil]; omega
  have hmax : MAX_MSG_SIZE = 246 := rfl
  rw [hlen0, hmax] at hl
  refine ⟨icb_finish (cmd_start ++ [104] ++ word ++ [1] ++ t ++ [0]), ?_, ?_⟩
  · simp only [icb_h_cmd, bind, Except.bind, pure, Except.pure]
    rw [put_ok 104 (by decide)]
    simp only
    rw [hput_all word (cmd_start ++ [104])
      (by simp only [cmd_start, List.length_append, List.length_cons, List.length_nil]; omega)]
    simp only
    rw [put_ok 1 (by
      simp only [cmd_start, List.length_append, List.length_cons, List.length_nil]; omega)]
    simp only
    rw [ht, put_ok 0 (by omega)]
  · have : cmd_start ++ [104] ++ word ++ [1] ++ t ++ [0]
        = 0 :: ([104] ++ word ++ [1] ++ t ++ [0]) := by
      simp [cmd_start]
    rw [this]
    have hl2 : ([104] ++ word ++ [1] ++ t ++ [0]).length + 1
        = (cmd_start ++ [104] ++ word ++ [1] ++ t).length + 1 := by
      simp only [cmd_start, List.length_append, List.length_cons, List.length_nil]; omega
    exact icb_finish_ok 0 _ (by simp) (by omega)

/-- Every iteration of `icb_send_openmsg` and of `icb_send_privmsg`, and the
builders `icb_send_raw` and `icb_send_noop`, write a well-formed packet
whatever their arguments. -/
theorem icb_other_cmds_ok (nick msg : List Nat) :
    (∃ p r, icb_openmsg_cmd msg = .ok (p, r) ∧ packet_ok p) ∧
    (∃ p r, icb_privmsg_cmd nick msg = .ok (p, r) ∧ packet_ok p) ∧
    (∃ p, icb_raw_cmd msg = .ok p ∧ packet_ok p) ∧
    (∃ p, icb_noop_cmd = .ok p ∧ packet_ok p) := by
  have hmax : MAX_MSG_SIZE = 246 := rfl
  refine ⟨?_, ?_, ?_, ?_⟩
  · obtain ⟨t, ht, hl, _⟩ := icb_copy_bound msg (cmd_start ++ [98])
    have hlen0 : (cmd_start ++ [98]).length = 2 := rfl
    rw [hlen0, hmax] at hl
    refine ⟨icb_finish (cmd_start ++ [98] ++ t ++ [0]), (icb_copy (cmd_start ++ [98]) msg).2,
      ?_, ?_⟩
    · simp only [icb_openmsg_cmd, bind, Except.bind, pure, Except.pure]
      rw [put_ok 98 (by decide)]
      simp only
      rw [ht, put_ok 0 (by omega)]
    · have : cmd_start ++ [98] ++ t ++ [0] = 0 :: ([98] ++ t ++ [0]) := by simp [cmd_start]
      rw [this]
      have hl2 : ([98] ++ t ++ [0]).length + 1 = (cmd_start ++ [98] ++ t).length + 1 := by
        simp only [cmd_start, List.length_append, List.length_cons, List.length_nil]; omega
      exact icb_finish_ok 0 _ (by simp) (by omega)
  · obtain ⟨t, ht, hl, _⟩ := icb_copy_bound nick (cmd_start ++ [104] ++ [109] ++ [1])
    have hlen0 : (cmd_start ++ [104] ++ [109] ++ [1]).length = 4 := rfl
    rw [hlen0, hmax] at hl
    obtain ⟨t2, ht2, hl2, _⟩ := icb_copy_bound msg (cmd_start ++ [104] ++ [109] ++ [1] ++ t ++ [32])
    have hlen1 : (cmd_start ++ [104] ++ [109] ++ [1] ++ t ++ [32]).length
        = (cmd_start ++ [104] ++ [109] ++ [1] ++ t).length + 1 := by
      simp only [List.length_append, List.length_cons, List.length_nil]
    rw [hlen1, hmax] at hl2
    refine ⟨icb_finish (cmd_start ++ [104] ++ [109] ++ [1] ++ t ++ [32] ++ t2 ++ [0]),
      (icb_copy (cmd_start ++ [104] ++ [109] ++ [1] ++ t ++ [32]) msg).2, ?_, ?_⟩
    · simp only [icb_privmsg_cmd, bind, Except.bind, pure, Except.pure]
      rw [put_ok 104 (by decide)]
      simp only
      rw [put_ok 109 (by decide)]
      simp only
      rw [put_ok 1 (by decide)]
      simp only
      rw [ht, put_ok 32 (by omega)]
      simp only
      rw [ht2, put_ok 0 (by omega)]
    · have : cmd_start ++ [104] ++ [109] ++ [1] ++ t ++ [32] ++ t2 ++ [0]
          = 0 :: ([104] ++ [109] ++ [1] ++ t ++ [32] ++ t2 ++ [0]) := by simp [cmd_start]
      rw [this]
      have hl3 : ([104] ++ [109] ++ [1] ++ t ++ [32] ++ t2 ++ [0]).length + 1
          = (cmd_start ++ [104] ++ [109] ++ [1] ++ t ++ [32] ++ t2).length + 1 := by
        simp only [cmd_start, List.length_append, List.length_cons, List.length_nil]; omega
      exact icb_finish_ok 0 _ (by simp) (by omega)
  · obtain ⟨t, ht, hl⟩ := icb_raw_copy_bound msg cmd_start
    have hlen0 : cmd_start.length = 1 := rfl
    rw [hlen0, hmax] at hl
    refine ⟨icb_finish (cmd_start ++ t ++ [0]), ?_, ?_⟩
    · simp only [icb_raw_cmd, bind, Except.bind, pure, Except.pure]
      rw [ht, put_ok 0 (by omega)]
    · have : cmd_start ++ t ++ [0] = 0 :: (t ++ [0]) := by simp [cmd_start]
      rw [this]
      have hl2 : (t ++ [0]).length + 1 = (cmd_start ++ t).length + 1 := by
        simp only [cmd_start, List.length_append, List.length_cons, List.length_nil]; omega
      exact icb_finish_ok 0 _ (by simp) (by omega)
  · exact ⟨[2, 110, 0], rfl, by decide, 2, [110, 0], rfl, rfl, by decide, by decide⟩

/-- With an ident of at most 243 bytes `icb_send_login` stays inside
`cmd[256]` and writes a well-formed packet, whatever the nick and the group. -/
theorem icb_login_cmd_ok (nick ident group : List Nat) (hid : ident.length ≤ 243) :
    ∃ p, icb_login_cmd nick ident group = .ok p ∧ packet_ok p := by
  have hmax : MAX_MSG_SIZE = 246 := rfl
  obtain ⟨t1, ht1, hl1, hs1⟩ := icb_copy_bound ident (cmd_start ++ [97])
  obtain ⟨t2, ht2, hl2, _⟩ := icb_copy_bound nick (cmd_start ++ [97] ++ t1 ++ [1])
  obtain ⟨t3, ht3, hl3, _⟩ := icb_copy_bound group (cmd_start ++ [97] ++ t1 ++ [1] ++ t2 ++ [1])
  rw [hmax] at hl1 hl2 hl3
  simp only [cmd_start, List.length_append, List.length_cons, List.length_nil] at hl1 hl2 hl3
  have hlogin : lit "login" = [108, 111, 103, 105, 110] := rfl
  have hput5 : ∀ cmd : List Nat, cmd.length + 5 ≤ 256 →
      put_all cmd [108, 111, 103, 105, 110] = .ok (cmd ++ [108, 111, 103, 105, 110]) := by
    intro cmd hl
    simp only [put_all]
    rw [put_ok 108 (by omega)]
    simp only
    rw [put_ok 111 (by simp only [List.length_append, List.length_singleton]; omega)]
    simp only
    rw [put_ok 103 (by simp only [List.length_append, List.length_singleton]; omega)]
    simp only
    rw [put_ok 105 (by simp only [List.length_append, List.length_singleton]; omega)]
    simp only
    rw [put_ok 110 (by simp only [List.length_append, List.length_singleton]; omega)]
    simp
  refine ⟨icb_finish (cmd_start ++ [97] ++ t1 ++ [1] ++ t2 ++ [1] ++ t3 ++ [1]
    ++ [108, 111, 103, 105, 110] ++ [1] ++ [1] ++ [1]), ?_, ?_⟩
  · simp only [icb_login_cmd, bind, Except.bind, pure, Except.pure, hlogin]
    rw [put_ok 97 (by decide)]
    simp only
    rw [ht1, put_ok 1 (by
      simp only [cmd_start, List.length_append, List.length_cons, List.length_nil]; omega)]
    simp only
    rw [ht2, put_ok 1 (by
      simp only [cmd_start, List.length_append, List.length_cons, List.length_nil]; omega)]
    simp only
    rw [ht3, put_ok 1 (by
      simp only [cmd_start, List.length_append, List.length_cons, List.length_nil]; omega)]
    simp only
    rw [hput5 _ (by
      simp only [cmd_start, List.length_append, List.length_cons, List.length_nil]; omega)]
    simp only
    rw [put_ok 1 (by
      simp only [cmd_start, List.length_append, List.length_cons, List.length_nil]; omega)]
    simp only
    rw [put_ok 1 (by
      simp only [cmd_start, List.length_append, List.length_cons, List.length_nil]; omega)]
    simp only
    rw [put_ok 1 (by
      simp only [cmd_start, List.length_append, List.length_cons, List.length_nil]; omega)]
  · have : cmd_start ++ [97] ++ t1 ++ [1] ++ t2 ++ [1] ++ t3 ++ [1]
        ++ [108, 111, 103, 105, 110] ++ [1] ++ [1] ++ [1]
        = 0 :: ([97] ++ t1 ++ [1] ++ t2 ++ [1] ++ t3 ++ [1]
          ++ [108, 111, 103, 105, 110] ++ [1] ++ [1] ++ [1]) := by
      simp [cmd_start]
    rw [this]
    exact icb_finish_ok 0 _ (by simp)
      (by simp only [List.length_append, List.length_cons, List.length_nil]; omega)

theorem icb_copy_full (cmd src : List Nat) (h : MAX_MSG_SIZE ≤ cmd.length) :
    icb_copy cmd src = (cmd, src) := by
  cases src with
  | nil => rfl
  | cons b rest =>
    simp only [icb_copy]
    rw [if_neg (by omega)]

/-- C4 (the defect in general). `icb_send_login` with a NUL-free ident of
244 bytes or more, whatever the nick and the group: the ident fills the buffer
up to `MAX_MSG_SIZE`, the separators and `"login"` follow without a bound, and
the last `\001` is stored at `cmd[256]`, outside `char cmd[256]`. -/
theorem icb_login_cmd_overflow (nick ident group : List Nat) (h0 : 0 ∉ ident)
    (hlen : 244 ≤ ident.length) :
    icb_login_cmd nick ident group = .error .oob_write ∧
    ∀ (s : Session) (fd : Fd), icb_send_login s fd nick ident group = .error .oob_write := by
  suffices hcmd : icb_login_cmd nick ident group = .error .oob_write by
    refine ⟨hcmd, fun s fd => ?_⟩
    unfold icb_send_login
    rw [hcmd]
    rfl
  have hmax : MAX_MSG_SIZE = 246 := rfl
  have h1 : (icb_copy (cmd_start ++ [97]) ident).1 = cmd_start ++ [97] ++ ident.take 244 := by
    rw [icb_copy_no_nul ident _ h0]
    rfl
  have hl1 : (cmd_start ++ [97] ++ ident.take 244).length = 246 := by
    simp only [cmd_start, List.length_append, List.length_cons, List.length_nil,
      List.length_take]
    omega
  simp only [icb_login_cmd, bind, Except.bind, pure, Except.pure]
  rw [put_ok 97 (by decide)]
  simp only
  rw [h1, put_ok 1 (by omega)]
  simp only
  rw [icb_copy_full _ nick (by
    simp only [List.length_append, List.length_singleton, hl1, hmax]; omega)]
  simp only
  rw [put_ok 1 (by simp only [List.length_append, List.length_singleton, hl1]; omega)]
  simp only
  rw [icb_copy_full _ group (by
    simp only [List.length_append, List.length_singleton, hl1, hmax]; omega)]
  simp only
  rw [put_ok 1 (by simp only [List.length_append, List.length_singleton, hl1]; omega)]
  simp only
  have hlogin : lit "login" = [108, 111, 103, 105, 110] := rfl
  rw [hlogin]
  simp only [put_all]
  rw [put_ok 108 (by simp only [List.length_append, List.length_singleton, hl1]; omega)]
  simp only
  rw [put_ok 111 (by simp only [List.length_append, List.length_singleton, hl1]; omega)]
  simp only
  rw [put_ok 103 (by simp only [List.length_append, List.length_singleton, hl1]; omega)]
  simp only
  rw [put_ok 105 (by simp only [List.length_append, List.length_singleton, hl1]; omega)]
  simp only
  rw [put_ok 110 (by simp only [List.length_append, List.length_singleton, hl1]; omega)]
  simp only
  rw [put_ok 1 (by simp only [List.length_append, List.length_singleton, hl1]; omega)]
  simp only
  rw [put_ok 1 (by simp only [List.length_append, List.length_singleton, hl1]; omega)]
  simp only
  have hlast : ∀ c : List Nat, c.length = 256 → put c 1 = .error .oob_write := by
    intro c hc
    simp only [put, hc, lt_self_iff_false, if_false]
  rw [hlast _ (by simp only [List.length_append, List.length_singleton, hl1])]

/-- C6 (the defect in general). `icb_send_privmsg` with a NUL-free nick of
241 bytes or more and a non-empty message: every iteration of `while (*msg)`
writes a packet that carries nothing of the message and leaves `msg` where it
was, so the loop has not ended after any number of iterations and the call
never returns. -/
theorem icb_privmsg_loop_diverges (nick : List Nat) (m : Nat) (rest : List Nat)
    (h0 : 0 ∉ nick) (hlen : 241 ≤ nick.length) (hm : m ≠ 0) :
    (∀ fuel, icb_privmsg_loop fuel nick (m :: rest) = .error .diverges) ∧
    ∀ (s : Session) (fd : Fd), icb_send_privmsg s fd nick (m :: rest) = .error .diverges := by
  have hmax : MAX_MSG_SIZE = 246 := rfl
  have h1 : (icb_copy (cmd_start ++ [104] ++ [109] ++ [1]) nick).1
      = cmd_start ++ [104] ++ [109] ++ [1] ++ nick.take 242 := by
    rw [icb_copy_no_nul nick _ h0]
    rfl
  have hl1 : 245 ≤ (cmd_start ++ [104] ++ [109] ++ [1] ++ nick.take 242).length ∧
      (cmd_start ++ [104] ++ [109] ++ [1] ++ nick.take 242).length ≤ 246 := by
    simp only [cmd_start, List.length_append, List.length_cons, List.length_nil,
      List.length_take]
    omega
  have hstuck : ∃ cmd, icb_privmsg_cmd nick (m :: rest) = .ok (cmd, m :: rest) := by
    simp only [icb_privmsg_cmd, bind, Except.bind, pure, Except.pure]
    rw [put_ok 104 (by decide)]
    simp only
    rw [put_ok 109 (by decide)]
    simp only
    rw [put_ok 1 (by decide)]
    simp only
    rw [h1]
    generalize cmd_start ++ [104] ++ [109] ++ [1] ++ nick.take 242 = X at hl1 ⊢
    rw [put_ok 32 (by omega)]
    simp only
    have hl2 : (X ++ [32]).length = X.length + 1 := by simp
    rw [icb_copy_full _ (m :: rest) (by rw [hl2, hmax]; omega)]
    simp only
    rw [put_ok 0 (by rw [hl2]; omega)]
    exact ⟨_, rfl⟩
  obtain ⟨cmd, hcmd⟩ := hstuck
  have hloop := icb_privmsg_loop_stuck nick m rest cmd hm hcmd
  refine ⟨hloop, ?_⟩
  intro s fd
  unfold icb_send_privmsg
  rw [hloop]
  rfl

/-- Witness for C4: the nick `"a"`, an ident of 244 bytes `'x'` and an empty
group. -/
theorem icb_login_cmd_overflow_witness :
    0 ∉ List.replicate 244 120 ∧ 244 ≤ (List.replicate 244 120).length ∧
    icb_login_cmd [97] (List.replicate 244 120) [] = .error .oob_write ∧
    icb_send_login session_zero Fd.server [97] (List.replicate 244 120) []
      = .error .oob_write :=
  have h0 : 0 ∉ List.replicate 244 120 := fun h => by
    have := (List.mem_replicate.mp h).2
    omega
  have hl : 244 ≤ (List.replicate 244 120).length := by rw [List.length_replicate]
  ⟨h0, hl, (icb_login_cmd_overflow [97] (List.replicate 244 120) [] h0 hl).1,
    (icb_login_cmd_overflow [97] (List.replicate 244 120) [] h0 hl).2 session_zero Fd.server⟩

/-- Witness for C6: a nick of 241 bytes `'x'` and the message `"hi"`. -/
theorem icb_privmsg_loop_diverges_witness :
    0 ∉ List.replicate 241 120 ∧ 241 ≤ (List.replicate 241 120).length ∧
    (∀ fuel, icb_privmsg_loop fuel (List.replicate 241 120) [104, 105] = .error .diverges) ∧
    icb_send_privmsg session_zero Fd.server (List.replicate 241 120) [104, 105]
      = .error .diverges :=
  have h0 : 0 ∉ List.replicate 241 120 := fun h => by
    have := (List.mem_replicate.mp h).2
    omega
  have hl : 241 ≤ (List.replicate 241 120).length := by rw [List.length_replicate]
  ⟨h0, hl, (icb_privmsg_loop_diverges (List.replicate 241 120) 104 [105] h0 hl (by decide)).1,
    (icb_privmsg_loop_diverges (List.replicate 241 120) 104 [105] h0 hl (by decide)).2
      session_zero Fd.server⟩

/-! ## The number of iterations allowed to `icb_send_privmsg` is enough -/

theorem icb_copy_rest (src : List Nat) :
    ∀ cmd : List Nat, ∃ k, (icb_copy cmd src).2 = src.drop k := by
  induction src with
  | nil => intro cmd; exact ⟨0, rfl⟩
  | cons b rest ih =>
    intro cmd
    by_cases hc : b ≠ 0 ∧ cmd.length < MAX_MSG_SIZE
    · obtain ⟨k, hk⟩ := ih (cmd ++ [b])
      refine ⟨k + 1, ?_⟩
      simp only [icb_copy]
      rw [if_pos hc, hk, List.drop_succ_cons]
    · refine ⟨0, ?_⟩
      simp only [icb_copy]
      rw [if_neg hc, List.drop_zero]

/-- An iteration of the loop of `icb_send_privmsg` always writes its packet
and leaves `msg` at a position at or after the one it started from. -/
theorem icb_privmsg_cmd_rest (nick msg : List Nat) :
    ∃ p k, icb_privmsg_cmd nick msg = .ok (p, msg.drop k) := by
  have hmax : MAX_MSG_SIZE = 246 := rfl
  obtain ⟨t, ht, hl, _⟩ := icb_copy_bound nick (cmd_start ++ [104] ++ [109] ++ [1])
  have hlen0 : (cmd_start ++ [104] ++ [109] ++ [1]).length = 4 := rfl
  rw [hlen0, hmax] at hl
  generalize hX : cmd_start ++ [104] ++ [109] ++ [1] ++ t = X at ht hl
  obtain ⟨t2, ht2, hl2, _⟩ := icb_copy_bound msg (X ++ [32])
  obtain ⟨k, hk⟩ := icb_copy_rest msg (X ++ [32])
  have hlen1 : (X ++ [32]).length = X.length + 1 := by simp
  rw [hlen1, hmax] at hl2
  refine ⟨icb_finish (X ++ [32] ++ t2 ++ [0]), k, ?_⟩
  simp only [icb_privmsg_cmd, bind, Except.bind, pure, Except.pure]
  rw [put_ok 104 (by decide)]
  simp only
  rw [put_ok 109 (by decide)]
  simp only
  rw [put_ok 1 (by decide)]
  simp only
  rw [ht, put_ok 32 (by omega)]
  simp only
  rw [ht2, hk, put_ok 0 (by omega)]

theorem icb_privmsg_loop_mono (nick : List Nat) (fuel : Nat) :
    ∀ (msg : List Nat) (r : List (List Nat)),
      icb_privmsg_loop fuel nick msg = .ok r → icb_privmsg_loop (fuel + 1) nick msg = .ok r := by
  induction fuel with
  | zero =>
    intro msg r h
    cases msg with
    | nil => simpa [icb_privmsg_loop] using h
    | cons m rest =>
      by_cases hm : m = 0
      · simpa [icb_privmsg_loop, hm] using h
      · simp [icb_privmsg_loop, hm] at h
  | succ n ih =>
    intro msg r h
    cases msg with
    | nil => simpa [icb_privmsg_loop] using h
    | cons m rest =>
      by_cases hm : m = 0
      · simpa [icb_privmsg_loop, hm] using h
      · obtain ⟨p, k, hcmd⟩ := icb_privmsg_cmd_rest nick (m :: rest)
        simp only [icb_privmsg_loop, hm, if_false, hcmd] at h ⊢
        cases hrest : icb_privmsg_loop n nick ((m :: rest).drop k) with
        | error e => rw [hrest] at h; cases h
        | ok cs =>
          rw [hrest] at h
          rw [ih _ cs hrest]
          exact h

theorem icb_privmsg_loop_mono_add (nick : List Nat) (fuel k : Nat) (msg : List Nat)
    (r : List (List Nat)) (h : icb_privmsg_loop fuel nick msg = .ok r) :
    icb_privmsg_loop (fuel + k) nick msg = .ok r := by
  induction k with
  | zero => exact h
  | succ j ih => exact icb_privmsg_loop_mono nick (fuel + j) msg r ih

/-- If the loop of `icb_send_privmsg` ends at all, it ends within the
`|msg| + 1` iterations that the model of `icb_send_privmsg` allows it: the
fault `diverges` is reported only for a call that never returns. -/
theorem icb_privmsg_loop_fuel (nick : List Nat) (fuel : Nat) :
    ∀ (msg : List Nat) (r : List (List Nat)),
      icb_privmsg_loop fuel nick msg = .ok r →
      icb_privmsg_loop (msg.length + 1) nick msg = .ok r := by
  induction fuel with
  | zero =>
    intro msg r h
    cases msg with
    | nil => simpa [icb_privmsg_loop] using h
    | cons m rest =>
      by_cases hm : m = 0
      · simpa [icb_privmsg_loop, hm] using h
      · simp [icb_privmsg_loop, hm] at h
  | succ n ih =>
    intro msg r h
    cases msg with
    | nil => simpa [icb_privmsg_loop] using h
    | cons m rest =>
      by_cases hm : m = 0
      · simpa [icb_privmsg_loop, hm] using h
      · obtain ⟨p, k, hcmd⟩ := icb_privmsg_cmd_rest nick (m :: rest)
        simp only [icb_privmsg_loop, hm, if_false, hcmd] at h
        cases hrest : icb_privmsg_loop n nick ((m :: rest).drop k) with
        | error e => rw [hrest] at h; cases h
        | ok cs =>
          rw [hrest] at h
          have hk : k ≠ 0 := by
            intro hk0
            subst hk0
            rw [List.drop_zero] at hcmd hrest
            have := icb_privmsg_loop_stuck nick m rest p hm hcmd n
            rw [this] at hrest
            cases hrest
          have hlen : ((m :: rest).drop k).length + 1 ≤ rest.length + 1 := by
            simp only [List.length_drop, List.length_cons]; omega
          have h1 := ih _ cs hrest
          have h2 := icb_privmsg_loop_mono_add nick _
            (rest.length + 1 - (((m :: rest).drop k).length + 1)) _ cs h1
          rw [Nat.add_sub_cancel' hlen] at h2
          simp only [List.length_cons, icb_privmsg_loop, hm, if_false, hcmd, h2]
          exact h

/-! ## Projections of the session flags and of the channel through the primitives -/

@[simp] theorem set_irc_pass_icb_logged_in (s : Session) (v : List Nat) :
    (s.set_irc_pass v).icb_logged_in = s.icb_logged_in := rfl

@[simp] theorem set_irc_ident_icb_logged_in (s : Session) (v : List Nat) :
    (s.set_irc_ident v).icb_logged_in = s.icb_logged_in := rfl

@[simp] theorem set_irc_nick_icb_logged_in (s : Session) (v : List Nat) :
    (s.set_irc_nick v).icb_logged_in = s.icb_logged_in := rfl

@[simp] theorem set_irc_channel_icb_logged_in (s : Session) (v : List Nat) :
    (s.set_irc_channel v).icb_logged_in = s.icb_logged_in := rfl

@[simp] theorem set_in_irc_channel_icb_logged_in (s : Session) (v : Bool) :
    (s.set_in_irc_channel v).icb_logged_in = s.icb_logged_in := rfl

@[simp] theorem set_icb_logged_in_icb_logged_in (s : Session) (v : Bool) :
    (s.set_icb_logged_in v).icb_logged_in = v := rfl

@[simp] theorem set_terminate_client_icb_logged_in (s : Session) (v : Bool) :
    (s.set_terminate_client v).icb_logged_in = s.icb_logged_in := rfl

@[simp] theorem set_icb_protolevel_icb_logged_in (s : Session) (v : List Nat) :
    (s.set_icb_protolevel v).icb_logged_in = s.icb_logged_in := rfl

@[simp] theorem set_icb_hostid_icb_logged_in (s : Session) (v : List Nat) :
    (s.set_icb_hostid v).icb_logged_in = s.icb_logged_in := rfl

@[simp] theorem set_icb_serverid_icb_logged_in (s : Session) (v : List Nat) :
    (s.set_icb_serverid v).icb_logged_in = s.icb_logged_in := rfl

@[simp] theorem set_icb_moderator_icb_logged_in (s : Session) (v : List Nat) :
    (s.set_icb_moderator v).icb_logged_in = s.icb_logged_in := rfl

@[simp] theorem set_imode_icb_logged_in (s : Session) (v : imode_t) :
    (s.set_imode v).icb_logged_in = s.icb_logged_in := rfl

@[simp] theorem set_icurgroup_icb_logged_in (s : Session) (v : List Nat) :
    (s.set_icurgroup v).icb_logged_in = s.icb_logged_in := rfl

@[simp] theorem set_igroup_icb_logged_in (s : Session) (v : List Nat) :
    (s.set_igroup v).icb_logged_in = s.icb_logged_in := rfl

@[simp] theorem set_inick_icb_logged_in (s : Session) (v : List Nat) :
    (s.set_inick v).icb_logged_in = s.icb_logged_in := rfl

@[simp] theorem set_ihostmask_icb_logged_in (s : Session) (v : List Nat) :
    (s.set_ihostmask v).icb_logged_in = s.icb_logged_in := rfl

@[simp] theorem sync_write_icb_logged_in (s : Session) (fd : Fd) (b : List Nat) :
    (sync_write s fd b).icb_logged_in = s.icb_logged_in := by
  cases fd <;> rfl

@[simp] theorem sync_write_all_icb_logged_in (fd : Fd) (bufs : List (List Nat)) :
    ∀ s : Session, (sync_write_all s fd bufs).icb_logged_in = s.icb_logged_in := by
  induction bufs with
  | nil => intro s; rfl
  | cons b rest ih =>
    intro s
    have h := ih (sync_write s fd b)
    rw [sync_write_icb_logged_in] at h
    exact h

@[simp] theorem irc_send_notice_icb_logged_in (s : Session) (fd : Fd) (m : List Nat) :
    (irc_send_notice s fd m).icb_logged_in = s.icb_logged_in := by
  unfold irc_send_notice; exact sync_write_icb_logged_in _ _ _

@[simp] theorem irc_send_code_icb_logged_in (s : Session) (fd : Fd) (a b c m : List Nat) :
    (irc_send_code s fd a b c m).icb_logged_in = s.icb_logged_in := by
  unfold irc_send_code; exact sync_write_icb_logged_in _ _ _

@[simp] theorem irc_send_msg_icb_logged_in (s : Session) (fd : Fd) (a b m : List Nat) :
    (irc_send_msg s fd a b m).icb_logged_in = s.icb_logged_in := by
  unfold irc_send_msg; exact sync_write_icb_logged_in _ _ _

@[simp] theorem irc_send_part_icb_logged_in (s : Session) (fd : Fd) (a b : List Nat) :
    (irc_send_part s fd a b).icb_logged_in = s.icb_logged_in := by
  unfold irc_send_part; exact sync_write_icb_logged_in _ _ _

@[simp] theorem irc_send_pong_icb_logged_in (s : Session) (fd : Fd) (a : List Nat) :
    (irc_send_pong s fd a).icb_logged_in = s.icb_logged_in := by
  unfold irc_send_pong; exact sync_write_icb_logged_in _ _ _

@[simp] theorem irc_send_join_icb_logged_in (s : Session) (fd : Fd) (a b : List Nat) :
    (irc_send_join s fd a b).icb_logged_in = s.icb_logged_in := by
  unfold irc_send_join
  rw [set_in_irc_channel_icb_logged_in]
  exact sync_write_icb_logged_in _ _ _

@[simp] theorem set_irc_pass_terminate_client (s : Session) (v : List Nat) :
    (s.set_irc_pass v).terminate_client = s.terminate_client := rfl

@[simp] theorem set_irc_ident_terminate_client (s : Session) (v : List Nat) :
    (s.set_irc_ident v).terminate_client = s.terminate_client := rfl

@[simp] theorem set_irc_nick_terminate_client (s : Session) (v : List Nat) :
    (s.set_irc_nick v).terminate_client = s.terminate_client := rfl

@[simp] theorem set_irc_channel_terminate_client (s : Session) (v : List Nat) :
    (s.set_irc_channel v).terminate_client = s.terminate_client := rfl

@[simp] theorem set_in_irc_channel_terminate_client (s : Session) (v : Bool) :
    (s.set_in_irc_channel v).terminate_client = s.terminate_client := rfl

@[simp] theorem set_icb_logged_in_terminate_client (s : Session) (v : Bool) :
    (s.set_icb_logged_in v).terminate_client = s.terminate_client := rfl

@[simp] theorem set_terminate_client_terminate_client (s : Session) (v : Bool) :
    (s.set_terminate_client v).terminate_client = v := rfl

@[simp] theorem set_icb_protolevel_terminate_client (s : Session) (v : List Nat) :
    (s.set_icb_protolevel v).terminate_client = s.terminate_client := rfl

@[simp] theorem set_icb_hostid_terminate_client (s : Session) (v : List Nat) :
    (s.set_icb_hostid v).terminate_client = s.terminate_client := rfl

@[simp] theorem set_icb_serverid_terminate_client (s : Session) (v : List Nat) :
    (s.set_icb_serverid v).terminate_client = s.terminate_client := rfl

@[simp] theorem set_icb_moderator_terminate_client (s : Session) (v : List Nat) :
    (s.set_icb_moderator v).terminate_client = s.terminate_client := rfl

@[simp] theorem set_imode_terminate_client (s : Session) (v : imode_t) :
    (s.set_imode v).terminate_client = s.terminate_client := rfl

@[simp] theorem set_icurgroup_terminate_client (s : Session) (v : List Nat) :
    (s.set_icurgroup v).terminate_client = s.terminate_client := rfl

@[simp] theorem set_igroup_terminate_client (s : Session) (v : List Nat) :
    (s.set_igroup v).terminate_client = s.terminate_client := rfl

@[simp] theorem set_inick_terminate_client (s : Session) (v : List Nat) :
    (s.set_inick v).terminate_client = s.terminate_client := rfl

@[simp] theorem set_ihostmask_terminate_client (s : Session) (v : List Nat) :
    (s.set_ihostmask v).terminate_client = s.terminate_client := rfl

@[simp] theorem sync_write_terminate_client (s : Session) (fd : Fd) (b : List Nat) :
    (sync_write s fd b).terminate_client = s.terminate_client := by
  cases fd <;> rfl

@[simp] theorem sync_write_all_terminate_client (fd : Fd) (bufs : List (List Nat)) :
    ∀ s : Session, (sync_write_all s fd bufs).terminate_client = s.terminate_client := by
  induction bufs with
  | nil => intro s; rfl
  | cons b rest ih =>
    intro s
    have h := ih (sync_write s fd b)
    rw [sync_write_terminate_client] at h
    exact h

@[simp] theorem irc_send_notice_terminate_client (s : Session) (fd : Fd) (m : List Nat) :
    (irc_send_notice s fd m).terminate_client = s.terminate_client := by
  unfold irc_send_notice; exact sync_write_terminate_client _ _ _

@[simp] theorem irc_send_code_terminate_client (s : Session) (fd : Fd) (a b c m : List Nat) :
    (irc_send_code s fd a b c m).terminate_client = s.terminate_client := by
  unfold irc_send_code; exact sync_write_terminate_client _ _ _

@[simp] theorem irc_send_msg_terminate_client (s : Session) (fd : Fd) (a b m : List Nat) :
    (irc_send_msg s fd a b m).terminate_client = s.terminate_client := by
  unfold irc_send_msg; exact sync_write_terminate_client _ _ _

@[simp] theorem irc_send_part_terminate_client (s : Session) (fd : Fd) (a b : List Nat) :
    (irc_send_part s fd a b).terminate_client = s.terminate_client := by
  unfold irc_send_part; exact sync_write_terminate_client _ _ _

@[simp] theorem irc_send_pong_terminate_client (s : Session) (fd : Fd) (a : List Nat) :
    (irc_send_pong s fd a).terminate_client = s.terminate_client := by
  unfold irc_send_pong; exact sync_write_terminate_client _ _ _

@[simp] theorem irc_send_join_terminate_client (s : Session) (fd : Fd) (a b : List Nat) :
    (irc_send_join s fd a b).terminate_client = s.terminate_client := by
  unfold irc_send_join
  rw [set_in_irc_channel_terminate_client]
  exact sync_write_terminate_client _ _ _

@[simp] theorem set_irc_pass_in_irc_channel (s : Session) (v : List Nat) :
    (s.set_irc_pass v).in_irc_channel = s.in_irc_channel := rfl

@[simp] theorem set_irc_ident_in_irc_channel (s : Session) (v : List Nat) :
    (s.set_irc_ident v).in_irc_channel = s.in_irc_channel := rfl

@[simp] theorem set_irc_nick_in_irc_channel (s : Session) (v : List Nat) :
    (s.set_irc_nick v).in_irc_channel = s.in_irc_channel := rfl

@[simp] theorem set_irc_channel_in_irc_channel (s : Session) (v : List Nat) :
    (s.set_irc_channel v).in_irc_channel = s.in_irc_channel := rfl

@[simp] theorem set_in_irc_channel_in_irc_channel (s : Session) (v : Bool) :
    (s.set_in_irc_channel v).in_irc_channel = v := rfl

@[simp] theorem set_icb_logged_in_in_irc_channel (s : Session) (v : Bool) :
    (s.set_icb_logged_in v).in_irc_channel = s.in_irc_channel := rfl

@[simp] theorem set_terminate_client_in_irc_channel (s : Session) (v : Bool) :
    (s.set_terminate_client v).in_irc_channel = s.in_irc_channel := rfl

@[simp] theorem set_icb_protolevel_in_irc_channel (s : Session) (v : List Nat) :
    (s.set_icb_protolevel v).in_irc_channel = s.in_irc_channel := rfl

@[simp] theorem set_icb_hostid_in_irc_channel (s : Session) (v : List Nat) :
    (s.set_icb_hostid v).in_irc_channel = s.in_irc_channel := rfl

@[simp] theorem set_icb_serverid_in_irc_channel (s : Session) (v : List Nat) :
    (s.set_icb_serverid v).in_irc_channel = s.in_irc_channel := rfl

@[simp] theorem set_icb_moderator_in_irc_channel (s : Session) (v : List Nat) :
    (s.set_icb_moderator v).in_irc_channel = s.in_irc_channel := rfl

@[simp] theorem set_imode_in_irc_channel (s : Session) (v : imode_t) :
    (s.set_imode v).in_irc_channel = s.in_irc_channel := rfl

@[simp] theorem set_icurgroup_in_irc_channel (s : Session) (v : List Nat) :
    (s.set_icurgroup v).in_irc_channel = s.in_irc_channel := rfl

@[simp] theorem set_igroup_in_irc_channel (s : Session) (v : List Nat) :
    (s.set_igroup v).in_irc_channel = s.in_irc_channel := rfl

@[simp] theorem set_inick_in_irc_channel (s : Session) (v : List Nat) :
    (s.set_inick v).in_irc_channel = s.in_irc_channel := rfl

@[simp] theorem set_ihostmask_in_irc_channel (s : Session) (v : List Nat) :
    (s.set_ihostmask v).in_irc_channel = s.in_irc_channel := rfl

@[simp] theorem sync_write_in_irc_channel (s : Session) (fd : Fd) (b : List Nat) :
    (sync_write s fd b).in_irc_channel = s.in_irc_channel := by
  cases fd <;> rfl

@[simp] theorem sync_write_all_in_irc_channel (fd : Fd) (bufs : List (List Nat)) :
    ∀ s : Session, (sync_write_all s fd bufs).in_irc_channel = s.in_irc_channel := by
  induction bufs with
  | nil => intro s; rfl
  | cons b rest ih =>
    intro s
    have h := ih (sync_write s fd b)
    rw [sync_write_in_irc_channel] at h
    exact h

@[simp] theorem irc_send_notice_in_irc_channel (s : Session) (fd : Fd) (m : List Nat) :
    (irc_send_notice s fd m).in_irc_channel = s.in_irc_channel := by
  unfold irc_send_notice; exact sync_write_in_irc_channel _ _ _

@[simp] theorem irc_send_code_in_irc_channel (s : Session) (fd : Fd) (a b c m : List Nat) :
    (irc_send_code s fd a b c m).in_irc_channel = s.in_irc_channel := by
  unfold irc_send_code; exact sync_write_in_irc_channel _ _ _

@[simp] theorem irc_send_msg_in_irc_channel (s : Session) (fd : Fd) (a b m : List Nat) :
    (irc_send_msg s fd a b m).in_irc_channel = s.in_irc_channel := by
  unfold irc_send_msg; exact sync_write_in_irc_channel _ _ _

@[simp] theorem irc_send_part_in_irc_channel (s : Session) (fd : Fd) (a b : List Nat) :
    (irc_send_part s fd a b).in_irc_channel = s.in_irc_channel := by
  unfold irc_send_part; exact sync_write_in_irc_channel _ _ _

@[simp] theorem irc_send_pong_in_irc_channel (s : Session) (fd : Fd) (a : List Nat) :
    (irc_send_pong s fd a).in_irc_channel = s.in_irc_channel := by
  unfold irc_send_pong; exact sync_write_in_irc_channel _ _ _

@[simp] theorem irc_send_join_in_irc_channel (s : Session) (fd : Fd) (a b : List Nat) :
    (irc_send_join s fd a b).in_irc_channel = true := by
  unfold irc_send_join; rfl

@[simp] theorem set_irc_pass_irc_channel (s : Session) (v : List Nat) :
    (s.set_irc_pass v).irc_channel = s.irc_channel := rfl

@[simp] theorem set_irc_ident_irc_channel (s : Session) (v : List Nat) :
    (s.set_irc_ident v).irc_channel = s.irc_channel := rfl

@[simp] theorem set_irc_nick_irc_channel (s : Session) (v : List Nat) :
    (s.set_irc_nick v).irc_channel = s.irc_channel := rfl

@[simp] theorem set_irc_channel_irc_channel (s : Session) (v : List Nat) :
    (s.set_irc_channel v).irc_channel = v := rfl

@[simp] theorem set_in_irc_channel_irc_channel (s : Session) (v : Bool) :
    (s.set_in_irc_channel v).irc_channel = s.irc_channel := rfl

@[simp] theorem set_icb_logged_in_irc_channel (s : Session) (v : Bool) :
    (s.set_icb_logged_in v).irc_channel = s.irc_channel := rfl

@[simp] theorem set_terminate_client_irc_channel (s : Session) (v : Bool) :
    (s.set_terminate_client v).irc_channel = s.irc_channel := rfl

@[simp] theorem set_icb_protolevel_irc_channel (s : Session) (v : List Nat) :
    (s.set_icb_protolevel v).irc_channel = s.irc_channel := rfl

@[simp] theorem set_icb_hostid_irc_channel (s : Session) (v : List Nat) :
    (s.set_icb_hostid v).irc_channel = s.irc_channel := rfl

@[simp] theorem set_icb_serverid_irc_channel (s : Session) (v : List Nat) :
    (s.set_icb_serverid v).irc_channel = s.irc_channel := rfl

@[simp] theorem set_icb_moderator_irc_channel (s : Session) (v : List Nat) :
    (s.set_icb_moderator v).irc_channel = s.irc_channel := rfl

@[simp] theorem set_imode_irc_channel (s : Session) (v : imode_t) :
    (s.set_imode v).irc_channel = s.irc_channel := rfl

@[simp] theorem set_icurgroup_irc_channel (s : Session) (v : List Nat) :
    (s.set_icurgroup v).irc_channel = s.irc_channel := rfl

@[simp] theorem set_igroup_irc_channel (s : Session) (v : List Nat) :
    (s.set_igroup v).irc_channel = s.irc_channel := rfl

@[simp] theorem set_inick_irc_channel (s : Session) (v : List Nat) :
    (s.set_inick v).irc_channel = s.irc_channel := rfl

@[simp] theorem set_ihostmask_irc_channel (s : Session) (v : List Nat) :
    (s.set_ihostmask v).irc_channel = s.irc_channel := rfl

@[simp] theorem sync_write_irc_channel (s : Session) (fd : Fd) (b : List Nat) :
    (sync_write s fd b).irc_channel = s.irc_channel := by
  cases fd <;> rfl

@[simp] theorem sync_write_all_irc_channel (fd : Fd) (bufs : List (List Nat)) :
    ∀ s : Session, (sync_write_all s fd bufs).irc_channel = s.irc_channel := by
  induction bufs with
  | nil => intro s; rfl
  | cons b rest ih =>
    intro s
    have h := ih (sync_write s fd b)
    rw [sync_write_irc_channel] at h
    exact h

@[simp] theorem irc_send_notice_irc_channel (s : Session) (fd : Fd) (m : List Nat) :
    (irc_send_notice s fd m).irc_channel = s.irc_channel := by
  unfold irc_send_notice; exact sync_write_irc_channel _ _ _

@[simp] theorem irc_send_code_irc_channel (s : Session) (fd : Fd) (a b c m : List Nat) :
    (irc_send_code s fd a b c m).irc_channel = s.irc_channel := by
  unfold irc_send_code; exact sync_write_irc_channel _ _ _

@[simp] theorem irc_send_msg_irc_channel (s : Session) (fd : Fd) (a b m : List Nat) :
    (irc_send_msg s fd a b m).irc_channel = s.irc_channel := by
  unfold irc_send_msg; exact sync_write_irc_channel _ _ _

@[simp] theorem irc_send_part_irc_channel (s : Session) (fd : Fd) (a b : List Nat) :
    (irc_send_part s fd a b).irc_channel = s.irc_channel := by
  unfold irc_send_part; exact sync_write_irc_channel _ _ _

@[simp] theorem irc_send_pong_irc_channel (s : Session) (fd : Fd) (a : List Nat) :
    (irc_send_pong s fd a).irc_channel = s.irc_channel := by
  unfold irc_send_pong; exact sync_write_irc_channel _ _ _

@[simp] theorem irc_send_join_irc_channel (s : Session) (fd : Fd) (a b : List Nat) :
    (irc_send_join s fd a b).irc_channel = s.irc_channel := by
  unfold irc_send_join
  rw [set_in_irc_channel_irc_channel]
  exact sync_write_irc_channel _ _ _

/-! ## `scan` -/

theorem scan_skip_eq (skip : List Nat) :
    ∀ s : List Nat, 0 ∉ s → scan_skip skip s = s.dropWhile (fun b => decide (b ∈ skip)) := by
  intro s
  induction s with
  | nil => intro _; rfl
  | cons b rest ih =>
    intro h0
    have hb : b ≠ 0 := fun h => h0 (by rw [h]; exact List.mem_cons_self _ _)
    have hr : 0 ∉ rest := fun h => h0 (List.mem_cons_of_mem _ h)
    unfold scan_skip
    by_cases hm : b ∈ skip
    · rw [if_pos ⟨hb, hm⟩, ih hr, List.dropWhile_cons_of_pos (by simpa using hm)]
    · rw [if_neg (fun h => hm h.2), List.dropWhile_cons_of_neg (by simpa using hm)]

theorem dropWhile_no_nul (p : Nat → Bool) (s : List Nat) (h : 0 ∉ s) : 0 ∉ s.dropWhile p :=
  fun hm => h ((List.dropWhile_suffix p).subset hm)

theorem scan_copy_eq (term : List Nat) :
    ∀ (s : List Nat) (siz : Nat) (d : List Nat), 0 ∉ s →
      (scan_copy term s siz d).2.2
          = d ++ (s.takeWhile (fun b => decide (b ∉ term))).take (siz - 1) ∧
        ((scan_copy term s siz d).2.1 > 0 ↔ siz > 0) := by
  intro s
  induction s with
  | nil => intro siz d _; simp [scan_copy]
  | cons b rest ih =>
    intro siz d h0
    have hb : b ≠ 0 := fun h => h0 (by rw [h]; exact List.mem_cons_self _ _)
    have hr : 0 ∉ rest := fun h => h0 (List.mem_cons_of_mem _ h)
    unfold scan_copy
    by_cases hm : b ∉ term
    · rw [if_pos ⟨hb, hm⟩, List.takeWhile_cons_of_pos (by simpa using hm)]
      by_cases hs : siz > 1
      · rw [if_pos hs]
        obtain ⟨h1, h2⟩ := ih (siz - 1) (d ++ [b]) hr
        refine ⟨?_, ?_⟩
        · rw [h1]
          obtain ⟨k, rfl⟩ : ∃ k, siz = k + 2 := ⟨siz - 2, by omega⟩
          simp
        · rw [h2]; omega
      · rw [if_neg hs]
        obtain ⟨h1, h2⟩ := ih siz d hr
        refine ⟨?_, h2⟩
        rw [h1]
        have : siz - 1 = 0 := by omega
        rw [this]; simp
    · rw [if_neg (fun h => hm h.2), List.takeWhile_cons_of_neg (by simpa using hm)]
      simp

theorem cstr_append_nul (x y : List Nat) (h : 0 ∉ x) : cstr (x ++ 0 :: y) = x := by
  induction x with
  | nil => simp [cstr]
  | cons b rest ih =>
    simp only [List.mem_cons, not_or] at h
    have hb : b ≠ 0 := fun e => h.1 e.symm
    show cstr (b :: (rest ++ 0 :: y)) = b :: rest
    unfold cstr
    rw [if_neg hb, ih h.2]

/-- C13. For a NUL-free source `s`, `scan` with capacity `N >= 1` writes the
first `min (N - 1) m` bytes of the token `t` and then a NUL, where `t` (of
length `m`) is the longest prefix without a byte of `term` of what is left of
`s` after its longest prefix of bytes of `skip`; the string left in the
output is at most `N - 1` bytes long; with capacity 0 nothing is written. -/
theorem scan_writes_token (s skip term : List Nat) (h0 : 0 ∉ s) :
    (∀ N, 1 ≤ N →
      (scan s N skip term).2
          = ((s.dropWhile (fun b => decide (b ∈ skip))).takeWhile
              (fun b => decide (b ∉ term))).take
              (min (N - 1) ((s.dropWhile (fun b => decide (b ∈ skip))).takeWhile
                (fun b => decide (b ∉ term))).length) ++ [0] ∧
        (scan_tok s N skip term).2.length ≤ N - 1) ∧
      (scan s 0 skip term).2 = [] := by
  have hd := dropWhile_no_nul (fun b => decide (b ∈ skip)) s h0
  have key := fun N => scan_copy_eq term (s.dropWhile (fun b => decide (b ∈ skip))) N [] hd
  have hw : ∀ N, 1 ≤ N → (scan s N skip term).2
      = ((s.dropWhile (fun b => decide (b ∈ skip))).takeWhile
          (fun b => decide (b ∉ term))).take (N - 1) ++ [0] := by
    intro N hN
    obtain ⟨h1, h2⟩ := key N
    unfold scan
    simp only []
    rw [scan_skip_eq skip s h0, if_pos (h2.mpr hN), h1, List.nil_append]
  refine ⟨fun N hN => ⟨?_, ?_⟩, ?_⟩
  · rw [hw N hN]
    congr 1
    rcases Nat.le_total (N - 1) ((s.dropWhile (fun b => decide (b ∈ skip))).takeWhile
        (fun b => decide (b ∉ term))).length with h | h
    · rw [Nat.min_eq_left h]
    · rw [Nat.min_eq_right h, List.take_of_length_le h, List.take_length]
  · unfold scan_tok
    simp only []
    rw [hw N hN]
    have hn : 0 ∉ ((s.dropWhile (fun b => decide (b ∈ skip))).takeWhile
        (fun b => decide (b ∉ term))).take (N - 1) :=
      fun h => hd ((List.takeWhile_prefix _).subset (List.mem_of_mem_take h))
    rw [cstr_append_nul _ [] hn]
    exact List.length_take_le _ _
  · obtain ⟨h1, h2⟩ := key 0
    unfold scan
    simp only []
    rw [scan_skip_eq skip s h0, if_neg (fun h => absurd (h2.mp h) (by omega)), h1]
    simp

theorem ctcp_shift_cons : ∀ (rest : List Nat) (b : Nat), ctcp_shift (b :: rest) = rest := by
  intro rest
  induction rest with
  | nil => intro b; rfl
  | cons c tl ih => intro b; unfold ctcp_shift; rw [ih c]

theorem ctcp_strip_eq : ∀ (fuel : Nat) (msg : List Nat), msg.length < fuel →
    ctcp_strip fuel msg = .ok ((cstr msg).filter (fun b => decide (b ≠ 1))) := by
  intro fuel
  induction fuel with
  | zero => intro msg h; omega
  | succ n ih =>
    intro msg h
    cases msg with
    | nil => rfl
    | cons b rest =>
      have hl : rest.length < n := by simpa using h
      unfold ctcp_strip
      by_cases hb0 : b = 0
      · rw [if_pos hb0]; simp [cstr, hb0]
      · rw [if_neg hb0]
        by_cases hb1 : b = 1
        · rw [if_pos hb1, ctcp_shift_cons, ih rest hl]
          simp [cstr, hb1]
        · rw [if_neg hb1, ih rest hl]
          simp [cstr, hb0, hb1]

theorem cstr_no_nul : ∀ l : List Nat, 0 ∉ cstr l := by
  intro l
  induction l with
  | nil => simp [cstr]
  | cons b rest ih =>
    unfold cstr
    by_cases hb : b = 0
    · rw [if_pos hb]; simp
    · rw [if_neg hb]
      intro h
      rcases List.mem_cons.mp h with h | h
      · exact hb h.symm
      · exact ih h

/-- C14. On every string `msg` the CTCP-stripping loop ends (within
`|msg| + 1` iterations) and leaves the string with every byte `\001` removed
and the other bytes in their order; run on its own output it returns that
output unchanged. -/
theorem ctcp_strip_removes_ctrl_a (msg : List Nat) :
    ctcp_strip (msg.length + 1) msg = .ok ((cstr msg).filter (fun b => decide (b ≠ 1))) ∧
      ctcp_strip (((cstr msg).filter (fun b => decide (b ≠ 1))).length + 1)
          ((cstr msg).filter (fun b => decide (b ≠ 1)))
        = .ok ((cstr msg).filter (fun b => decide (b ≠ 1))) := by
  refine ⟨ctcp_strip_eq _ _ (Nat.lt_succ_self _), ?_⟩
  rw [ctcp_strip_eq _ _ (Nat.lt_succ_self _)]
  have h0 : 0 ∉ (cstr msg).filter (fun b => decide (b ≠ 1)) :=
    fun h => cstr_no_nul msg (List.mem_of_mem_filter h)
  rw [cstr_of_no_nul _ h0, List.filter_filter]
  simp

/-- Witness for C13: the source `"  devs here"` with skip and term set `" "`
and capacity 4. -/
theorem scan_writes_token_witness :
    0 ∉ lit "  devs here" ∧
    (scan (lit "  devs here") 4 (lit " ") (lit " ")).2 = lit "dev" ++ [0] ∧
    (scan_tok (lit "  devs here") 4 (lit " ") (lit " ")).2.length ≤ 3 ∧
    (scan (lit "  devs here") 0 (lit " ") (lit " ")).2 = [] :=
  have h := scan_writes_token (lit "  devs here") (lit " ") (lit " ") (by decide)
  ⟨by decide, (h.1 4 (by decide)).1.trans (by decide), (h.1 4 (by decide)).2, h.2⟩

/-! ## What the translators do to the session flags and to the channel name -/

theorem bind_ok {α β : Type} (x : Except Fault α) (f : α → Except Fault β) (b : β)
    (h : (x >>= f) = .ok b) : ∃ a, x = .ok a ∧ f a = .ok b := by
  cases x with
  | error e => cases h
  | ok a => exact ⟨a, rfl, h⟩

theorem same_flags_refl (s : Session) : same_flags s s := ⟨rfl, rfl, rfl, rfl⟩

theorem same_flags_trans {a b c : Session} (h1 : same_flags a b) (h2 : same_flags b c) :
    same_flags a c :=
  ⟨h2.1.trans h1.1, h2.2.1.trans h1.2.1, h2.2.2.1.trans h1.2.2.1, h2.2.2.2.trans h1.2.2.2⟩

theorem sync_write_flags (s : Session) (fd : Fd) (b : List Nat) :
    same_flags s (sync_write s fd b) :=
  ⟨sync_write_icb_logged_in _ _ _, sync_write_terminate_client _ _ _,
    sync_write_in_irc_channel _ _ _, sync_write_irc_channel _ _ _⟩

theorem sync_write_all_flags (s : Session) (fd : Fd) (bufs : List (List Nat)) :
    same_flags s (sync_write_all s fd bufs) :=
  ⟨sync_write_all_icb_logged_in _ _ _, sync_write_all_terminate_client _ _ _,
    sync_write_all_in_irc_channel _ _ _, sync_write_all_irc_channel _ _ _⟩

theorem irc_send_notice_flags (s : Session) (fd : Fd) (m : List Nat) :
    same_flags s (irc_send_notice s fd m) := sync_write_flags _ _ _

theorem irc_send_code_flags (s : Session) (fd : Fd) (a b c m : List Nat) :
    same_flags s (irc_send_code s fd a b c m) := sync_write_flags _ _ _

theorem irc_send_msg_flags (s : Session) (fd : Fd) (a b m : List Nat) :
    same_flags s (irc_send_msg s fd a b m) := sync_write_flags _ _ _

theorem irc_send_part_flags (s : Session) (fd : Fd) (a b : List Nat) :
    same_flags s (irc_send_part s fd a b) := sync_write_flags _ _ _

theorem irc_send_pong_flags (s : Session) (fd : Fd) (a : List Nat) :
    same_flags s (irc_send_pong s fd a) := sync_write_flags _ _ _

theorem icb_send_login_flags {s s' : Session} {fd : Fd} {a b c : List Nat}
    (h : icb_send_login s fd a b c = .ok s') : same_flags s s' := by
  obtain ⟨cmd, _, h2⟩ := bind_ok _ _ _ h
  cases h2; exact sync_write_flags _ _ _

theorem icb_send_openmsg_flags {s s' : Session} {fd : Fd} {m : List Nat}
    (h : icb_send_openmsg s fd m = .ok s') : same_flags s s' := by
  obtain ⟨cmds, _, h2⟩ := bind_ok _ _ _ h
  cases h2; exact sync_write_all_flags _ _ _

theorem icb_send_privmsg_flags {s s' : Session} {fd : Fd} {n m : List Nat}
    (h : icb_send_privmsg s fd n m = .ok s') : same_flags s s' := by
  obtain ⟨cmds, _, h2⟩ := bind_ok _ _ _ h
  cases h2; exact sync_write_all_flags _ _ _

theorem icb_send_group_flags {s s' : Session} {fd : Fd} {g : List Nat}
    (h : icb_send_group s fd g = .ok s') : same_flags s s' := by
  obtain ⟨cmd, _, h2⟩ := bind_ok _ _ _ h
  cases h2; exact sync_write_flags _ _ _

theorem icb_send_pass_flags {s s' : Session} {fd : Fd} {g : List Nat}
    (h : icb_send_pass s fd g = .ok s') : same_flags s s' := by
  obtain ⟨cmd, _, h2⟩ := bind_ok _ _ _ h
  cases h2; exact sync_write_flags _ _ _

theorem icb_send_topic_flags {s s' : Session} {fd : Fd} {g : List Nat}
    (h : icb_send_topic s fd g = .ok s') : same_flags s s' := by
  obtain ⟨cmd, _, h2⟩ := bind_ok _ _ _ h
  cases h2; exact sync_write_flags _ _ _

theorem icb_send_boot_flags {s s' : Session} {fd : Fd} {g : List Nat}
    (h : icb_send_boot s fd g = .ok s') : same_flags s s' := by
  obtain ⟨cmd, _, h2⟩ := bind_ok _ _ _ h
  cases h2; exact sync_write_flags _ _ _

theorem icb_send_name_flags {s s' : Session} {fd : Fd} {g : List Nat}
    (h : icb_send_name s fd g = .ok s') : same_flags s s' := by
  obtain ⟨cmd, _, h2⟩ := bind_ok _ _ _ h
  cases h2; exact sync_write_flags _ _ _

theorem icb_send_raw_flags {s s' : Session} {fd : Fd} {g : List Nat}
    (h : icb_send_raw s fd g = .ok s') : same_flags s s' := by
  obtain ⟨cmd, _, h2⟩ := bind_ok _ _ _ h
  cases h2; exact sync_write_flags _ _ _

theorem icb_send_noop_flags {s s' : Session} {fd : Fd}
    (h : icb_send_noop s fd = .ok s') : same_flags s s' := by
  obtain ⟨cmd, _, h2⟩ := bind_ok _ _ _ h
  cases h2; exact sync_write_flags _ _ _

theorem icb_send_hw_flags {s s' : Session} {fd : Fd} {g : List Nat}
    (h : icb_send_hw s fd g = .ok s') : same_flags s s' := by
  obtain ⟨cmd, _, h2⟩ := bind_ok _ _ _ h
  cases h2
  exact same_flags_trans (b := s.set_icurgroup []) ⟨rfl, rfl, rfl, rfl⟩ (sync_write_flags _ _ _)

theorem icb_send_list_flags {s s' : Session} {fd : Fd}
    (h : icb_send_list s fd = .ok s') : same_flags s s' := by
  unfold icb_send_list at h
  split at h
  · cases h; exact same_flags_refl _
  · exact same_flags_trans (b := s.set_imode imode_list) ⟨rfl, rfl, rfl, rfl⟩
      (icb_send_hw_flags h)

theorem icb_send_names_flags {s s' : Session} {fd : Fd} {g : List Nat}
    (h : icb_send_names s fd g = .ok s') : same_flags s s' := by
  unfold icb_send_names at h
  split at h
  · cases h; exact same_flags_refl _
  · exact same_flags_trans (b := (s.set_imode imode_names).set_igroup (strlcpy g 256))
      ⟨rfl, rfl, rfl, rfl⟩ (icb_send_hw_flags h)

theorem icb_send_whois_flags {s s' : Session} {fd : Fd} {g : List Nat}
    (h : icb_send_whois s fd g = .ok s') : same_flags s s' := by
  unfold icb_send_whois at h
  split at h
  · cases h; exact same_flags_refl _
  · exact same_flags_trans (b := (s.set_imode imode_whois).set_inick (strlcpy g 256))
      ⟨rfl, rfl, rfl, rfl⟩ (icb_send_hw_flags h)

theorem icb_send_who_flags {s s' : Session} {fd : Fd} {g : List Nat}
    (h : icb_send_who s fd g = .ok s') : same_flags s s' := by
  unfold icb_send_who at h
  split at h
  · cases h; exact same_flags_refl _
  · exact same_flags_trans (b := (s.set_imode imode_who).set_ihostmask (strlcpy g 256))
      ⟨rfl, rfl, rfl, rfl⟩ (icb_send_hw_flags h)

theorem strcasecmp_other {a x y : List Nat} (hx : strcasecmp_eq a x = true)
    (hne : x.map tolower ≠ y.map tolower) : strcasecmp_eq a y = false := by
  unfold strcasecmp_eq at hx ⊢
  rw [beq_iff_eq] at hx
  rw [hx]
  exact beq_false_of_ne hne

theorem tolower_eq_space (c : Nat) : tolower c = 32 ↔ c = 32 := by
  unfold tolower
  split <;> omega

theorem split_space_none : ∀ p : List Nat, split_space p = none → 32 ∉ p := by
  intro p
  induction p with
  | nil => intro _; simp
  | cons b rest ih =>
    intro h
    unfold split_space at h
    by_cases hb : b = 32
    · rw [if_pos hb] at h; cases h
    · rw [if_neg hb] at h
      cases hr : split_space rest with
      | some r => rw [hr] at h; cases h
      | none =>
        intro hm
        rcases List.mem_cons.mp hm with e | e
        · exact hb e.symm
        · exact ih hr e

theorem split_space_some : ∀ (p tok rest : List Nat), split_space p = some (tok, rest) →
    p = tok ++ 32 :: rest ∧ 32 ∉ tok := by
  intro p
  induction p with
  | nil => intro tok rest h; cases h
  | cons b tl ih =>
    intro tok rest h
    unfold split_space at h
    by_cases hb : b = 32
    · rw [if_pos hb] at h
      cases h
      exact ⟨by rw [hb]; rfl, by simp⟩
    · rw [if_neg hb] at h
      cases hr : split_space tl with
      | none => rw [hr] at h; cases h
      | some r =>
        rw [hr] at h
        cases h
        obtain ⟨h1, h2⟩ := ih r.1 r.2 hr
        refine ⟨by rw [List.cons_append, ← h1], ?_⟩
        intro hm
        rcases List.mem_cons.mp hm with e | e
        · exact hb e.symm
        · exact h2 e

/-- The string `argv[0]` is the line up to its first space. -/
theorem tokenise_head (n : Nat) (p : List Nat) :
    (tokenise (n + 1) p).headD [] = p.takeWhile (fun b => decide (b ≠ 32)) := by
  unfold tokenise
  cases hs : split_space p with
  | none =>
    have h := split_space_none p hs
    simp only [List.headD_cons]
    rw [List.takeWhile_eq_self_iff.mpr]
    intro b hb
    have : b ≠ 32 := fun e => h (e ▸ hb)
    simpa using this
  | some r =>
    obtain ⟨tok, rest⟩ := r
    obtain ⟨h1, h2⟩ := split_space_some p tok rest hs
    have htw : p.takeWhile (fun b => decide (b ≠ 32)) = tok := by
      rw [h1, List.takeWhile_append_of_pos, List.takeWhile_cons_of_neg (by simp),
        List.append_nil]
      intro b hb
      have : b ≠ 32 := fun e => h2 (e ▸ hb)
      simpa using this
    rw [htw]
    simp only []
    split
    · rfl
    · split <;> rfl

theorem irc_argv0_lower (line : List Nat) :
    (irc_argv0 line).map tolower
      = ((cstr line).map tolower).takeWhile (fun b => decide (b ≠ 32)) := by
  unfold irc_argv0
  rw [tokenise_head, List.takeWhile_map]
  congr 2
  funext b
  simp [tolower_eq_space]

theorem rawicb_argv0 (line : List Nat)
    (h : starts_with_nocase (lit "RAWICB ") (cstr line) = true) :
    (irc_argv0 line).map tolower = lit "rawicb" := by
  rw [irc_argv0_lower]
  unfold starts_with_nocase at h
  obtain ⟨t, ht⟩ := List.isPrefixOf_iff_prefix.mp h
  rw [← ht]
  rfl

theorem rawicb_other (line v : List Nat)
    (h : starts_with_nocase (lit "RAWICB ") (cstr line) = true)
    (hv : v.map tolower ≠ lit "rawicb") : strcasecmp_eq (irc_argv0 line) v = false := by
  unfold strcasecmp_eq
  rw [rawicb_argv0 line h]
  exact beq_false_of_ne (fun e => hv e.symm)

/-- What `irc_cmd` does to the flags and to the channel name: `QUIT` sets
`terminate_client` and nothing else, `PART` clears `in_irc_channel` and
nothing else, and every other line leaves all four as they were. -/
theorem irc_cmd_flags {c sv : Fd} {s s' : Session} {line : List Nat}
    (h : irc_cmd c sv s line = .ok s') :
    (strcasecmp_eq (irc_argv0 line) (lit "QUIT") = true ∧ s' = s.set_terminate_client true) ∨
    (strcasecmp_eq (irc_argv0 line) (lit "QUIT") = false ∧
      (same_flags s s' ∨
        (strcasecmp_eq (irc_argv0 line) (lit "PART") = true ∧
          s' = s.set_in_irc_channel false))) := by
  unfold irc_cmd at h
  simp only [] at h
  by_cases hraw : starts_with_nocase (lit "RAWICB ") (cstr line) = true
  · rw [if_pos hraw] at h
    exact Or.inr ⟨rawicb_other line _ hraw (by decide), Or.inl (icb_send_raw_flags h)⟩
  rw [if_neg hraw] at h
  have hv0 : (tokenise 9 (cstr line)).headD [] = irc_argv0 line := rfl
  rw [hv0] at h
  by_cases h1 : strcasecmp_eq (irc_argv0 line) (lit "PASS") = true
  · rw [if_pos h1] at h
    obtain ⟨a1, _, h2⟩ := bind_ok _ _ _ h
    cases h2
    exact Or.inr ⟨strcasecmp_other h1 (by decide), Or.inl ⟨rfl, rfl, rfl, rfl⟩⟩
  rw [if_neg h1] at h
  by_cases h2 : strcasecmp_eq (irc_argv0 line) (lit "USER") = true
  · rw [if_pos h2] at h
    obtain ⟨a1, _, hb⟩ := bind_ok _ _ _ h
    refine Or.inr ⟨strcasecmp_other h2 (by decide), Or.inl ?_⟩
    split at hb
    · exact same_flags_trans (b := s.set_irc_ident (strlcpy a1 256)) ⟨rfl, rfl, rfl, rfl⟩
        (icb_send_login_flags hb)
    · cases hb; exact ⟨rfl, rfl, rfl, rfl⟩
  rw [if_neg h2] at h
  by_cases h3 : strcasecmp_eq (irc_argv0 line) (lit "NICK") = true
  · rw [if_pos h3] at h
    obtain ⟨a1, _, hb⟩ := bind_ok _ _ _ h
    refine Or.inr ⟨strcasecmp_other h3 (by decide), Or.inl ?_⟩
    split at hb
    · exact same_flags_trans (b := s.set_irc_nick (strlcpy a1 256)) ⟨rfl, rfl, rfl, rfl⟩
        (icb_send_name_flags hb)
    · split at hb
      · exact same_flags_trans (b := s.set_irc_nick (strlcpy a1 256)) ⟨rfl, rfl, rfl, rfl⟩
          (icb_send_login_flags hb)
      · cases hb; exact ⟨rfl, rfl, rfl, rfl⟩
  rw [if_neg h3] at h
  by_cases h4 : strcasecmp_eq (irc_argv0 line) (lit "JOIN") = true
  · rw [if_pos h4] at h
    obtain ⟨a1, _, hb⟩ := bind_ok _ _ _ h
    exact Or.inr ⟨strcasecmp_other h4 (by decide), Or.inl (icb_send_group_flags hb)⟩
  rw [if_neg h4] at h
  by_cases h5 : strcasecmp_eq (irc_argv0 line) (lit "PART") = true
  · rw [if_pos h5] at h
    cases h
    exact Or.inr ⟨strcasecmp_other h5 (by decide), Or.inr ⟨h5, rfl⟩⟩
  rw [if_neg h5] at h
  by_cases h6 : strcasecmp_eq (irc_argv0 line) (lit "PRIVMSG") = true
      ∨ strcasecmp_eq (irc_argv0 line) (lit "NOTICE") = true
  · rw [if_pos h6] at h
    obtain ⟨a2, _, hb⟩ := bind_ok _ _ _ h
    obtain ⟨msg, _, hc⟩ := bind_ok _ _ _ hb
    obtain ⟨a1, _, hd⟩ := bind_ok _ _ _ hc
    have hq : strcasecmp_eq (irc_argv0 line) (lit "QUIT") = false := by
      rcases h6 with e | e
      · exact strcasecmp_other e (by decide)
      · exact strcasecmp_other e (by decide)
    refine Or.inr ⟨hq, Or.inl ?_⟩
    split at hd
    · exact icb_send_openmsg_flags hd
    · exact icb_send_privmsg_flags hd
  rw [if_neg h6] at h
  by_cases h7 : strcasecmp_eq (irc_argv0 line) (lit "MODE") = true
  · rw [if_pos h7] at h
    obtain ⟨a1, _, hb⟩ := bind_ok _ _ _ h
    refine Or.inr ⟨strcasecmp_other h7 (by decide), Or.inl ?_⟩
    split at hb
    · cases hb; exact same_flags_refl _
    · split at hb
      · exact icb_send_names_flags hb
      · obtain ⟨a2, _, hc⟩ := bind_ok _ _ _ hb
        split at hc
        · cases hc; exact same_flags_refl _
        · obtain ⟨a3, _, hd⟩ := bind_ok _ _ _ hc
          exact icb_send_pass_flags hd
  rw [if_neg h7] at h
  by_cases h8 : strcasecmp_eq (irc_argv0 line) (lit "TOPIC") = true
  · rw [if_pos h8] at h
    obtain ⟨a1, _, hb⟩ := bind_ok _ _ _ h
    refine Or.inr ⟨strcasecmp_other h8 (by decide), Or.inl ?_⟩
    split at hb
    · cases hb; exact same_flags_refl _
    · obtain ⟨a2, _, hc⟩ := bind_ok _ _ _ hb
      exact icb_send_topic_flags hc
  rw [if_neg h8] at h
  by_cases h9 : strcasecmp_eq (irc_argv0 line) (lit "LIST") = true
  · rw [if_pos h9] at h
    exact Or.inr ⟨strcasecmp_other h9 (by decide), Or.inl (icb_send_list_flags h)⟩
  rw [if_neg h9] at h
  by_cases h10 : strcasecmp_eq (irc_argv0 line) (lit "NAMES") = true
  · rw [if_pos h10] at h
    obtain ⟨a1, _, hb⟩ := bind_ok _ _ _ h
    exact Or.inr ⟨strcasecmp_other h10 (by decide), Or.inl (icb_send_names_flags hb)⟩
  rw [if_neg h10] at h
  by_cases h11 : strcasecmp_eq (irc_argv0 line) (lit "WHOIS") = true
  · rw [if_pos h11] at h
    obtain ⟨a1, _, hb⟩ := bind_ok _ _ _ h
    exact Or.inr ⟨strcasecmp_other h11 (by decide), Or.inl (icb_send_whois_flags hb)⟩
  rw [if_neg h11] at h
  by_cases h12 : strcasecmp_eq (irc_argv0 line) (lit "WHO") = true
  · rw [if_pos h12] at h
    obtain ⟨a1, _, hb⟩ := bind_ok _ _ _ h
    exact Or.inr ⟨strcasecmp_other h12 (by decide), Or.inl (icb_send_who_flags hb)⟩
  rw [if_neg h12] at h
  by_cases h13 : strcasecmp_eq (irc_argv0 line) (lit "KICK") = true
  · rw [if_pos h13] at h
    obtain ⟨a1, _, hb⟩ := bind_ok _ _ _ h
    refine Or.inr ⟨strcasecmp_other h13 (by decide), Or.inl ?_⟩
    split at hb
    · cases hb; exact same_flags_refl _
    · obtain ⟨a2, _, hc⟩ := bind_ok _ _ _ hb
      exact icb_send_boot_flags hc
  rw [if_neg h13] at h
  by_cases h14 : strcasecmp_eq (irc_argv0 line) (lit "PING") = true
  · rw [if_pos h14] at h
    obtain ⟨s1, hn, hb⟩ := bind_ok _ _ _ h
    obtain ⟨a1, _, hc⟩ := bind_ok _ _ _ hb
    cases hc
    exact Or.inr ⟨strcasecmp_other h14 (by decide),
      Or.inl (same_flags_trans (icb_send_noop_flags hn) (irc_send_pong_flags _ _ _))⟩
  rw [if_neg h14] at h
  by_cases h15 : strcasecmp_eq (irc_argv0 line) (lit "QUIT") = true
  · rw [if_pos h15] at h
    cases h
    exact Or.inl ⟨h15, rfl⟩
  rw [if_neg h15] at h
  have hq : strcasecmp_eq (irc_argv0 line) (lit "QUIT") = false := by
    cases hv : strcasecmp_eq (irc_argv0 line) (lit "QUIT") with
    | true => exact absurd hv h15
    | false => rfl
  refine Or.inr ⟨hq, Or.inl ?_⟩
  split at h <;> cases h <;> exact same_flags_refl _

theorem icb_iwl_flags (s : Session) (fd : Fd) (flags nick : List Nat) (idle signon : Int)
    (ident host : List Nat) :
    same_flags s (icb_iwl s fd flags nick idle signon ident host) := by
  unfold icb_iwl same_flags
  simp only
  split_ifs <;> simp

theorem icb_ico_flags {s s' : Session} {fd : Fd} {arg : List Nat}
    (h : icb_ico s fd arg = .ok s') : same_flags s s' := by
  unfold icb_ico at h
  simp only at h
  unfold same_flags
  repeat' split at h
  all_goals first
    | cases h; simp
    | cases h

theorem icb_ico_all_flags (fd : Fd) (args : List (List Nat)) :
    ∀ s s' : Session, icb_ico_all fd s args = .ok s' → same_flags s s' := by
  induction args with
  | nil => intro s s' h; cases h; exact same_flags_refl _
  | cons a rest ih =>
    intro s s' h
    unfold icb_ico_all at h
    cases h1 : icb_ico s fd a with
    | error e => rw [h1] at h; cases h
    | ok s1 =>
      rw [h1] at h
      exact same_flags_trans (icb_ico_flags h1) (ih s1 s' h)

theorem icb_cmd_output_flags {s s' : Session} {fd : Fd} {i : Nat} {fields : List (List Nat)}
    (h : icb_cmd_output s fd i fields = .ok s') : same_flags s s' := by
  unfold icb_cmd_output at h
  simp only at h
  split at h
  · exact icb_ico_all_flags _ _ _ _ h
  · split at h
    · cases h; exact icb_iwl_flags _ _ _ _ _ _ _ _
    · split at h
      · cases h; exact same_flags_refl _
      · cases h; exact irc_send_notice_flags _ _ _

theorem icb_cmd_login_flags (u : Indet) (s : Session) (fd : Fd) :
    (icb_cmd_login u s fd).icb_logged_in = true ∧
      (icb_cmd_login u s fd).terminate_client = s.terminate_client ∧
      (icb_cmd_login u s fd).in_irc_channel = s.in_irc_channel ∧
      (icb_cmd_login u s fd).irc_channel = s.irc_channel := by
  unfold icb_cmd_login
  simp

theorem icb_cmd_open_flags {s s' : Session} {fd sfd : Fd} {a0 a1 : List Nat}
    (h : icb_cmd_open s fd sfd a0 a1 = .ok s') :
    s'.icb_logged_in = s.icb_logged_in ∧ s'.terminate_client = s.terminate_client ∧
      s'.in_irc_channel = true ∧ s'.irc_channel = s.irc_channel := by
  unfold icb_cmd_open at h
  by_cases hin : s.in_irc_channel = true
  · simp only [hin, not_true_eq_false, if_false] at h
    cases h
    simp [hin]
  · simp only [hin, not_false_eq_true, if_true] at h
    cases hn : icb_send_names (irc_send_join s fd s.irc_nick s.irc_channel) sfd s.irc_channel with
    | error e => rw [hn] at h; cases h
    | ok s1 =>
      rw [hn] at h
      cases h
      obtain ⟨f1, f2, f3, f4⟩ := icb_send_names_flags hn
      simp [f1, f2, f3, f4]

theorem icb_cmd_status_flags {u : Indet} {s s' : Session} {fd sfd : Fd} {a0 a1 : List Nat}
    (h : icb_cmd_status u s fd sfd a0 a1 = .ok s') :
    s'.icb_logged_in = s.icb_logged_in ∧ s'.terminate_client = s.terminate_client ∧
      ((s'.irc_channel ≠ [] ∧ s'.in_irc_channel = true) ∨
        (s'.irc_channel = s.irc_channel ∧
          (s'.in_irc_channel = s.in_irc_channel ∨ a0 = lit "Arrive" ∨ a0 = lit "Sign-on"))) := by
  unfold icb_cmd_status at h
  simp only at h
  by_cases h1 : a0 = lit "Status" ∧ starts_with (lit "You are now in group ") a1 = true
  · rw [if_pos h1] at h
    obtain ⟨f1, f2, f3, f4⟩ := icb_send_names_flags h
    have hp : same_flags s
        (if s.irc_channel ≠ [] then irc_send_part s fd s.irc_nick s.irc_channel else s) := by
      split
      · exact irc_send_part_flags _ _ _ _
      · exact same_flags_refl _
    rw [irc_send_join_icb_logged_in, set_irc_channel_icb_logged_in, hp.1] at f1
    rw [irc_send_join_terminate_client, set_irc_channel_terminate_client, hp.2.1] at f2
    rw [irc_send_join_in_irc_channel] at f3
    rw [irc_send_join_irc_channel, set_irc_channel_irc_channel] at f4
    refine ⟨f1, f2, Or.inl ⟨?_, f3⟩⟩
    rw [f4]
    exact List.cons_ne_nil _ _
  · rw [if_neg h1] at h
    by_cases h2 : a0 = lit "Arrive" ∨ a0 = lit "Sign-on"
    · rw [if_pos h2] at h
      cases h
      refine ⟨by simp, by simp, Or.inr ⟨by simp, Or.inr h2⟩⟩
    · rw [if_neg h2] at h
      repeat' split at h
      all_goals cases h
      all_goals refine ⟨by simp, by simp, Or.inr ⟨by simp, Or.inl (by simp)⟩⟩

/-- What `icb_cmd` does to the flags and to the channel name: `icb_logged_in`
is set by type `'a'` only, `terminate_client` by type `'g'` only; the channel
name changes only to a non-empty name (with `in_irc_channel` set), and
`in_irc_channel` changes otherwise only on a packet that writes a JOIN for the
channel as it stands. -/
theorem icb_cmd_flags {u : Indet} {fd sfd : Fd} {s s' : Session} {t : Nat} {data : List Nat}
    (h : icb_cmd u fd sfd s (t :: data) = .ok s') :
    s'.icb_logged_in = (if t = 97 then true else s.icb_logged_in) ∧
      s'.terminate_client = (if t = 103 then true else s.terminate_client) ∧
      ((s'.irc_channel ≠ [] ∧ s'.in_irc_channel = true) ∨
        (s'.irc_channel = s.irc_channel ∧
          (s'.in_irc_channel = s.in_irc_channel ∨ (Event.icb u (t :: data)).joins = true))) := by
  unfold icb_cmd at h
  simp only at h
  cases hargs : icb_args data with
  | error e => rw [hargs] at h; cases h
  | ok r =>
    obtain ⟨i, fields⟩ := r
    rw [hargs] at h
    simp only at h
    have plain : ∀ x : Session, same_flags s x → t ≠ 97 → t ≠ 103 →
        x.icb_logged_in = (if t = 97 then true else s.icb_logged_in) ∧
        x.terminate_client = (if t = 103 then true else s.terminate_client) ∧
        ((x.irc_channel ≠ [] ∧ x.in_irc_channel = true) ∨
          (x.irc_channel = s.irc_channel ∧
            (x.in_irc_channel = s.in_irc_channel
              ∨ (Event.icb u (t :: data)).joins = true))) := by
      intro x hx n1 n2
      rw [if_neg n1, if_neg n2]
      exact ⟨hx.1, hx.2.1, Or.inr ⟨hx.2.2.2, Or.inl hx.2.2.1⟩⟩
    by_cases h97 : t = 97
    · rw [if_pos h97] at h
      cases h
      obtain ⟨f1, f2, f3, f4⟩ := icb_cmd_login_flags u s fd
      rw [if_pos h97, if_neg (by omega)]
      exact ⟨f1, f2, Or.inr ⟨f4, Or.inl f3⟩⟩
    rw [if_neg h97] at h
    by_cases h98 : t = 98
    · rw [if_pos h98] at h
      obtain ⟨f1, f2, f3, f4⟩ := icb_cmd_open_flags h
      rw [if_neg h97, if_neg (by omega)]
      refine ⟨f1, f2, Or.inr ⟨f4, Or.inr ?_⟩⟩
      simp [Event.joins, h98]
    rw [if_neg h98] at h
    by_cases h99 : t = 99
    · rw [if_pos h99] at h
      cases h
      exact plain _ (irc_send_msg_flags _ _ _ _ _) h97 (by omega)
    rw [if_neg h99] at h
    by_cases h100 : t = 100
    · rw [if_pos h100] at h
      obtain ⟨f1, f2, f3⟩ := icb_cmd_status_flags h
      rw [if_neg h97, if_neg (by omega)]
      refine ⟨f1, f2, ?_⟩
      rcases f3 with f3 | ⟨f3, f4⟩
      · exact Or.inl f3
      · refine Or.inr ⟨f3, ?_⟩
        rcases f4 with f4 | f4
        · exact Or.inl f4
        · right
          simp only [Event.joins, hargs, h100]
          simpa using f4
    rw [if_neg h100] at h
    by_cases h101 : t = 101
    · rw [if_pos h101] at h
      cases h
      exact plain _ (irc_send_notice_flags _ _ _) h97 (by omega)
    rw [if_neg h101] at h
    by_cases h102 : t = 102
    · rw [if_pos h102] at h
      cases h
      exact plain _ (irc_send_notice_flags _ _ _) h97 (by omega)
    rw [if_neg h102] at h
    by_cases h103 : t = 103
    · rw [if_pos h103] at h
      cases h
      rw [if_neg h97, if_pos h103]
      refine ⟨by simp, by simp, Or.inr ⟨by simp, Or.inl (by simp)⟩⟩
    rw [if_neg h103] at h
    by_cases h105 : t = 105
    · rw [if_pos h105] at h
      exact plain _ (icb_cmd_output_flags h) h97 h103
    rw [if_neg h105] at h
    by_cases h106 : t = 106
    · rw [if_pos h106] at h
      cases h
      exact plain _ ⟨rfl, rfl, rfl, rfl⟩ h97 h103
    rw [if_neg h106] at h
    by_cases h107 : t = 107
    · rw [if_pos h107] at h
      cases h
      exact plain _ (irc_send_notice_flags _ _ _) h97 h103
    rw [if_neg h107] at h
    by_cases h108 : t = 108
    · rw [if_pos h108] at h
      cases h
      exact plain _ (irc_send_notice_flags _ _ _) h97 h103
    rw [if_neg h108] at h
    by_cases h109 : t = 109
    · rw [if_pos h109] at h
      cases h
      exact plain _ (irc_send_notice_flags _ _ _) h97 h103
    rw [if_neg h109] at h
    by_cases h110 : t = 110
    · rw [if_pos h110] at h
      cases h
      exact plain _ (irc_send_notice_flags _ _ _) h97 h103
    rw [if_neg h110] at h
    cases h
    exact plain _ (irc_send_notice_flags _ _ _) h97 h103

/-! ## Runs of the two translators -/

/-- One translator call and `icb_logged_in`. -/
theorem step_logged_in {s s' : Session} {e : Event} (h : step s e = .ok s') :
    (s'.icb_logged_in = true ↔ s.icb_logged_in = true ∨ e.is_login_ok = true) := by
  cases e with
  | irc line =>
    have hq := irc_cmd_flags h
    have hl : s'.icb_logged_in = s.icb_logged_in := by
      rcases hq with ⟨_, rfl⟩ | ⟨_, hf | ⟨_, rfl⟩⟩
      · rfl
      · exact hf.1
      · rfl
    rw [hl]
    simp [Event.is_login_ok]
  | icb u cmd =>
    cases cmd with
    | nil =>
      cases h
      simp [Event.is_login_ok]
    | cons t data =>
      have hq := (icb_cmd_flags h).1
      rw [hq]
      by_cases ht : t = 97
      · subst ht; simp [Event.is_login_ok]
      · rw [if_neg ht]
        have : (Event.icb u (t :: data)).is_login_ok = false := by
          unfold Event.is_login_ok
          split
          · rename_i heq; cases heq; exact absurd rfl ht
          · rfl
        simp [this]

/-- C12. In every run, `icb_logged_in` is true at the end exactly if it was
true at the start or one of the inputs was an ICB packet of type `'a'`: from a
fresh session it is false until `icb_cmd` processes such a packet, that packet
sets it, and no line and no packet clears it. -/
theorem logged_in_iff_login_ok (evs : List Event) :
    ∀ s s' : Session, run s evs = .ok s' →
      (s'.icb_logged_in = true ↔
        s.icb_logged_in = true ∨ ∃ e ∈ evs, e.is_login_ok = true) := by
  induction evs with
  | nil =>
    intro s s' h
    cases h
    simp
  | cons a rest ih =>
    intro s s' h
    simp only [run] at h
    cases hs : step s a with
    | error f => rw [hs] at h; cases h
    | ok s1 =>
      rw [hs] at h
      rw [ih s1 s' h, step_logged_in hs]
      simp only [List.mem_cons, exists_eq_or_imp]
      tauto

/-- Witness for C12: `NICK alice`, then a Login OK packet, then `PART #x`. -/
theorem logged_in_iff_login_ok_witness :
    ∃ s', run session_zero
        [Event.irc (lit "NICK alice"), Event.icb ⟨0, []⟩ [97], Event.irc (lit "PART #x")]
          = .ok s' ∧
      (s'.icb_logged_in = true ↔
        session_zero.icb_logged_in = true ∨
          ∃ e ∈ [Event.irc (lit "NICK alice"), Event.icb ⟨0, []⟩ [97],
            Event.irc (lit "PART #x")], e.is_login_ok = true) ∧
      s'.icb_logged_in = true := by
  obtain ⟨s', h⟩ : ∃ s', run session_zero
      [Event.irc (lit "NICK alice"), Event.icb ⟨0, []⟩ [97], Event.irc (lit "PART #x")]
        = .ok s' := ⟨_, rfl⟩
  exact ⟨s', h, logged_in_iff_login_ok _ session_zero s' h,
    (logged_in_iff_login_ok _ session_zero s' h).mpr
      (Or.inr ⟨Event.icb ⟨0, []⟩ [97], by simp, rfl⟩)⟩

/-! ## The channel flag and the channel name -/

theorem step_in_channel {s s' : Session} {e : Event} (h : step s e = .ok s')
    (hinv : s.in_irc_channel = true → s.irc_channel ≠ [])
    (hg : e.joins = true → s.irc_channel ≠ []) :
    s'.in_irc_channel = true → s'.irc_channel ≠ [] := by
  cases e with
  | irc line =>
    rcases irc_cmd_flags h with ⟨_, rfl⟩ | ⟨_, hf | ⟨_, rfl⟩⟩
    · exact hinv
    · intro hin
      rw [hf.2.2.2]
      exact hinv (by rw [← hf.2.2.1]; exact hin)
    · intro hin
      cases hin
  | icb u cmd =>
    cases cmd with
    | nil => cases h; exact hinv
    | cons t data =>
      rcases (icb_cmd_flags h).2.2 with ⟨hc, _⟩ | ⟨hc, hin | hj⟩
      · exact fun _ => hc
      · intro h1
        rw [hc]
        exact hinv (by rw [← hin]; exact h1)
      · intro _
        rw [hc]
        exact hg hj

/-- C11 (the code at the failing input). From the fresh session, one Open
Message packet `b` `bob` `\001` `hi` leaves `in_irc_channel` set while the
channel name is still empty. -/
theorem open_message_joins_unnamed_channel :
    session_zero.in_irc_channel = false ∧ session_zero.irc_channel = [] ∧
    ∃ s', run session_zero [Event.icb ⟨0, []⟩ (98 :: (lit "bob" ++ [1] ++ lit "hi"))] = .ok s' ∧
      s'.in_irc_channel = true ∧ s'.irc_channel = [] ∧
      s'.client_out = [lit ": JOIN :\r\n", lit ":bob PRIVMSG  :hi\r\n"] :=
  ⟨rfl, rfl, _, rfl, rfl, rfl, rfl⟩

/-- C11 (amended). In a run that starts in a state where `in_irc_channel`
implies a non-empty channel name (the fresh session is one), and in which
every Open Message packet and every `Arrive` or `Sign-on` status packet is
processed while the channel name is non-empty, `in_irc_channel` implies a
non-empty channel name at the end. -/
theorem in_channel_has_channel (evs : List Event) :
    ∀ s s' : Session, (s.in_irc_channel = true → s.irc_channel ≠ []) →
      run s evs = .ok s' → joins_named s evs = true →
      s'.in_irc_channel = true → s'.irc_channel ≠ [] := by
  induction evs with
  | nil =>
    intro s s' hinv h _
    cases h
    exact hinv
  | cons a rest ih =>
    intro s s' hinv h hg
    simp only [run] at h
    simp only [joins_named, Bool.and_eq_true, Bool.or_eq_true, Bool.not_eq_true',
      decide_eq_true_eq] at hg
    cases hs : step s a with
    | error f => rw [hs] at h; cases h
    | ok s1 =>
      rw [hs] at h hg
      refine ih s1 s' (step_in_channel hs hinv ?_) h hg.2
      intro hj
      rcases hg.1 with e | e
      · rw [hj] at e; cases e
      · exact e

set_option maxRecDepth 100000 in
/-- Witness for C11 (amended): the status `You are now in group devs`, then
the line `PART #devs`, then an Open Message; the run ends with
`in_irc_channel` set and the channel `#devs`. -/
theorem in_channel_has_channel_witness :
    (session_zero.in_irc_channel = true → session_zero.irc_channel ≠ []) ∧
    joins_named session_zero
      [Event.icb ⟨0, []⟩ (100 :: (lit "Status" ++ [1] ++ lit "You are now in group devs")),
        Event.irc (lit "PART #devs"),
        Event.icb ⟨0, []⟩ (98 :: (lit "bob" ++ [1] ++ lit "hi"))] = true ∧
    Except.map (fun s => (s.in_irc_channel, s.irc_channel))
      (run session_zero
        [Event.icb ⟨0, []⟩ (100 :: (lit "Status" ++ [1] ++ lit "You are now in group devs")),
          Event.irc (lit "PART #devs"),
          Event.icb ⟨0, []⟩ (98 :: (lit "bob" ++ [1] ++ lit "hi"))]) = .ok (true, lit "#devs") ∧
    ∃ s', run session_zero
        [Event.icb ⟨0, []⟩ (100 :: (lit "Status" ++ [1] ++ lit "You are now in group devs")),
          Event.irc (lit "PART #devs"),
          Event.icb ⟨0, []⟩ (98 :: (lit "bob" ++ [1] ++ lit "hi"))] = .ok s' ∧
      (s'.in_irc_channel = true → s'.irc_channel ≠ []) := by
  have hinv : session_zero.in_irc_channel = true → session_zero.irc_channel ≠ [] :=
    fun h => Bool.noConfusion h
  have hx : ∃ s', run session_zero
      [Event.icb ⟨0, []⟩ (100 :: (lit "Status" ++ [1] ++ lit "You are now in group devs")),
        Event.irc (lit "PART #devs"),
        Event.icb ⟨0, []⟩ (98 :: (lit "bob" ++ [1] ++ lit "hi"))] = .ok s' := ⟨_, rfl⟩
  obtain ⟨s', h⟩ := hx
  exact ⟨hinv, rfl, rfl, s', h, in_channel_has_channel _ session_zero s' hinv h rfl⟩

/-! ## `icb_cmd` returns on every packet -/

theorem icb_send_names_returns (s : Session) (fd : Fd) (g : List Nat) :
    ∃ s', icb_send_names s fd g = .ok s' := by
  unfold icb_send_names
  split
  · exact ⟨_, rfl⟩
  · unfold icb_send_hw
    rw [icb_hw_cmd_empty]
    exact ⟨_, rfl⟩

theorem icb_cmd_status_returns (u : Indet) (s : Session) (fd sfd : Fd) (a0 a1 : List Nat) :
    ∃ s', icb_cmd_status u s fd sfd a0 a1 = .ok s' := by
  unfold icb_cmd_status
  simp only
  by_cases h1 : a0 = lit "Status" ∧ starts_with (lit "You are now in group ") a1 = true
  · rw [if_pos h1]
    exact icb_send_names_returns _ _ _
  · rw [if_neg h1]
    repeat' split
    all_goals exact ⟨_, rfl⟩

theorem icb_cmd_open_returns (s : Session) (fd sfd : Fd) (a0 a1 : List Nat) :
    ∃ s', icb_cmd_open s fd sfd a0 a1 = .ok s' := by
  unfold icb_cmd_open
  by_cases hin : s.in_irc_channel = true
  · simp only [hin, not_true_eq_false, if_false]
    exact ⟨_, rfl⟩
  · simp only [hin, not_false_eq_true, if_true]
    obtain ⟨s1, h1⟩ := icb_send_names_returns (irc_send_join s fd s.irc_nick s.irc_channel) sfd
      s.irc_channel
    rw [h1]
    exact ⟨_, rfl⟩

theorem icb_cmd_output_returns (s : Session) (fd : Fd) (i : Nat) (fields : List (List Nat))
    (hfl : ∀ f ∈ fields, f.length ≤ 254) :
    ∃ s', icb_cmd_output s fd i fields = .ok s' := by
  unfold icb_cmd_output
  simp only
  split
  · have hargl : ∀ a ∈ ((fields.take i).drop 1).map cstr, a.length ≤ 254 := by
      intro a ha
      obtain ⟨f, hf, rfl⟩ := List.mem_map.mp ha
      have hf' : f ∈ fields := List.mem_of_mem_take (List.mem_of_mem_drop hf)
      exact le_trans (cstr_length_le f) (hfl f hf')
    obtain ⟨s', hrun, _⟩ := icb_ico_all_imode fd _ s hargl
    exact ⟨s', hrun⟩
  · repeat' split
    all_goals exact ⟨_, rfl⟩

/-- On every packet of at most 255 bytes `icb_cmd` returns. -/
theorem icb_cmd_returns (u : Indet) (fd sfd : Fd) (s : Session) (cmd : List Nat)
    (hlen : cmd.length ≤ 255) : ∃ s', icb_cmd u fd sfd s cmd = .ok s' := by
  cases cmd with
  | nil => exact ⟨s, rfl⟩
  | cons t data =>
    simp only [List.length_cons] at hlen
    obtain ⟨i, fields, hargs⟩ := icb_args_returns data (by omega)
    have hfl := icb_args_field_length data i fields hargs
    simp only [icb_cmd, hargs]
    by_cases h97 : t = 97
    · rw [if_pos h97]; exact ⟨_, rfl⟩
    rw [if_neg h97]
    by_cases h98 : t = 98
    · rw [if_pos h98]; exact icb_cmd_open_returns _ _ _ _ _
    rw [if_neg h98]
    by_cases h99 : t = 99
    · rw [if_pos h99]; exact ⟨_, rfl⟩
    rw [if_neg h99]
    by_cases h100 : t = 100
    · rw [if_pos h100]; exact icb_cmd_status_returns _ _ _ _ _ _
    rw [if_neg h100]
    by_cases h101 : t = 101
    · rw [if_pos h101]; exact ⟨_, rfl⟩
    rw [if_neg h101]
    by_cases h102 : t = 102
    · rw [if_pos h102]; exact ⟨_, rfl⟩
    rw [if_neg h102]
    by_cases h103 : t = 103
    · rw [if_pos h103]; exact ⟨_, rfl⟩
    rw [if_neg h103]
    by_cases h105 : t = 105
    · rw [if_pos h105]; exact icb_cmd_output_returns _ _ _ _ hfl
    rw [if_neg h105]
    by_cases h106 : t = 106
    · rw [if_pos h106]; exact ⟨_, rfl⟩
    rw [if_neg h106]
    by_cases h107 : t = 107
    · rw [if_pos h107]; exact ⟨_, rfl⟩
    rw [if_neg h107]
    by_cases h108 : t = 108
    · rw [if_pos h108]; exact ⟨_, rfl⟩
    rw [if_neg h108]
    by_cases h109 : t = 109
    · rw [if_pos h109]; exact ⟨_, rfl⟩
    rw [if_neg h109]
    by_cases h110 : t = 110
    · rw [if_pos h110]; exact ⟨_, rfl⟩
    rw [if_neg h110]
    exact ⟨_, rfl⟩

/-! ## `terminate_client` -/

theorem irc_cmd_quit (c sv : Fd) (s : Session) (line : List Nat)
    (hq : strcasecmp_eq (irc_argv0 line) (lit "QUIT") = true) :
    irc_cmd c sv s line = .ok (s.set_terminate_client true) := by
  have hraw : ¬ starts_with_nocase (lit "RAWICB ") (cstr line) = true := by
    intro hr
    have := rawicb_other line (lit "QUIT") hr (by decide)
    rw [hq] at this
    cases this
  have e1 := strcasecmp_other (y := lit "PASS") hq (by decide)
  have e2 := strcasecmp_other (y := lit "USER") hq (by decide)
  have e3 := strcasecmp_other (y := lit "NICK") hq (by decide)
  have e4 := strcasecmp_other (y := lit "JOIN") hq (by decide)
  have e5 := strcasecmp_other (y := lit "PART") hq (by decide)
  have e6 := strcasecmp_other (y := lit "PRIVMSG") hq (by decide)
  have e7 := strcasecmp_other (y := lit "NOTICE") hq (by decide)
  have e8 := strcasecmp_other (y := lit "MODE") hq (by decide)
  have e9 := strcasecmp_other (y := lit "TOPIC") hq (by decide)
  have e10 := strcasecmp_other (y := lit "LIST") hq (by decide)
  have e11 := strcasecmp_other (y := lit "NAMES") hq (by decide)
  have e12 := strcasecmp_other (y := lit "WHOIS") hq (by decide)
  have e13 := strcasecmp_other (y := lit "WHO") hq (by decide)
  have e14 := strcasecmp_other (y := lit "KICK") hq (by decide)
  have e15 := strcasecmp_other (y := lit "PING") hq (by decide)
  have hv0 : (tokenise 9 (cstr line)).headD [] = irc_argv0 line := rfl
  unfold irc_cmd
  simp only []
  rw [if_neg hraw, hv0]
  simp only [e1, e2, e3, e4, e5, e6, e7, e8, e9, e10, e11, e12, e13, e14, e15, hq,
    Bool.false_eq_true, if_false, if_true, or_self]
  rfl

theorem icb_cmd_exit (u : Indet) (fd sfd : Fd) (s : Session) (data : List Nat)
    (hlen : data.length ≤ 254) :
    icb_cmd u fd sfd s (103 :: data)
      = .ok ((sync_write s fd (lit "NOTICE ICB Exit\r\n")).set_terminate_client true) := by
  obtain ⟨i, fields, hargs⟩ := icb_args_returns data hlen
  simp only [icb_cmd, hargs]
  rfl

/-- C16. `icb_cmd` on a packet of type `'g'` writes `"NOTICE ICB Exit\r\n"`
to the client and sets `terminate_client`, and on a packet of any other type
(or an empty one) returns with the flag as it was; `irc_cmd` on a line whose
`argv[0]` equals `"QUIT"` up to case sets the flag and does nothing else, and
on any other line leaves the flag as it was. -/
theorem terminate_client_set_by (u : Indet) (c sv : Fd) (s : Session) :
    (∀ data, data.length ≤ 254 →
        icb_cmd u c sv s (103 :: data)
          = .ok ((sync_write s c (lit "NOTICE ICB Exit\r\n")).set_terminate_client true)) ∧
      (∀ cmd, cmd.length ≤ 255 → cmd.head? ≠ some 103 →
        ∃ s', icb_cmd u c sv s cmd = .ok s' ∧ s'.terminate_client = s.terminate_client) ∧
      (∀ line, strcasecmp_eq (irc_argv0 line) (lit "QUIT") = true →
        irc_cmd c sv s line = .ok (s.set_terminate_client true)) ∧
      (∀ line s', irc_cmd c sv s line = .ok s' →
        strcasecmp_eq (irc_argv0 line) (lit "QUIT") = false →
        s'.terminate_client = s.terminate_client) := by
  refine ⟨fun data h => icb_cmd_exit u c sv s data h, ?_, fun line h => irc_cmd_quit c sv s line h,
    ?_⟩
  · intro cmd hlen hne
    obtain ⟨s', h⟩ := icb_cmd_returns u c sv s cmd hlen
    refine ⟨s', h, ?_⟩
    cases cmd with
    | nil => cases h; rfl
    | cons t data =>
      have ht : t ≠ 103 := fun e => hne (by rw [e]; rfl)
      have := (icb_cmd_flags h).2.1
      rw [if_neg ht] at this
      exact this
  · intro line s' h hq
    rcases irc_cmd_flags h with ⟨hq', _⟩ | ⟨_, hf | ⟨_, rfl⟩⟩
    · rw [hq] at hq'; cases hq'
    · exact hf.2.1
    · rfl

/-! ## The login packet -/

theorem put_all_ok (w : List Nat) :
    ∀ cmd : List Nat, cmd.length + w.length ≤ 256 → put_all cmd w = .ok (cmd ++ w) := by
  induction w with
  | nil => intro cmd _; simp [put_all]
  | cons b rest ih =>
    intro cmd hl
    simp only [List.length_cons] at hl
    simp only [put_all, put_ok b (show cmd.length < 256 by omega)]
    rw [ih (cmd ++ [b]) (by simp only [List.length_append, List.length_singleton]; omega)]
    simp

theorem icb_copy_all (cmd src : List Nat) (h0 : 0 ∉ src)
    (hl : cmd.length + src.length ≤ MAX_MSG_SIZE) : (icb_copy cmd src).1 = cmd ++ src := by
  rw [icb_copy_no_nul src cmd h0]
  simp only
  rw [List.take_of_length_le (by omega)]

/-- C17 (the code at the claimed input). From the fresh session the line
`NICK alice` writes nothing to the server, and the line `USER alice 0 * :Alice`
after it writes one packet: the length byte 22, `a`, `alice`, `\001`, `alice`,
`\001`, `\001`, `login` and three `\001`.  Its last byte is `\001`: no NUL
follows. -/
theorem login_packet_ends_without_nul :
    Except.map Session.server_out (run session_zero [Event.irc (lit "NICK alice")]) = .ok [] ∧
    Except.map Session.server_out
        (run session_zero
          [Event.irc (lit "NICK alice"), Event.irc (lit "USER alice 0 * :Alice")])
      = .ok [22 :: 97 :: (lit "alice" ++ [1] ++ lit "alice" ++ [1] ++ [1] ++ lit "login"
          ++ [1, 1, 1])] ∧
    (22 :: 97 :: (lit "alice" ++ [1] ++ lit "alice" ++ [1] ++ [1] ++ lit "login"
        ++ [1, 1, 1])).getLast? = some 1 ∧
    (22 :: 97 :: (lit "alice" ++ [1] ++ lit "alice" ++ [1] ++ [1] ++ lit "login"
        ++ [1, 1, 1]))
      ≠ 23 :: 97 :: (lit "alice" ++ [1] ++ lit "alice" ++ [1] ++ [1] ++ lit "login"
        ++ [1, 1, 1] ++ [0]) :=
  ⟨rfl, rfl, rfl, by decide⟩

/-- C17 (amended). For a NUL-free ident `i`, nick `n` and pass `p` of at most
242 bytes together, the packet written by `icb_send_login` is the length byte,
`'a'`, `i`, `\001`, `n`, `\001`, `p`, `\001`, `"login"` and three `\001`, with
no NUL after them; and from the fresh session the lines `NICK alice` and
`USER alice 0 * :Alice` write exactly one packet to the server, on the `USER`
line. -/
theorem icb_send_login_bytes (nick ident pass : List Nat) (hi : 0 ∉ ident) (hn : 0 ∉ nick)
    (hp : 0 ∉ pass) (hlen : ident.length + nick.length + pass.length ≤ 242) :
    (∀ (s : Session) (fd : Fd),
      icb_send_login s fd nick ident pass
        = .ok (sync_write s fd
            ((12 + ident.length + nick.length + pass.length) :: 97 ::
              (ident ++ [1] ++ nick ++ [1] ++ pass ++ [1] ++ lit "login" ++ [1, 1, 1])))) ∧
    Except.map Session.server_out (run session_zero [Event.irc (lit "NICK alice")]) = .ok [] ∧
    Except.map Session.server_out
        (run session_zero
          [Event.irc (lit "NICK alice"), Event.irc (lit "USER alice 0 * :Alice")])
      = .ok [22 :: 97 :: (lit "alice" ++ [1] ++ lit "alice" ++ [1] ++ [1] ++ lit "login"
          ++ [1, 1, 1])] := by
  refine ⟨?_, rfl, rfl⟩
  have hmax : MAX_MSG_SIZE = 246 := rfl
  have hlogin : (lit "login").length = 5 := rfl
  have hcmd : icb_login_cmd nick ident pass
      = .ok ((12 + ident.length + nick.length + pass.length) :: 97 ::
          (ident ++ [1] ++ nick ++ [1] ++ pass ++ [1] ++ lit "login" ++ [1, 1, 1])) := by
    simp only [icb_login_cmd, bind, Except.bind, pure, Except.pure]
    rw [put_ok 97 (by decide)]
    simp only
    rw [icb_copy_all _ ident hi (by
        simp only [cmd_start, List.length_append, List.length_cons, List.length_nil]; omega),
      put_ok 1 (by
        simp only [cmd_start, List.length_append, List.length_cons, List.length_nil]; omega)]
    simp only
    rw [icb_copy_all _ nick hn (by
        simp only [cmd_start, List.length_append, List.length_cons, List.length_nil]; omega),
      put_ok 1 (by
        simp only [cmd_start, List.length_append, List.length_cons, List.length_nil]; omega)]
    simp only
    rw [icb_copy_all _ pass hp (by
        simp only [cmd_start, List.length_append, List.length_cons, List.length_nil]; omega),
      put_ok 1 (by
        simp only [cmd_start, List.length_append, List.length_cons, List.length_nil]; omega)]
    simp only
    rw [put_all_ok _ _ (by
        simp only [cmd_start, List.length_append, List.length_cons, List.length_nil, hlogin]
        omega)]
    simp only
    rw [put_ok 1 (by
      simp only [cmd_start, List.length_append, List.length_cons, List.length_nil, hlogin]
      omega)]
    simp only
    rw [put_ok 1 (by
      simp only [cmd_start, List.length_append, List.length_cons, List.length_nil, hlogin]
      omega)]
    simp only
    rw [put_ok 1 (by
      simp only [cmd_start, List.length_append, List.length_cons, List.length_nil, hlogin]
      omega)]
    simp only
    have hu : usub (cmd_start ++ [97] ++ ident ++ [1] ++ nick ++ [1] ++ pass ++ [1]
        ++ lit "login" ++ [1] ++ [1] ++ [1]).length 1 % 256
          = 12 + ident.length + nick.length + pass.length := by
      simp only [cmd_start, List.length_append, List.length_cons, List.length_nil, hlogin]
      unfold usub
      omega
    unfold icb_finish
    rw [hu]
    simp [cmd_start]
  intro s fd
  simp only [icb_send_login, hcmd, bind, Except.bind, pure, Except.pure]

/-- Witness for C17 (amended): ident `alice`, nick `alice`, empty pass. -/
theorem icb_send_login_bytes_witness :
    0 ∉ lit "alice" ∧ (0 : Nat) ∉ ([] : List Nat) ∧
    (lit "alice").length + (lit "alice").length + ([] : List Nat).length ≤ 242 ∧
    icb_send_login session_zero Fd.server (lit "alice") (lit "alice") []
      = .ok (sync_write session_zero Fd.server
          (22 :: 97 :: (lit "alice" ++ [1] ++ lit "alice" ++ [1] ++ [] ++ [1] ++ lit "login"
            ++ [1, 1, 1]))) :=
  ⟨by decide, by decide, by decide,
    (icb_send_login_bytes (lit "alice") (lit "alice") [] (by decide) (by decide) (by decide)
      (by decide)).1 session_zero Fd.server⟩

/-! ## Lines written without truncation -/

theorem snprintf_fits (n : Nat) (t : List Nat) (h : t.length ≤ n - 1) : snprintf n t = t :=
  List.take_of_length_le h

theorem irc_send_notice_line (s : Session) (fd : Fd) (msg : List Nat)
    (h : msg.length ≤ 8191) :
    irc_send_notice s fd msg = sync_write s fd (lit "NOTICE " ++ msg ++ lit "\r\n") := by
  have h1 : (lit "NOTICE ").length = 7 := rfl
  have h2 : (lit "\r\n").length = 2 := rfl
  unfold irc_send_notice
  rw [snprintf_fits 8192 msg h, snprintf_fits 16384 _ (by
    simp only [List.length_append, h1, h2]; omega)]

/-- Every string `args[j]` left by `icb_args` has at most 254 bytes. -/
theorem icb_args_string_length {data : List Nat} {i : Nat} {fields : List (List Nat)}
    (h : icb_args data = .ok (i, fields)) (j : Nat) :
    (cstr (fields.getD j [])).length ≤ 254 := by
  refine le_trans (cstr_length_le _) ?_
  by_cases hj : j < fields.length
  · rw [List.getD_eq_getElem _ _ hj]
    exact icb_args_field_length data i fields h _ (List.getElem_mem _)
  · rw [List.getD_eq_default _ _ (by omega)]
    simp

theorem icb_cmd_status_eq (u : Indet) (fd sfd : Fd) (s : Session) {data : List Nat} {i : Nat}
    {fields : List (List Nat)} (h : icb_args data = .ok (i, fields)) :
    icb_cmd u fd sfd s (100 :: data)
      = icb_cmd_status u s fd sfd (cstr (fields.getD 0 [])) (cstr (fields.getD 1 [])) := by
  simp only [icb_cmd, h]
  rw [if_neg (by decide), if_neg (by decide), if_neg (by decide), if_pos True.intro]

theorem icb_cmd_open_eq (u : Indet) (fd sfd : Fd) (s : Session) {data : List Nat} {i : Nat}
    {fields : List (List Nat)} (h : icb_args data = .ok (i, fields)) :
    icb_cmd u fd sfd s (98 :: data)
      = icb_cmd_open s fd sfd (cstr (fields.getD 0 [])) (cstr (fields.getD 1 [])) := by
  simp only [icb_cmd, h]
  rw [if_neg (by decide), if_pos True.intro]

/-! ## Status messages outside the sub-grammars -/

/-- C15 (the code at a failing input). The status packet `d` `Name` `\001`
`bob is here`, whose text lacks `" changed nickname to "`, makes `icb_cmd`
return without writing anything: no NOTICE line is sent to the client. -/
theorem status_name_without_phrase_is_dropped :
    icb_cmd ⟨0, []⟩ Fd.client Fd.server session_zero
        (100 :: (lit "Name" ++ [1] ++ lit "bob is here")) = .ok session_zero ∧
      session_zero.client_out = [] :=
  ⟨rfl, rfl⟩

/-- C15 (amended). On a Status Message packet whose `args[0]` is none of
`Arrive`, `Sign-on`, `Depart`, `Sign-off`, `Name`, `Topic`, `Pass`, `Boot`, and
which is not a `Status` beginning with `"You are now in group "`, `icb_cmd`
writes the one line `NOTICE ICB Status Message: <args[0]>: <args[1]>` and
changes nothing else.  On a `Name`, `Topic`, `Pass` or `Boot` status whose text
after the first word lacks the expected phrase it writes nothing and changes
nothing.  In neither case is `terminate_client` set. -/
theorem status_outside_grammar (u : Indet) (fd sfd : Fd) (s : Session) (data : List Nat)
    (i : Nat) (fields : List (List Nat)) (hargs : icb_args data = .ok (i, fields)) :
    (cstr (fields.getD 0 []) ∉ [lit "Arrive", lit "Sign-on", lit "Depart", lit "Sign-off",
          lit "Name", lit "Topic", lit "Pass", lit "Boot"] →
        ¬ (cstr (fields.getD 0 []) = lit "Status" ∧
            starts_with (lit "You are now in group ") (cstr (fields.getD 1 [])) = true) →
        icb_cmd u fd sfd s (100 :: data)
          = .ok (sync_write s fd
              (lit "NOTICE ICB Status Message: " ++ cstr (fields.getD 0 []) ++ lit ": "
                ++ cstr (fields.getD 1 []) ++ lit "\r\n"))) ∧
      (cstr (fields.getD 0 []) = lit "Name" →
        starts_with (lit " changed nickname to ")
          (scan (cstr (fields.getD 1 [])) 256 (lit " ") (lit " ")).1 = false →
        icb_cmd u fd sfd s (100 :: data) = .ok s) ∧
      (cstr (fields.getD 0 []) = lit "Topic" →
        starts_with (lit " changed the topic to \"")
          (scan (cstr (fields.getD 1 [])) 256 (lit " ") (lit " ")).1 = false →
        icb_cmd u fd sfd s (100 :: data) = .ok s) ∧
      (cstr (fields.getD 0 []) = lit "Pass" →
        starts_with (lit " has passed moderation to ")
          (scan (cstr (fields.getD 1 [])) 256 (lit " ") (lit " ")).1 = false →
        (scan (cstr (fields.getD 1 [])) 256 (lit " ") (lit " ")).1 ≠ lit " is now mod." →
        icb_cmd u fd sfd s (100 :: data) = .ok s) ∧
      (cstr (fields.getD 0 []) = lit "Boot" →
        (scan (cstr (fields.getD 1 [])) 256 (lit " ") (lit " ")).1 ≠ lit " was booted." →
        icb_cmd u fd sfd s (100 :: data) = .ok s) ∧
      ∀ text, (sync_write s fd text).terminate_client = s.terminate_client := by
  rw [icb_cmd_status_eq u fd sfd s hargs]
  have l0 := icb_args_string_length hargs 0
  have l1 := icb_args_string_length hargs 1
  generalize cstr (fields.getD 0 []) = a0 at l0 ⊢
  generalize cstr (fields.getD 1 []) = a1 at l1 ⊢
  refine ⟨?_, ?_, ?_, ?_, ?_, fun text => sync_write_terminate_client s fd text⟩
  · intro hnot hst
    simp only [List.mem_cons, List.mem_singleton, List.not_mem_nil, or_false, not_or] at hnot
    obtain ⟨n1, n2, n3, n4, n5, n6, n7, n8⟩ := hnot
    unfold icb_cmd_status
    simp only
    rw [if_neg hst, if_neg (by tauto), if_neg n3, if_neg n4, if_neg n5, if_neg n6, if_neg n7,
      if_neg n8]
    have hm : (lit "ICB Status Message: ").length = 20 := rfl
    have hc : (lit ": ").length = 2 := rfl
    rw [irc_send_notice_line _ _ _ (by simp only [List.length_append, hm, hc]; omega)]
    simp only [List.append_assoc]
    rfl
  · intro h0 hp
    unfold icb_cmd_status scan_tok
    simp only
    rw [if_neg (fun h => absurd (h0.symm.trans h.1) (by decide)),
      if_neg (fun h => h.elim (fun e => absurd (h0.symm.trans e) (by decide))
        (fun e => absurd (h0.symm.trans e) (by decide))),
      if_neg (fun e => absurd (h0.symm.trans e) (by decide)),
      if_neg (fun e => absurd (h0.symm.trans e) (by decide)),
      if_pos h0, if_pos (by rw [hp]; decide)]
  · intro h0 hp
    unfold icb_cmd_status scan_tok
    simp only
    rw [if_neg (fun h => absurd (h0.symm.trans h.1) (by decide)),
      if_neg (fun h => h.elim (fun e => absurd (h0.symm.trans e) (by decide))
        (fun e => absurd (h0.symm.trans e) (by decide))),
      if_neg (fun e => absurd (h0.symm.trans e) (by decide)),
      if_neg (fun e => absurd (h0.symm.trans e) (by decide)),
      if_neg (fun e => absurd (h0.symm.trans e) (by decide)),
      if_pos h0, if_pos (by rw [hp]; decide)]
  · intro h0 hp hq
    unfold icb_cmd_status scan_tok
    simp only
    rw [if_neg (fun h => absurd (h0.symm.trans h.1) (by decide)),
      if_neg (fun h => h.elim (fun e => absurd (h0.symm.trans e) (by decide))
        (fun e => absurd (h0.symm.trans e) (by decide))),
      if_neg (fun e => absurd (h0.symm.trans e) (by decide)),
      if_neg (fun e => absurd (h0.symm.trans e) (by decide)),
      if_neg (fun e => absurd (h0.symm.trans e) (by decide)),
      if_neg (fun e => absurd (h0.symm.trans e) (by decide)),
      if_pos h0, if_neg (by rw [hp]; decide), if_neg hq]
  · intro h0 hq
    unfold icb_cmd_status scan_tok
    simp only
    rw [if_neg (fun h => absurd (h0.symm.trans h.1) (by decide)),
      if_neg (fun h => h.elim (fun e => absurd (h0.symm.trans e) (by decide))
        (fun e => absurd (h0.symm.trans e) (by decide))),
      if_neg (fun e => absurd (h0.symm.trans e) (by decide)),
      if_neg (fun e => absurd (h0.symm.trans e) (by decide)),
      if_neg (fun e => absurd (h0.symm.trans e) (by decide)),
      if_neg (fun e => absurd (h0.symm.trans e) (by decide)),
      if_neg (fun e => absurd (h0.symm.trans e) (by decide)),
      if_pos h0, if_pos hq]

/-- Witness for C15 (amended): the status packet `d` `Status` `\001`
`hello all`. -/
theorem status_outside_grammar_witness :
    icb_args (lit "Status" ++ [1] ++ lit "hello all")
        = .ok (2, [lit "Status", lit "hello all"] ++ List.replicate 253 []) ∧
      icb_cmd ⟨0, []⟩ Fd.client Fd.server session_zero
          (100 :: (lit "Status" ++ [1] ++ lit "hello all"))
        = .ok (sync_write session_zero Fd.client
            (lit "NOTICE ICB Status Message: Status: hello all\r\n")) :=
  have h : icb_args (lit "Status" ++ [1] ++ lit "hello all")
      = .ok (2, [lit "Status", lit "hello all"] ++ List.replicate 253 []) := rfl
  ⟨h, (status_outside_grammar ⟨0, []⟩ Fd.client Fd.server session_zero _ _ _ h).1
    (by decide) (by decide)⟩

/-! ## Open messages -/

theorem irc_send_join_line (s : Session) (fd : Fd) (src dst : List Nat)
    (h : src.length + dst.length ≤ 8000) :
    irc_send_join s fd src dst
      = (sync_write s fd (lit ":" ++ src ++ lit " JOIN :" ++ dst ++ lit "\r\n")
          ).set_in_irc_channel true := by
  have h1 : (lit ":").length = 1 := rfl
  have h2 : (lit " JOIN :").length = 7 := rfl
  have h3 : (lit "\r\n").length = 2 := rfl
  unfold irc_send_join
  rw [snprintf_fits 8192 _ (by simp only [List.length_append, h1, h2, h3]; omega)]

theorem irc_send_part_line (s : Session) (fd : Fd) (src dst : List Nat)
    (h : src.length + dst.length ≤ 8000) :
    irc_send_part s fd src dst
      = sync_write s fd (lit ":" ++ src ++ lit " PART :" ++ dst ++ lit "\r\n") := by
  have h1 : (lit ":").length = 1 := rfl
  have h2 : (lit " PART :").length = 7 := rfl
  have h3 : (lit "\r\n").length = 2 := rfl
  unfold irc_send_part
  rw [snprintf_fits 8192 _ (by simp only [List.length_append, h1, h2, h3]; omega)]

theorem irc_send_msg_line (s : Session) (fd : Fd) (src dst msg : List Nat)
    (h : src.length + dst.length + msg.length ≤ 8000) :
    irc_send_msg s fd src dst msg
      = sync_write s fd
          (lit ":" ++ src ++ lit " PRIVMSG " ++ dst ++ lit " :" ++ msg ++ lit "\r\n") := by
  have h1 : (lit ":").length = 1 := rfl
  have h2 : (lit " PRIVMSG ").length = 9 := rfl
  have h3 : (lit " :").length = 2 := rfl
  have h4 : (lit "\r\n").length = 2 := rfl
  unfold irc_send_msg
  rw [snprintf_fits 8192 _ (by simp only [List.length_append, h1, h2, h3, h4]; omega)]

theorem icb_send_names_idle (s : Session) (fd : Fd) (g : List Nat)
    (h : s.imode = imode_none) :
    icb_send_names s fd g
      = .ok (sync_write (((s.set_imode imode_names).set_igroup (strlcpy g 256)).set_icurgroup [])
          fd [4, 104, 119, 1, 0]) := by
  unfold icb_send_names
  rw [if_neg (by rw [h]; simp)]
  unfold icb_send_hw
  rw [icb_hw_cmd_empty]
  rfl

/-- C20 (the code at a failing input). With a LIST enquiry outstanding and
the client not in the channel `#devs`, the Open Message `b` `bob` `\001`
`hello world` writes the JOIN and the PRIVMSG lines to the client, but no
packet goes to the server and the enquiry state is as before: no NAMES enquiry
is issued. -/
theorem open_message_enquiry_suppressed :
    Except.map (fun s => (s.client_out, s.server_out, s.imode, s.igroup, s.in_irc_channel))
        (icb_cmd ⟨0, []⟩ Fd.client Fd.server
          ((session_zero.set_irc_channel (lit "#devs")).set_imode imode_list)
          (98 :: (lit "bob" ++ [1] ++ lit "hello world")))
      = .ok ([lit ": JOIN :#devs\r\n", lit ":bob PRIVMSG #devs :hello world\r\n"], [],
          imode_list, [], true) :=
  rfl

/-- C20 (amended). On an Open Message packet with the strings `src` and
`text`: if `in_irc_channel` is set, `icb_cmd` writes the one line
`:src PRIVMSG <channel> :text` and changes nothing else; if it is not set,
`icb_cmd` first writes `:<nick> JOIN :<channel>` and sets `in_irc_channel`,
then issues the NAMES enquiry for the channel when no enquiry is outstanding
(and no enquiry when one is), and then writes the PRIVMSG line. -/
theorem open_message_lines (u : Indet) (fd sfd : Fd) (s : Session) (data : List Nat)
    (i : Nat) (fields : List (List Nat)) (hargs : icb_args data = .ok (i, fields))
    (hn : s.irc_nick.length ≤ 255) (hc : s.irc_channel.length ≤ 255) :
    (s.in_irc_channel = true →
        icb_cmd u fd sfd s (98 :: data)
          = .ok (sync_write s fd
              (lit ":" ++ cstr (fields.getD 0 []) ++ lit " PRIVMSG " ++ s.irc_channel ++ lit " :"
                ++ cstr (fields.getD 1 []) ++ lit "\r\n"))) ∧
      (s.in_irc_channel = false → s.imode = imode_none →
        icb_cmd u fd sfd s (98 :: data)
          = .ok (sync_write
              (sync_write
                (((((sync_write s fd
                    (lit ":" ++ s.irc_nick ++ lit " JOIN :" ++ s.irc_channel ++ lit "\r\n")
                  ).set_in_irc_channel true).set_imode imode_names).set_igroup
                    (strlcpy s.irc_channel 256)).set_icurgroup [])
                sfd [4, 104, 119, 1, 0])
              fd
              (lit ":" ++ cstr (fields.getD 0 []) ++ lit " PRIVMSG " ++ s.irc_channel ++ lit " :"
                ++ cstr (fields.getD 1 []) ++ lit "\r\n"))) ∧
      (s.in_irc_channel = false → s.imode ≠ imode_none →
        icb_cmd u fd sfd s (98 :: data)
          = .ok (sync_write
              ((sync_write s fd
                (lit ":" ++ s.irc_nick ++ lit " JOIN :" ++ s.irc_channel ++ lit "\r\n")
              ).set_in_irc_channel true)
              fd
              (lit ":" ++ cstr (fields.getD 0 []) ++ lit " PRIVMSG " ++ s.irc_channel ++ lit " :"
                ++ cstr (fields.getD 1 []) ++ lit "\r\n"))) := by
  rw [icb_cmd_open_eq u fd sfd s hargs]
  have l0 := icb_args_string_length hargs 0
  have l1 := icb_args_string_length hargs 1
  generalize cstr (fields.getD 0 []) = a0 at l0 ⊢
  generalize cstr (fields.getD 1 []) = a1 at l1 ⊢
  have hjoin := fun x : Session =>
    irc_send_join_line x fd s.irc_nick s.irc_channel (by omega)
  have hmsg := fun x : Session =>
    irc_send_msg_line x fd a0 s.irc_channel a1 (by omega)
  refine ⟨?_, ?_, ?_⟩
  · intro hin
    unfold icb_cmd_open
    simp only [hin, not_true_eq_false, if_false]
    rw [hmsg]
  · intro hin hmode
    unfold icb_cmd_open
    simp only [hin, Bool.false_eq_true, not_false_eq_true, if_true]
    rw [hjoin, icb_send_names_idle _ _ _ (by simp [hmode])]
    simp only
    rw [hmsg]
  · intro hin hmode
    unfold icb_cmd_open
    simp only [hin, Bool.false_eq_true, not_false_eq_true, if_true]
    rw [hjoin, icb_send_names_busy _ _ _ (by simp [hmode])]
    simp only
    rw [hmsg]

/-- Witness for C20 (amended): nick `alice`, channel `#devs`, the packet
`b` `bob` `\001` `hello world`, the client not in the channel and no enquiry
outstanding. -/
theorem open_message_lines_witness :
    icb_args (lit "bob" ++ [1] ++ lit "hello world")
        = .ok (2, [lit "bob", lit "hello world"] ++ List.replicate 253 []) ∧
      ((session_zero.set_irc_nick (lit "alice")).set_irc_channel (lit "#devs")).irc_nick.length
        ≤ 255 ∧
      ((session_zero.set_irc_nick (lit "alice")).set_irc_channel (lit "#devs")
        ).irc_channel.length ≤ 255 ∧
      Except.map (fun s => (s.client_out, s.server_out, s.imode, s.igroup, s.in_irc_channel))
          (icb_cmd ⟨0, []⟩ Fd.client Fd.server
            ((session_zero.set_irc_nick (lit "alice")).set_irc_channel (lit "#devs"))
            (98 :: (lit "bob" ++ [1] ++ lit "hello world")))
        = .ok ([lit ":alice JOIN :#devs\r\n", lit ":bob PRIVMSG #devs :hello world\r\n"],
            [[4, 104, 119, 1, 0]], imode_names, lit "#devs", true) := by
  have h : icb_args (lit "bob" ++ [1] ++ lit "hello world")
      = .ok (2, [lit "bob", lit "hello world"] ++ List.replicate 253 []) := rfl
  have hn : ((session_zero.set_irc_nick (lit "alice")).set_irc_channel (lit "#devs")
      ).irc_nick.length ≤ 255 := by decide
  have hc : ((session_zero.set_irc_nick (lit "alice")).set_irc_channel (lit "#devs")
      ).irc_channel.length ≤ 255 := by decide
  refine ⟨h, hn, hc, ?_⟩
  rw [(open_message_lines ⟨0, []⟩ Fd.client Fd.server
    ((session_zero.set_irc_nick (lit "alice")).set_irc_channel (lit "#devs")) _ _ _ h hn hc
    ).2.1 rfl rfl]
  rfl

/-! ## The status `You are now in group` -/

/-- The string left by `scan` in a buffer of `N >= 1` bytes. -/
theorem scan_tok_eq (s skip term : List Nat) (N : Nat) (h0 : 0 ∉ s) (hN : 1 ≤ N) :
    (scan_tok s N skip term).2
      = ((s.dropWhile (fun b => decide (b ∈ skip))).takeWhile
          (fun b => decide (b ∉ term))).take (N - 1) := by
  have hd := dropWhile_no_nul (fun b => decide (b ∈ skip)) s h0
  obtain ⟨h1, h2⟩ := scan_copy_eq term (s.dropWhile (fun b => decide (b ∈ skip))) N [] hd
  unfold scan_tok scan
  simp only []
  rw [scan_skip_eq skip s h0, if_pos (h2.mpr hN), h1, List.nil_append]
  exact cstr_append_nul _ [] (fun h => hd ((List.takeWhile_prefix _).subset
    (List.mem_of_mem_take h)))

/-- The first word of a string that begins with a non-empty run `g` of
non-space bytes followed by nothing or by a space. -/
theorem scan_word (g rest : List Nat) (N : Nat) (h0 : 0 ∉ g ++ rest) (hg : g ≠ [])
    (hgs : 32 ∉ g) (hrest : rest = [] ∨ rest.head? = some 32) (hN : g.length + 1 ≤ N) :
    (scan_tok (g ++ rest) N (lit " ") (lit " ")).2 = g := by
  have hsp : lit " " = [32] := rfl
  rw [scan_tok_eq _ _ _ N h0 (by omega), hsp]
  have hdrop : (g ++ rest).dropWhile (fun b => decide (b ∈ [32])) = g ++ rest := by
    cases g with
    | nil => exact absurd rfl hg
    | cons b tl =>
      have hb : b ≠ 32 := fun e => hgs (by rw [e]; exact List.mem_cons_self _ _)
      rw [List.cons_append, List.dropWhile_cons_of_neg (by simpa using hb)]
  have htake : (g ++ rest).takeWhile (fun b => decide (b ∉ [32])) = g := by
    rw [List.takeWhile_append_of_pos]
    · rcases hrest with e | e
      · rw [e]; simp
      · cases rest with
        | nil => simp
        | cons c tl =>
          simp only [List.head?_cons, Option.some.injEq] at e
          rw [List.takeWhile_cons_of_neg (by simp [e])]
          simp
    · intro b hb
      have : b ≠ 32 := fun e => hgs (e ▸ hb)
      simpa using this
  rw [hdrop, htake, List.take_of_length_le (by omega)]

theorem strlcpy_fits (x : List Nat) (n : Nat) (h0 : 0 ∉ x) (hl : x.length ≤ n - 1) :
    strlcpy x n = x := by
  unfold strlcpy
  rw [cstr_of_no_nul x h0, List.take_of_length_le hl]

/-- C18. On the status packet `Status`, `You are now in group ` `g` `rest`
(`g` a non-empty run of non-space bytes, `rest` empty or beginning with a
space), with no enquiry outstanding, `icb_cmd` writes `:n PART :<channel>` iff
the old channel name is non-empty, sets the channel to `#g`, writes
`:n JOIN :#g`, sets `in_irc_channel`, and sends the one packet `hw` to the
server, leaving `imode = imode_names` and `igroup = #g`. -/
theorem status_group_joins (u : Indet) (fd sfd : Fd) (s : Session) (data : List Nat)
    (i : Nat) (fields : List (List Nat)) (g rest : List Nat)
    (hargs : icb_args data = .ok (i, fields))
    (h0 : cstr (fields.getD 0 []) = lit "Status")
    (h1 : cstr (fields.getD 1 []) = lit "You are now in group " ++ g ++ rest)
    (hg : g ≠ []) (hgs : 32 ∉ g) (hrest : rest = [] ∨ rest.head? = some 32)
    (hmode : s.imode = imode_none) (hn : s.irc_nick.length ≤ 255)
    (hc : s.irc_channel.length ≤ 255) :
    icb_cmd u fd sfd s (100 :: data)
      = .ok (sync_write
          ((((((sync_write
              ((if s.irc_channel ≠ [] then
                  sync_write s fd
                    (lit ":" ++ s.irc_nick ++ lit " PART :" ++ s.irc_channel ++ lit "\r\n")
                else s).set_irc_channel (35 :: g))
              fd (lit ":" ++ s.irc_nick ++ lit " JOIN :" ++ (35 :: g) ++ lit "\r\n")
            ).set_in_irc_channel true).set_imode imode_names).set_igroup (35 :: g)
            ).set_icurgroup []))
          sfd [4, 104, 119, 1, 0]) := by
  have hlen := icb_args_string_length hargs 1
  have hnul := cstr_no_nul (fields.getD 1 [])
  rw [icb_cmd_status_eq u fd sfd s hargs, h0]
  rw [h1] at hlen hnul
  generalize cstr (fields.getD 1 []) = a1 at h1
  subst h1
  have hp : (lit "You are now in group ").length = 21 := rfl
  simp only [List.length_append, hp] at hlen
  have hnul' : 0 ∉ g ++ rest := fun h => hnul (by
    rw [List.append_assoc]; exact List.mem_append_right _ h)
  have hg0 : 0 ∉ (35 :: g) := by
    intro h
    rcases List.mem_cons.mp h with e | e
    · cases e
    · exact hnul' (List.mem_append_left _ e)
  have hpre : starts_with (lit "You are now in group ")
      (lit "You are now in group " ++ g ++ rest) = true := by
    unfold starts_with
    rw [List.append_assoc]
    exact List.isPrefixOf_iff_prefix.mpr (List.prefix_append _ _)
  have hdrop : (lit "You are now in group " ++ g ++ rest).drop 21 = g ++ rest := by
    rw [List.append_assoc]
    exact List.drop_left' hp
  unfold icb_cmd_status
  simp only
  rw [if_pos ⟨True.intro, hpre⟩, hdrop, scan_word g rest 255 hnul' hg hgs hrest (by omega)]
  rw [irc_send_join_line _ _ _ _ (by simp only [List.length_cons]; omega)]
  rw [icb_send_names_idle _ _ _ (by
    rw [set_in_irc_channel_imode, sync_write_imode, set_irc_channel_imode]
    split
    · rw [irc_send_part_imode]; exact hmode
    · exact hmode)]
  rw [strlcpy_fits _ 256 hg0 (by simp only [List.length_cons]; omega)]
  by_cases hch : s.irc_channel = []
  · simp only [hch, ne_eq, not_true_eq_false, if_false]
  · simp only [hch, ne_eq, not_false_eq_true, if_true]
    rw [irc_send_part_line _ _ _ _ (by omega)]

/-- Witness for C18: nick `alice`, old channel `#old`, the status
`You are now in group devs by invitation`. -/
theorem status_group_joins_witness :
    icb_args (lit "Status" ++ [1] ++ lit "You are now in group devs by invitation")
        = .ok (2, [lit "Status", lit "You are now in group devs by invitation"]
            ++ List.replicate 253 []) ∧
      lit "devs" ≠ [] ∧ 32 ∉ lit "devs" ∧ (lit " by invitation").head? = some 32 ∧
      ((session_zero.set_irc_nick (lit "alice")).set_irc_channel (lit "#old")).imode
        = imode_none ∧
      Except.map
          (fun s => (s.client_out, s.server_out, s.irc_channel, s.in_irc_channel, s.imode,
            s.igroup))
          (icb_cmd ⟨0, []⟩ Fd.client Fd.server
            ((session_zero.set_irc_nick (lit "alice")).set_irc_channel (lit "#old"))
            (100 :: (lit "Status" ++ [1] ++ lit "You are now in group devs by invitation")))
        = .ok ([lit ":alice PART :#old\r\n", lit ":alice JOIN :#devs\r\n"],
            [[4, 104, 119, 1, 0]], lit "#devs", true, imode_names, lit "#devs") := by
  have h : icb_args (lit "Status" ++ [1] ++ lit "You are now in group devs by invitation")
      = .ok (2, [lit "Status", lit "You are now in group devs by invitation"]
          ++ List.replicate 253 []) := rfl
  refine ⟨h, by decide, by decide, rfl, rfl, ?_⟩
  rw [status_group_joins ⟨0, []⟩ Fd.client Fd.server
    ((session_zero.set_irc_nick (lit "alice")).set_irc_channel (lit "#old")) _ _ _
    (lit "devs") (lit " by invitation") h rfl rfl (by decide) (by decide) (Or.inr rfl) rfl
    (by decide) (by decide)]
  rfl

/-! ## The replies to a LIST enquiry -/

theorem strstr_none (needle : List Nat) :
    ∀ hay : List Nat, (∀ k, needle.isPrefixOf (hay.drop k) = false) →
      strstr hay needle = none := by
  intro hay
  induction hay with
  | nil =>
    intro h
    have h0 := h 0
    unfold strstr
    rw [if_neg]
    intro e
    rw [e] at h0
    cases h0
  | cons b rest ih =>
    intro h
    have h0 := h 0
    simp only [List.drop_zero] at h0
    unfold strstr
    rw [if_neg (by rw [h0]; decide)]
    exact ih (fun k => h (k + 1))

theorem strstr_first (needle t : List Nat) :
    ∀ pre : List Nat,
      (∀ k, k < pre.length → needle.isPrefixOf ((pre ++ needle ++ t).drop k) = false) →
      strstr (pre ++ needle ++ t) needle = some (needle ++ t) := by
  intro pre
  induction pre with
  | nil =>
    intro _
    rw [List.nil_append]
    cases hnt : needle ++ t with
    | nil =>
      have hn : needle = [] := (List.append_eq_nil.mp hnt).1
      unfold strstr
      rw [if_pos hn]
    | cons b rest =>
      unfold strstr
      rw [if_pos (by rw [← hnt]; exact List.isPrefixOf_iff_prefix.mpr (List.prefix_append _ _))]
  | cons p pre ih =>
    intro h
    have h0 := h 0 (by simp)
    simp only [List.drop_zero] at h0
    simp only [List.cons_append] at h0 ⊢
    unfold strstr
    rw [if_neg (by rw [h0]; decide)]
    refine ih (fun k hk => ?_)
    have := h (k + 1) (by simp only [List.length_cons]; omega)
    simpa using this

/-- C19. With a LIST enquiry outstanding, `icb_ico` on the line
`Group: ` `g` `rest` (`g` the run of non-space bytes, `rest` empty or beginning
with a space) sets `icurgroup` to `#g` and writes `:h 322 n #g 1 :t`, where `t`
is the text after the first `Topic: ` in `rest`, or `(None)` if `rest` holds no
`Topic: `; on a line beginning `Total: ` it writes `:h 323 n :End of /LIST` and
sets `imode` to `imode_none`. -/
theorem icb_ico_list_lines (s : Session) (fd : Fd) (g rest : List Nat)
    (hmode : s.imode = imode_list) (h0 : 0 ∉ g) (hgs : 32 ∉ g)
    (hrest : rest = [] ∨ rest.head? = some 32)
    (hlen : (lit "Group: " ++ g ++ rest).length ≤ 254)
    (hh : s.icb_hostid.length ≤ 255) (hn : s.irc_nick.length ≤ 255) :
    (∀ pre t, rest = pre ++ lit "Topic: " ++ t →
        (∀ k, k < pre.length → (lit "Topic: ").isPrefixOf (rest.drop k) = false) →
        icb_ico s fd (lit "Group: " ++ g ++ rest)
          = .ok (sync_write (s.set_icurgroup (35 :: g)) fd
              (lit ":" ++ s.icb_hostid ++ lit " 322 " ++ s.irc_nick ++ lit " " ++ (35 :: g)
                ++ lit " 1 :" ++ t ++ lit "\r\n"))) ∧
      ((∀ k, (lit "Topic: ").isPrefixOf (rest.drop k) = false) →
        icb_ico s fd (lit "Group: " ++ g ++ rest)
          = .ok (sync_write (s.set_icurgroup (35 :: g)) fd
              (lit ":" ++ s.icb_hostid ++ lit " 322 " ++ s.irc_nick ++ lit " " ++ (35 :: g)
                ++ lit " 1 :" ++ lit "(None)" ++ lit "\r\n"))) ∧
      (∀ x, icb_ico s fd (lit "Total: " ++ x)
          = .ok ((sync_write s fd
              (lit ":" ++ s.icb_hostid ++ lit " 323 " ++ s.irc_nick
                ++ lit " :End of /LIST\r\n")).set_imode imode_none)) := by
  have hp : (lit "Group: ").length = 7 := rfl
  have c1 : (lit ":").length = 1 := rfl
  have c2 : (lit " 322 ").length = 5 := rfl
  have c3 : (lit " ").length = 1 := rfl
  have c4 : (lit " 1 :").length = 4 := rfl
  have c5 : (lit "\r\n").length = 2 := rfl
  have c6 : (lit "(None)").length = 6 := rfl
  have c7 : (lit "Topic: ").length = 7 := rfl
  simp only [List.length_append, hp] at hlen
  have hpre : starts_with (lit "Group: ") (lit "Group: " ++ g ++ rest) = true := by
    unfold starts_with
    rw [List.append_assoc]
    exact List.isPrefixOf_iff_prefix.mpr (List.prefix_append _ _)
  have hdrop : (lit "Group: " ++ g ++ rest).drop 7 = g ++ rest := by
    rw [List.append_assoc]
    exact List.drop_left' hp
  have hname : (g ++ rest).takeWhile (fun b => decide (b ≠ 0 ∧ b ≠ 32)) = g := by
    rw [List.takeWhile_append_of_pos]
    · rcases hrest with e | e
      · rw [e]; simp
      · cases rest with
        | nil => simp
        | cons c tl =>
          simp only [List.head?_cons, Option.some.injEq] at e
          rw [List.takeWhile_cons_of_neg (by simp [e])]
          simp
    · intro b hb
      have b0 : b ≠ 0 := fun e => h0 (e ▸ hb)
      have b1 : b ≠ 32 := fun e => hgs (e ▸ hb)
      simp [b0, b1]
  have hg0 : 0 ∉ (35 :: g) := by
    intro h
    rcases List.mem_cons.mp h with e | e
    · cases e
    · exact h0 e
  have hgroup : ∀ (r : Option (List Nat)) (topic : List Nat),
      strstr rest (lit "Topic: ") = r →
      (r = none ∧ topic = lit "(None)" ∨ ∃ t, r = some t ∧ topic = t.drop 7) →
      topic.length ≤ 254 →
      icb_ico s fd (lit "Group: " ++ g ++ rest)
        = .ok (sync_write (s.set_icurgroup (35 :: g)) fd
            (lit ":" ++ s.icb_hostid ++ lit " 322 " ++ s.irc_nick ++ lit " " ++ (35 :: g)
              ++ lit " 1 :" ++ topic ++ lit "\r\n")) := by
    intro r topic hr hcase htl
    unfold icb_ico
    simp only
    rw [if_pos hpre, hdrop, hname, if_pos (by simp only [List.length_cons]; omega),
      List.drop_left, hr]
    rcases hcase with ⟨rfl, rfl⟩ | ⟨t, rfl, rfl⟩
    · simp only
      rw [if_pos hmode, strlcpy_fits _ 256 hg0 (by simp only [List.length_cons]; omega),
        snprintf_fits 8192 _ (by
          simp only [List.length_append, List.length_cons, c1, c2, c3, c4, c5] at htl ⊢
          omega)]
    · simp only
      rw [if_pos hmode, strlcpy_fits _ 256 hg0 (by simp only [List.length_cons]; omega),
        snprintf_fits 8192 _ (by
          simp only [List.length_append, List.length_cons, c1, c2, c3, c4, c5] at htl ⊢
          omega)]
  refine ⟨?_, ?_, ?_⟩
  · intro pre t hr hfirst
    have hs : strstr rest (lit "Topic: ") = some (lit "Topic: " ++ t) := by
      rw [hr]
      exact strstr_first _ t pre (by rw [← hr]; exact hfirst)
    refine hgroup _ t hs (Or.inr ⟨_, rfl, (List.drop_left' c7).symm⟩) ?_
    have : rest.length = pre.length + 7 + t.length := by
      rw [hr]; simp only [List.length_append, c7]
    omega
  · intro hnone
    have hs : strstr rest (lit "Topic: ") = none := strstr_none _ rest hnone
    exact hgroup _ (lit "(None)") hs (Or.inl ⟨rfl, rfl⟩) (by rw [c6]; omega)
  · intro x
    have hng : starts_with (lit "Group: ") (lit "Total: " ++ x) = false := rfl
    have htot : starts_with (lit "Total: ") (lit "Total: " ++ x) = true := by
      unfold starts_with
      exact List.isPrefixOf_iff_prefix.mpr (List.prefix_append _ _)
    have c8 : (lit " 323 ").length = 5 := rfl
    have c9 : (lit " :End of /LIST\r\n").length = 16 := rfl
    unfold icb_ico
    simp only
    rw [if_neg (by rw [hng]; decide), if_pos htot, if_pos hmode,
      snprintf_fits 8192 _ (by simp only [List.length_append, c1, c8, c9]; omega)]

/-- Witness for C19: host id `icb.example`, nick `alice`, the lines
`Group: devs Topic: the daily` and `Total: 1 groups 3 users`. -/
theorem icb_ico_list_lines_witness :
    (((session_zero.set_icb_hostid (lit "icb.example")).set_irc_nick (lit "alice")).set_imode
        imode_list).imode = imode_list ∧
      0 ∉ lit "devs" ∧ 32 ∉ lit "devs" ∧ (lit " Topic: the daily").head? = some 32 ∧
      icb_ico
          (((session_zero.set_icb_hostid (lit "icb.example")).set_irc_nick (lit "alice")
            ).set_imode imode_list)
          Fd.client (lit "Group: devs Topic: the daily")
        = .ok (sync_write
            ((((session_zero.set_icb_hostid (lit "icb.example")).set_irc_nick (lit "alice")
              ).set_imode imode_list).set_icurgroup (lit "#devs"))
            Fd.client (lit ":icb.example 322 alice #devs 1 :the daily\r\n")) ∧
      Except.map (fun s => (s.client_out, s.imode, s.icurgroup))
          (icb_ico_all Fd.client
            (((session_zero.set_icb_hostid (lit "icb.example")).set_irc_nick (lit "alice")
              ).set_imode imode_list)
            [lit "Group: devs Topic: the daily", lit "Total: 1 groups 3 users"])
        = .ok ([lit ":icb.example 322 alice #devs 1 :the daily\r\n",
            lit ":icb.example 323 alice :End of /LIST\r\n"], imode_none, lit "#devs") :=
  ⟨rfl, by decide, by decide, rfl,
    (icb_ico_list_lines
      (((session_zero.set_icb_hostid (lit "icb.example")).set_irc_nick (lit "alice")
        ).set_imode imode_list)
      Fd.client (lit "devs") (lit " Topic: the daily") rfl (by decide) (by decide) (Or.inr rfl)
      (by decide) (by decide) (by decide)).1 (lit " ") (lit "the daily") rfl (by decide),
    rfl⟩

/-! ## Bounds of the two ICB buffers -/

/-- C29. For every sequence of chunks of arbitrary bytes, fed to `icb_recv`
from the state left by `icb_init`, every call returns without a store outside
`cmd[256]`, and afterwards the number `off` of bytes collected is 0 or lies
between 1 and the buffered length byte `L = cmd[0] <= 255`; so at most `L`
bytes of a packet of `L + 1` bytes are ever held between calls. -/
theorem icb_recv_accumulator_bounds {σ : Type} (h : σ → List Nat → σ) (s : σ)
    (chunks : List (List Nat)) :
    ∃ f s', icb_recv_chunks h icb_init_framer s chunks = .ok (f, s') ∧
      (f.off = 0 ∨ (1 ≤ f.off ∧ f.off ≤ cmd0 f.cmd ∧ cmd0 f.cmd ≤ 255)) ∧
      f.off < 256 := by
  have hinit : icb_init_framer.ok := Or.inl rfl
  have hok := icb_steps_ok h chunks.flatten (icb_init_framer, s) hinit
  refine ⟨_, _, by rw [icb_recv_chunks_steps h chunks icb_init_framer s hinit], ?_, ?_⟩
  · rcases hok with e | ⟨h1, h2⟩
    · left
      unfold IcbFramer.off
      rw [e]; rfl
    · unfold IcbFramer.off
      by_cases hl : (chunks.flatten.foldl (icb_step h) (icb_init_framer, s)).1.cmd.length = 0
      · exact Or.inl hl
      · right
        omega
  · rcases hok with e | ⟨h1, h2⟩
    · unfold IcbFramer.off
      rw [e]; decide
    · unfold IcbFramer.off
      omega

theorem icb_args_loop_count (data : List Nat) :
    ∀ (done : List (List Nat)) (cur : List Nat) (done' : List (List Nat)) (cur' : List Nat),
      icb_args_loop data done cur = .ok (done', cur') →
      done'.length = done.length + data.count 1 ∧
        (cur' = [] ↔ (data = [] ∧ cur = []) ∨ data.getLast? = some 1) ∧
        ((∀ f ∈ done ++ [cur], 0 ∉ f) → 0 ∉ data → ∀ f ∈ done' ++ [cur'], 0 ∉ f) := by
  induction data with
  | nil =>
    intro done cur done' cur' h
    simp only [icb_args_loop, Except.ok.injEq, Prod.mk.injEq] at h
    obtain ⟨rfl, rfl⟩ := h
    refine ⟨by simp, by simp, fun hc _ => hc⟩
  | cons b rest ih =>
    intro done cur done' cur' h
    simp only [icb_args_loop] at h
    by_cases hin : done.length < 255 ∧ cur.length < 255
    · rw [if_pos hin] at h
      by_cases hsep : b = 1
      · rw [if_pos hsep] at h
        obtain ⟨h1, h2, h3⟩ := ih _ _ _ _ h
        refine ⟨?_, ?_, ?_⟩
        · rw [h1, hsep]
          simp only [List.length_append, List.length_singleton, List.count_cons_self]
          omega
        · rw [h2]
          cases rest with
          | nil => simp [hsep]
          | cons r rs => simp [List.getLast?_cons_cons]
        · intro hc h0
          refine h3 ?_ (fun hm => h0 (List.mem_cons_of_mem _ hm))
          intro f hf
          simp only [List.mem_append, List.mem_singleton] at hf
          rcases hf with (hf | hf) | hf
          · exact hc f (List.mem_append_left _ hf)
          · rw [hf]; exact hc cur (by simp)
          · rw [hf]; simp
      · rw [if_neg hsep] at h
        have hgen : ∀ x : Nat, (0 ∉ (b :: rest) → x ≠ 0) →
            icb_args_loop rest done (cur ++ [x]) = .ok (done', cur') →
            done'.length = done.length + (b :: rest).count 1 ∧
            (cur' = [] ↔ ((b :: rest) = [] ∧ cur = []) ∨ (b :: rest).getLast? = some 1) ∧
            ((∀ f ∈ done ++ [cur], 0 ∉ f) → 0 ∉ (b :: rest) → ∀ f ∈ done' ++ [cur'], 0 ∉ f) := by
          intro x hx hrun
          obtain ⟨h1, h2, h3⟩ := ih _ _ _ _ hrun
          refine ⟨?_, ?_, ?_⟩
          · rw [h1, List.count_cons_of_ne (fun e => hsep e.symm)]
          · rw [h2]
            cases rest with
            | nil => simp [hsep]
            | cons r rs => simp [List.getLast?_cons_cons]
          · intro hc h0
            refine h3 ?_ (fun hm => h0 (List.mem_cons_of_mem _ hm))
            intro f hf
            simp only [List.mem_append, List.mem_singleton] at hf
            rcases hf with hf | hf
            · exact hc f (List.mem_append_left _ hf)
            · rw [hf]
              intro hm
              rcases List.mem_append.mp hm with hm | hm
              · exact hc cur (by simp) hm
              · exact hx h0 (List.mem_singleton.mp hm).symm
        by_cases hcr : b = 13 ∨ b = 10
        · rw [if_pos hcr] at h
          exact hgen 63 (fun _ => by decide) h
        · rw [if_neg hcr] at h
          exact hgen b (fun h0 e => h0 (by rw [e]; exact List.mem_cons_self _ _)) h
    · rw [if_neg hin] at h
      cases h

/-- What `icb_args` returns on a payload of at most 254 bytes, in terms of
the state `(done, cur)` in which its loop ends. -/
theorem icb_args_shape (data : List Nat) (hlen : data.length ≤ 254) :
    ∃ done cur, icb_args_loop data [] [] = .ok (done, cur) ∧
      done.length + cur.length ≤ 254 ∧
      icb_args data
        = .ok (if cur = [] then done.length else done.length + 1,
            if cur = [] then done ++ List.replicate (255 - done.length) []
            else done ++ [cur] ++ List.replicate (255 - (done.length + 1)) []) := by
  obtain ⟨d', c', hrun, hl, _, _⟩ := icb_args_loop_spec data [] [] (by simpa using hlen)
    (by simp)
  refine ⟨d', c', hrun, hl, ?_⟩
  unfold icb_args
  rw [hrun]
  simp only
  by_cases hc : c' = []
  · subst hc
    simp
  · have hcpos : c'.length > 0 := List.length_pos.mpr hc
    have hin : d'.length < 255 ∧ c'.length < 255 := by omega
    rw [if_pos hcpos, if_pos hin, if_neg hc, if_neg hc]

/-- C30. On a payload of at most 254 bytes `icb_args` returns without a
store outside `args[255][255]` (so the counters `j` and `k` stay below 255 at
every store and none of the `unsigned char` counters wraps); the count it
returns is at most 255, the 255 slots are all set, and every string has at
most 254 bytes before its NUL. -/
theorem icb_args_in_bounds (data : List Nat) (hlen : data.length ≤ 254) :
    ∃ c fields, icb_args data = .ok (c, fields) ∧ c ≤ 255 ∧ fields.length = 255 ∧
      (∀ f ∈ fields, f.length ≤ 254) ∧
      ∃ done cur, icb_args_loop data [] [] = .ok (done, cur) ∧
        done.length ≤ 254 ∧ cur.length ≤ 254 := by
  obtain ⟨done, cur, hrun, hl, heq⟩ := icb_args_shape data hlen
  refine ⟨_, _, heq, ?_, ?_, icb_args_field_length data _ _ heq,
    done, cur, hrun, by omega, by omega⟩
  · split <;> omega
  · split
    · simp only [List.length_append, List.length_replicate]; omega
    · simp only [List.length_append, List.length_replicate, List.length_singleton]; omega

/-- Witness for C30: a payload of 254 bytes `'x'` fills one string up to
`args[0][253]`, with the NUL at `args[0][254]`. -/
theorem icb_args_in_bounds_witness :
    (List.replicate 254 120).length ≤ 254 ∧
    ∃ c fields, icb_args (List.replicate 254 120) = .ok (c, fields) ∧ c ≤ 255 ∧
      fields.length = 255 ∧ ∀ f ∈ fields, f.length ≤ 254 := by
  have hl : (List.replicate 254 120).length ≤ 254 := by rw [List.length_replicate]
  obtain ⟨c, fields, h1, h2, h3, h4, _⟩ := icb_args_in_bounds (List.replicate 254 120) hl
  exact ⟨hl, c, fields, h1, h2, h3, h4⟩

/-! ## Splitting and joining -/

/-- C22. For a payload `p` of at most 254 bytes without NUL, `'\r'` and
`'\n'`, `icb_args` returns a count `c` and strings such that the first `c`
strings joined with `\001` give `p` without a trailing `\001` (if it has
one); `c` is the number of `\001` in `p`, plus one if `p` is non-empty and
does not end with `\001`; no string holds a `\001` or a NUL; and every slot
from `c` on is the empty string. -/
theorem icb_args_join (p : List Nat) (hlen : p.length ≤ 254) (h0 : 0 ∉ p) (hcr : 13 ∉ p)
    (hlf : 10 ∉ p) :
    ∃ c fields, icb_args p = .ok (c, fields) ∧ fields.length = 255 ∧
      List.intercalate [1] (fields.take c)
        = (if p.getLast? = some 1 then p.dropLast else p) ∧
      c = p.count 1 + (if p = [] ∨ p.getLast? = some 1 then 0 else 1) ∧
      (∀ f ∈ fields, 1 ∉ f ∧ cstr f = f) ∧
      ∀ j, c ≤ j → fields.getD j [] = [] := by
  obtain ⟨d', c', hrun, hl, hjoin, hcl⟩ := icb_args_loop_spec p [] [] (by simpa using hlen)
    (by simp)
  obtain ⟨k1, k2, k3⟩ := icb_args_loop_count p [] [] d' c' hrun
  have hnil : List.intercalate [1] ([] ++ [([] : List Nat)]) = [] := rfl
  have hmap : p.map (fun b => if b = 13 ∨ b = 10 then 63 else b) = p := by
    conv_rhs => rw [← List.map_id p]
    apply List.map_congr_left
    intro b hb
    have n1 : b ≠ 13 := fun e => hcr (e ▸ hb)
    have n2 : b ≠ 10 := fun e => hlf (e ▸ hb)
    simp [n1, n2]
  rw [hnil, List.nil_append, hmap] at hjoin
  have hnul := k3 (by simp) h0
  simp only [List.length_nil, Nat.zero_add] at k1
  simp only [and_true] at k2
  obtain ⟨done, cur, hrun', _, heq⟩ := icb_args_shape p hlen
  rw [hrun] at hrun'
  simp only [Except.ok.injEq, Prod.mk.injEq] at hrun'
  obtain ⟨rfl, rfl⟩ := hrun'
  have hpad : ∀ n, ∀ f ∈ List.replicate n ([] : List Nat), 1 ∉ f ∧ cstr f = f := by
    intro n f hf
    rw [List.eq_of_mem_replicate hf]
    exact ⟨by simp, rfl⟩
  have hfield : ∀ f ∈ d' ++ [c'], 1 ∉ f ∧ cstr f = f :=
    fun f hf => ⟨(hcl f hf).1, cstr_of_no_nul f (hnul f hf)⟩
  by_cases hc : c' = []
  · subst hc
    have hend := k2.mp rfl
    rw [if_pos rfl, if_pos rfl] at heq
    refine ⟨_, _, heq, by simp only [List.length_append, List.length_replicate]; omega,
      ?_, ?_, ?_, ?_⟩
    · rw [List.take_left' rfl]
      by_cases hd : d' = []
      · subst hd
        rw [hnil] at hjoin
        rw [← hjoin]
        rfl
      · rw [intercalate_snoc [1] d' [] hd, List.append_nil] at hjoin
        have hgl : p.getLast? = some 1 := by rw [← hjoin]; simp
        rw [if_pos hgl, ← hjoin]
        simp
    · rw [k1, if_pos hend, Nat.add_zero]
    · intro f hf
      rcases List.mem_append.mp hf with hf | hf
      · exact hfield f (List.mem_append_left _ hf)
      · exact hpad _ f hf
    · intro j hj
      rw [List.getD_append_right _ _ _ _ hj]
      simp only [List.getD_eq_getElem?_getD, List.getElem?_replicate]
      split <;> rfl
  · have hend : ¬ (p = [] ∨ p.getLast? = some 1) := fun h => hc (k2.mpr h)
    rw [if_neg hc, if_neg hc] at heq
    refine ⟨_, _, heq, by
      simp only [List.length_append, List.length_replicate, List.length_singleton]; omega,
      ?_, ?_, ?_, ?_⟩
    · rw [List.take_left' (by simp), hjoin, if_neg (fun h => hend (Or.inr h))]
    · rw [k1, if_neg hend]
    · intro f hf
      rcases List.mem_append.mp hf with hf | hf
      · exact hfield f hf
      · exact hpad _ f hf
    · intro j hj
      rw [List.getD_append_right _ _ _ _ (by simpa using hj)]
      simp only [List.getD_eq_getElem?_getD, List.getElem?_replicate]
      split <;> rfl

/-- Witness for C22: the payload `co`, `\001`, `\001`, `x`, `\001`, with an
empty second string and a trailing separator. -/
theorem icb_args_join_witness :
    (lit "co" ++ [1, 1] ++ lit "x" ++ [1]).length ≤ 254 ∧
    0 ∉ lit "co" ++ [1, 1] ++ lit "x" ++ [1] ∧
    ∃ c fields, icb_args (lit "co" ++ [1, 1] ++ lit "x" ++ [1]) = .ok (c, fields) ∧
      fields.length = 255 ∧
      List.intercalate [1] (fields.take c) = lit "co" ++ [1, 1] ++ lit "x" ∧ c = 3 := by
  obtain ⟨c, fields, h1, h2, h3, h4, _⟩ := icb_args_join (lit "co" ++ [1, 1] ++ lit "x" ++ [1])
    (by decide) (by decide) (by decide) (by decide)
  exact ⟨by decide, by decide, c, fields, h1, h2, h3.trans (by decide), h4.trans (by decide)⟩

/-! ## The raw packet -/

theorem icb_raw_copy_eq (src : List Nat) :
    ∀ cmd : List Nat,
      icb_raw_copy cmd src
        = cmd ++ ((cstr src).take (MAX_MSG_SIZE - cmd.length)).map
            (fun b => if b = 44 then 1 else if b = 92 then 0 else b) := by
  induction src with
  | nil => intro cmd; simp [icb_raw_copy, cstr]
  | cons b rest ih =>
    intro cmd
    unfold icb_raw_copy
    by_cases hb : b = 0
    · rw [if_neg (fun h => h.1 hb)]
      simp [cstr, hb]
    · by_cases hfull : cmd.length < MAX_MSG_SIZE
      · rw [if_pos ⟨hb, hfull⟩, ih]
        obtain ⟨k, hk⟩ : ∃ k, MAX_MSG_SIZE - cmd.length = k + 1 :=
          ⟨MAX_MSG_SIZE - cmd.length - 1, by omega⟩
        have hk' : ∀ x : Nat, MAX_MSG_SIZE - (cmd ++ [x]).length = k := by
          intro x
          simp only [List.length_append, List.length_singleton]; omega
        have hc : cstr (b :: rest) = b :: cstr rest := by
          show (if b = 0 then [] else b :: cstr rest) = _
          rw [if_neg hb]
        rw [hk, hk' _, hc]
        simp
      · rw [if_neg (fun h => hfull h.2)]
        have : MAX_MSG_SIZE - cmd.length = 0 := by omega
        rw [this]
        simp

/-- C25. For every input `d`, read as a C string, `icb_send_raw` writes one
packet: the length byte `min |d| 245 + 1`, the first `min |d| 245` bytes of
`d` with `','` stored as `\001`, a backslash stored as NUL and every other
byte unchanged, and one NUL. -/
theorem icb_send_raw_bytes (s : Session) (fd : Fd) (d : List Nat) :
    icb_send_raw s fd d
      = .ok (sync_write s fd
          ((min (cstr d).length 245 + 1) ::
            (((cstr d).take (min (cstr d).length 245)).map
                (fun b => if b = 44 then 1 else if b = 92 then 0 else b) ++ [0]))) := by
  have hmax : MAX_MSG_SIZE = 246 := rfl
  have hcopy := icb_raw_copy_eq d cmd_start
  have htake : (cstr d).take (min (cstr d).length 245) = (cstr d).take 245 := by
    rcases Nat.le_total (cstr d).length 245 with h | h
    · rw [Nat.min_eq_left h, List.take_length, List.take_of_length_le h]
    · rw [Nat.min_eq_right h]
  have hlen : ((cstr d).take 245).length = min (cstr d).length 245 := by
    rw [List.length_take, Nat.min_comm]
  have hcs : MAX_MSG_SIZE - cmd_start.length = 245 := rfl
  rw [hcs] at hcopy
  simp only [icb_send_raw, icb_raw_cmd, bind, Except.bind, pure, Except.pure]
  rw [hcopy, put_ok 0 (by
    simp only [cmd_start, List.length_append, List.length_cons, List.length_nil,
      List.length_map, hlen]; omega)]
  simp only
  have hu : usub (cmd_start ++ ((cstr d).take 245).map
      (fun b => if b = 44 then 1 else if b = 92 then 0 else b) ++ [0]).length 1 % 256
        = min (cstr d).length 245 + 1 := by
    simp only [cmd_start, List.length_append, List.length_cons, List.length_nil,
      List.length_map, hlen]
    unfold usub
    omega
  unfold icb_finish
  rw [hu, htake]
  simp [cmd_start]

/-! ## The per-client initialisation -/

/-- What the per-client initialisation resets and what it leaves: the four
strings of irc.c, `icb_logged_in`, `terminate_client`, everything of icb.c and
the buffer of `icb_recv` are cleared; `in_irc_channel` and the buffer of
`irc_recv` are as the previous client left them. -/
theorem handle_client_init_state (addr : List Nat) (w : World) :
    (handle_client_init addr w).session.irc_pass = [] ∧
    (handle_client_init addr w).session.irc_ident = [] ∧
    (handle_client_init addr w).session.irc_nick = [] ∧
    (handle_client_init addr w).session.irc_channel = [] ∧
    (handle_client_init addr w).session.icb_logged_in = false ∧
    (handle_client_init addr w).session.terminate_client = false ∧
    (handle_client_init addr w).session.icb_protolevel = [] ∧
    (handle_client_init addr w).session.icb_hostid = [] ∧
    (handle_client_init addr w).session.icb_serverid = [] ∧
    (handle_client_init addr w).session.icb_moderator = [] ∧
    (handle_client_init addr w).session.imode = imode_none ∧
    (handle_client_init addr w).session.icurgroup = [] ∧
    (handle_client_init addr w).session.igroup = [] ∧
    (handle_client_init addr w).session.inick = [] ∧
    (handle_client_init addr w).session.ihostmask = [] ∧
    (handle_client_init addr w).icb = icb_init_framer ∧
    (handle_client_init addr w).session.in_irc_channel = w.session.in_irc_channel ∧
    (handle_client_init addr w).irc = w.irc := by
  unfold handle_client_init icb_init
  cases w with
  | mk s f g =>
    cases s
    refine ⟨rfl, rfl, rfl, rfl, rfl, rfl, rfl, rfl, rfl, rfl, rfl, rfl, rfl, rfl, rfl, rfl,
      rfl, rfl⟩

/-- C21 (the code at a failing input). A client that was in a channel and
had sent `NICK al` without a newline leaves `in_irc_channel` set and seven
bytes in the buffer of `irc_recv`; after the initialisation for the next
client both are still there, and the first line of the new client,
`USER bob`, reaches `irc_cmd` as `NICK alUSER bob`. -/
theorem handle_client_init_keeps_leftovers :
    (handle_client_init (lit "127.0.0.1:7326")
        ⟨session_zero.set_in_irc_channel true, icb_init_framer, ⟨lit "NICK al"⟩⟩
      ).session.in_irc_channel = true ∧
    (handle_client_init (lit "127.0.0.1:7326")
        ⟨session_zero.set_in_irc_channel true, icb_init_framer, ⟨lit "NICK al"⟩⟩
      ).irc.cmd = lit "NICK al" ∧
    irc_recv record
        (handle_client_init (lit "127.0.0.1:7326")
          ⟨session_zero.set_in_irc_channel true, icb_init_framer, ⟨lit "NICK al"⟩⟩).irc
        [] (lit "USER bob\n")
      = .ok (⟨[]⟩, [lit "NICK alUSER bob"]) :=
  ⟨rfl, rfl, rfl⟩

/-! ## The `Pass` status and the moderator -/

/-- C27 (the code at the failing input). On the status `Pass`,
`bob is now mod.` the line `:<hostid> MODE <channel> +o bob` is written, but
`icb_moderator` receives the bytes of the local `new_mod`, which that branch
never writes: with two different contents of that buffer the moderator ends
up different, and in neither case is it `bob`.  The sibling branch
`bob has passed moderation to alice` does store `alice`. -/
theorem pass_is_now_mod_moderator :
    Except.map (fun s => (s.client_out, s.icb_moderator))
        (icb_cmd ⟨0, lit "xyz"⟩ Fd.client Fd.server
          ((session_zero.set_icb_hostid (lit "h")).set_irc_channel (lit "#devs"))
          (100 :: (lit "Pass" ++ [1] ++ lit "bob is now mod.")))
      = .ok ([lit ":h MODE #devs +o bob\r\n"], lit "xyz") ∧
    Except.map (fun s => (s.client_out, s.icb_moderator))
        (icb_cmd ⟨0, []⟩ Fd.client Fd.server
          ((session_zero.set_icb_hostid (lit "h")).set_irc_channel (lit "#devs"))
          (100 :: (lit "Pass" ++ [1] ++ lit "bob is now mod.")))
      = .ok ([lit ":h MODE #devs +o bob\r\n"], []) ∧
    Except.map (fun s => (s.client_out, s.icb_moderator))
        (icb_cmd ⟨0, lit "xyz"⟩ Fd.client Fd.server
          ((session_zero.set_icb_hostid (lit "h")).set_irc_channel (lit "#devs"))
          (100 :: (lit "Pass" ++ [1] ++ lit "bob has passed moderation to alice")))
      = .ok ([lit ":bob MODE #devs -o+o bob alice\r\n"], lit "alice") :=
  ⟨rfl, rfl, rfl⟩

/-! ## WHO rows -/

theorem strstr_isSome_iff (needle : List Nat) :
    ∀ hay : List Nat, (strstr hay needle).isSome = true ↔ needle <:+: hay := by
  intro hay
  induction hay with
  | nil =>
    unfold strstr
    by_cases hn : needle = []
    · rw [if_pos hn, hn]; simp
    · rw [if_neg hn]
      simp [List.infix_nil, hn]
  | cons b rest ih =>
    unfold strstr
    by_cases hp : needle.isPrefixOf (b :: rest) = true
    · rw [if_pos hp]
      simp only [Option.isSome_some, true_iff]
      exact (List.isPrefixOf_iff_prefix.mp hp).isInfix
    · rw [if_neg hp, ih, List.infix_cons_iff]
      constructor
      · exact fun h => Or.inr h
      · rintro (h | h)
        · exact absurd (List.isPrefixOf_iff_prefix.mpr h) hp
        · exact h

/-- C26. With a WHO enquiry outstanding, `icb_iwl` on a row
(nick, ident, host) writes the 352 line if and only if either `ihostmask`
begins with `'#'` and `icurgroup` equals it, or `ihostmask` does not begin with
`'#'` and is a substring of `nick!ident@host`; without a match it writes
nothing.  (Afterwards `icb_moderator` is updated as for every row.) -/
theorem icb_iwl_who_match (s : Session) (fd : Fd) (flags nick : List Nat) (idle signon : Int)
    (ident host : List Nat) (hmode : s.imode = imode_who)
    (hrow : nick.length + ident.length + host.length ≤ 1021)
    (hh : s.icb_hostid.length ≤ 255) (hn : s.irc_nick.length ≤ 255)
    (hg : s.icurgroup.length ≤ 255) :
    ∃ s1 : Session,
      (((s.ihostmask.head? = some 35 ∧ s.icurgroup = s.ihostmask) ∨
          (s.ihostmask.head? ≠ some 35 ∧
            s.ihostmask <:+: nick ++ lit "!" ++ ident ++ lit "@" ++ host)) →
        s1 = sync_write s fd
          (lit ":" ++ s.icb_hostid ++ lit " 352 " ++ s.irc_nick ++ lit " " ++ s.icurgroup
            ++ lit " " ++ nick ++ lit " " ++ host ++ lit " " ++ s.icb_hostid ++ lit " " ++ nick
            ++ lit " H :5 " ++ ident ++ lit "\r\n")) ∧
      (¬ ((s.ihostmask.head? = some 35 ∧ s.icurgroup = s.ihostmask) ∨
          (s.ihostmask.head? ≠ some 35 ∧
            s.ihostmask <:+: nick ++ lit "!" ++ ident ++ lit "@" ++ host)) → s1 = s) ∧
      icb_iwl s fd flags nick idle signon ident host
        = if 109 ∈ flags ∧ s.icurgroup = s.irc_channel then
            s1.set_icb_moderator (strlcpy nick 256)
          else s1 := by
  have c1 : (lit ":").length = 1 := rfl
  have c2 : (lit " 352 ").length = 5 := rfl
  have c3 : (lit " ").length = 1 := rfl
  have c4 : (lit " H :5 ").length = 6 := rfl
  have c5 : (lit "\r\n").length = 2 := rfl
  have c6 : (lit "!").length = 1 := rfl
  have c7 : (lit "@").length = 1 := rfl
  have hline := snprintf_fits 8192
    (lit ":" ++ s.icb_hostid ++ lit " 352 " ++ s.irc_nick ++ lit " " ++ s.icurgroup
      ++ lit " " ++ nick ++ lit " " ++ host ++ lit " " ++ s.icb_hostid ++ lit " " ++ nick
      ++ lit " H :5 " ++ ident ++ lit "\r\n")
    (by simp only [List.length_append, c1, c2, c3, c4, c5]; omega)
  have hmask := snprintf_fits 1024 (nick ++ lit "!" ++ ident ++ lit "@" ++ host)
    (by simp only [List.length_append, c6, c7]; omega)
  have hw : ¬ (s.imode = imode_whois ∧ nick = s.inick) := by
    rw [hmode]; exact fun h => absurd h.1 (by decide)
  have hnm : ¬ (s.imode = imode_names ∧ s.icurgroup = s.igroup) := by
    rw [hmode]; exact fun h => absurd h.1 (by decide)
  have hM : (if s.ihostmask.head? = some 35 then decide (s.icurgroup = s.ihostmask)
        else (strstr (nick ++ lit "!" ++ ident ++ lit "@" ++ host) s.ihostmask).isSome) = true ↔
      ((s.ihostmask.head? = some 35 ∧ s.icurgroup = s.ihostmask) ∨
        (s.ihostmask.head? ≠ some 35 ∧
          s.ihostmask <:+: nick ++ lit "!" ++ ident ++ lit "@" ++ host)) := by
    by_cases hhash : s.ihostmask.head? = some 35
    · rw [if_pos hhash, decide_eq_true_eq]
      constructor
      · exact fun h => Or.inl ⟨hhash, h⟩
      · rintro (h | h)
        · exact h.2
        · exact absurd hhash h.1
    · rw [if_neg hhash, strstr_isSome_iff]
      constructor
      · exact fun h => Or.inr ⟨hhash, h⟩
      · rintro (h | h)
        · exact absurd h.1 hhash
        · exact h.2
  refine ⟨if (if s.ihostmask.head? = some 35 then decide (s.icurgroup = s.ihostmask)
        else (strstr (nick ++ lit "!" ++ ident ++ lit "@" ++ host) s.ihostmask).isSome) = true
      then sync_write s fd
        (lit ":" ++ s.icb_hostid ++ lit " 352 " ++ s.irc_nick ++ lit " " ++ s.icurgroup
          ++ lit " " ++ nick ++ lit " " ++ host ++ lit " " ++ s.icb_hostid ++ lit " " ++ nick
          ++ lit " H :5 " ++ ident ++ lit "\r\n")
      else s, ?_, ?_, ?_⟩
  · intro h
    rw [if_pos (hM.mpr h)]
  · intro h
    rw [if_neg (fun e => h (hM.mp e))]
  · unfold icb_iwl
    simp only
    rw [if_neg hw, if_neg hnm, if_pos hmode, hline, hmask]
    simp only [decide_eq_true_eq]

/-- Witness for C26: the hostmask `example.org` and the row
(`bob`, `rob`, `example.org`) in group `#devs`. -/
theorem icb_iwl_who_match_witness :
    (((((session_zero.set_icb_hostid (lit "h")).set_irc_nick (lit "alice")).set_imode
        imode_who).set_icurgroup (lit "#devs")).set_ihostmask (lit "example.org")).imode
      = imode_who ∧
    lit "example.org" <:+: lit "bob" ++ lit "!" ++ lit "rob" ++ lit "@" ++ lit "example.org" ∧
    icb_iwl
        (((((session_zero.set_icb_hostid (lit "h")).set_irc_nick (lit "alice")).set_imode
          imode_who).set_icurgroup (lit "#devs")).set_ihostmask (lit "example.org"))
        Fd.client [] (lit "bob") 0 0 (lit "rob") (lit "example.org")
      = sync_write
          (((((session_zero.set_icb_hostid (lit "h")).set_irc_nick (lit "alice")).set_imode
            imode_who).set_icurgroup (lit "#devs")).set_ihostmask (lit "example.org"))
          Fd.client (lit ":h 352 alice #devs bob example.org h bob H :5 rob\r\n") := by
  have hin : lit "example.org" <:+:
      lit "bob" ++ lit "!" ++ lit "rob" ++ lit "@" ++ lit "example.org" :=
    ⟨lit "bob!rob@", [], rfl⟩
  obtain ⟨s1, h1, _, h3⟩ := icb_iwl_who_match
    (((((session_zero.set_icb_hostid (lit "h")).set_irc_nick (lit "alice")).set_imode
      imode_who).set_icurgroup (lit "#devs")).set_ihostmask (lit "example.org"))
    Fd.client [] (lit "bob") 0 0 (lit "rob") (lit "example.org") rfl (by decide) (by decide)
    (by decide) (by decide)
  refine ⟨rfl, hin, ?_⟩
  rw [h3, if_neg (fun h => absurd h.1 (by decide)), h1 (Or.inr ⟨by decide, hin⟩)]
  rfl

/-! ## The tokeniser of `irc_cmd` -/

theorem split_space_no_space : ∀ p : List Nat, 32 ∉ p → split_space p = none := by
  intro p
  induction p with
  | nil => intro _; rfl
  | cons b rest ih =>
    intro h
    have hb : b ≠ 32 := fun e => h (by rw [e]; exact List.mem_cons_self _ _)
    unfold split_space
    rw [if_neg hb, ih (fun hm => h (List.mem_cons_of_mem _ hm))]

theorem split_space_at : ∀ (tok rest : List Nat), 32 ∉ tok →
    split_space (tok ++ 32 :: rest) = some (tok, rest) := by
  intro tok
  induction tok with
  | nil => intro rest _; simp [split_space]
  | cons b tl ih =>
    intro rest h
    have hb : b ≠ 32 := fun e => h (by rw [e]; exact List.mem_cons_self _ _)
    rw [List.cons_append]
    unfold split_space
    rw [if_neg hb, ih rest (fun hm => h (List.mem_cons_of_mem _ hm))]

theorem dropWhile_spaces (k : Nat) (rest : List Nat) (h : rest.head? ≠ some 32) :
    (List.replicate k 32 ++ rest).dropWhile (fun b => decide (b = 32)) = rest := by
  induction k with
  | zero =>
    rw [List.replicate_zero, List.nil_append]
    cases rest with
    | nil => rfl
    | cons c tl =>
      have hc : c ≠ 32 := fun e => h (by rw [e]; rfl)
      rw [List.dropWhile_cons_of_neg (by simpa using hc)]
  | succ k ih =>
    rw [List.replicate_succ, List.cons_append, List.dropWhile_cons_of_pos (by simp)]
    exact ih

theorem tokenise_length : ∀ (n : Nat) (p : List Nat),
    1 ≤ (tokenise n p).length ∧ (tokenise n p).length ≤ n + 1 := by
  intro n
  induction n with
  | zero => intro p; simp [tokenise]
  | succ n ih =>
    intro p
    unfold tokenise
    cases hs : split_space p with
    | none => simp
    | some r =>
      obtain ⟨tok, rest⟩ := r
      simp only
      cases hd : rest.dropWhile (fun b => decide (b = 32)) with
      | nil =>
        have := ih []
        simp only [List.length_cons]
        omega
      | cons c tl =>
        simp only
        by_cases hc : c = 58
        · rw [if_pos hc]; simp
        · rw [if_neg hc]
          have := ih (c :: tl)
          simp only [List.length_cons]
          omega

/-- C23 (the code at a failing input). The line `MODE  #devs`, with two
spaces, is cut into the two entries `MODE` and `#devs`: the second space does
not start an entry of its own. -/
theorem tokenise_double_space :
    tokenise 9 (lit "MODE  #devs") = [lit "MODE", lit "#devs"] ∧
    (tokenise 9 (lit "MODE  #devs")).length = 2 ∧
    tokenise 9 (lit "MODE  #devs") ≠ [lit "MODE", [], lit "#devs"] :=
  ⟨rfl, rfl, by decide⟩

/-- C23 (amended). The tokeniser of `irc_cmd` fills between 1 and 10 entries.
A line without a space is one entry.  Otherwise the first entry ends at the
first space, the whole run of spaces that starts there is skipped, and: if
what follows begins with `':'`, the rest of the line without that `':'` is the
last entry; if not, tokenising goes on from there.  Once ten entries exist
(no slot left) the rest of the line is the tenth entry, whatever it holds. -/
theorem tokenise_spec :
    (∀ p, 1 ≤ (tokenise 9 p).length ∧ (tokenise 9 p).length ≤ 10) ∧
    (∀ n p, 32 ∉ p → tokenise n p = [p]) ∧
    (∀ n tok k rest, 32 ∉ tok → rest.head? ≠ some 32 → rest.head? ≠ some 58 →
      tokenise (n + 1) (tok ++ List.replicate (k + 1) 32 ++ rest) = tok :: tokenise n rest) ∧
    (∀ n tok k rest, 32 ∉ tok →
      tokenise (n + 1) (tok ++ List.replicate (k + 1) 32 ++ 58 :: rest) = [tok, rest]) ∧
    (∀ p, tokenise 0 p = [p]) ∧
    tokenise 9 (lit "USER alice 0 * :Alice Liddell")
      = [lit "USER", lit "alice", lit "0", lit "*", lit "Alice Liddell"] ∧
    tokenise 9 (lit "a b c d e f g h i j k l")
      = [lit "a", lit "b", lit "c", lit "d", lit "e", lit "f", lit "g", lit "h", lit "i",
          lit "j k l"] := by
  refine ⟨fun p => tokenise_length 9 p, ?_, ?_, ?_, fun p => rfl, rfl, rfl⟩
  · intro n p h
    cases n with
    | zero => rfl
    | succ n =>
      unfold tokenise
      rw [split_space_no_space p h]
  · intro n tok k rest ht h32 h58
    have hsplit : split_space (tok ++ List.replicate (k + 1) 32 ++ rest)
        = some (tok, List.replicate k 32 ++ rest) := by
      rw [List.replicate_succ, List.append_assoc, List.cons_append]
      exact split_space_at tok _ ht
    conv_lhs => unfold tokenise
    rw [hsplit]
    simp only
    rw [dropWhile_spaces k rest h32]
    cases rest with
    | nil => rfl
    | cons c tl =>
      have hc : c ≠ 58 := fun e => h58 (by rw [e]; rfl)
      simp only [hc, if_false]
  · intro n tok k rest ht
    have hsplit : split_space (tok ++ List.replicate (k + 1) 32 ++ 58 :: rest)
        = some (tok, List.replicate k 32 ++ 58 :: rest) := by
      rw [List.replicate_succ, List.append_assoc, List.cons_append]
      exact split_space_at tok _ ht
    conv_lhs => unfold tokenise
    rw [hsplit]
    simp only
    rw [dropWhile_spaces k (58 :: rest) (by simp)]
    simp

/-! ## Overlong lines -/

theorem irc_lines_delivered (lines : List (List Nat)) (chunks : List (List Nat))
    (hl : ∀ l ∈ lines, 10 ∉ l)
    (hcat : chunks.flatten = (lines.map (· ++ [10])).flatten) :
    irc_recv_chunks record ⟨[]⟩ [] chunks
      = .ok (⟨[]⟩, lines.map (fun l => irc_line (l.take 65534))) := by
  have h65 : irc_sizeof_cmd - 1 = 65534 := rfl
  rw [irc_recv_chunks_steps record chunks ⟨[]⟩ [] (by simp), hcat,
    irc_steps_lines record lines [] hl, h65,
    foldl_record (fun l => irc_line (l.take 65534)) lines [], List.nil_append]

theorem irc_line_snoc_cr (a : List Nat) (h0 : 0 ∉ a) : irc_line (a ++ [13]) = a := by
  unfold irc_line
  rw [if_pos (by simp), List.dropLast_concat, cstr_of_no_nul a h0]

theorem replicate_x_no_nul (n : Nat) : 0 ∉ List.replicate n 120 := fun h => by
  have := (List.mem_replicate.mp h).2
  omega

theorem replicate_x_no_newline (n : Nat) : 10 ∉ List.replicate n 120 := fun h => by
  have := (List.mem_replicate.mp h).2
  omega

/-- C24 (the code at a failing input). A line of 65535 bytes whose 65534th
byte is `'\r'` (65533 bytes `'x'`, then `'\r'`, then `'y'`) is delivered as
the 65533 bytes `'x'` only: the `'\r'` at the end of the truncated buffer is
taken for the one of a line end. -/
theorem irc_recv_overlong_cr :
    65534 < (List.replicate 65533 120 ++ [13, 121]).length ∧
    irc_recv_chunks record ⟨[]⟩ [] [List.replicate 65533 120 ++ [13, 121] ++ [10]]
      = .ok (⟨[]⟩, [List.replicate 65533 120]) ∧
    (List.replicate 65533 120).length = 65533 := by
  have hlen : (List.replicate 65533 120).length = 65533 := List.length_replicate _ _
  have hnl : 10 ∉ List.replicate 65533 120 ++ [13, 121] := by
    intro h
    rcases List.mem_append.mp h with h | h
    · exact replicate_x_no_newline _ h
    · revert h; decide
  have htake : (List.replicate 65533 120 ++ [13, 121]).take 65534
      = List.replicate 65533 120 ++ [13] := by
    rw [List.take_append_eq_append_take, hlen, List.take_of_length_le (by rw [hlen]; decide)]
    rfl
  refine ⟨by rw [List.length_append, hlen]; decide, ?_, hlen⟩
  rw [irc_lines_delivered [List.replicate 65533 120 ++ [13, 121]] _
    (by
      intro l hl
      rw [List.mem_singleton.mp hl]
      exact hnl)
    (by simp only [List.flatten_cons, List.flatten_nil, List.map_cons, List.map_nil,
      List.append_nil])]
  simp only [List.map_cons, List.map_nil]
  rw [htake, irc_line_snoc_cr _ (replicate_x_no_nul _)]

/-- C24 (amended). For a line `l` of more than 65534 bytes whose first 65534
bytes hold no NUL, followed by a line `next`, whatever the chunking:
`irc_recv` hands over the first 65534 bytes of `l`, less the last of them if
that is `'\r'`; the rest of `l` and its `'\n'` are consumed; and `next` is then
framed as it is from an empty buffer, the buffer being empty again at the
end. -/
theorem irc_recv_overlong (l next : List Nat) (chunks : List (List Nat))
    (hlong : 65534 < l.length) (hl : 10 ∉ l) (hn : 10 ∉ next) (h0 : 0 ∉ l.take 65534)
    (hcat : chunks.flatten = l ++ [10] ++ (next ++ [10])) :
    irc_recv_chunks record ⟨[]⟩ [] chunks
        = .ok (⟨[]⟩, [without_trailing_cr (l.take 65534), irc_line (next.take 65534)]) ∧
      ((l.take 65534).getLast? ≠ some 13 →
        without_trailing_cr (l.take 65534) = l.take 65534) ∧
      (without_trailing_cr (l.take 65534)).length ≤ 65534 ∧
      irc_recv_chunks record ⟨[]⟩ [] [next ++ [10]]
        = .ok (⟨[]⟩, [irc_line (next.take 65534)]) := by
  refine ⟨?_, ?_, ?_, ?_⟩
  · rw [irc_lines_delivered [l, next] chunks
      (by
        intro x hx
        simp only [List.mem_cons, List.mem_singleton, List.not_mem_nil, or_false] at hx
        rcases hx with rfl | rfl
        · exact hl
        · exact hn)
      (by rw [hcat]; simp)]
    simp only [List.map_cons, List.map_nil]
    rw [irc_line_of_no_nul _ h0]
  · intro h
    unfold without_trailing_cr
    rw [if_neg h]
  · unfold without_trailing_cr
    split
    · rw [List.length_dropLast, List.length_take]; omega
    · rw [List.length_take]; omega
  · rw [irc_lines_delivered [next] _
      (by
        intro x hx
        rw [List.mem_singleton.mp hx]
        exact hn)
      (by simp)]
    rfl

/-- Witness for C24 (amended): a line of 65535 bytes `'x'` followed by the
line `NICK bob`. -/
theorem irc_recv_overlong_witness :
    65534 < (List.replicate 65535 120).length ∧
    irc_recv_chunks record ⟨[]⟩ []
        [List.replicate 65535 120 ++ [10], lit "NICK bob\r" ++ [10]]
      = .ok (⟨[]⟩, [without_trailing_cr ((List.replicate 65535 120).take 65534),
          irc_line ((lit "NICK bob\r").take 65534)]) ∧
    irc_line ((lit "NICK bob\r").take 65534) = lit "NICK bob" := by
  have hlen : 65534 < (List.replicate 65535 120).length := by
    rw [List.length_replicate]; decide
  refine ⟨hlen, ?_, rfl⟩
  exact (irc_recv_overlong (List.replicate 65535 120) (lit "NICK bob\r")
    [List.replicate 65535 120 ++ [10], lit "NICK bob\r" ++ [10]] hlen
    (replicate_x_no_newline _) (by decide)
    (fun h => replicate_x_no_nul _ (List.mem_of_mem_take h))
    (by simp only [List.flatten_cons, List.flatten_nil, List.append_nil])).1

/-! ## C28: the buffers written to the client are whole IRC lines -/

/-! ## Every buffer written to the client is one line -/

theorem nl_append {a b : List Nat} (ha : 10 ∉ a) (hb : 10 ∉ b) : 10 ∉ a ++ b :=
  fun h => (List.mem_append.mp h).elim ha hb

theorem len_append_le {a b : List Nat} {m n : Nat} (ha : a.length ≤ m) (hb : b.length ≤ n) :
    (a ++ b).length ≤ m + n := by
  rw [List.length_append]; omega

theorem one_line_append (pre last : List Nat) (hpre : 10 ∉ pre) (hlast : one_line last) :
    one_line (pre ++ last) := by
  obtain ⟨h1, h2, h3⟩ := hlast
  have hne : last ≠ [] := fun e => by rw [e] at h1; cases h1
  have hl : last = last.dropLast ++ [10] := by
    have := (List.dropLast_append_getLast hne).symm
    rw [List.getLast?_eq_getLast _ hne] at h1
    rw [Option.some.inj h1] at this
    exact this
  have hd : (pre ++ last).dropLast = pre ++ last.dropLast := by
    rw [hl, ← List.append_assoc, List.dropLast_concat, List.dropLast_concat]
  have hdne : last.dropLast ≠ [] := fun e => by rw [e] at h2; cases h2
  refine ⟨?_, ?_, ?_⟩
  · rw [List.getLast?_append_of_ne_nil _ hne]; exact h1
  · rw [hd, List.getLast?_append_of_ne_nil _ hdne]; exact h2
  · rw [hd]; exact nl_append hpre h3

theorem writes_lines_refl (s : Session) : writes_lines s s :=
  ⟨[], (List.append_nil _).symm, by simp⟩

theorem writes_lines_trans {a b c : Session} (h1 : writes_lines a b) (h2 : writes_lines b c) :
    writes_lines a c := by
  obtain ⟨n1, e1, g1⟩ := h1
  obtain ⟨n2, e2, g2⟩ := h2
  refine ⟨n1 ++ n2, by rw [e2, e1, List.append_assoc], ?_⟩
  intro b hb
  rcases List.mem_append.mp hb with h | h
  · exact g1 b h
  · exact g2 b h

theorem writes_lines_of_eq {s s' : Session} (h : s'.client_out = s.client_out) :
    writes_lines s s' :=
  ⟨[], by rw [h, List.append_nil], by simp⟩

theorem sync_write_server_lines (s : Session) (b : List Nat) :
    writes_lines s (sync_write s Fd.server b) := writes_lines_of_eq rfl

/-- One formatted line, written with `snprintf(s, 8192, ...)` and
`sync_write`: a text without `'\n'`, then a literal that ends the line. -/
theorem sync_write_one_line (s : Session) (pre last : List Nat) (hpre : 10 ∉ pre)
    (hlast : one_line last) (hlen : (pre ++ last).length ≤ 8191) :
    writes_lines s (sync_write s Fd.client (snprintf 8192 (pre ++ last))) := by
  rw [snprintf_fits 8192 _ hlen]
  refine ⟨[pre ++ last], rfl, ?_⟩
  intro b hb
  rw [List.mem_singleton.mp hb]
  exact one_line_append pre last hpre hlast

theorem snprintf_no_nl (n : Nat) (t : List Nat) (h : 10 ∉ t) : 10 ∉ snprintf n t :=
  fun hm => h (List.mem_of_mem_take hm)

theorem snprintf_length_le (n : Nat) (t : List Nat) : (snprintf n t).length ≤ n - 1 :=
  List.length_take_le _ _

theorem irc_send_notice_lines (s : Session) (msg : List Nat) (h : 10 ∉ msg) :
    writes_lines s (irc_send_notice s Fd.client msg) := by
  unfold irc_send_notice
  have hlen := snprintf_length_le 8192 msg
  have hnl := snprintf_no_nl 8192 msg h
  have h1 : (lit "NOTICE ").length = 7 := rfl
  have h2 : (lit "\r\n").length = 2 := rfl
  rw [snprintf_fits 16384 _ (by simp only [List.length_append, h1, h2]; omega)]
  refine ⟨[_], rfl, ?_⟩
  intro b hb
  rw [List.mem_singleton.mp hb]
  exact one_line_append _ _ (nl_append (by decide) hnl) (by decide)

theorem irc_send_code_lines (s : Session) (src nick code msg : List Nat) (h1 : str_ok src)
    (h2 : str_ok nick) (h3 : str_ok code) (h4 : 10 ∉ msg) :
    writes_lines s (irc_send_code s Fd.client src nick code msg) := by
  unfold irc_send_code
  have hlen := snprintf_length_le 8192 msg
  have hnl := snprintf_no_nl 8192 msg h4
  have c1 : (lit ":").length = 1 := rfl
  have c2 : (lit " ").length = 1 := rfl
  have c3 : (lit " :").length = 2 := rfl
  have c4 : (lit "\r\n").length = 2 := rfl
  have l1 := h1.2
  have l2 := h2.2
  have l3 := h3.2
  rw [snprintf_fits 16384 _ (by simp only [List.length_append, c1, c2, c3, c4]; omega)]
  refine ⟨[_], rfl, ?_⟩
  intro b hb
  rw [List.mem_singleton.mp hb]
  refine one_line_append _ _ ?_ (by decide)
  repeat' apply nl_append
  all_goals first | exact h1.1 | exact h2.1 | exact h3.1 | exact hnl | decide

theorem irc_send_msg_lines (s : Session) (src dst msg : List Nat) (h1 : str_ok src)
    (h2 : str_ok dst) (h3 : str_ok msg) :
    writes_lines s (irc_send_msg s Fd.client src dst msg) := by
  unfold irc_send_msg
  refine sync_write_one_line s _ _ ?_ (by decide) ?_
  · repeat' apply nl_append
    all_goals first | exact h1.1 | exact h2.1 | exact h3.1 | decide
  · refine le_trans (by
      repeat' apply len_append_le
      all_goals first | exact h1.2 | exact h2.2 | exact h3.2 | exact le_refl _) (by decide)

theorem irc_send_join_lines (s : Session) (src dst : List Nat) (h1 : 10 ∉ src)
    (h1' : src.length ≤ 1024) (h2 : str_ok dst) :
    writes_lines s (irc_send_join s Fd.client src dst) := by
  unfold irc_send_join
  refine writes_lines_trans (sync_write_one_line s _ _ ?_ (by decide) ?_)
    (writes_lines_of_eq rfl)
  · repeat' apply nl_append
    all_goals first | exact h1 | exact h2.1 | decide
  · refine le_trans (by
      repeat' apply len_append_le
      all_goals first | exact h1' | exact h2.2 | exact le_refl _) (by decide)

theorem irc_send_part_lines (s : Session) (src dst : List Nat) (h1 : 10 ∉ src)
    (h1' : src.length ≤ 1024) (h2 : str_ok dst) :
    writes_lines s (irc_send_part s Fd.client src dst) := by
  unfold irc_send_part
  refine sync_write_one_line s _ _ ?_ (by decide) ?_
  · repeat' apply nl_append
    all_goals first | exact h1 | exact h2.1 | decide
  · refine le_trans (by
      repeat' apply len_append_le
      all_goals first | exact h1' | exact h2.2 | exact le_refl _) (by decide)

theorem cstr_subset : ∀ (l : List Nat) (x : Nat), x ∈ cstr l → x ∈ l := by
  intro l
  induction l with
  | nil => intro x h; exact h
  | cons b rest ih =>
    intro x h
    unfold cstr at h
    by_cases hb : b = 0
    · rw [if_pos hb] at h; cases h
    · rw [if_neg hb] at h
      rcases List.mem_cons.mp h with e | e
      · rw [e]; exact List.mem_cons_self _ _
      · exact List.mem_cons_of_mem _ (ih x e)

theorem cstr_append_nul_any : ∀ (t y : List Nat), cstr (t ++ 0 :: y) = cstr t := by
  intro t
  induction t with
  | nil => intro y; simp [cstr]
  | cons b rest ih =>
    intro y
    show cstr (b :: (rest ++ 0 :: y)) = cstr (b :: rest)
    unfold cstr
    rw [ih y]

/-- The strings left by `icb_args` hold no `'\n'`. -/
theorem icb_args_string_no_nl {data : List Nat} {i : Nat} {fields : List (List Nat)}
    (hlen : data.length ≤ 254) (h : icb_args data = .ok (i, fields)) (j : Nat) :
    10 ∉ cstr (fields.getD j []) := by
  obtain ⟨d', c', hrun, _, _, hcl⟩ := icb_args_loop_spec data [] [] (by simpa using hlen)
    (by simp)
  obtain ⟨done, cur, hrun', _, heq⟩ := icb_args_shape data hlen
  rw [hrun] at hrun'
  simp only [Except.ok.injEq, Prod.mk.injEq] at hrun'
  obtain ⟨rfl, rfl⟩ := hrun'
  rw [h] at heq
  simp only [Except.ok.injEq, Prod.mk.injEq] at heq
  have hall : ∀ f ∈ fields, 10 ∉ f := by
    intro f hf
    rw [heq.2] at hf
    split at hf
    · rcases List.mem_append.mp hf with hf | hf
      · exact (hcl f (List.mem_append_left _ hf)).2.2
      · rw [List.eq_of_mem_replicate hf]; simp
    · rcases List.mem_append.mp hf with hf | hf
      · exact (hcl f hf).2.2
      · rw [List.eq_of_mem_replicate hf]; simp
  intro hm
  have hx := cstr_subset _ _ hm
  by_cases hj : j < fields.length
  · rw [List.getD_eq_getElem _ _ hj] at hx
    exact hall _ (List.getElem_mem _) hx
  · rw [List.getD_eq_default _ _ (by omega)] at hx
    cases hx

theorem icb_args_str_ok {data : List Nat} {i : Nat} {fields : List (List Nat)}
    (hlen : data.length ≤ 254) (h : icb_args data = .ok (i, fields)) (j : Nat) :
    str_ok (cstr (fields.getD j [])) :=
  ⟨icb_args_string_no_nl hlen h j, le_trans (icb_args_string_length h j) (by decide)⟩

/-! ### `scan` on any source -/

theorem scan_skip_suffix (skip : List Nat) : ∀ s : List Nat, scan_skip skip s <:+ s := by
  intro s
  induction s with
  | nil => exact List.suffix_refl _
  | cons b rest ih =>
    unfold scan_skip
    split
    · exact ih.trans (List.suffix_cons _ _)
    · exact List.suffix_refl _

theorem scan_copy_facts (term : List Nat) :
    ∀ (s : List Nat) (siz : Nat) (d : List Nat),
      (scan_copy term s siz d).1 <:+ s ∧
      ∃ t, (scan_copy term s siz d).2.2 = d ++ t ∧ (∀ x ∈ t, x ∈ s) ∧ t.length ≤ siz - 1 := by
  intro s
  induction s with
  | nil => intro siz d; exact ⟨List.suffix_refl _, [], by simp [scan_copy], by simp, by simp⟩
  | cons b rest ih =>
    intro siz d
    unfold scan_copy
    by_cases hc : b ≠ 0 ∧ b ∉ term
    · rw [if_pos hc]
      by_cases hs : siz > 1
      · rw [if_pos hs]
        obtain ⟨h1, t, h2, h3, h4⟩ := ih (siz - 1) (d ++ [b])
        refine ⟨h1.trans (List.suffix_cons _ _), b :: t, ?_, ?_, ?_⟩
        · rw [h2, List.append_assoc]; rfl
        · intro x hx
          rcases List.mem_cons.mp hx with e | e
          · rw [e]; exact List.mem_cons_self _ _
          · exact List.mem_cons_of_mem _ (h3 x e)
        · simp only [List.length_cons]; omega
      · rw [if_neg hs]
        obtain ⟨h1, t, h2, h3, h4⟩ := ih siz d
        exact ⟨h1.trans (List.suffix_cons _ _), t, h2,
          fun x hx => List.mem_cons_of_mem _ (h3 x hx), h4⟩
    · rw [if_neg hc]
      exact ⟨List.suffix_refl _, [], by simp, by simp, by simp⟩

/-- The token and the cursor of `scan`, for any source: the cursor is a
suffix of the source, the token is made of bytes of the source and has at most
`N - 1` of them. -/
theorem scan_tok_facts (s skip term : List Nat) (N : Nat) :
    (scan_tok s N skip term).1 <:+ s ∧
      (∀ x ∈ (scan_tok s N skip term).2, x ∈ s) ∧
      (scan_tok s N skip term).2.length ≤ N - 1 := by
  obtain ⟨h1, t, h2, h3, h4⟩ := scan_copy_facts term (scan_skip skip s) N []
  have hsk := scan_skip_suffix skip s
  rw [List.nil_append] at h2
  unfold scan_tok scan
  simp only
  rw [h2]
  refine ⟨h1.trans hsk, ?_, ?_⟩
  · intro x hx
    split at hx
    · have hx0 : x ≠ 0 := fun e => cstr_no_nul _ (e ▸ hx)
      have := cstr_subset _ _ hx
      rcases List.mem_append.mp this with hm | hm
      · exact hsk.subset (h3 x hm)
      · exact absurd (List.mem_singleton.mp hm) hx0
    · exact hsk.subset (h3 x (cstr_subset _ _ hx))
  · split
    · rw [cstr_append_nul_any]
      exact le_trans (cstr_length_le _) h4
    · exact le_trans (cstr_length_le _) h4

theorem scan_tok_str_ok (s skip term : List Nat) (N : Nat) (hs : 10 ∉ s) (hN : N ≤ 256) :
    str_ok (scan_tok s N skip term).2 ∧ 10 ∉ (scan_tok s N skip term).1 := by
  obtain ⟨h1, h2, h3⟩ := scan_tok_facts s skip term N
  exact ⟨⟨fun h => hs (h2 _ h), by omega⟩, fun h => hs (h1.subset h)⟩

theorem strstr_suffix (needle : List Nat) :
    ∀ (hay t : List Nat), strstr hay needle = some t → t <:+ hay := by
  intro hay
  induction hay with
  | nil =>
    intro t h
    unfold strstr at h
    split at h
    · cases h; exact List.suffix_refl _
    · cases h
  | cons b rest ih =>
    intro t h
    unfold strstr at h
    split at h
    · cases h; exact List.suffix_refl _
    · exact (ih t h).trans (List.suffix_cons _ _)

/-! ### Numbers in decimal -/

theorem digitChar_ne_nl (d : Nat) (h : d < 10) : (Nat.digitChar d).toNat ≠ 10 := by
  interval_cases d <;> decide

theorem toDigitsCore_no_nl : ∀ (fuel n : Nat) (ds : List Char),
    (∀ c ∈ ds, c.toNat ≠ 10) → ∀ c ∈ Nat.toDigitsCore 10 fuel n ds, c.toNat ≠ 10 := by
  intro fuel
  induction fuel with
  | zero => intro n ds h; simpa [Nat.toDigitsCore] using h
  | succ f ih =>
    intro n ds h
    have hd : ∀ c ∈ Nat.digitChar (n % 10) :: ds, c.toNat ≠ 10 := by
      intro c hc
      rcases List.mem_cons.mp hc with e | e
      · rw [e]; exact digitChar_ne_nl _ (Nat.mod_lt _ (by decide))
      · exact h c e
    unfold Nat.toDigitsCore
    simp only
    split
    · exact hd
    · exact ih _ _ hd

theorem fmt_u_no_nl (n : Nat) : 10 ∉ fmt_u n := by
  unfold fmt_u Nat.toDigits
  intro h
  obtain ⟨c, hc, he⟩ := List.mem_map.mp h
  exact toDigitsCore_no_nl _ _ [] (by simp) c hc he

theorem fmt_d_no_nl (n : Int) : 10 ∉ fmt_d n := by
  unfold fmt_d
  split
  · intro h
    rcases List.mem_cons.mp h with e | e
    · cases e
    · exact fmt_u_no_nl _ e
  · exact fmt_u_no_nl _

theorem fmt_u_length (n : Nat) (h : n < 10 ^ 19) : (fmt_u n).length ≤ 19 := by
  unfold fmt_u Nat.toDigits
  rw [List.length_map]
  exact Nat.toDigitsCore_length 10 (by decide) _ n 19 h (by decide)

theorem atol_digits_nonneg (l : List Nat) (acc : Nat) : (0 : Int) ≤ (atol_digits l acc : Int) :=
  Int.ofNat_nonneg _

theorem atol_bounds (s : List Nat) :
    -9223372036854775808 ≤ atol s ∧ atol s ≤ 9223372036854775807 := by
  unfold atol
  split
  · have := atol_digits_nonneg ‹_› 0
    constructor
    · exact le_max_right _ _
    · exact max_le (by omega) (by decide)
  · have := atol_digits_nonneg ‹_› 0
    constructor
    · exact le_min (by omega) (by decide)
    · exact min_le_right _ _
  · have := atol_digits_nonneg ‹_› 0
    constructor
    · exact le_min (by omega) (by decide)
    · exact min_le_right _ _

theorem fmt_d_atol_length (s : List Nat) : (fmt_d (atol s)).length ≤ 20 := by
  obtain ⟨h1, h2⟩ := atol_bounds s
  unfold fmt_d
  split
  · have := fmt_u_length (atol s).natAbs (by omega)
    simp only [List.length_cons]
    omega
  · have := fmt_u_length (atol s).toNat (by omega)
    omega

theorem lit_str_ok_of (x : List Nat) (h1 : 10 ∉ x) (h2 : x.length ≤ 255) : str_ok x := ⟨h1, h2⟩

theorem icb_send_names_client_out {s s' : Session} {g : List Nat}
    (h : icb_send_names s Fd.server g = .ok s') : s'.client_out = s.client_out := by
  unfold icb_send_names at h
  split at h
  · cases h; rfl
  · unfold icb_send_hw at h
    obtain ⟨cmd, _, h2⟩ := bind_ok _ _ _ h
    cases h2
    rfl

theorem set_irc_pass_lines (s : Session) (v : List Nat) : writes_lines s (s.set_irc_pass v) :=
  writes_lines_of_eq rfl

theorem set_irc_ident_lines (s : Session) (v : List Nat) : writes_lines s (s.set_irc_ident v) :=
  writes_lines_of_eq rfl

theorem set_irc_nick_lines (s : Session) (v : List Nat) : writes_lines s (s.set_irc_nick v) :=
  writes_lines_of_eq rfl

theorem set_irc_channel_lines (s : Session) (v : List Nat) : writes_lines s (s.set_irc_channel v) :=
  writes_lines_of_eq rfl

theorem set_in_irc_channel_lines (s : Session) (v : Bool) : writes_lines s (s.set_in_irc_channel v) :=
  writes_lines_of_eq rfl

theorem set_icb_logged_in_lines (s : Session) (v : Bool) : writes_lines s (s.set_icb_logged_in v) :=
  writes_lines_of_eq rfl

theorem set_terminate_client_lines (s : Session) (v : Bool) : writes_lines s (s.set_terminate_client v) :=
  writes_lines_of_eq rfl

theorem set_icb_protolevel_lines (s : Session) (v : List Nat) : writes_lines s (s.set_icb_protolevel v) :=
  writes_lines_of_eq rfl

theorem set_icb_hostid_lines (s : Session) (v : List Nat) : writes_lines s (s.set_icb_hostid v) :=
  writes_lines_of_eq rfl

theorem set_icb_serverid_lines (s : Session) (v : List Nat) : writes_lines s (s.set_icb_serverid v) :=
  writes_lines_of_eq rfl

theorem set_icb_moderator_lines (s : Session) (v : List Nat) : writes_lines s (s.set_icb_moderator v) :=
  writes_lines_of_eq rfl

theorem set_imode_lines (s : Session) (v : imode_t) : writes_lines s (s.set_imode v) :=
  writes_lines_of_eq rfl

theorem set_icurgroup_lines (s : Session) (v : List Nat) : writes_lines s (s.set_icurgroup v) :=
  writes_lines_of_eq rfl

theorem set_igroup_lines (s : Session) (v : List Nat) : writes_lines s (s.set_igroup v) :=
  writes_lines_of_eq rfl

theorem set_inick_lines (s : Session) (v : List Nat) : writes_lines s (s.set_inick v) :=
  writes_lines_of_eq rfl

theorem set_ihostmask_lines (s : Session) (v : List Nat) : writes_lines s (s.set_ihostmask v) :=
  writes_lines_of_eq rfl

theorem icb_cmd_login_lines (u : Indet) (s : Session) (hs : s.strings_ok) :
    writes_lines s (icb_cmd_login u s Fd.client) := by
  obtain ⟨hnick, hchan, hproto, hhost, hserv, hmod, hcur, hgrp, hmask⟩ := hs
  have n1 := hnick.1
  have n2 := hproto.1
  have n3 := hhost.1
  have n4 := hserv.1
  have n5 := fmt_d_no_nl u.protolevel_d
  have k1 : str_ok (lit "001") := ⟨by decide, by decide⟩
  have k2 : str_ok (lit "002") := ⟨by decide, by decide⟩
  have k3 : str_ok (lit "003") := ⟨by decide, by decide⟩
  have k4 : str_ok (lit "004") := ⟨by decide, by decide⟩
  have k5 : str_ok (lit "375") := ⟨by decide, by decide⟩
  have k6 : str_ok (lit "376") := ⟨by decide, by decide⟩
  have m1 : 10 ∉ lit "Welcome to icbirc " ++ s.irc_nick := nl_append (by decide) n1
  have m2 : 10 ∉ lit "Your host is " ++ s.icb_hostid ++ lit " running " ++ s.icb_serverid
      ++ lit " protocol " ++ s.icb_protolevel :=
    nl_append (nl_append (nl_append (nl_append (nl_append (by decide) n3) (by decide)) n4)
      (by decide)) n2
  have m3 : 10 ∉ lit "This server was created recently" := by decide
  have m4 : 10 ∉ s.icb_serverid ++ lit " " ++ fmt_d u.protolevel_d :=
    nl_append (nl_append n4 (by decide)) n5
  have m5 : 10 ∉ lit "ICB server: " ++ s.icb_serverid := nl_append (by decide) n4
  have m6 : 10 ∉ lit "End of MOTD" := by decide
  unfold icb_cmd_login
  simp only
  refine writes_lines_trans ?_ (set_icb_logged_in_lines _ _)
  refine writes_lines_trans ?_ (irc_send_code_lines _ _ _ _ _ hhost hnick k6 m6)
  refine writes_lines_trans ?_ (irc_send_code_lines _ _ _ _ _ hhost hnick k5 m5)
  refine writes_lines_trans ?_ (irc_send_code_lines _ _ _ _ _ hhost hnick k4 m4)
  refine writes_lines_trans ?_ (irc_send_code_lines _ _ _ _ _ hhost hnick k3 m3)
  refine writes_lines_trans ?_ (irc_send_code_lines _ _ _ _ _ hhost hnick k2 m2)
  exact irc_send_code_lines _ _ _ _ _ hhost hnick k1 m1

theorem icb_cmd_open_lines {s s' : Session} {a0 a1 : List Nat} (hs : s.strings_ok)
    (h0 : str_ok a0) (h1 : str_ok a1)
    (h : icb_cmd_open s Fd.client Fd.server a0 a1 = .ok s') : writes_lines s s' := by
  obtain ⟨hnick, hchan, hproto, hhost, hserv, hmod, hcur, hgrp, hmask⟩ := hs
  unfold icb_cmd_open at h
  by_cases hin : s.in_irc_channel = true
  · simp only [hin, not_true_eq_false, if_false] at h
    cases h
    exact irc_send_msg_lines _ _ _ _ h0 hchan h1
  · simp only [hin, not_false_eq_true, if_true] at h
    cases hn : icb_send_names (irc_send_join s Fd.client s.irc_nick s.irc_channel) Fd.server
        s.irc_channel with
    | error e => rw [hn] at h; cases h
    | ok s1 =>
      rw [hn] at h
      cases h
      exact writes_lines_trans
        (writes_lines_trans
          (irc_send_join_lines s _ _ hnick.1 (le_trans hnick.2 (by decide)) hchan)
          (writes_lines_of_eq (icb_send_names_client_out hn)))
        (irc_send_msg_lines _ _ _ _ h0 hchan h1)

theorem nick_host_ok (x y : List Nat) (hx : str_ok x) (hy : str_ok y) :
    10 ∉ snprintf 8192 (x ++ lit "!" ++ y) ∧ (snprintf 8192 (x ++ lit "!" ++ y)).length ≤ 1024 := by
  have c1 : (lit "!").length = 1 := rfl
  have l1 := hx.2
  have l2 := hy.2
  rw [snprintf_fits 8192 _ (by simp only [List.length_append, c1]; omega)]
  exact ⟨nl_append (nl_append hx.1 (by decide)) hy.1, by
    simp only [List.length_append, c1]; omega⟩

theorem icb_cmd_status_lines {u : Indet} {s s' : Session} {a0 a1 : List Nat}
    (hs : s.strings_ok) (h0 : str_ok a0) (h1 : str_ok a1)
    (h : icb_cmd_status u s Fd.client Fd.server a0 a1 = .ok s') : writes_lines s s' := by
  obtain ⟨⟨n1, l1⟩, ⟨n2, l2⟩, ⟨n3, l3⟩, ⟨n4, l4⟩, ⟨n5, l5⟩, ⟨n6, l6⟩, ⟨n7, l7⟩, ⟨n8, l8⟩,
    ⟨n9, l9⟩⟩ := hs
  have hnick : str_ok s.irc_nick := ⟨n1, l1⟩
  have hchan : str_ok s.irc_channel := ⟨n2, l2⟩
  obtain ⟨na0, la0⟩ := h0
  obtain ⟨na1, la1⟩ := h1
  have hr1 := scan_tok_str_ok a1 (lit " ") (lit " ") 256 na1 (by decide)
  have hr2 := scan_tok_str_ok (scan_tok a1 256 (lit " ") (lit " ")).1 (lit " (") (lit ")") 256
    hr1.2 (by decide)
  have hr3 := scan_tok_str_ok
    (scan_tok (scan_tok a1 256 (lit " ") (lit " ")).1 256 (lit " (") (lit ")")).1 (lit " )") []
    256 hr2.2 (by decide)
  have hd : ∀ k, 10 ∉ (scan_tok a1 256 (lit " ") (lit " ")).1.drop k :=
    fun k hm => hr1.2 (List.mem_of_mem_drop hm)
  have hname := scan_tok_str_ok ((scan_tok a1 256 (lit " ") (lit " ")).1.drop 21) (lit " ")
    (lit " ") 256 (hd 21) (by decide)
  have htopic := scan_tok_str_ok ((scan_tok a1 256 (lit " ") (lit " ")).1.drop 23) []
    (lit "\"") 256 (hd 23) (by decide)
  have hpass := scan_tok_str_ok ((scan_tok a1 256 (lit " ") (lit " ")).1.drop 26) (lit " ")
    (lit " ") 256 (hd 26) (by decide)
  have hgroup := scan_tok_facts (a1.drop 21) (lit " ") (lit " ") 255
  obtain ⟨⟨r1n, r1l⟩, _⟩ := hr1
  obtain ⟨⟨r2n, r2l⟩, _⟩ := hr2
  obtain ⟨⟨r3n, r3l⟩, _⟩ := hr3
  obtain ⟨⟨nmn, nml⟩, _⟩ := hname
  obtain ⟨⟨tpn, tpl⟩, _⟩ := htopic
  obtain ⟨⟨psn, psl⟩, _⟩ := hpass
  have hreason : ∀ x : List Nat, 10 ∉ x → x.length ≤ 255 →
      10 ∉ (if x.getLast? = some 46 then x.dropLast else x) ∧
        (if x.getLast? = some 46 then x.dropLast else x).length ≤ 255 := by
    intro x hx hl
    split
    · exact ⟨fun hm => hx (List.mem_of_mem_dropLast hm), by
        rw [List.length_dropLast]; omega⟩
    · exact ⟨hx, hl⟩
  obtain ⟨rn, rl⟩ := hreason _ r3n r3l
  have hch : str_ok (35 :: (scan_tok (a1.drop 21) 255 (lit " ") (lit " ")).2) := by
    refine ⟨?_, by simp only [List.length_cons]; have := hgroup.2.2; omega⟩
    intro hm
    rcases List.mem_cons.mp hm with e | e
    · cases e
    · exact na1 (List.mem_of_mem_drop (hgroup.2.1 _ e))
  clear hgroup hd hreason
  unfold icb_cmd_status at h
  simp only at h
  generalize scan_tok (a1.drop 21) 255 (lit " ") (lit " ") = g at *
  generalize scan_tok a1 256 (lit " ") (lit " ") = r1 at *
  generalize scan_tok r1.1 256 (lit " (") (lit ")") = r2 at *
  generalize scan_tok r2.1 256 (lit " )") [] = r3 at *
  generalize scan_tok (r1.1.drop 21) 256 (lit " ") (lit " ") = q1 at *
  generalize scan_tok (r1.1.drop 23) 256 [] (lit "\"") = q2 at *
  generalize scan_tok (r1.1.drop 26) 256 (lit " ") (lit " ") = q3 at *
  generalize (if r3.2.getLast? = some 46 then r3.2.dropLast else r3.2) = reason at *
  by_cases c1 : a0 = lit "Status" ∧ starts_with (lit "You are now in group ") a1 = true
  · rw [if_pos c1] at h
    refine writes_lines_trans (writes_lines_trans (writes_lines_trans ?_
      (set_irc_channel_lines _ _))
      (irc_send_join_lines _ _ _ n1 (le_trans l1 (by decide)) hch))
      (writes_lines_of_eq (icb_send_names_client_out h))
    split
    · exact irc_send_part_lines _ _ _ n1 (le_trans l1 (by decide)) hchan
    · exact writes_lines_refl _
  rw [if_neg c1] at h
  by_cases c2 : a0 = lit "Arrive" ∨ a0 = lit "Sign-on"
  · rw [if_pos c2] at h
    cases h
    have := nick_host_ok _ _ ⟨r1n, r1l⟩ ⟨r2n, r2l⟩
    exact irc_send_join_lines _ _ _ this.1 this.2 hchan
  rw [if_neg c2] at h
  by_cases c3 : a0 = lit "Depart"
  · rw [if_pos c3] at h
    cases h
    have := nick_host_ok _ _ ⟨r1n, r1l⟩ ⟨r2n, r2l⟩
    exact irc_send_part_lines _ _ _ this.1 this.2 hchan
  rw [if_neg c3] at h
  by_cases c4 : a0 = lit "Sign-off"
  · rw [if_pos c4] at h
    cases h
    refine sync_write_one_line _ _ _ ?_ (by decide) ?_
    · repeat' apply nl_append
      all_goals first | assumption | decide
    · refine le_trans (by
        repeat' apply len_append_le
        all_goals first | assumption | exact le_refl _) (by decide)
  rw [if_neg c4] at h
  have line : ∀ (w : Session) (pre last : List Nat), 10 ∉ pre → one_line last →
      (pre ++ last).length ≤ 8191 → writes_lines s w →
      writes_lines s (sync_write w Fd.client (snprintf 8192 (pre ++ last))) :=
    fun w pre last a b c d => writes_lines_trans d (sync_write_one_line w pre last a b c)
  by_cases c5 : a0 = lit "Name"
  · rw [if_pos c5] at h
    split at h
    · cases h; exact writes_lines_refl _
    · have hl : writes_lines s (sync_write s Fd.client (snprintf 8192
          (lit ":" ++ r1.2 ++ lit " NICK :" ++ q1.2 ++ lit "\r\n"))) := by
        refine sync_write_one_line _ _ _ ?_ (by decide) ?_
        · repeat' apply nl_append
          all_goals first | assumption | decide
        · refine le_trans (by
            repeat' apply len_append_le
            all_goals first | assumption | exact le_refl _) (by decide)
      split at h
      · cases h; exact writes_lines_trans hl (set_irc_nick_lines _ _)
      · cases h; exact hl
  rw [if_neg c5] at h
  by_cases c6 : a0 = lit "Topic"
  · rw [if_pos c6] at h
    split at h
    · cases h; exact writes_lines_refl _
    · cases h
      refine sync_write_one_line _ _ _ ?_ (by decide) ?_
      · repeat' apply nl_append
        all_goals first | assumption | decide
      · refine le_trans (by
          repeat' apply len_append_le
          all_goals first | assumption | exact le_refl _) (by decide)
  rw [if_neg c6] at h
  by_cases c7 : a0 = lit "Pass"
  · rw [if_pos c7] at h
    split at h
    · cases h
      refine writes_lines_trans ?_ (set_icb_moderator_lines _ _)
      refine sync_write_one_line _ _ _ ?_ (by decide) ?_
      · repeat' apply nl_append
        all_goals first | assumption | decide
      · refine le_trans (by
          repeat' apply len_append_le
          all_goals first | assumption | exact le_refl _) (by decide)
    · split at h
      · cases h
        refine writes_lines_trans ?_ (set_icb_moderator_lines _ _)
        refine sync_write_one_line _ _ _ ?_ (by decide) ?_
        · repeat' apply nl_append
          all_goals first | assumption | decide
        · refine le_trans (by
            repeat' apply len_append_le
            all_goals first | assumption | exact le_refl _) (by decide)
      · cases h; exact writes_lines_refl _
  rw [if_neg c7] at h
  by_cases c8 : a0 = lit "Boot"
  · rw [if_pos c8] at h
    split at h
    · cases h; exact writes_lines_refl _
    · cases h
      refine sync_write_one_line _ _ _ ?_ (by decide) ?_
      · repeat' apply nl_append
        all_goals first | assumption | decide
      · refine le_trans (by
          repeat' apply len_append_le
          all_goals first | assumption | exact le_refl _) (by decide)
  rw [if_neg c8] at h
  cases h
  exact irc_send_notice_lines _ _ (nl_append (nl_append (nl_append (by decide) na0) (by decide))
    na1)

theorem strlcpy_str_ok (x : List Nat) (h : 10 ∉ x) : str_ok (strlcpy x 256) :=
  ⟨fun hm => h (cstr_subset _ _ (List.mem_of_mem_take hm)), List.length_take_le _ _⟩

/-- A further formatted line written after the lines of `w`. -/
theorem sync_write_line_after (s w : Session) (pre last : List Nat) (hpre : 10 ∉ pre)
    (hlast : one_line last) (hlen : (pre ++ last).length ≤ 8191) (hw : writes_lines s w) :
    writes_lines s (sync_write w Fd.client (snprintf 8192 (pre ++ last))) :=
  writes_lines_trans hw (sync_write_one_line w pre last hpre hlast hlen)

theorem writes_lines_ite (s : Session) (c : Prop) [Decidable c] (a b : Session)
    (ha : writes_lines s a) (hb : writes_lines s b) : writes_lines s (if c then a else b) := by
  split
  · exact ha
  · exact hb

theorem icb_iwl_lines (s : Session) (flags nick : List Nat) (idle signon : Int)
    (ident host : List Nat) (hs : s.strings_ok) (hn : str_ok nick) (hi : str_ok ident)
    (hh : str_ok host) (hidle : (fmt_d idle).length ≤ 20) (hsignon : (fmt_d signon).length ≤ 20) :
    writes_lines s (icb_iwl s Fd.client flags nick idle signon ident host) := by
  obtain ⟨⟨n1, l1⟩, ⟨n2, l2⟩, ⟨n3, l3⟩, ⟨n4, l4⟩, ⟨n5, l5⟩, ⟨n6, l6⟩, ⟨n7, l7⟩, ⟨n8, l8⟩,
    ⟨n9, l9⟩⟩ := hs
  obtain ⟨nn, nl⟩ := hn
  obtain ⟨inn, il⟩ := hi
  obtain ⟨hn', hl⟩ := hh
  have d1 := fmt_d_no_nl idle
  have d2 := fmt_d_no_nl signon
  have hop : 10 ∉ (if decide (109 ∈ flags) = true then lit "@" else []) ∧
      (if decide (109 ∈ flags) = true then lit "@" else []).length ≤ 1 := by
    split
    · exact ⟨by decide, by decide⟩
    · exact ⟨by decide, by decide⟩
  obtain ⟨opn, opl⟩ := hop
  have key : ∀ (c : Prop) [Decidable c] (v : List Nat) (s1 : Session), writes_lines s s1 →
      writes_lines s (if c then s1.set_icb_moderator v else s1) := by
    intro c _ v s1 h
    split
    · exact writes_lines_trans h (set_icb_moderator_lines _ _)
    · exact h
  unfold icb_iwl
  refine key _ _ _ ?_
  generalize fmt_d idle = fi at *
  generalize fmt_d signon = fs at *
  generalize (if decide (109 ∈ flags) = true then lit "@" else []) = op at *
  by_cases c1 : s.imode = imode_whois ∧ nick = s.inick
  · rw [if_pos c1]
    refine sync_write_line_after _ _ _ _ ?_ (by decide) ?_ ?_
    · repeat' apply nl_append
      all_goals first | assumption | decide
    · refine le_trans (by
        repeat' apply len_append_le
        all_goals first | assumption | exact le_refl _) (by decide)
    refine sync_write_line_after _ _ _ _ ?_ (by decide) ?_ ?_
    · repeat' apply nl_append
      all_goals first | assumption | decide
    · refine le_trans (by
        repeat' apply len_append_le
        all_goals first | assumption | exact le_refl _) (by decide)
    refine sync_write_line_after _ _ _ _ ?_ (by decide) ?_ ?_
    · repeat' apply nl_append
      all_goals first | assumption | decide
    · refine le_trans (by
        repeat' apply len_append_le
        all_goals first | assumption | exact le_refl _) (by decide)
    have hw1 : writes_lines s (sync_write s Fd.client (snprintf 8192
        (lit ":" ++ s.icb_hostid ++ lit " 311 " ++ s.irc_nick ++ lit " " ++ nick ++ lit " "
          ++ ident ++ lit " " ++ host ++ lit " * :\r\n"))) := by
      refine sync_write_one_line _ _ _ ?_ (by decide) ?_
      · repeat' apply nl_append
        all_goals first | assumption | decide
      · refine le_trans (by
          repeat' apply len_append_le
          all_goals first | assumption | exact le_refl _) (by decide)
    split
    · refine sync_write_line_after _ _ _ _ ?_ (by decide) ?_ hw1
      · repeat' apply nl_append
        all_goals first | assumption | decide
      · refine le_trans (by
          repeat' apply len_append_le
          all_goals first | assumption | exact le_refl _) (by decide)
    · exact hw1
  rw [if_neg c1]
  by_cases c2 : s.imode = imode_names ∧ s.icurgroup = s.igroup
  · rw [if_pos c2]
    refine sync_write_line_after _ _ _ _ ?_ (by decide) ?_ ?_
    · repeat' apply nl_append
      all_goals first | assumption | decide
    · refine le_trans (by
        repeat' apply len_append_le
        all_goals first | assumption | exact le_refl _) (by decide)
    refine sync_write_one_line _ _ _ ?_ (by decide) ?_
    · repeat' apply nl_append
      all_goals first | assumption | decide
    · refine le_trans (by
        repeat' apply len_append_le
        all_goals first | assumption | exact le_refl _) (by decide)
  rw [if_neg c2]
  by_cases c3 : s.imode = imode_who
  · rw [if_pos c3]
    refine writes_lines_ite s _ _ _ ?_ (writes_lines_refl _)
    refine sync_write_one_line _ _ _ ?_ (by decide) ?_
    · repeat' apply nl_append
      all_goals first | assumption | decide
    · refine le_trans (by
        repeat' apply len_append_le
        all_goals first | assumption | exact le_refl _) (by decide)
  rw [if_neg c3]
  exact writes_lines_refl _

theorem strings_ok_of (s s' : Session) (hs : s.strings_ok)
    (h1 : s'.irc_nick = s.irc_nick) (h2 : s'.irc_channel = s.irc_channel)
    (h3 : s'.icb_protolevel = s.icb_protolevel) (h4 : s'.icb_hostid = s.icb_hostid)
    (h5 : s'.icb_serverid = s.icb_serverid) (h6 : s'.icb_moderator = s.icb_moderator)
    (h7 : str_ok s'.icurgroup) (h8 : s'.igroup = s.igroup)
    (h9 : s'.ihostmask = s.ihostmask) : s'.strings_ok := by
  unfold Session.strings_ok at hs ⊢
  rw [h1, h2, h3, h4, h5, h6, h8, h9]
  exact ⟨hs.1, hs.2.1, hs.2.2.1, hs.2.2.2.1, hs.2.2.2.2.1, hs.2.2.2.2.2.1, h7,
    hs.2.2.2.2.2.2.2.1, hs.2.2.2.2.2.2.2.2⟩

theorem icb_ico_group_lines (s s' : Session) (group icur topic : List Nat) (hs : s.strings_ok)
    (hg : str_ok group) (hc : str_ok icur) (ht : str_ok topic)
    (h : (if s.imode = imode_list then
        .ok (sync_write (s.set_icurgroup icur) Fd.client (snprintf 8192
          (lit ":" ++ s.icb_hostid ++ lit " 322 " ++ s.irc_nick ++ lit " " ++ group
            ++ lit " 1 :" ++ topic ++ lit "\r\n")))
      else if s.imode = imode_names ∧ icur = s.igroup then
        .ok (sync_write (s.set_icurgroup icur) Fd.client (snprintf 8192
          (lit ":" ++ s.icb_hostid ++ lit " 332 " ++ s.irc_nick ++ lit " " ++ icur
            ++ lit " :" ++ topic ++ lit "\r\n")))
      else .ok (s.set_icurgroup icur) : Except Fault Session) = .ok s') :
    writes_lines s s' ∧ s'.strings_ok := by
  have hs0 := hs
  obtain ⟨⟨n1, l1⟩, ⟨n2, l2⟩, ⟨n3, l3⟩, ⟨n4, l4⟩, ⟨n5, l5⟩, ⟨n6, l6⟩, ⟨n7, l7⟩, ⟨n8, l8⟩,
    ⟨n9, l9⟩⟩ := hs
  have hc0 := hc
  obtain ⟨gn, gl⟩ := hg
  obtain ⟨cn, cl⟩ := hc
  obtain ⟨tn, tl⟩ := ht
  by_cases c1 : s.imode = imode_list
  · rw [if_pos c1] at h
    cases h
    refine ⟨?_, strings_ok_of s _ hs0 rfl rfl rfl rfl rfl rfl hc0 rfl rfl⟩
    refine sync_write_line_after _ _ _ _ ?_ (by decide) ?_ (set_icurgroup_lines _ _)
    · repeat' apply nl_append
      all_goals first | assumption | decide
    · refine le_trans (by
        repeat' apply len_append_le
        all_goals first | assumption | exact le_refl _) (by decide)
  rw [if_neg c1] at h
  by_cases c2 : s.imode = imode_names ∧ icur = s.igroup
  · rw [if_pos c2] at h
    cases h
    refine ⟨?_, strings_ok_of s _ hs0 rfl rfl rfl rfl rfl rfl hc0 rfl rfl⟩
    refine sync_write_line_after _ _ _ _ ?_ (by decide) ?_ (set_icurgroup_lines _ _)
    · repeat' apply nl_append
      all_goals first | assumption | decide
    · refine le_trans (by
        repeat' apply len_append_le
        all_goals first | assumption | exact le_refl _) (by decide)
  rw [if_neg c2] at h
  cases h
  exact ⟨set_icurgroup_lines _ _, strings_ok_of s _ hs0 rfl rfl rfl rfl rfl rfl hc0 rfl rfl⟩

theorem icb_ico_lines {s s' : Session} {arg : List Nat} (hs : s.strings_ok) (ha : str_ok arg)
    (h : icb_ico s Fd.client arg = .ok s') : writes_lines s s' ∧ s'.strings_ok := by
  have hs0 := hs
  obtain ⟨⟨n1, l1⟩, ⟨n2, l2⟩, ⟨n3, l3⟩, ⟨n4, l4⟩, ⟨n5, l5⟩, ⟨n6, l6⟩, ⟨n7, l7⟩, ⟨n8, l8⟩,
    ⟨n9, l9⟩⟩ := hs
  obtain ⟨an, al⟩ := ha
  unfold icb_ico at h
  by_cases c1 : starts_with (lit "Group: ") arg = true
  · rw [if_pos c1] at h
    dsimp only at h
    have hname : 10 ∉ (arg.drop 7).takeWhile (fun b => decide (b ≠ 0 ∧ b ≠ 32)) :=
      fun hm => an (List.mem_of_mem_drop ((List.takeWhile_sublist _).subset hm))
    generalize (arg.drop 7).takeWhile (fun b => decide (b ≠ 0 ∧ b ≠ 32)) = name at *
    by_cases c2 : (35 :: name).length < 256
    · rw [if_pos c2] at h
      have hg : str_ok (35 :: name) := by
        refine ⟨?_, by omega⟩
        intro hm
        rcases List.mem_cons.mp hm with e | e
        · cases e
        · exact hname e
      have hdrop : 10 ∉ (arg.drop 7).drop name.length :=
        fun hm => an (List.mem_of_mem_drop (List.mem_of_mem_drop hm))
      have hdl : ((arg.drop 7).drop name.length).length ≤ 255 := by
        rw [List.length_drop, List.length_drop]; omega
      generalize (arg.drop 7).drop name.length = arg2 at *
      cases hst : strstr arg2 (lit "Topic: ") with
      | none =>
        rw [hst] at h
        exact icb_ico_group_lines s s' _ _ _ hs0 hg (strlcpy_str_ok _ hg.1)
          ⟨by decide, by decide⟩ h
      | some t =>
        rw [hst] at h
        have hsuf := strstr_suffix _ _ _ hst
        refine icb_ico_group_lines s s' _ _ (t.drop 7) hs0 hg (strlcpy_str_ok _ hg.1) ⟨?_, ?_⟩ h
        · exact fun hm => hdrop (hsuf.subset (List.mem_of_mem_drop hm))
        · have := hsuf.length_le
          rw [List.length_drop]; omega
    · rw [if_neg c2] at h
      cases h
  rw [if_neg c1] at h
  by_cases c3 : starts_with (lit "Total: ") arg = true
  · rw [if_pos c3] at h
    dsimp only at h
    by_cases m1 : s.imode = imode_list
    · rw [if_pos m1] at h
      cases h
      refine ⟨writes_lines_trans ?_ (set_imode_lines _ _),
        strings_ok_of s _ hs0 rfl rfl rfl rfl rfl rfl ⟨n7, l7⟩ rfl rfl⟩
      refine sync_write_one_line _ _ _ ?_ (by decide) ?_
      · repeat' apply nl_append
        all_goals first | assumption | decide
      · refine le_trans (by
          repeat' apply len_append_le
          all_goals first | assumption | exact le_refl _) (by decide)
    rw [if_neg m1] at h
    by_cases m2 : s.imode = imode_names
    · rw [if_pos m2] at h
      cases h
      refine ⟨writes_lines_trans ?_ (set_imode_lines _ _),
        strings_ok_of s _ hs0 rfl rfl rfl rfl rfl rfl ⟨n7, l7⟩ rfl rfl⟩
      refine sync_write_one_line _ _ _ ?_ (by decide) ?_
      · repeat' apply nl_append
        all_goals first | assumption | decide
      · refine le_trans (by
          repeat' apply len_append_le
          all_goals first | assumption | exact le_refl _) (by decide)
    rw [if_neg m2] at h
    by_cases m3 : s.imode = imode_who
    · rw [if_pos m3] at h
      cases h
      refine ⟨writes_lines_trans ?_ (set_imode_lines _ _),
        strings_ok_of s _ hs0 rfl rfl rfl rfl rfl rfl ⟨n7, l7⟩ rfl rfl⟩
      refine sync_write_one_line _ _ _ ?_ (by decide) ?_
      · repeat' apply nl_append
        all_goals first | assumption | decide
      · refine le_trans (by
          repeat' apply len_append_le
          all_goals first | assumption | exact le_refl _) (by decide)
    rw [if_neg m3] at h
    cases h
    exact ⟨set_imode_lines _ _, strings_ok_of s _ hs0 rfl rfl rfl rfl rfl rfl ⟨n7, l7⟩ rfl rfl⟩
  rw [if_neg c3] at h
  by_cases c4 : arg ≠ lit " "
  · rw [if_pos c4] at h
    cases h
    exact ⟨irc_send_notice_lines _ _ (nl_append (by decide) an),
      strings_ok_of s _ hs0 rfl rfl rfl rfl rfl rfl ⟨n7, l7⟩ rfl rfl⟩
  rw [if_neg c4] at h
  cases h
  exact ⟨writes_lines_refl _, hs0⟩

theorem icb_ico_all_lines : ∀ (l : List (List Nat)) (s s' : Session), s.strings_ok →
    (∀ a ∈ l, str_ok a) → icb_ico_all Fd.client s l = .ok s' → writes_lines s s' := by
  intro l
  induction l with
  | nil =>
    intro s s' _ _ h
    cases h
    exact writes_lines_refl _
  | cons a rest ih =>
    intro s s' hs ha h
    unfold icb_ico_all at h
    cases h1 : icb_ico s Fd.client a with
    | error e => rw [h1] at h; cases h
    | ok s1 =>
      rw [h1] at h
      obtain ⟨w1, k1⟩ := icb_ico_lines hs (ha a (List.mem_cons_self _ _)) h1
      exact writes_lines_trans w1
        (ih s1 s' k1 (fun b hb => ha b (List.mem_cons_of_mem _ hb)) h)

theorem icb_cmd_output_lines {s s' : Session} {i : Nat} {fields : List (List Nat)}
    (hs : s.strings_ok) (hf : ∀ j, str_ok (cstr (fields.getD j [])))
    (h : icb_cmd_output s Fd.client i fields = .ok s') : writes_lines s s' := by
  unfold icb_cmd_output at h
  dsimp only at h
  by_cases c1 : cstr (fields.getD 0 []) = lit "co"
  · rw [if_pos c1] at h
    refine icb_ico_all_lines _ s s' hs ?_ h
    intro a ha
    obtain ⟨f, hfm, rfl⟩ := List.mem_map.mp ha
    have hfm' : f ∈ fields := List.mem_of_mem_take (List.mem_of_mem_drop hfm)
    obtain ⟨n, hn, rfl⟩ := List.getElem_of_mem hfm'
    have := hf n
    rw [List.getD_eq_getElem _ _ hn] at this
    exact this
  rw [if_neg c1] at h
  by_cases c2 : cstr (fields.getD 0 []) = lit "wl"
  · rw [if_pos c2] at h
    cases h
    exact icb_iwl_lines s _ _ _ _ _ _ hs (hf 2) (hf 6) (hf 7) (fmt_d_atol_length _)
      (fmt_d_atol_length _)
  rw [if_neg c2] at h
  by_cases c3 : cstr (fields.getD 0 []) = lit "wh"
  · rw [if_pos c3] at h
    cases h
    exact writes_lines_refl _
  rw [if_neg c3] at h
  cases h
  refine irc_send_notice_lines _ _ ?_
  have := (hf 0).1
  have := fmt_u_no_nl ((i + 4294967296 - 1) % 4294967296)
  repeat' apply nl_append
  all_goals first | assumption | decide

theorem one_line_count (b : List Nat) (h : one_line b) : b.count 10 = 1 := by
  obtain ⟨h1, _, h3⟩ := h
  have hne : b ≠ [] := by
    intro e
    rw [e] at h1
    cases h1
  have hb : b = b.dropLast ++ [10] := by
    have h4 := List.dropLast_append_getLast hne
    rw [List.getLast?_eq_getLast _ hne] at h1
    rw [Option.some.inj h1] at h4
    exact h4.symm
  rw [hb, List.count_append, List.count_eq_zero_of_not_mem h3]
  rfl

theorem icb_cmd_lines {u : Indet} {s s' : Session} {cmd : List Nat} (hlen : cmd.length ≤ 255)
    (hs : s.strings_ok) (h : icb_cmd u Fd.client Fd.server s cmd = .ok s') :
    writes_lines s s' := by
  cases cmd with
  | nil =>
    cases h
    exact writes_lines_refl _
  | cons type data =>
    simp only [List.length_cons] at hlen
    have hd : data.length ≤ 254 := by omega
    obtain ⟨i, fields, hargs⟩ := icb_args_returns data hd
    have hf : ∀ j, str_ok (cstr (fields.getD j [])) := icb_args_str_ok hd hargs
    have hnick : str_ok s.irc_nick := hs.1
    have f0 := (hf 0).1
    have f1 := (hf 1).1
    have du := fmt_u_no_nl i
    have dd := fmt_d_no_nl type
    simp only [icb_cmd, hargs] at h
    by_cases t1 : type = 97
    · rw [if_pos t1] at h
      cases h
      exact icb_cmd_login_lines u s hs
    rw [if_neg t1] at h
    by_cases t2 : type = 98
    · rw [if_pos t2] at h
      exact icb_cmd_open_lines hs (hf 0) (hf 1) h
    rw [if_neg t2] at h
    by_cases t3 : type = 99
    · rw [if_pos t3] at h
      cases h
      exact irc_send_msg_lines _ _ _ _ (hf 0) hnick (hf 1)
    rw [if_neg t3] at h
    by_cases t4 : type = 100
    · rw [if_pos t4] at h
      exact icb_cmd_status_lines hs (hf 0) (hf 1) h
    rw [if_neg t4] at h
    by_cases t5 : type = 101
    · rw [if_pos t5] at h
      cases h
      refine irc_send_notice_lines _ _ ?_
      repeat' apply nl_append
      all_goals first | assumption | decide
    rw [if_neg t5] at h
    by_cases t6 : type = 102
    · rw [if_pos t6] at h
      cases h
      refine irc_send_notice_lines _ _ ?_
      repeat' apply nl_append
      all_goals first | assumption | decide
    rw [if_neg t6] at h
    by_cases t7 : type = 103
    · rw [if_pos t7] at h
      cases h
      exact writes_lines_trans (irc_send_notice_lines _ _ (by decide))
        (set_terminate_client_lines _ _)
    rw [if_neg t7] at h
    by_cases t8 : type = 105
    · rw [if_pos t8] at h
      exact icb_cmd_output_lines hs hf h
    rw [if_neg t8] at h
    by_cases t9 : type = 106
    · rw [if_pos t9] at h
      cases h
      exact writes_lines_of_eq rfl
    rw [if_neg t9] at h
    by_cases t10 : type = 107
    · rw [if_pos t10] at h
      cases h
      refine irc_send_notice_lines _ _ ?_
      repeat' apply nl_append
      all_goals first | assumption | decide
    rw [if_neg t10] at h
    by_cases t11 : type = 108
    · rw [if_pos t11] at h
      cases h
      refine irc_send_notice_lines _ _ ?_
      repeat' apply nl_append
      all_goals first | assumption | decide
    rw [if_neg t11] at h
    by_cases t12 : type = 109
    · rw [if_pos t12] at h
      cases h
      refine irc_send_notice_lines _ _ ?_
      repeat' apply nl_append
      all_goals first | assumption | decide
    rw [if_neg t12] at h
    by_cases t13 : type = 110
    · rw [if_pos t13] at h
      cases h
      exact irc_send_notice_lines _ _ (by decide)
    rw [if_neg t13] at h
    cases h
    refine irc_send_notice_lines _ _ ?_
    repeat' apply nl_append
    all_goals first | assumption | decide


/-! ## The stored strings stay within their arrays -/

theorem arrays_ok_step (s s' : Session) (hs : s.arrays_ok)
    (h1 : s'.irc_nick = s.irc_nick ∨ s'.irc_nick.length ≤ 255)
    (h2 : s'.irc_channel = s.irc_channel ∨ s'.irc_channel.length ≤ 255)
    (h3 : s'.icb_protolevel = s.icb_protolevel ∨ str_ok s'.icb_protolevel)
    (h4 : s'.icb_hostid = s.icb_hostid ∨ s'.icb_hostid.length ≤ 255)
    (h5 : s'.icb_serverid = s.icb_serverid ∨ str_ok s'.icb_serverid)
    (h6 : s'.icb_moderator = s.icb_moderator ∨ s'.icb_moderator.length ≤ 255)
    (h7 : s'.icurgroup = s.icurgroup ∨ str_ok s'.icurgroup)
    (h8 : s'.igroup = s.igroup ∨ s'.igroup.length ≤ 255)
    (h9 : s'.ihostmask = s.ihostmask ∨ s'.ihostmask.length ≤ 255) : s'.arrays_ok := by
  obtain ⟨a1, a2, a3, a4, a5, a6, a7, a8, a9⟩ := hs
  refine ⟨?_, ?_, ?_, ?_, ?_, ?_, ?_, ?_, ?_⟩
  · rcases h1 with e | e
    · rw [e]; exact a1
    · exact e
  · rcases h2 with e | e
    · rw [e]; exact a2
    · exact e
  · rcases h3 with e | e
    · rw [e]; exact a3
    · exact e
  · rcases h4 with e | e
    · rw [e]; exact a4
    · exact e
  · rcases h5 with e | e
    · rw [e]; exact a5
    · exact e
  · rcases h6 with e | e
    · rw [e]; exact a6
    · exact e
  · rcases h7 with e | e
    · rw [e]; exact a7
    · exact e
  · rcases h8 with e | e
    · rw [e]; exact a8
    · exact e
  · rcases h9 with e | e
    · rw [e]; exact a9
    · exact e

theorem arrays_ok_same (s s' : Session) (hs : s.arrays_ok)
    (h1 : s'.irc_nick = s.irc_nick) (h2 : s'.irc_channel = s.irc_channel)
    (h3 : s'.icb_protolevel = s.icb_protolevel) (h4 : s'.icb_hostid = s.icb_hostid)
    (h5 : s'.icb_serverid = s.icb_serverid) (h6 : s'.icb_moderator = s.icb_moderator)
    (h7 : s'.icurgroup = s.icurgroup) (h8 : s'.igroup = s.igroup)
    (h9 : s'.ihostmask = s.ihostmask) : s'.arrays_ok :=
  arrays_ok_step s s' hs (Or.inl h1) (Or.inl h2) (Or.inl h3) (Or.inl h4) (Or.inl h5) (Or.inl h6)
    (Or.inl h7) (Or.inl h8) (Or.inl h9)

theorem strlcpy_length (x : List Nat) : (strlcpy x 256).length ≤ 255 :=
  List.length_take_le _ _

theorem sync_write_arrays (s : Session) (fd : Fd) (b : List Nat) (hs : s.arrays_ok) :
    (sync_write s fd b).arrays_ok := by
  cases fd
  · exact arrays_ok_same s _ hs rfl rfl rfl rfl rfl rfl rfl rfl rfl
  · exact arrays_ok_same s _ hs rfl rfl rfl rfl rfl rfl rfl rfl rfl

theorem sync_write_all_arrays (fd : Fd) (bufs : List (List Nat)) :
    ∀ s : Session, s.arrays_ok → (sync_write_all s fd bufs).arrays_ok := by
  induction bufs with
  | nil => intro s hs; exact hs
  | cons b rest ih =>
    intro s hs
    exact ih _ (sync_write_arrays s fd b hs)

theorem set_irc_pass_arrays (s : Session) (v : List Nat) (hs : s.arrays_ok) :
    (s.set_irc_pass v).arrays_ok :=
  arrays_ok_same s _ hs rfl rfl rfl rfl rfl rfl rfl rfl rfl

theorem set_irc_ident_arrays (s : Session) (v : List Nat) (hs : s.arrays_ok) :
    (s.set_irc_ident v).arrays_ok :=
  arrays_ok_same s _ hs rfl rfl rfl rfl rfl rfl rfl rfl rfl

theorem set_in_irc_channel_arrays (s : Session) (v : Bool) (hs : s.arrays_ok) :
    (s.set_in_irc_channel v).arrays_ok :=
  arrays_ok_same s _ hs rfl rfl rfl rfl rfl rfl rfl rfl rfl

theorem set_icb_logged_in_arrays (s : Session) (v : Bool) (hs : s.arrays_ok) :
    (s.set_icb_logged_in v).arrays_ok :=
  arrays_ok_same s _ hs rfl rfl rfl rfl rfl rfl rfl rfl rfl

theorem set_terminate_client_arrays (s : Session) (v : Bool) (hs : s.arrays_ok) :
    (s.set_terminate_client v).arrays_ok :=
  arrays_ok_same s _ hs rfl rfl rfl rfl rfl rfl rfl rfl rfl

theorem set_imode_arrays (s : Session) (v : imode_t) (hs : s.arrays_ok) :
    (s.set_imode v).arrays_ok :=
  arrays_ok_same s _ hs rfl rfl rfl rfl rfl rfl rfl rfl rfl

theorem set_inick_arrays (s : Session) (v : List Nat) (hs : s.arrays_ok) :
    (s.set_inick v).arrays_ok :=
  arrays_ok_same s _ hs rfl rfl rfl rfl rfl rfl rfl rfl rfl

theorem set_irc_nick_arrays (s : Session) (v : List Nat) (hs : s.arrays_ok) (hv : v.length ≤ 255) :
    (s.set_irc_nick v).arrays_ok :=
  arrays_ok_step s _ hs (Or.inr hv) (Or.inl rfl) (Or.inl rfl) (Or.inl rfl)
    (Or.inl rfl) (Or.inl rfl) (Or.inl rfl) (Or.inl rfl) (Or.inl rfl)

theorem set_irc_channel_arrays (s : Session) (v : List Nat) (hs : s.arrays_ok) (hv : v.length ≤ 255) :
    (s.set_irc_channel v).arrays_ok :=
  arrays_ok_step s _ hs (Or.inl rfl) (Or.inr hv) (Or.inl rfl) (Or.inl rfl)
    (Or.inl rfl) (Or.inl rfl) (Or.inl rfl) (Or.inl rfl) (Or.inl rfl)

theorem set_icb_protolevel_arrays (s : Session) (v : List Nat) (hs : s.arrays_ok) (hv : str_ok v) :
    (s.set_icb_protolevel v).arrays_ok :=
  arrays_ok_step s _ hs (Or.inl rfl) (Or.inl rfl) (Or.inr hv) (Or.inl rfl)
    (Or.inl rfl) (Or.inl rfl) (Or.inl rfl) (Or.inl rfl) (Or.inl rfl)

theorem set_icb_hostid_arrays (s : Session) (v : List Nat) (hs : s.arrays_ok) (hv : v.length ≤ 255) :
    (s.set_icb_hostid v).arrays_ok :=
  arrays_ok_step s _ hs (Or.inl rfl) (Or.inl rfl) (Or.inl rfl) (Or.inr hv)
    (Or.inl rfl) (Or.inl rfl) (Or.inl rfl) (Or.inl rfl) (Or.inl rfl)

theorem set_icb_serverid_arrays (s : Session) (v : List Nat) (hs : s.arrays_ok) (hv : str_ok v) :
    (s.set_icb_serverid v).arrays_ok :=
  arrays_ok_step s _ hs (Or.inl rfl) (Or.inl rfl) (Or.inl rfl) (Or.inl rfl)
    (Or.inr hv) (Or.inl rfl) (Or.inl rfl) (Or.inl rfl) (Or.inl rfl)

theorem set_icb_moderator_arrays (s : Session) (v : List Nat) (hs : s.arrays_ok) (hv : v.length ≤ 255) :
    (s.set_icb_moderator v).arrays_ok :=
  arrays_ok_step s _ hs (Or.inl rfl) (Or.inl rfl) (Or.inl rfl) (Or.inl rfl)
    (Or.inl rfl) (Or.inr hv) (Or.inl rfl) (Or.inl rfl) (Or.inl rfl)

theorem set_icurgroup_arrays (s : Session) (v : List Nat) (hs : s.arrays_ok) (hv : str_ok v) :
    (s.set_icurgroup v).arrays_ok :=
  arrays_ok_step s _ hs (Or.inl rfl) (Or.inl rfl) (Or.inl rfl) (Or.inl rfl)
    (Or.inl rfl) (Or.inl rfl) (Or.inr hv) (Or.inl rfl) (Or.inl rfl)

theorem set_igroup_arrays (s : Session) (v : List Nat) (hs : s.arrays_ok) (hv : v.length ≤ 255) :
    (s.set_igroup v).arrays_ok :=
  arrays_ok_step s _ hs (Or.inl rfl) (Or.inl rfl) (Or.inl rfl) (Or.inl rfl)
    (Or.inl rfl) (Or.inl rfl) (Or.inl rfl) (Or.inr hv) (Or.inl rfl)

theorem set_ihostmask_arrays (s : Session) (v : List Nat) (hs : s.arrays_ok) (hv : v.length ≤ 255) :
    (s.set_ihostmask v).arrays_ok :=
  arrays_ok_step s _ hs (Or.inl rfl) (Or.inl rfl) (Or.inl rfl) (Or.inl rfl)
    (Or.inl rfl) (Or.inl rfl) (Or.inl rfl) (Or.inl rfl) (Or.inr hv)

theorem irc_send_notice_arrays (s : Session) (fd : Fd) (m : List Nat) (hs : s.arrays_ok) :
    (irc_send_notice s fd m).arrays_ok := sync_write_arrays _ _ _ hs

theorem irc_send_code_arrays (s : Session) (fd : Fd) (a b c m : List Nat) (hs : s.arrays_ok) :
    (irc_send_code s fd a b c m).arrays_ok := sync_write_arrays _ _ _ hs

theorem irc_send_msg_arrays (s : Session) (fd : Fd) (a b m : List Nat) (hs : s.arrays_ok) :
    (irc_send_msg s fd a b m).arrays_ok := sync_write_arrays _ _ _ hs

theorem irc_send_part_arrays (s : Session) (fd : Fd) (a b : List Nat) (hs : s.arrays_ok) :
    (irc_send_part s fd a b).arrays_ok := sync_write_arrays _ _ _ hs

theorem irc_send_pong_arrays (s : Session) (fd : Fd) (a : List Nat) (hs : s.arrays_ok) :
    (irc_send_pong s fd a).arrays_ok := sync_write_arrays _ _ _ hs

theorem irc_send_join_arrays (s : Session) (fd : Fd) (a b : List Nat) (hs : s.arrays_ok) :
    (irc_send_join s fd a b).arrays_ok :=
  set_in_irc_channel_arrays _ _ (sync_write_arrays _ _ _ hs)

theorem icb_send_login_arrays {s s' : Session} {fd : Fd} {a b c : List Nat} (hs : s.arrays_ok)
    (h : icb_send_login s fd a b c = .ok s') : s'.arrays_ok := by
  obtain ⟨cmd, _, h2⟩ := bind_ok _ _ _ h
  cases h2; exact sync_write_arrays _ _ _ hs

theorem icb_send_openmsg_arrays {s s' : Session} {fd : Fd} {m : List Nat} (hs : s.arrays_ok)
    (h : icb_send_openmsg s fd m = .ok s') : s'.arrays_ok := by
  obtain ⟨cmd, _, h2⟩ := bind_ok _ _ _ h
  cases h2; exact sync_write_all_arrays _ _ _ hs

theorem icb_send_privmsg_arrays {s s' : Session} {fd : Fd} {n m : List Nat} (hs : s.arrays_ok)
    (h : icb_send_privmsg s fd n m = .ok s') : s'.arrays_ok := by
  obtain ⟨cmd, _, h2⟩ := bind_ok _ _ _ h
  cases h2; exact sync_write_all_arrays _ _ _ hs

theorem icb_send_group_arrays {s s' : Session} {fd : Fd} {g : List Nat} (hs : s.arrays_ok)
    (h : icb_send_group s fd g = .ok s') : s'.arrays_ok := by
  obtain ⟨cmd, _, h2⟩ := bind_ok _ _ _ h
  cases h2; exact sync_write_arrays _ _ _ hs

theorem icb_send_pass_arrays {s s' : Session} {fd : Fd} {g : List Nat} (hs : s.arrays_ok)
    (h : icb_send_pass s fd g = .ok s') : s'.arrays_ok := by
  obtain ⟨cmd, _, h2⟩ := bind_ok _ _ _ h
  cases h2; exact sync_write_arrays _ _ _ hs

theorem icb_send_topic_arrays {s s' : Session} {fd : Fd} {g : List Nat} (hs : s.arrays_ok)
    (h : icb_send_topic s fd g = .ok s') : s'.arrays_ok := by
  obtain ⟨cmd, _, h2⟩ := bind_ok _ _ _ h
  cases h2; exact sync_write_arrays _ _ _ hs

theorem icb_send_boot_arrays {s s' : Session} {fd : Fd} {g : List Nat} (hs : s.arrays_ok)
    (h : icb_send_boot s fd g = .ok s') : s'.arrays_ok := by
  obtain ⟨cmd, _, h2⟩ := bind_ok _ _ _ h
  cases h2; exact sync_write_arrays _ _ _ hs

theorem icb_send_name_arrays {s s' : Session} {fd : Fd} {g : List Nat} (hs : s.arrays_ok)
    (h : icb_send_name s fd g = .ok s') : s'.arrays_ok := by
  obtain ⟨cmd, _, h2⟩ := bind_ok _ _ _ h
  cases h2; exact sync_write_arrays _ _ _ hs

theorem icb_send_raw_arrays {s s' : Session} {fd : Fd} {g : List Nat} (hs : s.arrays_ok)
    (h : icb_send_raw s fd g = .ok s') : s'.arrays_ok := by
  obtain ⟨cmd, _, h2⟩ := bind_ok _ _ _ h
  cases h2; exact sync_write_arrays _ _ _ hs

theorem icb_send_noop_arrays {s s' : Session} {fd : Fd} (hs : s.arrays_ok)
    (h : icb_send_noop s fd = .ok s') : s'.arrays_ok := by
  obtain ⟨cmd, _, h2⟩ := bind_ok _ _ _ h
  cases h2; exact sync_write_arrays _ _ _ hs

theorem icb_send_hw_arrays {s s' : Session} {fd : Fd} {g : List Nat} (hs : s.arrays_ok)
    (h : icb_send_hw s fd g = .ok s') : s'.arrays_ok := by
  obtain ⟨cmd, _, h2⟩ := bind_ok _ _ _ h
  cases h2
  exact sync_write_arrays _ _ _ (set_icurgroup_arrays _ _ hs ⟨by decide, by decide⟩)

theorem icb_send_list_arrays {s s' : Session} {fd : Fd} (hs : s.arrays_ok)
    (h : icb_send_list s fd = .ok s') : s'.arrays_ok := by
  unfold icb_send_list at h
  split at h
  · cases h; exact hs
  · exact icb_send_hw_arrays (set_imode_arrays _ _ hs) h

theorem icb_send_names_arrays {s s' : Session} {fd : Fd} {g : List Nat} (hs : s.arrays_ok)
    (h : icb_send_names s fd g = .ok s') : s'.arrays_ok := by
  unfold icb_send_names at h
  split at h
  · cases h; exact hs
  · exact icb_send_hw_arrays
      (set_igroup_arrays _ _ (set_imode_arrays _ _ hs) (strlcpy_length _)) h

theorem icb_send_whois_arrays {s s' : Session} {fd : Fd} {g : List Nat} (hs : s.arrays_ok)
    (h : icb_send_whois s fd g = .ok s') : s'.arrays_ok := by
  unfold icb_send_whois at h
  split at h
  · cases h; exact hs
  · exact icb_send_hw_arrays (set_inick_arrays _ _ (set_imode_arrays _ _ hs)) h

theorem icb_send_who_arrays {s s' : Session} {fd : Fd} {g : List Nat} (hs : s.arrays_ok)
    (h : icb_send_who s fd g = .ok s') : s'.arrays_ok := by
  unfold icb_send_who at h
  split at h
  · cases h; exact hs
  · exact icb_send_hw_arrays
      (set_ihostmask_arrays _ _ (set_imode_arrays _ _ hs) (strlcpy_length _)) h

theorem irc_cmd_arrays {c sv : Fd} {s s' : Session} {line : List Nat} (hs : s.arrays_ok)
    (h : irc_cmd c sv s line = .ok s') : s'.arrays_ok := by
  unfold irc_cmd at h
  simp only [] at h
  by_cases hraw : starts_with_nocase (lit "RAWICB ") (cstr line) = true
  · rw [if_pos hraw] at h
    exact icb_send_raw_arrays hs h
  rw [if_neg hraw] at h
  have hv0 : (tokenise 9 (cstr line)).headD [] = irc_argv0 line := rfl
  rw [hv0] at h
  by_cases h1 : strcasecmp_eq (irc_argv0 line) (lit "PASS") = true
  · rw [if_pos h1] at h
    obtain ⟨a1, _, h2⟩ := bind_ok _ _ _ h
    cases h2
    exact set_irc_pass_arrays _ _ hs
  rw [if_neg h1] at h
  by_cases h2 : strcasecmp_eq (irc_argv0 line) (lit "USER") = true
  · rw [if_pos h2] at h
    obtain ⟨a1, _, hb⟩ := bind_ok _ _ _ h
    split at hb
    · exact icb_send_login_arrays (set_irc_ident_arrays _ _ hs) hb
    · cases hb; exact set_irc_ident_arrays _ _ hs
  rw [if_neg h2] at h
  by_cases h3 : strcasecmp_eq (irc_argv0 line) (lit "NICK") = true
  · rw [if_pos h3] at h
    obtain ⟨a1, _, hb⟩ := bind_ok _ _ _ h
    have hn := set_irc_nick_arrays s (strlcpy a1 256) hs (strlcpy_length _)
    split at hb
    · exact icb_send_name_arrays hn hb
    · split at hb
      · exact icb_send_login_arrays hn hb
      · cases hb; exact hn
  rw [if_neg h3] at h
  by_cases h4 : strcasecmp_eq (irc_argv0 line) (lit "JOIN") = true
  · rw [if_pos h4] at h
    obtain ⟨a1, _, hb⟩ := bind_ok _ _ _ h
    exact icb_send_group_arrays hs hb
  rw [if_neg h4] at h
  by_cases h5 : strcasecmp_eq (irc_argv0 line) (lit "PART") = true
  · rw [if_pos h5] at h
    cases h
    exact set_in_irc_channel_arrays _ _ hs
  rw [if_neg h5] at h
  by_cases h6 : strcasecmp_eq (irc_argv0 line) (lit "PRIVMSG") = true
      ∨ strcasecmp_eq (irc_argv0 line) (lit "NOTICE") = true
  · rw [if_pos h6] at h
    obtain ⟨a2, _, hb⟩ := bind_ok _ _ _ h
    obtain ⟨msg, _, hc⟩ := bind_ok _ _ _ hb
    obtain ⟨a1, _, hd⟩ := bind_ok _ _ _ hc
    split at hd
    · exact icb_send_openmsg_arrays hs hd
    · exact icb_send_privmsg_arrays hs hd
  rw [if_neg h6] at h
  by_cases h7 : strcasecmp_eq (irc_argv0 line) (lit "MODE") = true
  · rw [if_pos h7] at h
    obtain ⟨a1, _, hb⟩ := bind_ok _ _ _ h
    split at hb
    · cases hb; exact hs
    · split at hb
      · exact icb_send_names_arrays hs hb
      · obtain ⟨a2, _, hc⟩ := bind_ok _ _ _ hb
        split at hc
        · cases hc; exact hs
        · obtain ⟨a3, _, hd⟩ := bind_ok _ _ _ hc
          exact icb_send_pass_arrays hs hd
  rw [if_neg h7] at h
  by_cases h8 : strcasecmp_eq (irc_argv0 line) (lit "TOPIC") = true
  · rw [if_pos h8] at h
    obtain ⟨a1, _, hb⟩ := bind_ok _ _ _ h
    split at hb
    · cases hb; exact hs
    · obtain ⟨a2, _, hc⟩ := bind_ok _ _ _ hb
      exact icb_send_topic_arrays hs hc
  rw [if_neg h8] at h
  by_cases h9 : strcasecmp_eq (irc_argv0 line) (lit "LIST") = true
  · rw [if_pos h9] at h
    exact icb_send_list_arrays hs h
  rw [if_neg h9] at h
  by_cases h10 : strcasecmp_eq (irc_argv0 line) (lit "NAMES") = true
  · rw [if_pos h10] at h
    obtain ⟨a1, _, hb⟩ := bind_ok _ _ _ h
    exact icb_send_names_arrays hs hb
  rw [if_neg h10] at h
  by_cases h11 : strcasecmp_eq (irc_argv0 line) (lit "WHOIS") = true
  · rw [if_pos h11] at h
    obtain ⟨a1, _, hb⟩ := bind_ok _ _ _ h
    exact icb_send_whois_arrays hs hb
  rw [if_neg h11] at h
  by_cases h12 : strcasecmp_eq (irc_argv0 line) (lit "WHO") = true
  · rw [if_pos h12] at h
    obtain ⟨a1, _, hb⟩ := bind_ok _ _ _ h
    exact icb_send_who_arrays hs hb
  rw [if_neg h12] at h
  by_cases h13 : strcasecmp_eq (irc_argv0 line) (lit "KICK") = true
  · rw [if_pos h13] at h
    obtain ⟨a1, _, hb⟩ := bind_ok _ _ _ h
    split at hb
    · cases hb; exact hs
    · obtain ⟨a2, _, hc⟩ := bind_ok _ _ _ hb
      exact icb_send_boot_arrays hs hc
  rw [if_neg h13] at h
  by_cases h14 : strcasecmp_eq (irc_argv0 line) (lit "PING") = true
  · rw [if_pos h14] at h
    obtain ⟨s1, hn, hb⟩ := bind_ok _ _ _ h
    obtain ⟨a1, _, hc⟩ := bind_ok _ _ _ hb
    cases hc
    exact irc_send_pong_arrays _ _ _ (icb_send_noop_arrays hs hn)
  rw [if_neg h14] at h
  by_cases h15 : strcasecmp_eq (irc_argv0 line) (lit "QUIT") = true
  · rw [if_pos h15] at h
    cases h
    exact set_terminate_client_arrays _ _ hs
  rw [if_neg h15] at h
  split at h <;> cases h <;> exact hs

theorem icb_args_loop_no_nl (data : List Nat) :
    ∀ (done : List (List Nat)) (cur : List Nat) (d' : List (List Nat)) (c' : List Nat),
      icb_args_loop data done cur = .ok (d', c') → (∀ f ∈ done, 10 ∉ f) → 10 ∉ cur →
      (∀ f ∈ d', 10 ∉ f) ∧ 10 ∉ c' := by
  induction data with
  | nil =>
    intro done cur d' c' hrun hdone hcur
    simp only [icb_args_loop, Except.ok.injEq, Prod.mk.injEq] at hrun
    rw [← hrun.1, ← hrun.2]
    exact ⟨hdone, hcur⟩
  | cons b rest ih =>
    intro done cur d' c' hrun hdone hcur
    simp only [icb_args_loop] at hrun
    by_cases hin : done.length < 255 ∧ cur.length < 255
    · rw [if_pos hin] at hrun
      by_cases hsep : b = 1
      · rw [if_pos hsep] at hrun
        refine ih _ _ d' c' hrun ?_ (by simp)
        intro f hf
        rcases List.mem_append.mp hf with hf | hf
        · exact hdone f hf
        · rw [List.mem_singleton.mp hf]; exact hcur
      · rw [if_neg hsep] at hrun
        by_cases hcr : b = 13 ∨ b = 10
        · rw [if_pos hcr] at hrun
          exact ih _ _ d' c' hrun hdone (nl_append hcur (by decide))
        · rw [if_neg hcr] at hrun
          refine ih _ _ d' c' hrun hdone (nl_append hcur ?_)
          intro hm
          exact hcr (Or.inr (List.mem_singleton.mp hm).symm)
    · rw [if_neg hin] at hrun
      cases hrun

/-- No field that `icb_args` returns holds a `'\n'`, whatever the payload. -/
theorem icb_args_fields_no_nl {data : List Nat} {i : Nat} {fields : List (List Nat)}
    (h : icb_args data = .ok (i, fields)) : ∀ f ∈ fields, 10 ∉ f := by
  unfold icb_args at h
  cases hloop : icb_args_loop data [] [] with
  | error e => rw [hloop] at h; cases h
  | ok r =>
    obtain ⟨d', c'⟩ := r
    rw [hloop] at h
    obtain ⟨hd, hc'⟩ := icb_args_loop_no_nl data [] [] d' c' hloop (by simp) (by simp)
    have hpad : ∀ n, ∀ f ∈ List.replicate n ([] : List Nat), 10 ∉ f := by
      intro n f hf
      rw [List.eq_of_mem_replicate hf]
      simp
    simp only at h
    by_cases hc : c'.length > 0
    · rw [if_pos hc] at h
      by_cases hin : d'.length < 255 ∧ c'.length < 255
      · rw [if_pos hin] at h
        simp only [Except.ok.injEq, Prod.mk.injEq] at h
        rw [← h.2]
        intro f hf
        rcases List.mem_append.mp hf with hf | hf
        · rcases List.mem_append.mp hf with hf | hf
          · exact hd f hf
          · rw [List.mem_singleton.mp hf]; exact hc'
        · exact hpad _ f hf
      · rw [if_neg hin] at h
        cases h
    · rw [if_neg hc] at h
      simp only [Except.ok.injEq, Prod.mk.injEq] at h
      rw [← h.2]
      intro f hf
      rcases List.mem_append.mp hf with hf | hf
      · exact hd f hf
      · exact hpad _ f hf

theorem icb_args_ok_no_nl {data : List Nat} {i : Nat} {fields : List (List Nat)}
    (h : icb_args data = .ok (i, fields)) (j : Nat) : 10 ∉ cstr (fields.getD j []) := by
  intro hm
  have hm' := cstr_subset _ _ hm
  by_cases hj : j < fields.length
  · rw [List.getD_eq_getElem _ _ hj] at hm'
    exact icb_args_fields_no_nl h _ (List.getElem_mem _) hm'
  · rw [List.getD_eq_default _ _ (by omega)] at hm'
    cases hm'

theorem icb_cmd_login_arrays (u : Indet) (s : Session) (fd : Fd) (hs : s.arrays_ok) :
    (icb_cmd_login u s fd).arrays_ok := by
  unfold icb_cmd_login
  refine set_icb_logged_in_arrays _ _ ?_
  refine irc_send_code_arrays _ _ _ _ _ _ ?_
  refine irc_send_code_arrays _ _ _ _ _ _ ?_
  refine irc_send_code_arrays _ _ _ _ _ _ ?_
  refine irc_send_code_arrays _ _ _ _ _ _ ?_
  refine irc_send_code_arrays _ _ _ _ _ _ ?_
  exact irc_send_code_arrays _ _ _ _ _ _ hs

theorem icb_cmd_open_arrays {s s' : Session} {fd sfd : Fd} {a0 a1 : List Nat}
    (hs : s.arrays_ok) (h : icb_cmd_open s fd sfd a0 a1 = .ok s') : s'.arrays_ok := by
  unfold icb_cmd_open at h
  by_cases hin : s.in_irc_channel = true
  · simp only [hin, not_true_eq_false, if_false] at h
    cases h
    exact irc_send_msg_arrays _ _ _ _ _ hs
  · simp only [hin, not_false_eq_true, if_true] at h
    cases hn : icb_send_names (irc_send_join s fd s.irc_nick s.irc_channel) sfd
        s.irc_channel with
    | error e => rw [hn] at h; cases h
    | ok s1 =>
      rw [hn] at h
      cases h
      exact irc_send_msg_arrays _ _ _ _ _
        (icb_send_names_arrays (irc_send_join_arrays _ _ _ _ hs) hn)

theorem icb_cmd_status_arrays {u : Indet} {s s' : Session} {fd sfd : Fd} {a0 a1 : List Nat}
    (hs : s.arrays_ok) (h : icb_cmd_status u s fd sfd a0 a1 = .ok s') : s'.arrays_ok := by
  unfold icb_cmd_status at h
  simp only at h
  by_cases c1 : a0 = lit "Status" ∧ starts_with (lit "You are now in group ") a1 = true
  · rw [if_pos c1] at h
    have hp : (if s.irc_channel ≠ [] then irc_send_part s fd s.irc_nick s.irc_channel
        else s).arrays_ok := by
      split
      · exact irc_send_part_arrays _ _ _ _ hs
      · exact hs
    have hl : (35 :: (scan_tok (a1.drop 21) 255 (lit " ") (lit " ")).2).length ≤ 255 := by
      have := (scan_tok_facts (a1.drop 21) (lit " ") (lit " ") 255).2.2
      simp only [List.length_cons]
      omega
    exact icb_send_names_arrays
      (irc_send_join_arrays _ _ _ _ (set_irc_channel_arrays _ _ hp hl)) h
  rw [if_neg c1] at h
  by_cases c2 : a0 = lit "Arrive" ∨ a0 = lit "Sign-on"
  · rw [if_pos c2] at h
    cases h
    exact irc_send_join_arrays _ _ _ _ hs
  rw [if_neg c2] at h
  by_cases c3 : a0 = lit "Depart"
  · rw [if_pos c3] at h
    cases h
    exact irc_send_part_arrays _ _ _ _ hs
  rw [if_neg c3] at h
  by_cases c4 : a0 = lit "Sign-off"
  · rw [if_pos c4] at h
    cases h
    exact sync_write_arrays _ _ _ hs
  rw [if_neg c4] at h
  by_cases c5 : a0 = lit "Name"
  · rw [if_pos c5] at h
    split at h
    · cases h; exact hs
    · split at h
      · cases h
        exact set_irc_nick_arrays _ _ (sync_write_arrays _ _ _ hs) (strlcpy_length _)
      · cases h; exact sync_write_arrays _ _ _ hs
  rw [if_neg c5] at h
  by_cases c6 : a0 = lit "Topic"
  · rw [if_pos c6] at h
    split at h
    · cases h; exact hs
    · cases h; exact sync_write_arrays _ _ _ hs
  rw [if_neg c6] at h
  by_cases c7 : a0 = lit "Pass"
  · rw [if_pos c7] at h
    split at h
    · cases h
      exact set_icb_moderator_arrays _ _ (sync_write_arrays _ _ _ hs) (strlcpy_length _)
    · split at h
      · cases h
        exact set_icb_moderator_arrays _ _ (sync_write_arrays _ _ _ hs) (strlcpy_length _)
      · cases h; exact hs
  rw [if_neg c7] at h
  by_cases c8 : a0 = lit "Boot"
  · rw [if_pos c8] at h
    split at h
    · cases h; exact hs
    · cases h; exact sync_write_arrays _ _ _ hs
  rw [if_neg c8] at h
  cases h
  exact irc_send_notice_arrays _ _ _ hs

theorem arrays_ok_ite (c : Prop) [Decidable c] (a b : Session) (ha : a.arrays_ok)
    (hb : b.arrays_ok) : (if c then a else b).arrays_ok := by
  split
  · exact ha
  · exact hb

theorem icb_iwl_arrays (s : Session) (fd : Fd) (flags nick : List Nat) (idle signon : Int)
    (ident host : List Nat) (hs : s.arrays_ok) :
    (icb_iwl s fd flags nick idle signon ident host).arrays_ok := by
  unfold icb_iwl
  have key : ∀ (c : Prop) [Decidable c] (v : List Nat) (s1 : Session), s1.arrays_ok →
      (if c then s1.set_icb_moderator (strlcpy v 256) else s1).arrays_ok := by
    intro c _ v s1 h
    exact arrays_ok_ite _ _ _ (set_icb_moderator_arrays _ _ h (strlcpy_length _)) h
  refine key _ _ _ ?_
  refine arrays_ok_ite _ _ _ ?_ (arrays_ok_ite _ _ _ ?_ (arrays_ok_ite _ _ _ ?_ hs))
  · refine sync_write_arrays _ _ _ (sync_write_arrays _ _ _ (sync_write_arrays _ _ _ ?_))
    exact arrays_ok_ite _ _ _ (sync_write_arrays _ _ _ (sync_write_arrays _ _ _ hs))
      (sync_write_arrays _ _ _ hs)
  · exact sync_write_arrays _ _ _ (sync_write_arrays _ _ _ hs)
  · exact arrays_ok_ite _ _ _ (sync_write_arrays _ _ _ hs) hs

theorem icb_ico_arrays {s s' : Session} {fd : Fd} {arg : List Nat} (hs : s.arrays_ok)
    (ha : 10 ∉ arg) (h : icb_ico s fd arg = .ok s') : s'.arrays_ok := by
  unfold icb_ico at h
  by_cases c1 : starts_with (lit "Group: ") arg = true
  · rw [if_pos c1] at h
    dsimp only at h
    have hname : 10 ∉ (arg.drop 7).takeWhile (fun b => decide (b ≠ 0 ∧ b ≠ 32)) :=
      fun hm => ha (List.mem_of_mem_drop ((List.takeWhile_sublist _).subset hm))
    generalize (arg.drop 7).takeWhile (fun b => decide (b ≠ 0 ∧ b ≠ 32)) = name at *
    by_cases c2 : (35 :: name).length < 256
    · rw [if_pos c2] at h
      have hg : 10 ∉ 35 :: name := by
        intro hm
        rcases List.mem_cons.mp hm with e | e
        · cases e
        · exact hname e
      have h1 := set_icurgroup_arrays s (strlcpy (35 :: name) 256) hs (strlcpy_str_ok _ hg)
      split at h
      · cases h; exact sync_write_arrays _ _ _ h1
      · split at h
        · cases h; exact sync_write_arrays _ _ _ h1
        · cases h; exact h1
    · rw [if_neg c2] at h
      cases h
  rw [if_neg c1] at h
  by_cases c3 : starts_with (lit "Total: ") arg = true
  · rw [if_pos c3] at h
    dsimp only at h
    cases h
    refine set_imode_arrays _ _ ?_
    exact arrays_ok_ite _ _ _ (sync_write_arrays _ _ _ hs)
      (arrays_ok_ite _ _ _ (sync_write_arrays _ _ _ hs)
        (arrays_ok_ite _ _ _ (sync_write_arrays _ _ _ hs) hs))
  rw [if_neg c3] at h
  split at h
  · cases h; exact irc_send_notice_arrays _ _ _ hs
  · cases h; exact hs

theorem icb_ico_all_arrays (fd : Fd) : ∀ (l : List (List Nat)) (s s' : Session),
    s.arrays_ok → (∀ a ∈ l, 10 ∉ a) → icb_ico_all fd s l = .ok s' → s'.arrays_ok := by
  intro l
  induction l with
  | nil =>
    intro s s' hs _ h
    cases h
    exact hs
  | cons a rest ih =>
    intro s s' hs ha h
    unfold icb_ico_all at h
    cases h1 : icb_ico s fd a with
    | error e => rw [h1] at h; cases h
    | ok s1 =>
      rw [h1] at h
      exact ih s1 s' (icb_ico_arrays hs (ha a (List.mem_cons_self _ _)) h1)
        (fun b hb => ha b (List.mem_cons_of_mem _ hb)) h

theorem icb_cmd_output_arrays {s s' : Session} {fd : Fd} {i : Nat} {fields : List (List Nat)}
    (hs : s.arrays_ok) (hf : ∀ f ∈ fields, 10 ∉ f)
    (h : icb_cmd_output s fd i fields = .ok s') : s'.arrays_ok := by
  unfold icb_cmd_output at h
  dsimp only at h
  by_cases c1 : cstr (fields.getD 0 []) = lit "co"
  · rw [if_pos c1] at h
    refine icb_ico_all_arrays fd _ s s' hs ?_ h
    intro a ha
    obtain ⟨f, hfm, rfl⟩ := List.mem_map.mp ha
    exact fun hm => hf f (List.mem_of_mem_take (List.mem_of_mem_drop hfm)) (cstr_subset _ _ hm)
  rw [if_neg c1] at h
  by_cases c2 : cstr (fields.getD 0 []) = lit "wl"
  · rw [if_pos c2] at h
    cases h
    exact icb_iwl_arrays _ _ _ _ _ _ _ _ hs
  rw [if_neg c2] at h
  by_cases c3 : cstr (fields.getD 0 []) = lit "wh"
  · rw [if_pos c3] at h
    cases h
    exact hs
  rw [if_neg c3] at h
  cases h
  exact irc_send_notice_arrays _ _ _ hs

theorem icb_cmd_arrays {u : Indet} {fd sfd : Fd} {s s' : Session} {cmd : List Nat}
    (hs : s.arrays_ok) (h : icb_cmd u fd sfd s cmd = .ok s') : s'.arrays_ok := by
  cases cmd with
  | nil =>
    cases h
    exact hs
  | cons t data =>
    unfold icb_cmd at h
    simp only at h
    cases hargs : icb_args data with
    | error e => rw [hargs] at h; cases h
    | ok r =>
      obtain ⟨i, fields⟩ := r
      rw [hargs] at h
      simp only at h
      have hf := icb_args_ok_no_nl hargs
      by_cases t1 : t = 97
      · rw [if_pos t1] at h
        cases h
        exact icb_cmd_login_arrays u s fd hs
      rw [if_neg t1] at h
      by_cases t2 : t = 98
      · rw [if_pos t2] at h
        exact icb_cmd_open_arrays hs h
      rw [if_neg t2] at h
      by_cases t3 : t = 99
      · rw [if_pos t3] at h
        cases h
        exact irc_send_msg_arrays _ _ _ _ _ hs
      rw [if_neg t3] at h
      by_cases t4 : t = 100
      · rw [if_pos t4] at h
        exact icb_cmd_status_arrays hs h
      rw [if_neg t4] at h
      by_cases t5 : t = 101
      · rw [if_pos t5] at h
        cases h
        exact irc_send_notice_arrays _ _ _ hs
      rw [if_neg t5] at h
      by_cases t6 : t = 102
      · rw [if_pos t6] at h
        cases h
        exact irc_send_notice_arrays _ _ _ hs
      rw [if_neg t6] at h
      by_cases t7 : t = 103
      · rw [if_pos t7] at h
        cases h
        exact set_terminate_client_arrays _ _ (irc_send_notice_arrays _ _ _ hs)
      rw [if_neg t7] at h
      by_cases t8 : t = 105
      · rw [if_pos t8] at h
        exact icb_cmd_output_arrays hs (icb_args_fields_no_nl hargs) h
      rw [if_neg t8] at h
      by_cases t9 : t = 106
      · rw [if_pos t9] at h
        cases h
        exact set_icb_serverid_arrays _ _
          (set_icb_hostid_arrays _ _
            (set_icb_protolevel_arrays _ _ hs (strlcpy_str_ok _ (hf 0))) (strlcpy_length _))
          (strlcpy_str_ok _ (hf 2))
      rw [if_neg t9] at h
      by_cases t10 : t = 107
      · rw [if_pos t10] at h
        cases h
        exact irc_send_notice_arrays _ _ _ hs
      rw [if_neg t10] at h
      by_cases t11 : t = 108
      · rw [if_pos t11] at h
        cases h
        exact irc_send_notice_arrays _ _ _ hs
      rw [if_neg t11] at h
      by_cases t12 : t = 109
      · rw [if_pos t12] at h
        cases h
        exact irc_send_notice_arrays _ _ _ hs
      rw [if_neg t12] at h
      by_cases t13 : t = 110
      · rw [if_pos t13] at h
        cases h
        exact irc_send_notice_arrays _ _ _ hs
      rw [if_neg t13] at h
      cases h
      exact irc_send_notice_arrays _ _ _ hs

theorem step_arrays {s s' : Session} {e : Event} (hs : s.arrays_ok)
    (h : step s e = .ok s') : s'.arrays_ok := by
  cases e with
  | irc line => exact irc_cmd_arrays hs h
  | icb u cmd => exact icb_cmd_arrays hs h

theorem run_arrays (events : List Event) : ∀ s s' : Session, s.arrays_ok →
    run s events = .ok s' → s'.arrays_ok := by
  induction events with
  | nil =>
    intro s s' hs h
    cases h
    exact hs
  | cons e rest ih =>
    intro s s' hs h
    unfold run at h
    cases h1 : step s e with
    | error f => rw [h1] at h; cases h
    | ok s1 =>
      rw [h1] at h
      exact ih s1 s' (step_arrays hs h1) h

theorem handle_client_init_arrays (addr : List Nat) (w : World) :
    (handle_client_init addr w).session.arrays_ok := by
  obtain ⟨_, _, h3, h4, _, _, h7, h8, h9, h10, _, h12, h13, _, h15, _⟩ :=
    handle_client_init_state addr w
  unfold Session.arrays_ok str_ok
  rw [h3, h4, h7, h8, h9, h10, h12, h13, h15]
  decide

/-- C28. Take any state of a client session: `handle_client` has initialised
the globals and the translators have then processed any inputs.  If its nick,
channel, hostid, moderator, query group and query hostmask hold no `'\n'`, then
for every ICB packet (at most 255 bytes, as `icb_recv` delivers them)
`icb_cmd` returns, and every buffer it writes to the IRC client contains
exactly one `'\n'`, as its last byte and preceded by `'\r'`.  The other strings
that `icb_cmd` copies into its lines (`icb_serverid`, `icb_protolevel`,
`icurgroup`) are clean in every such state, and every stored string fits its
array, so that no line is cut by `snprintf`. -/
theorem icb_cmd_writes_lines (addr : List Nat) (w : World) (events : List Event) (u : Indet)
    (s : Session) (cmd : List Nat)
    (hrun : run (handle_client_init addr w).session events = .ok s)
    (hlen : cmd.length ≤ 255)
    (hnick : 10 ∉ s.irc_nick) (hchan : 10 ∉ s.irc_channel) (hhost : 10 ∉ s.icb_hostid)
    (hmod : 10 ∉ s.icb_moderator) (hgroup : 10 ∉ s.igroup) (hmask : 10 ∉ s.ihostmask) :
    ∃ s' new, icb_cmd u Fd.client Fd.server s cmd = .ok s' ∧
      s'.client_out = s.client_out ++ new ∧
      ∀ b ∈ new, b.count 10 = 1 ∧ b.getLast? = some 10 ∧ b.dropLast.getLast? = some 13 := by
  obtain ⟨a1, a2, a3, a4, a5, a6, a7, a8, a9⟩ :=
    run_arrays events _ s (handle_client_init_arrays addr w) hrun
  have hs : s.strings_ok :=
    ⟨⟨hnick, a1⟩, ⟨hchan, a2⟩, a3, ⟨hhost, a4⟩, a5, ⟨hmod, a6⟩, a7, ⟨hgroup, a8⟩, ⟨hmask, a9⟩⟩
  obtain ⟨s', h⟩ := icb_cmd_returns u Fd.client Fd.server s cmd hlen
  obtain ⟨new, h1, h2⟩ := icb_cmd_lines hlen hs h
  exact ⟨s', new, h, h1, fun b hb => ⟨one_line_count b (h2 b hb), (h2 b hb).1, (h2 b hb).2.1⟩⟩

/-- C28, witness: the client has sent `NICK al`, the server its protocol
packet `j` `1` `h` `srv`; then a personal message from `bob` arrives. -/
theorem icb_cmd_writes_lines_witness :
    ∃ s, run (handle_client_init (lit "host") ⟨session_zero, icb_init_framer, ⟨[]⟩⟩).session
        [Event.irc (lit "NICK al"), Event.icb ⟨0, []⟩ (lit "j1\x01h\x01srv")] = .ok s ∧
      (lit "cbob\x01hi").length ≤ 255 ∧
      10 ∉ s.irc_nick ∧ 10 ∉ s.irc_channel ∧ 10 ∉ s.icb_hostid ∧ 10 ∉ s.icb_moderator ∧
      10 ∉ s.igroup ∧ 10 ∉ s.ihostmask ∧
      (s.irc_nick, s.icb_hostid, s.icb_serverid) = (lit "al", lit "h", lit "srv") ∧
      (∃ s' new, icb_cmd ⟨0, []⟩ Fd.client Fd.server s (lit "cbob\x01hi") = .ok s' ∧
        s'.client_out = s.client_out ++ new ∧
        ∀ b ∈ new, b.count 10 = 1 ∧ b.getLast? = some 10 ∧ b.dropLast.getLast? = some 13) ∧
      Except.map (fun s' => s'.client_out.drop s.client_out.length)
          (icb_cmd ⟨0, []⟩ Fd.client Fd.server s (lit "cbob\x01hi"))
        = .ok [lit ":bob PRIVMSG al :hi\r\n"] := by
  have hx : ∃ s, run (handle_client_init (lit "host")
      ⟨session_zero, icb_init_framer, ⟨[]⟩⟩).session
      [Event.irc (lit "NICK al"), Event.icb ⟨0, []⟩ (lit "j1\x01h\x01srv")] = .ok s ∧
      s.irc_nick = lit "al" ∧ s.irc_channel = [] ∧ s.icb_hostid = lit "h" ∧
      s.icb_moderator = [] ∧ s.igroup = [] ∧ s.ihostmask = [] ∧ s.icb_serverid = lit "srv" ∧
      Except.map (fun s' => s'.client_out.drop s.client_out.length)
          (icb_cmd ⟨0, []⟩ Fd.client Fd.server s (lit "cbob\x01hi"))
        = .ok [lit ":bob PRIVMSG al :hi\r\n"] :=
    ⟨_, rfl, rfl, rfl, rfl, rfl, rfl, rfl, rfl, rfl⟩
  obtain ⟨s, hrun, e1, e2, e3, e4, e5, e6, e7, e8⟩ := hx
  have n1 : 10 ∉ s.irc_nick := by rw [e1]; decide
  have n2 : 10 ∉ s.irc_channel := by rw [e2]; decide
  have n3 : 10 ∉ s.icb_hostid := by rw [e3]; decide
  have n4 : 10 ∉ s.icb_moderator := by rw [e4]; decide
  have n5 : 10 ∉ s.igroup := by rw [e5]; decide
  have n6 : 10 ∉ s.ihostmask := by rw [e6]; decide
  exact ⟨s, hrun, by decide, n1, n2, n3, n4, n5, n6, by rw [e1, e3, e7],
    icb_cmd_writes_lines _ _ _ _ s _ hrun (by decide) n1 n2 n3 n4 n5 n6, e8⟩

/-! ## A length byte of 0 -/

theorem icb_cmd_handler_empty (u : Indet) (fd sfd : Fd) (r : Except Fault Session) :
    icb_cmd_handler u fd sfd r [] = r := by
  cases r with
  | error e => rfl
  | ok s => rfl

theorem icb_step_zero {σ : Type} (h : σ → List Nat → σ) (s : σ) :
    icb_step h (⟨[]⟩, s) 0 = (⟨[]⟩, h s []) := rfl

theorem icb_recv_steps {σ : Type} (h : σ → List Nat → σ) (f : IcbFramer) (s : σ)
    (buf : List Nat) (hok : f.ok) : icb_recv h f s buf = .ok (buf.foldl (icb_step h) (f, s)) :=
  icb_recv_loop_steps h _ f s buf (le_refl _) hok

/-- C31. A length byte of 0 is a complete empty packet.  `icb_cmd` on the
empty packet returns the session unchanged (nothing is written to either
side).  If the bytes `pre` leave `icb_recv` with `off = 0` and the state `r1`,
then after `pre` and a byte 0 the framer is again at `off = 0` with the same
state `r1`, and whatever follows the byte 0 is framed exactly as if the byte
had not been there, within the same call or in a later one. -/
theorem icb_recv_zero_length (u : Indet) (f : IcbFramer) (r r1 : Except Fault Session)
    (pre rest : List Nat) (hok : f.ok)
    (hpre : icb_recv (icb_cmd_handler u Fd.client Fd.server) f r pre
      = .ok (icb_init_framer, r1)) :
    (∀ s, icb_cmd u Fd.client Fd.server s [] = .ok s) ∧
    icb_recv (icb_cmd_handler u Fd.client Fd.server) f r (pre ++ [0])
      = .ok (icb_init_framer, r1) ∧
    icb_recv (icb_cmd_handler u Fd.client Fd.server) f r (pre ++ 0 :: rest)
      = icb_recv (icb_cmd_handler u Fd.client Fd.server) f r (pre ++ rest) ∧
    icb_recv (icb_cmd_handler u Fd.client Fd.server) icb_init_framer r1 (0 :: rest)
      = icb_recv (icb_cmd_handler u Fd.client Fd.server) icb_init_framer r1 rest := by
  have hnil : icb_init_framer.ok := Or.inl rfl
  rw [icb_recv_steps _ f r pre hok] at hpre
  have hp := Except.ok.inj hpre
  refine ⟨fun s => rfl, ?_, ?_, ?_⟩
  · rw [icb_recv_steps _ f r _ hok, List.foldl_append, hp]
    show Except.ok (icb_step _ (icb_init_framer, r1) 0) = _
    unfold icb_init_framer
    rw [icb_step_zero, icb_cmd_handler_empty]
  · rw [icb_recv_steps _ f r _ hok, icb_recv_steps _ f r _ hok, List.foldl_append,
      List.foldl_append, hp, List.foldl_cons]
    unfold icb_init_framer
    rw [icb_step_zero, icb_cmd_handler_empty]
  · rw [icb_recv_steps _ _ r1 _ hnil, icb_recv_steps _ _ r1 _ hnil, List.foldl_cons]
    unfold icb_init_framer
    rw [icb_step_zero, icb_cmd_handler_empty]

/-- C31, witness: after the complete packet `j` `1` the bytes 0 and then the
no-op packet `n`. -/
theorem icb_recv_zero_length_witness :
    icb_init_framer.ok ∧
    icb_recv (icb_cmd_handler ⟨0, []⟩ Fd.client Fd.server) icb_init_framer (.ok session_zero)
        [2, 106, 49]
      = .ok (icb_init_framer, .ok (session_zero.set_icb_protolevel (lit "1"))) ∧
    icb_recv (icb_cmd_handler ⟨0, []⟩ Fd.client Fd.server) icb_init_framer (.ok session_zero)
        ([2, 106, 49] ++ [0])
      = .ok (icb_init_framer, .ok (session_zero.set_icb_protolevel (lit "1"))) ∧
    icb_recv (icb_cmd_handler ⟨0, []⟩ Fd.client Fd.server) icb_init_framer (.ok session_zero)
        ([2, 106, 49] ++ 0 :: [1, 110])
      = icb_recv (icb_cmd_handler ⟨0, []⟩ Fd.client Fd.server) icb_init_framer
        (.ok session_zero) ([2, 106, 49] ++ [1, 110]) :=
  have hpre : icb_recv (icb_cmd_handler ⟨0, []⟩ Fd.client Fd.server) icb_init_framer
      (.ok session_zero) [2, 106, 49]
      = .ok (icb_init_framer, .ok (session_zero.set_icb_protolevel (lit "1"))) := rfl
  have h := icb_recv_zero_length ⟨0, []⟩ icb_init_framer (.ok session_zero) _ [2, 106, 49]
    [1, 110] (Or.inl rfl) hpre
  ⟨Or.inl rfl, hpre, h.2.1, h.2.2.1⟩

/-! ## The cursor left by `scan` -/

theorem scan_skip_dropWhile (skip : List Nat) :
    ∀ s : List Nat, scan_skip skip s = s.dropWhile (fun b => decide (b ≠ 0 ∧ b ∈ skip)) := by
  intro s
  induction s with
  | nil => rfl
  | cons b rest ih =>
    unfold scan_skip
    by_cases hm : b ≠ 0 ∧ b ∈ skip
    · rw [if_pos hm, ih, List.dropWhile_cons, if_pos (decide_eq_true hm)]
    · rw [if_neg hm, List.dropWhile_cons, if_neg (fun h => hm (of_decide_eq_true h))]

theorem scan_copy_cursor (term : List Nat) :
    ∀ (s : List Nat) (siz : Nat) (d : List Nat),
      (scan_copy term s siz d).1 = s.dropWhile (fun b => decide (b ≠ 0 ∧ b ∉ term)) := by
  intro s
  induction s with
  | nil => intro siz d; rfl
  | cons b rest ih =>
    intro siz d
    unfold scan_copy
    by_cases hm : b ≠ 0 ∧ b ∉ term
    · rw [if_pos hm, List.dropWhile_cons, if_pos (decide_eq_true hm)]
      split
      · exact ih _ _
      · exact ih _ _
    · rw [if_neg hm, List.dropWhile_cons, if_neg (fun h => hm (of_decide_eq_true h))]

theorem dropWhile_head_stop (p : Nat → Bool) :
    ∀ (l : List Nat) (b : Nat), (l.dropWhile p).head? = some b → p b = false := by
  intro l
  induction l with
  | nil => intro b h; cases h
  | cons a rest ih =>
    intro b h
    by_cases ha : p a = true
    · rw [List.dropWhile_cons_of_pos ha] at h
      exact ih b h
    · rw [List.dropWhile_cons_of_neg ha] at h
      cases h
      simpa using ha

/-- C32. For every source `s`, sets `skip` and `term` and capacity `N`, the
cursor that `scan` leaves is what is left of `s` after its longest prefix of
non-NUL bytes of `skip` and then the longest run of non-NUL bytes outside
`term`: the same for every `N`.  The cursor is at the end of the source or on
a byte that is NUL or in `term` (that byte is not consumed), and the source is
the skipped prefix, the token and the cursor. -/
theorem scan_cursor (s skip term : List Nat) (N : Nat) :
    (scan s N skip term).1
        = (s.dropWhile (fun b => decide (b ≠ 0 ∧ b ∈ skip))).dropWhile
            (fun b => decide (b ≠ 0 ∧ b ∉ term)) ∧
      (∀ M, (scan s M skip term).1 = (scan s N skip term).1) ∧
      (∀ b, (scan s N skip term).1.head? = some b → b = 0 ∨ b ∈ term) ∧
      ∃ skipped tok, s = skipped ++ tok ++ (scan s N skip term).1 ∧
        (∀ b ∈ skipped, b ≠ 0 ∧ b ∈ skip) ∧ (∀ b ∈ tok, b ≠ 0 ∧ b ∉ term) ∧
        ∀ b, (tok ++ (scan s N skip term).1).head? = some b → b = 0 ∨ b ∉ skip := by
  have hcur : ∀ M, (scan s M skip term).1
      = (s.dropWhile (fun b => decide (b ≠ 0 ∧ b ∈ skip))).dropWhile
          (fun b => decide (b ≠ 0 ∧ b ∉ term)) := by
    intro M
    unfold scan
    simp only
    rw [scan_copy_cursor, scan_skip_dropWhile]
  refine ⟨hcur N, fun M => (hcur M).trans (hcur N).symm, ?_, ?_⟩
  · intro b hb
    rw [hcur N] at hb
    have h := dropWhile_head_stop _ _ b hb
    have h' : ¬ (b ≠ 0 ∧ b ∉ term) := of_decide_eq_false h
    by_cases h0 : b = 0
    · exact Or.inl h0
    · exact Or.inr (by_contra fun hn => h' ⟨h0, hn⟩)
  · refine ⟨s.takeWhile (fun b => decide (b ≠ 0 ∧ b ∈ skip)),
      (s.dropWhile (fun b => decide (b ≠ 0 ∧ b ∈ skip))).takeWhile
        (fun b => decide (b ≠ 0 ∧ b ∉ term)), ?_, ?_, ?_, ?_⟩
    · rw [hcur N, List.append_assoc, List.takeWhile_append_dropWhile,
        List.takeWhile_append_dropWhile]
    · intro b hb
      have h := List.mem_takeWhile_imp hb
      exact of_decide_eq_true h
    · intro b hb
      have h := List.mem_takeWhile_imp hb
      exact of_decide_eq_true h
    · intro b hb
      rw [hcur N, List.takeWhile_append_dropWhile] at hb
      have h := dropWhile_head_stop _ _ b hb
      have h' : ¬ (b ≠ 0 ∧ b ∈ skip) := of_decide_eq_false h
      by_cases h0 : b = 0
      · exact Or.inl h0
      · exact Or.inr (fun hn => h' ⟨h0, hn⟩)

/-! ## A join while an enquiry is outstanding -/

/-- C33. With an enquiry outstanding (`imode != imode_none`): on the status
`You are now in group ...` `icb_cmd` writes the PART line (if there was a
channel) and the JOIN line for the new channel to the client and sets
`in_irc_channel`; on an open message with `in_irc_channel` not set it writes
the JOIN line and the PRIVMSG line and sets `in_irc_channel`.  In both cases
nothing is written to the server (no `hw` packet) and `imode`, `igroup`,
`inick`, `ihostmask` and `icurgroup` are unchanged. -/
theorem join_with_enquiry_outstanding (u : Indet) (s : Session) (data : List Nat) (i : Nat)
    (fields : List (List Nat)) (hargs : icb_args data = .ok (i, fields))
    (hmode : s.imode ≠ imode_none) :
    (cstr (fields.getD 0 []) = lit "Status" →
      starts_with (lit "You are now in group ") (cstr (fields.getD 1 [])) = true →
      ∃ s', icb_cmd u Fd.client Fd.server s (100 :: data) = .ok s' ∧
        s'.irc_channel
          = 35 :: (scan_tok ((cstr (fields.getD 1 [])).drop 21) 255 (lit " ") (lit " ")).2 ∧
        s'.client_out
          = (if s.irc_channel ≠ [] then
              s.client_out ++ [snprintf 8192
                (lit ":" ++ s.irc_nick ++ lit " PART :" ++ s.irc_channel ++ lit "\r\n")]
            else s.client_out)
            ++ [snprintf 8192
                (lit ":" ++ s.irc_nick ++ lit " JOIN :" ++ s'.irc_channel ++ lit "\r\n")] ∧
        s'.in_irc_channel = true ∧ s'.server_out = s.server_out ∧ s'.imode = s.imode ∧
        s'.igroup = s.igroup ∧ s'.inick = s.inick ∧ s'.ihostmask = s.ihostmask ∧
        s'.icurgroup = s.icurgroup) ∧
    (s.in_irc_channel = false →
      ∃ s', icb_cmd u Fd.client Fd.server s (98 :: data) = .ok s' ∧
        s'.client_out
          = s.client_out ++
            [snprintf 8192
              (lit ":" ++ s.irc_nick ++ lit " JOIN :" ++ s.irc_channel ++ lit "\r\n"),
             snprintf 8192
              (lit ":" ++ cstr (fields.getD 0 []) ++ lit " PRIVMSG " ++ s.irc_channel
                ++ lit " :" ++ cstr (fields.getD 1 []) ++ lit "\r\n")] ∧
        s'.in_irc_channel = true ∧ s'.server_out = s.server_out ∧ s'.imode = s.imode ∧
        s'.igroup = s.igroup ∧ s'.inick = s.inick ∧ s'.ihostmask = s.ihostmask ∧
        s'.icurgroup = s.icurgroup) := by
  constructor
  · intro h0 h1
    rw [icb_cmd_status_eq u Fd.client Fd.server s hargs]
    unfold icb_cmd_status
    rw [if_pos ⟨h0, h1⟩]
    dsimp only
    by_cases hch : s.irc_channel = []
    · rw [if_neg (fun h => h hch), if_neg (fun h => h hch)]
      rw [icb_send_names_busy _ _ _ (by
        rw [irc_send_join_imode, set_irc_channel_imode]; exact hmode)]
      refine ⟨_, rfl, rfl, ?_, rfl, rfl, rfl, rfl, rfl, rfl, rfl⟩
      simp [irc_send_join, sync_write, Session.set_irc_channel, Session.set_in_irc_channel]
    · rw [if_pos hch, if_pos hch]
      rw [icb_send_names_busy _ _ _ (by
        rw [irc_send_join_imode, set_irc_channel_imode, irc_send_part_imode]; exact hmode)]
      refine ⟨_, rfl, rfl, ?_, rfl, rfl, rfl, rfl, rfl, rfl, rfl⟩
      simp [irc_send_join, irc_send_part, sync_write, Session.set_irc_channel,
        Session.set_in_irc_channel]
  · intro hin
    rw [icb_cmd_open_eq u Fd.client Fd.server s hargs]
    unfold icb_cmd_open
    rw [if_pos (by rw [hin]; decide)]
    rw [icb_send_names_busy _ _ _ (by rw [irc_send_join_imode]; exact hmode)]
    refine ⟨_, rfl, ?_, rfl, rfl, rfl, rfl, rfl, rfl, rfl⟩
    simp [irc_send_msg, irc_send_join, sync_write, Session.set_in_irc_channel]

/-- C33, witness: nick `alice` in `#old` with a LIST enquiry outstanding
receives the status `You are now in group devs`. -/
theorem join_with_enquiry_outstanding_witness :
    icb_args (lit "Status" ++ [1] ++ lit "You are now in group devs")
        = .ok (2, [lit "Status", lit "You are now in group devs"] ++ List.replicate 253 []) ∧
      (((session_zero.set_irc_nick (lit "alice")).set_irc_channel (lit "#old")).set_imode
        imode_list).imode ≠ imode_none ∧
      Except.map
          (fun s => (s.client_out, s.server_out, s.irc_channel, s.in_irc_channel, s.imode,
            s.igroup))
          (icb_cmd ⟨0, []⟩ Fd.client Fd.server
            (((session_zero.set_irc_nick (lit "alice")).set_irc_channel (lit "#old")).set_imode
              imode_list)
            (100 :: (lit "Status" ++ [1] ++ lit "You are now in group devs")))
        = .ok ([lit ":alice PART :#old\r\n", lit ":alice JOIN :#devs\r\n"], [], lit "#devs",
            true, imode_list, []) := by
  have h : icb_args (lit "Status" ++ [1] ++ lit "You are now in group devs")
      = .ok (2, [lit "Status", lit "You are now in group devs"] ++ List.replicate 253 []) := rfl
  have hm : (((session_zero.set_irc_nick (lit "alice")).set_irc_channel (lit "#old")).set_imode
      imode_list).imode ≠ imode_none := by decide
  refine ⟨h, hm, ?_⟩
  obtain ⟨s', he, hc, hout, hin, hsrv, hmo, hg, _⟩ :=
    (join_with_enquiry_outstanding ⟨0, []⟩
      (((session_zero.set_irc_nick (lit "alice")).set_irc_channel (lit "#old")).set_imode
        imode_list) _ _ _ h hm).1 rfl rfl
  rw [he]
  show Except.ok (s'.client_out, s'.server_out, s'.irc_channel, s'.in_irc_channel, s'.imode,
    s'.igroup) = _
  rw [hout, hsrv, hc, hin, hmo, hg]
  rfl

end Icbirc
